import Mathlib

/-!
# Vault / loan / liquidation consensus handlers of `sjyeooo/ain`

A shallow embedding of the custom-transaction handlers found in
`src/masternodes/consensus/vaults.cpp` and `src/masternodes/consensus/loans.cpp`
together with the result type of `src/masternodes/res.h`, the display tables, the export and
the percentage check of `src/masternodes/govvariables/attributes.cpp`, and the community
balances of `src/masternodes/incentivefunding.cpp`.

Conventions of the embedding:

* a handler `Res H::operator()(const M& obj) const` that reads and writes the
  ledger view `mnview` becomes a function `Env → View → M → Res × View`: the
  returned view carries every write made before the handler returned, also
  when the result is a failure (the handlers do not roll back);
* `verifyRes(x, msg)` / `verifyDecl(x, y, msg)` become an `if` / `match` whose
  failing branch returns at once; the macros themselves, with the formatting of
  the message by `tfm::format`, are embedded over `Outcome`, which tells a
  returned `Res` from a thrown `tinyformat::format_error`. The deposit handler,
  whose debit check passes one argument to a format string with two conversion
  specifications, returns an `Outcome View`; every other call site supplies the
  arguments its format string asks for and is written with `Res.ErrMsg`;
* `CAmount` (`int64_t`) is `Int`; unsigned heights and identifiers are `Nat`;
  the product of the value check of take-loan is taken in 64 bits
  (`MultiplyAmounts64`);
* collaborators that are not part of these two files (authorisation, price
  oracle, collateral-ratio computation, interest engine, owner rewards, pool
  swap) are fields of `Env`.
-/

namespace Ain

set_option maxRecDepth 4096

/-! ## Result type (`res.h`) -/

/-- The `Res` structure of `res.h`: a success flag, a message, a numeric code and a debug
message. -/
structure Res where
  ok : Bool
  msg : String
  code : Nat
  dbgMsg : String
deriving DecidableEq, Repr

/-- `Res::Ok()`. -/
def Res.Ok : Res := ⟨true, "", 0, ""⟩

/-- The failing `Res` with the message `msg`, code 0 and no debug message,
`Res{false, msg, 0, {}}`: what `Res::Err(err, args...)` returns once `tfm::format(err, args...)`
has returned `msg`. In the handlers it stands for `Res::Err` at a call site that supplies as
many arguments as the format string has conversion specifications (so that `tfm::format`
returns), with the format string kept as the message: the arguments, which helpers outside the
sources render from amounts, scripts and hashes, are not substituted. -/
def Res.ErrMsg (msg : String) : Res := ⟨false, msg, 0, ""⟩

/-- Modelled from the spec: the exception `tinyformat::format_error` of `tinyformat.h`, with
its `what()`. -/
structure format_error where
  what : String
deriving DecidableEq, Repr

/-- Modelled from the spec: the characters `tfm::format` reads between the `%` of a conversion
specification and its conversion character, namely flags, width, precision and length
modifiers. -/
def tfm.isModifier (c : Char) : Bool :=
  "-+ #.0123456789lhjztL".toList.contains c

/-- Modelled from the spec: the scan of a format string by `tfm::format`, over the characters
that are left and the arguments that are left; the flag says that the scan is inside a
conversion specification, whose argument has been written and whose conversion character is
still to come. -/
def tfm.formatImpl : Bool → List Char → List String → Except format_error (List Char)
  | _, [], [] => .ok []
  | _, [], _ :: _ =>
    .error ⟨"tinyformat: Not enough conversion specifiers in format string"⟩
  | true, c :: rest, args =>
    if tfm.isModifier c then tfm.formatImpl true rest args else tfm.formatImpl false rest args
  | false, c :: rest, args =>
    if c = '%' then
      match rest with
      | [] => .error ⟨"tinyformat: Conversion spec incorrectly terminated by end of string"⟩
      | c' :: rest' =>
        if c' = '%' then (tfm.formatImpl false rest' args).map (fun out => '%' :: out)
        else
          match args with
          | [] => .error ⟨"tinyformat: Too many conversion specifiers in format string"⟩
          | arg :: args' =>
            (if tfm.isModifier c' then tfm.formatImpl true rest' args'
              else tfm.formatImpl false rest' args').map (fun out => arg.toList ++ out)
    else (tfm.formatImpl false rest args).map (fun out => c :: out)

/-- Modelled from the spec: `tfm::format(fmt, args...)` of `tinyformat.h`, a header that is
not part of the sources at hand and on which the specification is silent; the model follows
the contract of the library. Every conversion specification of the format string takes the
next argument, given here as the text it is rendered to, and `%%` stands for a percent sign;
a format string with more conversion specifications than arguments, or with fewer, throws
`tinyformat::format_error`. -/
def tfm.format (fmt : String) (args : List String) : Except format_error String :=
  (tfm.formatImpl false fmt.toList args).map String.mk

/-- `Res::Err(err, args...)`, which is `Res{false, tfm::format(err, args...), 0, {}}`
(`res.h` 23-25): the failing `Res` with the formatted message, or the exception that
`tfm::format` throws. -/
def Res.Err (err : String) (args : List String) : Except format_error Res :=
  (tfm.format err args).map Res.ErrMsg

/-- `Res::ErrCode(code, err, args...)`, which is
`Res{false, tfm::format(err, args...), code, {}}` (`res.h` 28-30). -/
def Res.ErrCode (code : Nat) (err : String) (args : List String) : Except format_error Res :=
  (tfm.format err args).map (fun msg => ⟨false, msg, code, ""⟩)

/-- `ResVal<T>`: either a failing `Res` or a value. -/
abbrev ResVal (α : Type) := Except Res α

/-- What a call of a function that uses the macros of `res.h` ends in: the `Res` it returns,
or the exception that leaves it, each with the state as the call left it. -/
inductive Outcome (σ : Type) where
  | returned (res : Res) (state : σ)
  | thrown (e : format_error) (state : σ)
deriving DecidableEq, Repr

/-- The state a call has left. -/
def Outcome.state {σ : Type} : Outcome σ → σ
  | .returned _ s => s
  | .thrown _ s => s

/-- Whether a call has returned a `Res` that converts to `true`. -/
def Outcome.succeeded {σ : Type} : Outcome σ → Bool
  | .returned r _ => r.ok
  | .thrown _ _ => false

/-! ### Result propagation: `ResOrErr`, `StrToRes`, `verifyRes`, `verifyDecl` -/

/-- The values the two macros of `res.h` check, by the conversions their type has: a `Res`; a
`ResVal<T>` (its `Res` base and its optional value); a `bool`; a `std::optional<T>` or a
pointer. The first two convert to `Res` (`std::is_convertible_v<T, Res>`), all four convert to
`bool`. -/
inductive Checked (α : Type) where
  | res (r : Res)
  | resVal (r : Res) (val : Option α)
  | flag (b : Bool)
  | optional (o : Option α)

/-- The contextual conversion to `bool` (`!res`, `!x`): `operator bool` of `Res` and `ResVal`,
the value of a `bool`, `has_value()` of an optional. -/
def Checked.toBool {α : Type} : Checked α → Bool
  | .res r => r.ok
  | .resVal r _ => r.ok
  | .flag b => b
  | .optional o => o.isSome

/-- `ResOrErr(res)`: the value itself when its type converts to `Res` (a `ResVal` by its
`Res` base), `Res{false}` otherwise. -/
def ResOrErr {α : Type} : Checked α → Res
  | .res r => r
  | .resVal r _ => r
  | .flag _ => ⟨false, "", 0, ""⟩
  | .optional _ => ⟨false, "", 0, ""⟩

/-- The `__VA_ARGS__` of the two macros: nothing, a format string with its arguments (as the
texts they are rendered to), or a numeric code followed by a format string with its
arguments. -/
inductive VerifyArgs where
  | none
  | message (err : String) (args : List String)
  | coded (code : Nat) (err : String) (args : List String)

/-- `StrToRes(args...)`: `Res::Ok()` for no argument, `Res::ErrCode(args...)` when the first
argument converts to `uint32_t`, `Res::Err(args...)` otherwise; the last two format the
message and can throw. -/
def StrToRes : VerifyArgs → Except format_error Res
  | .none => .ok Res.Ok
  | .coded code err args => Res.ErrCode code err args
  | .message err args => Res.Err err args

/-- `verifyRes(x, ...)` followed by the rest of the enclosing function, over the state `σ` the
function works on: `x` is evaluated, and when it converts to `false` the function evaluates
`tmp = StrToRes(__VA_ARGS__)`, which can throw, and returns `tmp ? ResOrErr(res) : tmp`;
otherwise the rest runs. -/
def verifyRes {α σ : Type} (x : σ → Checked α × σ) (args : VerifyArgs)
    (rest : σ → Outcome σ) (s : σ) : Outcome σ :=
  let res := x s
  if !res.1.toBool then
    match StrToRes args with
    | .error e => .thrown e res.2
    | .ok tmp => .returned (if tmp.ok then ResOrErr res.1 else tmp) res.2
  else rest res.2

/-- `verifyDecl(x, y, ...)` followed by the rest of the enclosing function: `auto x = y`, then
the same test as `verifyRes`; the rest of the function can read the declared `x`. -/
def verifyDecl {α σ : Type} (y : σ → Checked α × σ) (args : VerifyArgs)
    (rest : Checked α → σ → Outcome σ) (s : σ) : Outcome σ :=
  let x := y s
  if !x.1.toBool then
    match StrToRes args with
    | .error e => .thrown e x.2
    | .ok tmp => .returned (if tmp.ok then ResOrErr x.1 else tmp) x.2
  else rest x.1 x.2

/-! ## Amounts -/

/-- `CAmount` is `int64_t` in the source. -/
abbrev CAmount := Int

/-- One coin in 8-decimal fixed point. -/
def COIN : CAmount := 100000000

/-- Largest value of `int64_t`. -/
def MAX_INT64 : Int := 9223372036854775807

/-- Token identifier (`DCT_ID`, a `uint32_t` wrapper). -/
abbrev DCT_ID := Nat

/-- A script (address), as its bytes. -/
abbrev CScript := List Nat

/-- Vault identifier (the hash of the creating transaction). -/
abbrev CVaultId := Nat

/-- `CTokenAmount`: a token and a value. -/
structure CTokenAmount where
  nTokenId : DCT_ID
  nValue : CAmount
deriving DecidableEq, Repr

/-- `CBalances::balances`, a `std::map<DCT_ID, CAmount>`, as an association list. -/
abbrev CBalances := List (DCT_ID × CAmount)

/-- Modelled from the spec: `MultiplyAmounts` (declared in a header that is not part of the
sources at hand), the 8-decimal fixed-point product `a * b / COIN` taken in wide arithmetic and
rounded down. This is the exact value, which is the value the function returns as long as the
operands are not negative and the result is within the range of an amount
(`MultiplyAmounts64_eq`); `MultiplyAmounts64` is the function with its 64-bit result, used
where a handler tests the result for an overflow. -/
def MultiplyAmounts (a b : CAmount) : CAmount := a * b / COIN

/-- Modelled from the spec: `DivideAmounts` (declared in a header that is not part of the
sources at hand), the 8-decimal fixed-point quotient `a * COIN / b` rounded down. -/
def DivideAmounts (a b : CAmount) : CAmount := a * COIN / b

/-- Modelled from the spec: `SafeAdd` on `CAmount`, the overflow-checked sum of two amounts;
it fails when the sum leaves the `int64_t` range. -/
def SafeAdd (a b : CAmount) : ResVal CAmount :=
  if a + b ≤ MAX_INT64 ∧ -MAX_INT64 - 1 ≤ a + b then .ok (a + b) else .error (Res.ErrMsg "overflow")

/-- Modelled from the spec: `SafeAdd<uint64_t>`, the overflow-checked sum of two unsigned
64-bit values. -/
def SafeAddU64 (a b : Nat) : Option Nat :=
  if a + b < 2 ^ 64 then some (a + b) else none

/-- The conversion of a `CAmount` to `uint64_t`. -/
def toU64 (a : CAmount) : Nat := (a % 2 ^ 64).toNat

/-- The value of a `uint64_t` read as `int64_t`. -/
def castInt64 (n : Nat) : Int :=
  if n % 18446744073709551616 < 9223372036854775808 then ((n % 18446744073709551616 : Nat) : Int)
  else ((n % 18446744073709551616 : Nat) : Int) - 18446744073709551616

/-- Modelled from the spec: `MultiplyAmounts` with its 64-bit result (the header that declares
it is not part of the sources at hand). The operands are read as unsigned 64-bit values, the
product over `COIN` is taken in wide arithmetic, where it cannot overflow, and its low 64 bits
are returned as an amount, the return type being `CAmount`: a result beyond the 64-bit range
comes back wrapped. This is the conversion that "could overflow" of the specification, which
the value check of take-loan rejects by a price above `COIN` whose product with the amount is
not above the amount. -/
def MultiplyAmounts64 (a b : CAmount) : CAmount :=
  castInt64 (toU64 a * toU64 b / 100000000)

/-- The conversion `static_cast<int>(height)` of a `uint32_t` height. -/
def castInt (h : Nat) : Int :=
  if h % 2 ^ 32 < 2 ^ 31 then ((h % 2 ^ 32 : Nat) : Int) else ((h % 2 ^ 32 : Nat) : Int) - 2 ^ 32

/-- Modelled from the spec: `CTokenAmount::Add`, which rejects a negative amount and an
overflowing sum. -/
def CTokenAmount.Add (cur : CTokenAmount) (amount : CAmount) : ResVal CTokenAmount :=
  if amount < 0 then .error (Res.ErrMsg "negative amount") else
  match SafeAdd cur.nValue amount with
  | .error r => .error r
  | .ok s => .ok { cur with nValue := s }

/-- Modelled from the spec: `CTokenAmount::Sub`, which rejects a negative amount and an amount
above the current value. -/
def CTokenAmount.Sub (cur : CTokenAmount) (amount : CAmount) : ResVal CTokenAmount :=
  if amount < 0 then .error (Res.ErrMsg "negative amount") else
  if cur.nValue < amount then .error (Res.ErrMsg "amount is less than requested") else
  .ok { cur with nValue := cur.nValue - amount }

/-! ## Association lists standing for the keyed tables of the view -/

/-- Lookup of a key. -/
def mapFind {κ τ : Type} [DecidableEq κ] (k : κ) : List (κ × τ) → Option τ
  | [] => none
  | (k', t) :: rest => if k' = k then some t else mapFind k rest

/-- Write of a key: the stored value is replaced in place, a new key is appended. -/
def mapSet {κ τ : Type} [DecidableEq κ] (k : κ) (t : τ) : List (κ × τ) → List (κ × τ)
  | [] => [(k, t)]
  | (k', t') :: rest => if k' = k then (k, t) :: rest else (k', t') :: mapSet k t rest

/-- Erasure of a key. -/
def mapErase {κ τ : Type} [DecidableEq κ] (k : κ) : List (κ × τ) → List (κ × τ)
  | [] => []
  | (k', t') :: rest => if k' = k then mapErase k rest else (k', t') :: mapErase k rest

/-- Modelled from the spec: `CBalances::Add`; adding zero changes nothing, a token whose
balance becomes zero is dropped from the map. -/
def CBalancesAdd (b : CBalances) (amount : CTokenAmount) : ResVal CBalances :=
  if amount.nValue = 0 then .ok b else
  match CTokenAmount.Add ⟨amount.nTokenId, (mapFind amount.nTokenId b).getD 0⟩ amount.nValue with
  | .error r => .error r
  | .ok cur =>
    if cur.nValue = 0 then .ok (mapErase amount.nTokenId b)
    else .ok (mapSet amount.nTokenId cur.nValue b)

/-- Modelled from the spec: `CBalances::Sub`; subtracting zero changes nothing, a token whose
balance becomes zero is dropped from the map. -/
def CBalancesSub (b : CBalances) (amount : CTokenAmount) : ResVal CBalances :=
  if amount.nValue = 0 then .ok b else
  match CTokenAmount.Sub ⟨amount.nTokenId, (mapFind amount.nTokenId b).getD 0⟩ amount.nValue with
  | .error r => .error r
  | .ok cur =>
    if cur.nValue = 0 then .ok (mapErase amount.nTokenId b)
    else .ok (mapSet amount.nTokenId cur.nValue b)

/-! ## Data model -/

/-- `CVaultData` (a `CVaultMessage` with its liquidation flag). -/
structure CVaultData where
  ownerAddress : CScript
  schemeId : String
  isUnderLiquidation : Bool
deriving DecidableEq, Repr

/-- `CVaultMessage`: the create-vault message. -/
structure CVaultMessage where
  ownerAddress : CScript
  schemeId : String
deriving DecidableEq, Repr

/-- `CCloseVaultMessage`. -/
structure CCloseVaultMessage where
  vaultId : CVaultId
  to_ : CScript
deriving DecidableEq, Repr

/-- `CUpdateVaultMessage`. -/
structure CUpdateVaultMessage where
  vaultId : CVaultId
  ownerAddress : CScript
  schemeId : String
deriving DecidableEq, Repr

/-- `CDepositToVaultMessage`. -/
structure CDepositToVaultMessage where
  vaultId : CVaultId
  from_ : CScript
  amount : CTokenAmount
deriving DecidableEq, Repr

/-- `CWithdrawFromVaultMessage`. -/
structure CWithdrawFromVaultMessage where
  vaultId : CVaultId
  to_ : CScript
  amount : CTokenAmount
deriving DecidableEq, Repr

/-- `CAuctionBidMessage`. -/
structure CAuctionBidMessage where
  vaultId : CVaultId
  index : Nat
  from_ : CScript
  amount : CTokenAmount
deriving DecidableEq, Repr

/-- `CLoanSchemeData`: minimum collateral ratio (`uint32_t`) and interest rate. -/
structure CLoanSchemeData where
  ratio : Nat
  rate : CAmount
deriving DecidableEq, Repr

/-- `CLoanSchemeMessage`: a scheme, its identifier and the update height (`uint64_t`). -/
structure CLoanSchemeMessage where
  ratio : Nat
  rate : CAmount
  identifier : String
  updateHeight : Nat
deriving DecidableEq, Repr

/-- The `CLoanSchemeData` part of a scheme message (`static_cast<CLoanSchemeData>`). -/
def CLoanSchemeMessage.data (m : CLoanSchemeMessage) : CLoanSchemeData := ⟨m.ratio, m.rate⟩

/-- `CDefaultLoanSchemeMessage`. -/
structure CDefaultLoanSchemeMessage where
  identifier : String
deriving DecidableEq, Repr

/-- `CDestroyLoanSchemeMessage`. -/
structure CDestroyLoanSchemeMessage where
  identifier : String
  destroyHeight : Nat
deriving DecidableEq, Repr

/-- `CLoanTakeLoanMessage`. -/
structure CLoanTakeLoanMessage where
  vaultId : CVaultId
  to_ : CScript
  amounts : CBalances
deriving DecidableEq, Repr

/-- `CLoanPaybackLoanMessage`, the legacy payback message. -/
structure CLoanPaybackLoanMessage where
  vaultId : CVaultId
  from_ : CScript
  amounts : CBalances
deriving DecidableEq, Repr

/-- `CLoanPaybackLoanV2Message`: per loan token, the amounts paid back in each payback
token (`std::map<DCT_ID, CBalances>`). -/
structure CLoanPaybackLoanV2Message where
  vaultId : CVaultId
  from_ : CScript
  loans : List (DCT_ID × CBalances)
deriving DecidableEq, Repr

/-- `CAuctionData`. -/
structure CAuctionData where
  batchCount : Nat
  liquidationHeight : Nat
  liquidationPenalty : CAmount
deriving DecidableEq, Repr

/-- `CAuctionBatch`. -/
structure CAuctionBatch where
  collaterals : CBalances
  loanAmount : CTokenAmount
  loanInterest : CAmount
deriving DecidableEq, Repr

/-- The fields of `CTokenImplementation` the handlers read or write. -/
structure CToken where
  symbol : String
  name : String
  minted : CAmount
deriving DecidableEq, Repr

/-- `CTokenCurrencyPair`. -/
abbrev CTokenCurrencyPair := String × String

/-- The fields of `CLoanSetLoanTokenImplementation` the handlers read. -/
structure CLoanSetLoanToken where
  symbol : String
  name : String
  fixedIntervalPriceId : CTokenCurrencyPair
  mintable : Bool
  interest : CAmount
deriving DecidableEq, Repr

/-- `CFixedIntervalPrice`, with `priceRecord[0]` the active and `priceRecord[1]` the next
price. -/
structure CFixedIntervalPrice where
  priceFeedId : CTokenCurrencyPair
  timestamp : Nat
  priceRecord0 : CAmount
  priceRecord1 : CAmount
deriving DecidableEq, Repr

/-- `CInterestRate`. -/
structure CInterestRate where
  height : Nat
  interestPerBlock : CAmount
  interestToHeight : CAmount
deriving DecidableEq, Repr

/-! ### Governance attributes (`govvariables/attributes`) -/

/-- `AttributeTypes`. -/
inductive AttributeTypes where
  | Live | Param | Token | Poolpairs
deriving DecidableEq, Repr

/-- `ParamIDs`. -/
inductive ParamIDs where
  | DFIP2201 | Economy
deriving DecidableEq, Repr

/-- `EconomyKeys`. -/
inductive EconomyKeys where
  | PaybackDFITokens | PaybackTokens
deriving DecidableEq, Repr

/-- `DFIP2201Keys`. -/
inductive DFIP2201Keys where
  | Active | Premium | MinSwap
deriving DecidableEq, Repr

/-- `TokenKeys`. -/
inductive TokenKeys where
  | PaybackDFI | PaybackDFIFeePCT | LoanPayback | LoanPaybackFeePCT | DexInFeePct
  | DexOutFeePct | FixedIntervalPriceId | LoanCollateralEnabled | LoanCollateralFactor
  | LoanMintingEnabled | LoanMintingInterest
deriving DecidableEq, Repr

/-- `PoolKeys`. -/
inductive PoolKeys where
  | TokenAFeePCT | TokenBFeePCT
deriving DecidableEq, Repr

/-- The `typeId` of a `CDataStructureV0`: a numeric identifier (token or pool) or one of the
`ParamIDs`. -/
inductive AttrTypeId where
  | id (n : Nat)
  | param (p : ParamIDs)
deriving DecidableEq, Repr

/-- The `key` of a `CDataStructureV0`: a value of the key enumeration of its type. -/
inductive AttrKey where
  | token (k : TokenKeys)
  | pool (k : PoolKeys)
  | dfip (k : DFIP2201Keys)
  | economy (k : EconomyKeys)
deriving DecidableEq, Repr

/-- `CDataStructureV0 {type, typeId, key, keyId}`. -/
structure CDataStructureV0 where
  type : AttributeTypes
  typeId : AttrTypeId
  key : AttrKey
  keyId : Nat
deriving DecidableEq, Repr

/-- `CTokenPayback`. -/
structure CTokenPayback where
  tokensFee : CBalances
  tokensPayback : CBalances
deriving DecidableEq, Repr

/-- `CAttributeValue`, a `std::variant`. -/
inductive CAttributeValue where
  | bool (b : Bool)
  | amount (a : CAmount)
  | balances (b : CBalances)
  | tokenPayback (p : CTokenPayback)
  | currencyPair (p : CTokenCurrencyPair)
deriving DecidableEq, Repr

/-- `ATTRIBUTES::attributes`, a `std::map<CAttributeType, CAttributeValue>`. -/
abbrev ATTRIBUTES := List (CDataStructureV0 × CAttributeValue)

/-- `ATTRIBUTES::GetValue<bool>(key, value)`: the stored value when it is a `bool`, the given
default otherwise. -/
def ATTRIBUTES.GetValueBool (a : ATTRIBUTES) (key : CDataStructureV0) (value : Bool) : Bool :=
  match mapFind key a with
  | some (.bool b) => b
  | _ => value

/-- `ATTRIBUTES::GetValue<CAmount>(key, value)`. -/
def ATTRIBUTES.GetValueAmount (a : ATTRIBUTES) (key : CDataStructureV0) (value : CAmount) :
    CAmount :=
  match mapFind key a with
  | some (.amount x) => x
  | _ => value

/-- `ATTRIBUTES::GetValue<CBalances>(key, value)`. -/
def ATTRIBUTES.GetValueBalances (a : ATTRIBUTES) (key : CDataStructureV0) (value : CBalances) :
    CBalances :=
  match mapFind key a with
  | some (.balances x) => x
  | _ => value

/-- `ATTRIBUTES::GetValue<CTokenPayback>(key, value)`. -/
def ATTRIBUTES.GetValueTokenPayback (a : ATTRIBUTES) (key : CDataStructureV0)
    (value : CTokenPayback) : CTokenPayback :=
  match mapFind key a with
  | some (.tokenPayback x) => x
  | _ => value

/-! ### Display tables, export and value checks (`govvariables/attributes.cpp`) -/

/-- `VersionTypes`. -/
inductive VersionTypes where
  | v0
deriving DecidableEq, Repr

/-- `ATTRIBUTES::displayVersions()`, with `.at` as the lookup. -/
def ATTRIBUTES.displayVersions : VersionTypes → Option String
  | .v0 => some "v0"

/-- `ATTRIBUTES::displayTypes()`, with `.at` as the lookup. -/
def ATTRIBUTES.displayTypes : AttributeTypes → Option String
  | .Live => some "live"
  | .Param => some "params"
  | .Poolpairs => some "poolpairs"
  | .Token => some "token"

/-- `ATTRIBUTES::displayParamsIDs()`, with `.at` as the lookup: a type identifier that is not
one of the `ParamIDs` has no entry. -/
def ATTRIBUTES.displayParamsIDs : AttrTypeId → Option String
  | .param .DFIP2201 => some "dfip2201"
  | .param .Economy => some "economy"
  | .id _ => none

/-- `ATTRIBUTES::displayKeys()`, with `.at(type).at(key)` as the lookup: the display name of a
key under an attribute type, absent when the table of the type has no entry for the key. -/
def ATTRIBUTES.displayKeys : AttributeTypes → AttrKey → Option String
  | .Token, .token .PaybackDFI => some "payback_dfi"
  | .Token, .token .PaybackDFIFeePCT => some "payback_dfi_fee_pct"
  | .Token, .token .LoanPayback => some "loan_payback"
  | .Token, .token .LoanPaybackFeePCT => some "loan_payback_fee_pct"
  | .Token, .token .DexInFeePct => some "dex_in_fee_pct"
  | .Token, .token .DexOutFeePct => some "dex_out_fee_pct"
  | .Token, .token .FixedIntervalPriceId => some "fixed_interval_price_id"
  | .Token, .token .LoanCollateralEnabled => some "loan_collateral_enabled"
  | .Token, .token .LoanCollateralFactor => some "loan_collateral_factor"
  | .Token, .token .LoanMintingEnabled => some "loan_minting_enabled"
  | .Token, .token .LoanMintingInterest => some "loan_minting_interest"
  | .Poolpairs, .pool .TokenAFeePCT => some "token_a_fee_pct"
  | .Poolpairs, .pool .TokenBFeePCT => some "token_b_fee_pct"
  | .Param, .dfip .Active => some "active"
  | .Param, .dfip .Premium => some "premium"
  | .Param, .dfip .MinSwap => some "minswap"
  | .Live, .economy .PaybackDFITokens => some "dfi_payback_tokens"
  | _, _ => none

/-- The helpers of `Export` that are declared outside the sources at hand, taken as they come:
the text `KeyBuilder` gives for a numeric type identifier and for a key identifier, the key
`KeyBuilder` builds from its parts, and `CDataStructureV0::IsExtendedSize`. -/
structure ExportHelpers where
  typeIdText : AttrTypeId → String
  keyIdText : Nat → String
  KeyBuilder : List String → String
  IsExtendedSize : CDataStructureV0 → Bool

/-- The body of the loop of `ATTRIBUTES::Export` for one attribute: the exported key with the
value (each of the five kinds of value is pushed; its JSON rendering is left to helpers outside
the sources, so the value is kept as it is), or nothing when a display table has no entry
(`catch (const std::out_of_range&)`). -/
def ATTRIBUTES.exportEntry (h : ExportHelpers) (entry : CDataStructureV0 × CAttributeValue) :
    Option (String × CAttributeValue) :=
  let attrV0 := entry.1
  let id : Option String :=
    if attrV0.type = .Param ∨ attrV0.type = .Live then ATTRIBUTES.displayParamsIDs attrV0.typeId
    else some (h.typeIdText attrV0.typeId)
  match id, ATTRIBUTES.displayVersions .v0, ATTRIBUTES.displayTypes attrV0.type,
      ATTRIBUTES.displayKeys attrV0.type attrV0.key with
  | some id, some version, some typeName, some keyName =>
    let key := h.KeyBuilder [version, typeName, id, keyName]
    let key :=
      if h.IsExtendedSize attrV0 then h.KeyBuilder [key, h.keyIdText attrV0.keyId] else key
    some (key, entry.2)
  | _, _, _, _ => none

/-- `ATTRIBUTES::Export`: the exported entries, in the order of the attributes. -/
def ATTRIBUTES.Export (h : ExportHelpers) (attributes : ATTRIBUTES) :
    List (String × CAttributeValue) :=
  attributes.filterMap (ATTRIBUTES.exportEntry h)

/-- `VerifyFloat`: a decimal text with at most 8 decimals that is not negative; the parser
`ParseFixedPoint(str, 8, &amount)` is not part of the sources and is taken as it comes. -/
def VerifyFloat (ParseFixedPoint : String → Nat → Option CAmount) (str : String) :
    ResVal CAttributeValue :=
  match ParseFixedPoint str 8 with
  | some amount =>
    if ¬ (amount ≥ 0) then .error (Res.ErrMsg "Amount must be a positive value")
    else .ok (.amount amount)
  | none => .error (Res.ErrMsg "Amount must be a positive value")

/-- `VerifyPct`: a value accepted by `VerifyFloat` that is at most `COIN`. `VerifyFloat`
returns an amount; `std::get<CAmount>` on another kind of value throws, which is a failure
here. -/
def VerifyPct (ParseFixedPoint : String → Nat → Option CAmount) (str : String) :
    ResVal CAttributeValue :=
  match VerifyFloat ParseFixedPoint str with
  | .error r => .error r
  | .ok resVal =>
    match resVal with
    | .amount a =>
      if ¬ (a ≤ COIN) then .error (Res.ErrMsg "Percentage exceeds 100%%") else .ok resVal
    | _ => .error (Res.ErrMsg "bad_variant_access")

/-! ## The ledger view -/

/-- The part of `CCustomCSView` (`mnview`) the handlers read and write: one association list
per persisted table. -/
structure View where
  /-- account balances, keyed by (owner, token) -/
  balances : List ((CScript × DCT_ID) × CAmount)
  /-- vault table, keyed by vault id -/
  vaults : List (CVaultId × CVaultData)
  /-- vault-collateral table, keyed by vault id -/
  vaultCollaterals : List (CVaultId × CBalances)
  /-- vault-loan table, keyed by vault id -/
  vaultLoans : List (CVaultId × CBalances)
  /-- loan-scheme table, keyed by identifier -/
  loanSchemes : List (String × CLoanSchemeData)
  /-- delayed loan-scheme table, keyed by (identifier, activation height) -/
  delayedLoanSchemes : List ((String × Nat) × CLoanSchemeMessage)
  /-- default-scheme pointer -/
  defaultLoanScheme : Option String
  /-- schemes marked for destruction, with the destruction height -/
  destroyLoanSchemes : List (String × Nat)
  /-- auction table, keyed by (vault id, height) -/
  auctions : List ((CVaultId × Nat) × CAuctionData)
  /-- batch table, keyed by (vault id, batch index) -/
  auctionBatches : List ((CVaultId × Nat) × CAuctionBatch)
  /-- bid table, keyed by (vault id, batch index) -/
  auctionBids : List ((CVaultId × Nat) × (CScript × CTokenAmount))
  /-- token registry -/
  tokens : List (DCT_ID × CToken)
  /-- loan-token registry -/
  loanTokens : List (DCT_ID × CLoanSetLoanToken)
  /-- interest records, keyed by (vault, token) -/
  interestRates : List ((CVaultId × DCT_ID) × CInterestRate)
  /-- the stored governance attribute set -/
  attributes : Option ATTRIBUTES
deriving DecidableEq

/-! ### Accessors of the view

The storage classes behind `mnview` (`CAccountsView`, `CVaultView`, `CLoanView`, `CTokensView`)
are not among the sources at hand; their accessors are modelled as reads and writes of the
tables above. -/

namespace View

/-- Modelled from the spec: `GetBalance`, the balance of an owner in a token, zero when no
record is stored. -/
def GetBalance (v : View) (owner : CScript) (tokenId : DCT_ID) : CTokenAmount :=
  ⟨tokenId, (mapFind (owner, tokenId) v.balances).getD 0⟩

/-- Modelled from the spec: `SetBalance`, which writes a balance record and erases it when
the value is zero. -/
def SetBalance (v : View) (owner : CScript) (amount : CTokenAmount) : View :=
  if amount.nValue ≠ 0 then
    { v with balances := mapSet (owner, amount.nTokenId) amount.nValue v.balances }
  else
    { v with balances := mapErase (owner, amount.nTokenId) v.balances }

/-- Modelled from the spec: `AddBalance`, the credit of the simple debit-credit ledger; a
zero amount succeeds and changes nothing, a negative amount or an overflow fails. -/
def AddBalance (v : View) (owner : CScript) (amount : CTokenAmount) : Res × View :=
  if amount.nValue = 0 then (Res.Ok, v) else
  match (v.GetBalance owner amount.nTokenId).Add amount.nValue with
  | .error r => (r, v)
  | .ok b => (Res.Ok, v.SetBalance owner b)

/-- Modelled from the spec: `SubBalance`, the debit of the simple debit-credit ledger; a
zero amount succeeds and changes nothing, a negative amount or an amount above the balance
fails. -/
def SubBalance (v : View) (owner : CScript) (amount : CTokenAmount) : Res × View :=
  if amount.nValue = 0 then (Res.Ok, v) else
  match (v.GetBalance owner amount.nTokenId).Sub amount.nValue with
  | .error r => (r, v)
  | .ok b => (Res.Ok, v.SetBalance owner b)

/-- Modelled from the spec: `GetVault`, a read of the vault table. -/
def GetVault (v : View) (vaultId : CVaultId) : Option CVaultData := mapFind vaultId v.vaults

/-- Modelled from the spec: `StoreVault`, a write of the vault table. -/
def StoreVault (v : View) (vaultId : CVaultId) (vault : CVaultData) : Res × View :=
  (Res.Ok, { v with vaults := mapSet vaultId vault v.vaults })

/-- Modelled from the spec: `UpdateVault`, a write of the record of an existing vault. -/
def UpdateVault (v : View) (vaultId : CVaultId) (vault : CVaultData) : Res × View :=
  match v.GetVault vaultId with
  | none => (Res.ErrMsg "Vault <%s> not found", v)
  | some _ => (Res.Ok, { v with vaults := mapSet vaultId vault v.vaults })

/-- Modelled from the spec: `EraseVault`, which erases the record of an existing vault and its
collateral record. -/
def EraseVault (v : View) (vaultId : CVaultId) : Res × View :=
  match v.GetVault vaultId with
  | none => (Res.ErrMsg "Vault <%s> not found", v)
  | some _ =>
    (Res.Ok, { v with vaults := mapErase vaultId v.vaults,
                      vaultCollaterals := mapErase vaultId v.vaultCollaterals })

/-- Modelled from the spec: `GetVaultCollaterals`, a read of the vault-collateral table. -/
def GetVaultCollaterals (v : View) (vaultId : CVaultId) : Option CBalances :=
  mapFind vaultId v.vaultCollaterals

/-- Modelled from the spec: `AddVaultCollateral`, which adds an amount to the collateral
balances of a vault. -/
def AddVaultCollateral (v : View) (vaultId : CVaultId) (amount : CTokenAmount) : Res × View :=
  match CBalancesAdd ((mapFind vaultId v.vaultCollaterals).getD []) amount with
  | .error r => (r, v)
  | .ok amounts =>
    if amounts ≠ [] then
      (Res.Ok, { v with vaultCollaterals := mapSet vaultId amounts v.vaultCollaterals })
    else (Res.Ok, v)

/-- Modelled from the spec: `SubVaultCollateral`, which removes an amount from the collateral
balances of a vault and erases the record when nothing is left. -/
def SubVaultCollateral (v : View) (vaultId : CVaultId) (amount : CTokenAmount) : Res × View :=
  match v.GetVaultCollaterals vaultId with
  | none => (Res.ErrMsg "Collateral for vault <%s> not found", v)
  | some cur =>
    match CBalancesSub cur amount with
    | .error _ => (Res.ErrMsg "Collateral for vault <%s> not found", v)
    | .ok amounts =>
      if amounts = [] then
        (Res.Ok, { v with vaultCollaterals := mapErase vaultId v.vaultCollaterals })
      else
        (Res.Ok, { v with vaultCollaterals := mapSet vaultId amounts v.vaultCollaterals })

/-- Modelled from the spec: `GetLoanTokens`, a read of the vault-loan table. -/
def GetLoanTokens (v : View) (vaultId : CVaultId) : Option CBalances :=
  mapFind vaultId v.vaultLoans

/-- Modelled from the spec: `GetLoanTokenByID`, a read of the loan-token registry. -/
def GetLoanTokenByID (v : View) (tokenId : DCT_ID) : Option CLoanSetLoanToken :=
  mapFind tokenId v.loanTokens

/-- Modelled from the spec: `AddLoanToken`, which adds an amount of an existing loan token to
the loan balances of a vault. -/
def AddLoanToken (v : View) (vaultId : CVaultId) (amount : CTokenAmount) : Res × View :=
  match v.GetLoanTokenByID amount.nTokenId with
  | none => (Res.ErrMsg "No such loan token id %s", v)
  | some _ =>
    match CBalancesAdd ((mapFind vaultId v.vaultLoans).getD []) amount with
    | .error r => (r, v)
    | .ok amounts =>
      if amounts ≠ [] then (Res.Ok, { v with vaultLoans := mapSet vaultId amounts v.vaultLoans })
      else (Res.Ok, v)

/-- Modelled from the spec: `SubLoanToken`, which removes an amount of an existing loan token
from the loan balances of a vault and erases the record when nothing is left. -/
def SubLoanToken (v : View) (vaultId : CVaultId) (amount : CTokenAmount) : Res × View :=
  match v.GetLoanTokenByID amount.nTokenId with
  | none => (Res.ErrMsg "No such loan token id %s", v)
  | some _ =>
    match v.GetLoanTokens vaultId with
    | none => (Res.ErrMsg "Loan token for vault <%s> not found", v)
    | some cur =>
      match CBalancesSub cur amount with
      | .error _ => (Res.ErrMsg "Loan token for vault <%s> not found", v)
      | .ok amounts =>
        if amounts = [] then (Res.Ok, { v with vaultLoans := mapErase vaultId v.vaultLoans })
        else (Res.Ok, { v with vaultLoans := mapSet vaultId amounts v.vaultLoans })

/-- Modelled from the spec: `GetToken(DCT_ID)`, a read of the token registry. -/
def GetToken (v : View) (tokenId : DCT_ID) : Option CToken := mapFind tokenId v.tokens

/-- Modelled from the spec: `GetToken(symbol)`, the first registered token that carries the
symbol, with its identifier. -/
def GetTokenBySymbol (v : View) (symbol : String) : Option (DCT_ID × CToken) :=
  v.tokens.find? (fun p => decide (p.2.symbol = symbol))

/-- Modelled from the spec: `AddMintedTokens`, the overflow-checked increase of the minted
total of a registered token. -/
def AddMintedTokens (v : View) (tokenId : DCT_ID) (amount : CAmount) : Res × View :=
  match v.GetToken tokenId with
  | none => (Res.ErrMsg "token %s does not exist!", v)
  | some tok =>
    match SafeAdd tok.minted amount with
    | .error _ => (Res.ErrMsg "overflow when adding to minted", v)
    | .ok m => (Res.Ok, { v with tokens := mapSet tokenId { tok with minted := m } v.tokens })

/-- Modelled from the spec: `SubMintedTokens`, the decrease of the minted total of a
registered token, rejected when it would become negative. -/
def SubMintedTokens (v : View) (tokenId : DCT_ID) (amount : CAmount) : Res × View :=
  match v.GetToken tokenId with
  | none => (Res.ErrMsg "token %s does not exist!", v)
  | some tok =>
    if tok.minted - amount < 0 then
      (Res.ErrMsg "not enough tokens exist to subtract this amount", v)
    else
      (Res.Ok, { v with tokens := mapSet tokenId { tok with minted := tok.minted - amount }
                                    v.tokens })

/-- Modelled from the spec: `GetLoanScheme`, a read of the loan-scheme table. -/
def GetLoanScheme (v : View) (id : String) : Option CLoanSchemeData := mapFind id v.loanSchemes

/-- Modelled from the spec: `GetDefaultLoanScheme`, a read of the default-scheme pointer. -/
def GetDefaultLoanScheme (v : View) : Option String := v.defaultLoanScheme

/-- Modelled from the spec: `GetDestroyLoanScheme`, the destruction height of a scheme marked
for destruction. -/
def GetDestroyLoanScheme (v : View) (id : String) : Option Nat := mapFind id v.destroyLoanSchemes

/-- Modelled from the spec: `StoreLoanScheme`, which writes the scheme of a message under its
identifier. -/
def StoreLoanScheme (v : View) (m : CLoanSchemeMessage) : Res × View :=
  (Res.Ok, { v with loanSchemes := mapSet m.identifier m.data v.loanSchemes })

/-- Modelled from the spec: `StoreDefaultLoanScheme`, a write of the default-scheme pointer. -/
def StoreDefaultLoanScheme (v : View) (id : String) : Res × View :=
  (Res.Ok, { v with defaultLoanScheme := some id })

/-- Modelled from the spec: `StoreDelayedLoanScheme`, which queues a scheme message in the
delayed table under (identifier, update height). -/
def StoreDelayedLoanScheme (v : View) (m : CLoanSchemeMessage) : Res × View :=
  (Res.Ok, { v with delayedLoanSchemes :=
                      mapSet (m.identifier, m.updateHeight) m v.delayedLoanSchemes })

/-- Modelled from the spec: `StoreDelayedDestroyScheme`, which marks a scheme for destruction
at the height of the message. -/
def StoreDelayedDestroyScheme (v : View) (m : CDestroyLoanSchemeMessage) : Res × View :=
  (Res.Ok, { v with destroyLoanSchemes :=
                      mapSet m.identifier m.destroyHeight v.destroyLoanSchemes })

/-- Modelled from the spec: `EraseLoanScheme`, which erases the scheme record. -/
def EraseLoanScheme (v : View) (id : String) : Res × View :=
  (Res.Ok, { v with loanSchemes := mapErase id v.loanSchemes })

/-- Modelled from the spec: `GetAuction(vaultId, height)`, the auction of the vault that is
active at the height: the first record of the vault stored under a height not below it. -/
def GetAuction (v : View) (vaultId : CVaultId) (height : Nat) : Option CAuctionData :=
  (v.auctions.find? (fun p => decide (p.1.1 = vaultId ∧ height ≤ p.1.2))).map
    (fun p => { p.2 with liquidationHeight := p.1.2 })

/-- Modelled from the spec: `GetAuctionBatch`, a read of the batch table. -/
def GetAuctionBatch (v : View) (vaultId : CVaultId) (index : Nat) : Option CAuctionBatch :=
  mapFind (vaultId, index) v.auctionBatches

/-- Modelled from the spec: `GetAuctionBid`, the current bid of a batch: bidder and amount. -/
def GetAuctionBid (v : View) (vaultId : CVaultId) (index : Nat) :
    Option (CScript × CTokenAmount) :=
  mapFind (vaultId, index) v.auctionBids

/-- Modelled from the spec: `StoreAuctionBid`, a write of the bid table. -/
def StoreAuctionBid (v : View) (vaultId : CVaultId) (index : Nat)
    (bid : CScript × CTokenAmount) : Res × View :=
  (Res.Ok, { v with auctionBids := mapSet (vaultId, index) bid v.auctionBids })

/-- Modelled from the spec: `GetAttributes`, the stored governance attribute set. -/
def GetAttributes (v : View) : Option ATTRIBUTES := v.attributes

/-- Modelled from the spec: `SetVariable`, which persists a governance attribute set. -/
def SetVariable (v : View) (a : ATTRIBUTES) : Res × View :=
  (Res.Ok, { v with attributes := some a })

/-- Modelled from the spec: `GetInterestRate`, a read of the interest record of a vault and
token. -/
def GetInterestRate (v : View) (vaultId : CVaultId) (tokenId : DCT_ID) (_height : Nat) :
    Option CInterestRate :=
  mapFind (vaultId, tokenId) v.interestRates

end View

/-! ## Collaborators and transaction context -/

/-- The context of one handler call: the transaction, the block in progress, the consensus
parameters and the collaborators defined outside the two handler files. A collaborator that
writes the view returns the table it owns. -/
structure Env where
  /-- height of the block in progress (`uint32_t`) -/
  height : Nat
  /-- `tx.GetHash()` -/
  txHash : CVaultId
  /-- `tx.vout[0]`: value and token -/
  vout0 : CTokenAmount
  /-- `consensus.vaultCreationFee` -/
  vaultCreationFee : CAmount
  /-- `consensus.FortCanningMuseumHeight` -/
  FortCanningMuseumHeight : Int
  /-- `consensus.FortCanningRoadHeight` -/
  FortCanningRoadHeight : Int
  /-- `consensus.burnAddress` -/
  burnAddress : CScript
  /-- `CheckCustomTx()` -/
  CheckCustomTx : Res
  /-- `HasAuth(address)` -/
  HasAuth : CScript → Bool
  /-- `HasFoundationAuth()` -/
  HasFoundationAuth : Bool
  /-- `IsVaultPriceValid(mnview, vaultId, height)` -/
  IsVaultPriceValid : View → CVaultId → Nat → Bool
  /-- `CheckCollateralRatio(vaultId, scheme, collaterals, useNextPrice, requireLivePrice)` -/
  CheckCollateralRatio : View → CVaultId → CLoanSchemeData → CBalances → Bool → Bool → Res
  /-- `CalculateOwnerRewards(owner)`: the balance table after the pending rewards of the owner
  have been credited -/
  CalculateOwnerRewards : View → CScript → List ((CScript × DCT_ID) × CAmount)
  /-- `mnview.GetCollateralTokenFromAttributes(tokenId)`, as a flag -/
  GetCollateralTokenFromAttributes : View → DCT_ID → Bool
  /-- `mnview.StoreInterest(height, vaultId, schemeId, tokenId, amount)` -/
  StoreInterest : View → Nat → CVaultId → String → DCT_ID → CAmount →
    Res × List ((CVaultId × DCT_ID) × CInterestRate)
  /-- `mnview.EraseInterest(height, vaultId, schemeId, tokenId, subLoan, subInterest)` -/
  EraseInterest : View → Nat → CVaultId → String → DCT_ID → CAmount → CAmount →
    Res × List ((CVaultId × DCT_ID) × CInterestRate)
  /-- `mnview.DeleteInterest(vaultId, height)` -/
  DeleteInterest : View → CVaultId → Nat → Res × List ((CVaultId × DCT_ID) × CInterestRate)
  /-- `TotalInterest(rate, height)` -/
  TotalInterest : CInterestRate → Nat → CAmount
  /-- `mnview.GetFixedIntervalPrice(pair)` -/
  GetFixedIntervalPrice : View → CTokenCurrencyPair → ResVal CFixedIntervalPrice
  /-- `priceFeed.isLive(mnview.GetPriceDeviation())` -/
  isLive : View → CFixedIntervalPrice → Bool
  /-- `mnview.GetValidatedIntervalPrice(pair, useNextPrice, requireLivePrice)` -/
  GetValidatedIntervalPrice : View → CTokenCurrencyPair → Bool → Bool → ResVal CAmount
  /-- `SwapToDFIOverUSD(mnview, tokenId, amount, from, to, height)` -/
  SwapToDFIOverUSD : View → DCT_ID → CAmount → CScript → CScript → Nat → Res × View
  /-- `ScriptToString(script)`, the text a script is rendered to in a message -/
  ScriptToString : CScript → String

/-- The view after `CalculateOwnerRewards(owner)`. -/
def Env.withOwnerRewards (env : Env) (v : View) (owner : CScript) : View :=
  { v with balances := env.CalculateOwnerRewards v owner }

/-- Modelled from the spec: `CheckNextCollateralRatio`, which validates the ratio under the
current and under the next price, live prices required, and fails with the first failure. -/
def Env.CheckNextCollateralRatio (env : Env) (v : View) (vaultId : CVaultId)
    (scheme : CLoanSchemeData) (collaterals : CBalances) : Res :=
  let r0 := env.CheckCollateralRatio v vaultId scheme collaterals false true
  if !r0.ok then r0 else
  let r1 := env.CheckCollateralRatio v vaultId scheme collaterals true true
  if !r1.ok then r1 else Res.Ok

/-- Modelled from the spec: `TransferTokenBalance`, a debit of `from` followed by a credit
of `to`, each skipped for an empty script. -/
def TransferTokenBalance (v : View) (id : DCT_ID) (amount : CAmount) (from_ to_ : CScript) :
    Res × View :=
  let r1 := if from_ ≠ [] then v.SubBalance from_ ⟨id, amount⟩ else (Res.Ok, v)
  if !r1.1.ok then r1 else
  let r2 := if to_ ≠ [] then r1.2.AddBalance to_ ⟨id, amount⟩ else (Res.Ok, r1.2)
  if !r2.1.ok then r2 else (Res.Ok, r2.2)

/-! ## Vault handlers (`consensus/vaults.cpp`) -/

namespace CVaultsConsensus

/-- `CVaultsConsensus::operator()(const CVaultMessage&)`: create a vault. -/
def onVaultMessage (env : Env) (v : View) (obj : CVaultMessage) : Res × View :=
  if ¬ (env.vout0.nValue = env.vaultCreationFee ∧ env.vout0.nTokenId = 0) then
    (Res.ErrMsg "Malformed tx vouts, creation vault fee is %s DFI", v) else
  -- set loan scheme to default if non provided
  let resolved : Option String :=
    if obj.schemeId = "" then v.GetDefaultLoanScheme else some obj.schemeId
  match resolved with
  | none => (Res.ErrMsg "There is no default loan scheme", v)
  | some schemeId =>
  -- loan scheme exists
  if (v.GetLoanScheme schemeId).isNone then
    (Res.ErrMsg "Cannot find existing loan scheme with id %s", v) else
  -- check loan scheme is not to be destroyed
  if (v.GetDestroyLoanScheme obj.schemeId).isSome then
    (Res.ErrMsg "Cannot set %s as loan scheme, set to be destroyed", v) else
  v.StoreVault env.txHash ⟨obj.ownerAddress, schemeId, false⟩

/-- The loop of the close handler: `verifyRes(mnview.AddBalance(obj.to, {col.first,
col.second}))` for every collateral balance. -/
def refundCollaterals (v : View) (to_ : CScript) : CBalances → Res × View
  | [] => (Res.Ok, v)
  | col :: rest =>
    let r := v.AddBalance to_ ⟨col.1, col.2⟩
    if !r.1.ok then r else refundCollaterals r.2 to_ rest

/-- `CVaultsConsensus::operator()(const CCloseVaultMessage&)`: close a vault. -/
def onCloseVaultMessage (env : Env) (v : View) (obj : CCloseVaultMessage) : Res × View :=
  if !env.CheckCustomTx.ok then (env.CheckCustomTx, v) else
  -- vault exists
  match v.GetVault obj.vaultId with
  | none => (Res.ErrMsg "Vault <%s> not found", v)
  | some vault =>
  -- vault under liquidation
  if vault.isUnderLiquidation then (Res.ErrMsg "Cannot close vault under liquidation", v) else
  -- owner auth
  if !env.HasAuth vault.ownerAddress then
    (Res.ErrMsg "tx must have at least one input from token owner", v) else
  if (v.GetLoanTokens obj.vaultId).isSome then (Res.ErrMsg "Vault <%s> has loans", v) else
  let v1 := env.withOwnerRewards v obj.to_
  let r2 := match v1.GetVaultCollaterals obj.vaultId with
    | some collaterals => refundCollaterals v1 obj.to_ collaterals
    | none => (Res.Ok, v1)
  if !r2.1.ok then r2 else
  -- delete all interest to vault
  let r3 := env.DeleteInterest r2.2 obj.vaultId env.height
  let v3 : View := { r2.2 with interestRates := r3.2 }
  if !r3.1.ok then (r3.1, v3) else
  -- return half fee, the rest is burned at creation
  let feeBack := Int.tdiv env.vaultCreationFee 2
  let r4 := v3.AddBalance obj.to_ ⟨0, feeBack⟩
  if !r4.1.ok then r4 else
  r4.2.EraseVault obj.vaultId

/-- `CVaultsConsensus::operator()(const CUpdateVaultMessage&)`: change scheme or owner. -/
def onUpdateVaultMessage (env : Env) (v : View) (obj : CUpdateVaultMessage) : Res × View :=
  if !env.CheckCustomTx.ok then (env.CheckCustomTx, v) else
  -- vault exists
  match v.GetVault obj.vaultId with
  | none => (Res.ErrMsg "Vault <%s> not found", v)
  | some vault =>
  -- vault under liquidation
  if vault.isUnderLiquidation then (Res.ErrMsg "Cannot update vault under liquidation", v) else
  -- owner auth
  if !env.HasAuth vault.ownerAddress then
    (Res.ErrMsg "tx must have at least one input from token owner", v) else
  -- loan scheme exists
  match v.GetLoanScheme obj.schemeId with
  | none => (Res.ErrMsg "Cannot find existing loan scheme with id %s", v)
  | some scheme =>
  -- loan scheme is not set to be destroyed
  if (v.GetDestroyLoanScheme obj.schemeId).isSome then
    (Res.ErrMsg "Cannot set %s as loan scheme, set to be destroyed", v) else
  if !env.IsVaultPriceValid v obj.vaultId env.height then
    (Res.ErrMsg "Cannot update vault while any of the asset's price is invalid", v) else
  -- don't allow scheme change when vault is going to be in liquidation
  let check : Res :=
    if vault.schemeId ≠ obj.schemeId then
      match v.GetVaultCollaterals obj.vaultId with
      | some collaterals =>
        let r0 := env.CheckCollateralRatio v obj.vaultId scheme collaterals false true
        if !r0.ok then r0 else
        let r1 := env.CheckCollateralRatio v obj.vaultId scheme collaterals true true
        if !r1.ok then r1 else Res.Ok
      | none => Res.Ok
    else Res.Ok
  if !check.ok then (check, v) else
  v.UpdateVault obj.vaultId { vault with schemeId := obj.schemeId,
                                         ownerAddress := obj.ownerAddress }

/-- `CVaultsConsensus::operator()(const CDepositToVaultMessage&)`: deposit collateral. The
check of the debit (`vaults.cpp` 127) passes `Res::Err` a format string with two conversion
specifications and one argument, so that a failing debit ends in what `tfm::format` does with
them, an exception or a `Res`; the handler is therefore a function into `Outcome View`. The
source dereferences the scheme and the collaterals of the vault without a check; the embedding
reads an absent record as the default-constructed value. -/
def onDepositToVaultMessage (env : Env) (v : View) (obj : CDepositToVaultMessage) :
    Outcome View :=
  if !env.CheckCustomTx.ok then .returned env.CheckCustomTx v else
  -- owner auth
  if !env.HasAuth obj.from_ then
    .returned (Res.ErrMsg "tx must have at least one input from token owner") v else
  -- vault exists
  match v.GetVault obj.vaultId with
  | none => .returned (Res.ErrMsg "Vault <%s> not found") v
  | some vault =>
  -- vault under liquidation
  if vault.isUnderLiquidation then
    .returned (Res.ErrMsg "Cannot deposit to vault under liquidation") v else
  -- If collateral token exist make sure it is enabled.
  let enabled : Bool :=
    if env.GetCollateralTokenFromAttributes v obj.amount.nTokenId then
      match v.GetAttributes with
      | some attributes =>
        attributes.GetValueBool
          ⟨.Token, .id obj.amount.nTokenId, .token .LoanCollateralEnabled, 0⟩ false
      | none => true
    else true
  if !enabled then .returned (Res.ErrMsg "Collateral token (%d) is disabled") v else
  -- check balance
  let v1 := env.withOwnerRewards v obj.from_
  let r2 := v1.SubBalance obj.from_ obj.amount
  if !r2.1.ok then
    match Res.Err "Insufficient funds: can't subtract balance of %s: %s\n"
        [env.ScriptToString obj.from_] with
    | .error e => .thrown e r2.2
    | .ok tmp => .returned tmp r2.2
  else
  let r3 := r2.2.AddVaultCollateral obj.vaultId obj.amount
  if !r3.1.ok then .returned r3.1 r3.2 else
  let scheme := (r3.2.GetLoanScheme vault.schemeId).getD ⟨0, 0⟩
  let collaterals := (r3.2.GetVaultCollaterals obj.vaultId).getD []
  .returned (env.CheckCollateralRatio r3.2 obj.vaultId scheme collaterals false false) r3.2

/-- `CVaultsConsensus::operator()(const CWithdrawFromVaultMessage&)`: withdraw collateral.
The source dereferences the scheme of the vault without a check; the embedding reads an absent
record as the default-constructed value. -/
def onWithdrawFromVaultMessage (env : Env) (v : View) (obj : CWithdrawFromVaultMessage) :
    Res × View :=
  if !env.CheckCustomTx.ok then (env.CheckCustomTx, v) else
  -- vault exists
  match v.GetVault obj.vaultId with
  | none => (Res.ErrMsg "Vault <%s> not found", v)
  | some vault =>
  -- vault under liquidation
  if vault.isUnderLiquidation then
    (Res.ErrMsg "Cannot withdraw from vault under liquidation", v) else
  -- owner auth
  if !env.HasAuth vault.ownerAddress then
    (Res.ErrMsg "tx must have at least one input from token owner", v) else
  if !env.IsVaultPriceValid v obj.vaultId env.height then
    (Res.ErrMsg "Cannot withdraw from vault while any of the asset's price is invalid", v) else
  let r1 := v.SubVaultCollateral obj.vaultId obj.amount
  if !r1.1.ok then r1 else
  if (r1.2.GetLoanTokens obj.vaultId).isNone then r1.2.AddBalance obj.to_ obj.amount else
  match r1.2.GetVaultCollaterals obj.vaultId with
  | none =>
    (Res.ErrMsg "Cannot withdraw all collaterals as there are still active loans in this vault",
      r1.2)
  | some collaterals =>
  let scheme := (r1.2.GetLoanScheme vault.schemeId).getD ⟨0, 0⟩
  let r2 := env.CheckNextCollateralRatio r1.2 obj.vaultId scheme collaterals
  if !r2.ok then (r2, r1.2) else
  r1.2.AddBalance obj.to_ obj.amount

/-- The common tail of the bid handler: the bidder is debited and the bid stored. -/
def placeBid (env : Env) (v : View) (obj : CAuctionBidMessage) : Res × View :=
  -- check balance
  let v1 := env.withOwnerRewards v obj.from_
  let r := v1.SubBalance obj.from_ obj.amount
  if !r.1.ok then r else
  r.2.StoreAuctionBid obj.vaultId obj.index (obj.from_, obj.amount)

/-- `CVaultsConsensus::operator()(const CAuctionBidMessage&)`: bid on a batch of a liquidated
vault. -/
def onAuctionBidMessage (env : Env) (v : View) (obj : CAuctionBidMessage) : Res × View :=
  if !env.CheckCustomTx.ok then (env.CheckCustomTx, v) else
  -- owner auth
  if !env.HasAuth obj.from_ then
    (Res.ErrMsg "tx must have at least one input from token owner", v) else
  -- vault exists
  match v.GetVault obj.vaultId with
  | none => (Res.ErrMsg "Vault <%s> not found", v)
  | some vault =>
  -- vault under liquidation
  if !vault.isUnderLiquidation then
    (Res.ErrMsg "Cannot bid to vault which is not under liquidation", v) else
  match v.GetAuction obj.vaultId env.height with
  | none => (Res.ErrMsg "No auction data to vault %s", v)
  | some data =>
  match v.GetAuctionBatch obj.vaultId obj.index with
  | none => (Res.ErrMsg "No batch to vault/index %s/%d", v)
  | some batch =>
  if obj.amount.nTokenId ≠ batch.loanAmount.nTokenId then
    (Res.ErrMsg "Bid token does not match auction one", v) else
  match v.GetAuctionBid obj.vaultId obj.index with
  | none =>
    let amount := MultiplyAmounts batch.loanAmount.nValue (COIN + data.liquidationPenalty)
    if ¬ (obj.amount.nValue ≥ amount) then
      (Res.ErrMsg "First bid should include liquidation penalty of %d%%", v) else
    if castInt env.height ≥ env.FortCanningMuseumHeight ∧ data.liquidationPenalty ≠ 0
        ∧ ¬ (obj.amount.nValue > batch.loanAmount.nValue) then
      (Res.ErrMsg "First bid should be higher than batch one", v) else
    placeBid env v obj
  | some bid =>
    let amount := MultiplyAmounts bid.2.nValue (COIN + Int.tdiv COIN 100)
    if ¬ (obj.amount.nValue ≥ amount) then
      (Res.ErrMsg "Bid override should be at least 1%% higher than current one", v) else
    if castInt env.height ≥ env.FortCanningMuseumHeight
        ∧ ¬ (obj.amount.nValue > bid.2.nValue) then
      (Res.ErrMsg "Bid override should be higher than last one", v) else
    -- immediate refund previous bid
    let v1 := env.withOwnerRewards v bid.1
    let v2 := (v1.AddBalance bid.1 bid.2).2
    placeBid env v2 obj

end CVaultsConsensus

/-! ## Loan handlers (`consensus/loans.cpp`) -/

namespace CLoansConsensus

/-- `std::numeric_limits<uint64_t>::max()`, the update height that asks for an immediate
update. -/
def UINT64_MAX : Nat := 18446744073709551615

/-- The first scan of the scheme handler: `ForEachLoanScheme` stops at the first scheme with
the ratio and the rate of the message. -/
def findDuplicateScheme (v : View) (obj : CLoanSchemeMessage) :
    Option (String × CLoanSchemeData) :=
  v.loanSchemes.find? (fun p => decide (p.2.ratio = obj.ratio ∧ p.2.rate = obj.rate))

/-- The second scan of the scheme handler: `ForEachDelayedLoanScheme` stops at the first
delayed scheme with the ratio and the rate of the message. -/
def findDuplicateDelayed (v : View) (obj : CLoanSchemeMessage) :
    Option ((String × Nat) × CLoanSchemeMessage) :=
  v.delayedLoanSchemes.find? (fun p => decide (p.2.ratio = obj.ratio ∧ p.2.rate = obj.rate))

/-- `CLoansConsensus::operator()(const CLoanSchemeMessage&)`: create a scheme, or update one
now or at a later height. -/
def onLoanSchemeMessage (env : Env) (v : View) (obj : CLoanSchemeMessage) : Res × View :=
  if !env.CheckCustomTx.ok then (env.CheckCustomTx, v) else
  if !env.HasFoundationAuth then (Res.ErrMsg "tx not from foundation member!", v) else
  if ¬ (obj.ratio ≥ 100) then
    (Res.ErrMsg "minimum collateral ratio cannot be less than 100", v) else
  if ¬ (obj.rate ≥ 1000000) then (Res.ErrMsg "interest rate cannot be less than 0.01", v) else
  if ¬ (obj.identifier ≠ "" ∧ obj.identifier.utf8ByteSize ≤ 8) then
    (Res.ErrMsg "id cannot be empty or more than 8 chars long", v) else
  -- Look for loan scheme which already has matching rate and ratio
  match findDuplicateScheme v obj with
  | some dup =>
    (Res.ErrMsg ("Loan scheme " ++ dup.1 ++ " with same interestrate and mincolratio already exists"),
      v)
  | none =>
  -- Look for delayed loan scheme which already has matching rate and ratio
  match findDuplicateDelayed v obj with
  | some dup =>
    (Res.ErrMsg ("Loan scheme " ++ dup.1.1 ++
        " with same interestrate and mincolratio pending on block " ++ toString dup.1.2), v)
  | none =>
  -- New loan scheme, no duplicate expected.
  if (v.GetLoanScheme obj.identifier).isSome ∧ obj.updateHeight = 0 then
    (Res.ErrMsg ("Loan scheme already exist with id " ++ obj.identifier), v) else
  if (v.GetLoanScheme obj.identifier).isNone ∧ obj.updateHeight ≠ 0 then
    (Res.ErrMsg ("Cannot find existing loan scheme with id " ++ obj.identifier), v) else
  -- Update set, not max uint64_t which indicates immediate update and not updated on this
  -- block.
  if obj.updateHeight ≠ 0 ∧ obj.updateHeight ≠ UINT64_MAX ∧ obj.updateHeight ≠ env.height then
    if ¬ (obj.updateHeight ≥ env.height) then
      (Res.ErrMsg "Update height below current block height, set future height", v)
    else v.StoreDelayedLoanScheme obj
  else
  -- If no default yet exist set this one as default.
  let v1 := if v.GetDefaultLoanScheme.isNone then (v.StoreDefaultLoanScheme obj.identifier).2
            else v
  v1.StoreLoanScheme obj

/-- `CLoansConsensus::operator()(const CDefaultLoanSchemeMessage&)`: set the default
scheme. -/
def onDefaultLoanSchemeMessage (env : Env) (v : View) (obj : CDefaultLoanSchemeMessage) :
    Res × View :=
  if !env.CheckCustomTx.ok then (env.CheckCustomTx, v) else
  if !env.HasFoundationAuth then (Res.ErrMsg "tx not from foundation member!", v) else
  if ¬ (obj.identifier ≠ "" ∧ obj.identifier.utf8ByteSize ≤ 8) then
    (Res.ErrMsg "id cannot be empty or more than 8 chars long", v) else
  if (v.GetLoanScheme obj.identifier).isNone then
    (Res.ErrMsg ("Cannot find existing loan scheme with id " ++ obj.identifier), v) else
  if ¬ (v.GetDefaultLoanScheme = none ∨ v.GetDefaultLoanScheme ≠ some obj.identifier) then
    (Res.ErrMsg ("Loan scheme with id " ++ obj.identifier ++ " is already set as default"), v) else
  if (v.GetDestroyLoanScheme obj.identifier).isSome then
    (Res.ErrMsg ("Cannot set " ++ obj.identifier ++ " as default, set to destroyed"), v) else
  v.StoreDefaultLoanScheme obj.identifier

/-- The body of the `ForEachVault` callback of the destroy handler: a vault bound to the
destroyed scheme is stored again with the default scheme. The source dereferences the default
pointer without a check; the embedding reads an absent pointer as the empty string. -/
def reassignVault (id : String) (acc : View) (entry : CVaultId × CVaultData) : View :=
  if entry.2.schemeId = id then
    (acc.StoreVault entry.1
      { entry.2 with schemeId := (acc.GetDefaultLoanScheme).getD "" }).2
  else acc

/-- `CLoansConsensus::operator()(const CDestroyLoanSchemeMessage&)`: destroy a scheme now or
at a later height. -/
def onDestroyLoanSchemeMessage (env : Env) (v : View) (obj : CDestroyLoanSchemeMessage) :
    Res × View :=
  if !env.CheckCustomTx.ok then (env.CheckCustomTx, v) else
  if !env.HasFoundationAuth then (Res.ErrMsg "tx not from foundation member!", v) else
  if ¬ (obj.identifier ≠ "" ∧ obj.identifier.utf8ByteSize ≤ 8) then
    (Res.ErrMsg "id cannot be empty or more than 8 chars long", v) else
  if (v.GetLoanScheme obj.identifier).isNone then
    (Res.ErrMsg ("Cannot find existing loan scheme with id " ++ obj.identifier), v) else
  if ¬ (v.GetDefaultLoanScheme = none ∨ v.GetDefaultLoanScheme ≠ some obj.identifier) then
    (Res.ErrMsg "Cannot destroy default loan scheme, set new default first", v) else
  -- Update set and not updated on this block.
  if obj.destroyHeight ≠ 0 ∧ obj.destroyHeight ≠ env.height then
    if ¬ (obj.destroyHeight ≥ env.height) then
      (Res.ErrMsg "Destruction height below current block height, set future height", v)
    else v.StoreDelayedDestroyScheme obj
  else
  let v1 := v.vaults.foldl (reassignVault obj.identifier) v
  v1.EraseLoanScheme obj.identifier

/-- The totals of the take-loan loop: `totalLoansActivePrice` and `totalLoansNextPrice`. -/
structure TakeLoanState where
  view : View
  totalLoansActivePrice : Nat
  totalLoansNextPrice : Nat

/-- One pass of the inner loop of take-loan (`for (int i = 0; i < 2; i++)`): the value of
the amount at one price record is checked and added to the running total. -/
def addLoanValue (price amount : CAmount) (totalLoans : Nat) : Except Res Nat :=
  let value := MultiplyAmounts64 price amount
  if price > COIN ∧ ¬ (value > amount) then .error (Res.ErrMsg "Value/price too high (%s/%s)") else
  match SafeAddU64 totalLoans (toU64 value) with
  | none => .error (Res.ErrMsg "Exceed maximum loans")
  | some sumLoans => .ok sumLoans

/-- The body of the take-loan loop for one requested (token, amount). -/
def takeLoanStep (env : Env) (obj : CLoanTakeLoanMessage) (vault : CVaultData)
    (st : TakeLoanState) (kv : DCT_ID × CAmount) : Res × TakeLoanState :=
  let v := st.view
  match v.GetLoanTokenByID kv.1 with
  | none => (Res.ErrMsg "Loan token with id (%s) does not exist!", st)
  | some loanToken =>
  if !loanToken.mintable then
    (Res.ErrMsg "Loan cannot be taken on token with id (%s) as \"mintable\" is currently false", st)
  else
  let r1 := v.AddLoanToken obj.vaultId ⟨kv.1, kv.2⟩
  if !r1.1.ok then (r1.1, { st with view := r1.2 }) else
  let r2 := env.StoreInterest r1.2 env.height obj.vaultId vault.schemeId kv.1 kv.2
  let v2 : View := { r1.2 with interestRates := r2.2 }
  if !r2.1.ok then (r2.1, { st with view := v2 }) else
  match env.GetFixedIntervalPrice v2 loanToken.fixedIntervalPriceId with
  | .error r => (r, { st with view := v2 })
  | .ok priceFeed =>
  if !env.isLive v2 priceFeed then
    (Res.ErrMsg "No live fixed prices for %s/%s", { st with view := v2 }) else
  -- check active and next price
  match addLoanValue priceFeed.priceRecord0 kv.2 st.totalLoansActivePrice with
  | .error r => (r, { st with view := v2 })
  | .ok totalActive =>
  match addLoanValue priceFeed.priceRecord1 kv.2 st.totalLoansNextPrice with
  | .error r => (r, ⟨v2, totalActive, st.totalLoansNextPrice⟩)
  | .ok totalNext =>
  let st3 : TakeLoanState := ⟨v2, totalActive, totalNext⟩
  let r3 := v2.AddMintedTokens kv.1 kv.2
  if !r3.1.ok then (r3.1, { st3 with view := r3.2 }) else
  let address := if obj.to_ ≠ [] then obj.to_ else vault.ownerAddress
  let v4 := env.withOwnerRewards r3.2 address
  let r5 := v4.AddBalance address ⟨kv.1, kv.2⟩
  (r5.1, { st3 with view := r5.2 })

/-- The take-loan loop over `obj.amounts.balances`; it stops at the first failure. -/
def takeLoanLoop (env : Env) (obj : CLoanTakeLoanMessage) (vault : CVaultData) :
    TakeLoanState → List (DCT_ID × CAmount) → Res × TakeLoanState
  | st, [] => (Res.Ok, st)
  | st, kv :: rest =>
    let r := takeLoanStep env obj vault st kv
    if !r.1.ok then r else takeLoanLoop env obj vault r.2 rest

/-- `CLoansConsensus::operator()(const CLoanTakeLoanMessage&)`: take a loan. The source
dereferences the scheme of the vault without a check; the embedding reads an absent record as
the default-constructed value. -/
def onLoanTakeLoanMessage (env : Env) (v : View) (obj : CLoanTakeLoanMessage) : Res × View :=
  if !env.CheckCustomTx.ok then (env.CheckCustomTx, v) else
  match v.GetVault obj.vaultId with
  | none => (Res.ErrMsg "Vault <%s> not found", v)
  | some vault =>
  if vault.isUnderLiquidation then
    (Res.ErrMsg "Cannot take loan on vault under liquidation", v) else
  -- vault owner auth
  if !env.HasAuth vault.ownerAddress then
    (Res.ErrMsg "tx must have at least one input from vault owner", v) else
  if !env.IsVaultPriceValid v obj.vaultId env.height then
    (Res.ErrMsg "Cannot take loan while any of the asset's price in the vault is not live", v)
  else
  match v.GetVaultCollaterals obj.vaultId with
  | none => (Res.ErrMsg "Vault with id %s has no collaterals", v)
  | some collaterals =>
  let r := takeLoanLoop env obj vault ⟨v, 0, 0⟩ obj.amounts
  if !r.1.ok then (r.1, r.2.view) else
  let scheme := (r.2.view.GetLoanScheme vault.schemeId).getD ⟨0, 0⟩
  (env.CheckNextCollateralRatio r.2.view obj.vaultId scheme collaterals, r.2.view)

/-- Write of a key of a `std::map<DCT_ID, _>`: the entries stay ordered by key. -/
def mapPut {τ : Type} (k : DCT_ID) (t : τ) : List (DCT_ID × τ) → List (DCT_ID × τ)
  | [] => [(k, t)]
  | (k', t') :: rest =>
    if k < k' then (k, t) :: (k', t') :: rest
    else if k = k' then (k, t) :: rest
    else (k', t') :: mapPut k t rest

/-- `CBalances::Add` called for its effect only: a failing call leaves the balances as they
were. -/
def addIgnoringResult (b : CBalances) (amount : CTokenAmount) : CBalances :=
  match CBalancesAdd b amount with
  | .ok b' => b'
  | .error _ => b

/-- The split of a payback amount into interest and principal (the statements between
`TotalInterest` and `SubLoanToken` of the V2 payback handler): returns
`(subInterest, subLoan)` for the payback amount in loan-token units, the accrued interest
`TotalInterest(*rate, height)` and the outstanding loan `it->second`. -/
def paybackSplit (paybackAmount totalInterest outstanding : CAmount) : CAmount × CAmount :=
  let subInterest := totalInterest
  let subLoan := paybackAmount - subInterest
  if paybackAmount < subInterest then (paybackAmount, 0)
  else if outstanding - subLoan < 0 then (subInterest, outstanding)
  else (subInterest, subLoan)

/-- The local state of the V2 payback loops: the view, the local copy of the governance
attributes and `shouldSetVariable`. -/
structure PaybackState where
  view : View
  attributes : Option ATTRIBUTES
  shouldSetVariable : Bool

/-- The amounts fixed by the conversion part of one payback entry. -/
structure PaybackConversion where
  paybackAmount : CAmount
  paybackUsdPrice : CAmount
  loanUsdPrice : CAmount
  penaltyPct : CAmount

/-- The conversion of a payback made in another token than the loan token
(`if (loanTokenId != paybackTokenId)` block of the V2 payback handler). -/
def convertPayback (env : Env) (obj : CLoanPaybackLoanV2Message) (st : PaybackState)
    (loanTokenId : DCT_ID) (loanToken : CLoanSetLoanToken) (paybackToken : CToken)
    (kv : DCT_ID × CAmount) : Except Res PaybackConversion :=
  let v := st.view
  if !env.IsVaultPriceValid v obj.vaultId env.height then
    .error (Res.ErrMsg "Cannot payback loan while any of the asset's price is invalid") else
  match st.attributes with
  | none => .error (Res.ErrMsg "Payback is not currently active")
  | some attributes =>
  -- search in token to token
  let active : Bool :=
    if kv.1 ≠ 0 then
      attributes.GetValueBool ⟨.Token, .id loanTokenId, .token .LoanPayback, kv.1⟩ false
    else
      attributes.GetValueBool ⟨.Token, .id loanTokenId, .token .PaybackDFI, 0⟩ false
  if !active then .error (Res.ErrMsg "Payback of loan via %s token is not currently active") else
  let penaltyPct : CAmount :=
    if kv.1 ≠ 0 then
      COIN - attributes.GetValueAmount
        ⟨.Token, .id loanTokenId, .token .LoanPaybackFeePCT, kv.1⟩ 0
    else
      COIN - attributes.GetValueAmount
        ⟨.Token, .id loanTokenId, .token .PaybackDFIFeePCT, 0⟩ (Int.tdiv COIN 100)
  -- Get token price in USD
  match env.GetValidatedIntervalPrice v (paybackToken.symbol, "USD") false true with
  | .error r => .error r
  | .ok resVal =>
  let paybackUsdPrice := MultiplyAmounts resVal penaltyPct
  -- Calculate the DFI amount in DUSD
  let usdAmount := MultiplyAmounts paybackUsdPrice kv.2
  if loanToken.symbol = "DUSD" then
    if paybackUsdPrice > COIN ∧ ¬ (usdAmount ≥ kv.2) then
      .error (Res.ErrMsg "Value/price too high (%s/%s)")
    else .ok ⟨usdAmount, paybackUsdPrice, 0, penaltyPct⟩
  else
    -- Get dToken price in USD
    match env.GetValidatedIntervalPrice v (loanToken.symbol, "USD") false true with
    | .error r => .error r
    | .ok loanUsdPrice =>
      .ok ⟨DivideAmounts usdAmount loanUsdPrice, paybackUsdPrice, loanUsdPrice, penaltyPct⟩

/-- The payback-token amount charged for `subAmount` in a cross-token payback (`subInToken`
of the V2 payback handler). -/
def computeSubInToken (loanToken : CLoanSetLoanToken) (c : PaybackConversion)
    (subAmount offered : CAmount) : CAmount :=
  -- if payback overpay loan and interest amount
  if c.paybackAmount > subAmount then
    if loanToken.symbol = "DUSD" then
      let subInToken := DivideAmounts subAmount c.paybackUsdPrice
      if MultiplyAmounts subInToken c.paybackUsdPrice ≠ subAmount then subInToken + 1
      else subInToken
    else
      let tempAmount := MultiplyAmounts subAmount c.loanUsdPrice
      let subInToken := DivideAmounts tempAmount c.paybackUsdPrice
      if DivideAmounts (MultiplyAmounts subInToken c.paybackUsdPrice) c.loanUsdPrice ≠ subAmount
      then subInToken + 1
      else subInToken
  else offered

/-- The economy record written by a cross-token payback: the attribute set with the live key
updated. -/
def recordPayback (attributes : ATTRIBUTES) (loanTokenId paybackTokenId : DCT_ID)
    (subAmount penalty : CAmount) : ATTRIBUTES :=
  if paybackTokenId = 0 then
    let liveKey : CDataStructureV0 :=
      ⟨.Live, .param .Economy, .economy .PaybackDFITokens, 0⟩
    let balances := attributes.GetValueBalances liveKey []
    let balances := addIgnoringResult balances ⟨loanTokenId, subAmount⟩
    let balances := addIgnoringResult balances ⟨paybackTokenId, penalty⟩
    mapSet liveKey (.balances balances) attributes
  else
    let liveKey : CDataStructureV0 := ⟨.Live, .param .Economy, .economy .PaybackTokens, 0⟩
    let balances := attributes.GetValueTokenPayback liveKey ⟨[], []⟩
    let tokensPayback := addIgnoringResult balances.tokensPayback ⟨loanTokenId, subAmount⟩
    let tokensFee := addIgnoringResult balances.tokensFee ⟨paybackTokenId, penalty⟩
    mapSet liveKey (.tokenPayback ⟨tokensFee, tokensPayback⟩) attributes

/-- The body of the inner loop of the V2 payback handler: one (payback token, amount) entry
paid against the loan in `loanTokenId`, whose outstanding amount read before the loops is
`outstanding` (`it->second`). -/
def paybackEntry (env : Env) (obj : CLoanPaybackLoanV2Message) (vault : CVaultData)
    (loanTokenId : DCT_ID) (loanToken : CLoanSetLoanToken) (outstanding : CAmount)
    (st : PaybackState) (kv : DCT_ID × CAmount) : Res × PaybackState :=
  let v := st.view
  match v.GetToken kv.1 with
  | none => (Res.ErrMsg "Token with id (%s) does not exists", st)
  | some paybackToken =>
  let conv : Except Res PaybackConversion :=
    if loanTokenId ≠ kv.1 then convertPayback env obj st loanTokenId loanToken paybackToken kv
    else .ok ⟨kv.2, 0, 0, COIN⟩
  match conv with
  | .error r => (r, st)
  | .ok c =>
  match v.GetInterestRate obj.vaultId loanTokenId env.height with
  | none => (Res.ErrMsg "Cannot get interest rate for this token (%s)!", st)
  | some rate =>
  let split := paybackSplit c.paybackAmount (env.TotalInterest rate env.height) outstanding
  let subInterest := split.1
  let subLoan := split.2
  let r1 := v.SubLoanToken obj.vaultId ⟨loanTokenId, subLoan⟩
  if !r1.1.ok then (r1.1, { st with view := r1.2 }) else
  let r2 := env.EraseInterest r1.2 env.height obj.vaultId vault.schemeId loanTokenId subLoan
    subInterest
  let v2 : View := { r1.2 with interestRates := r2.2 }
  if !r2.1.ok then (r2.1, { st with view := v2 }) else
  let rateCheck : Res :=
    if castInt env.height ≥ env.FortCanningMuseumHeight ∧ subLoan < outstanding then
      match v2.GetInterestRate obj.vaultId loanTokenId env.height with
      | none => Res.ErrMsg "Cannot get interest rate for this token (%s)!"
      | some newRate =>
        if ¬ (newRate.interestPerBlock > 0) then
          Res.ErrMsg
            "Cannot payback this amount of loan for %s, either payback full amount or less than this amount!"
        else Res.Ok
    else Res.Ok
  if !rateCheck.ok then (rateCheck, { st with view := v2 }) else
  let v3 := env.withOwnerRewards v2 obj.from_
  if kv.1 = loanTokenId then
    let r4 := v3.SubMintedTokens loanTokenId subLoan
    if !r4.1.ok then (r4.1, { st with view := r4.2 }) else
    -- subtract loan amount first, interest is burning below
    let r5 := r4.2.SubBalance obj.from_ ⟨loanTokenId, subLoan⟩
    if !r5.1.ok then (r5.1, { st with view := r5.2 }) else
    -- burn interest Token->USD->DFI->burnAddress
    if subInterest ≠ 0 then
      let r6 := env.SwapToDFIOverUSD r5.2 loanTokenId subInterest obj.from_ env.burnAddress
        env.height
      (r6.1, { st with view := r6.2 })
    else (Res.Ok, { st with view := r5.2 })
  else
    let subAmount := subLoan + subInterest
    let subInToken := computeSubInToken loanToken c subAmount kv.2
    let penalty := MultiplyAmounts subInToken (COIN - c.penaltyPct)
    let attributes := st.attributes.map
      (fun a => recordPayback a loanTokenId kv.1 subAmount penalty)
    let r7 := TransferTokenBalance v3 kv.1 subInToken obj.from_ env.burnAddress
    (r7.1, ⟨r7.2, attributes, true⟩)

/-- The inner loop of the V2 payback handler over the payback amounts of one loan token; it
stops at the first failure. -/
def paybackEntries (env : Env) (obj : CLoanPaybackLoanV2Message) (vault : CVaultData)
    (loanTokenId : DCT_ID) (loanToken : CLoanSetLoanToken) (outstanding : CAmount) :
    PaybackState → List (DCT_ID × CAmount) → Res × PaybackState
  | st, [] => (Res.Ok, st)
  | st, kv :: rest =>
    let r := paybackEntry env obj vault loanTokenId loanToken outstanding st kv
    if !r.1.ok then r else paybackEntries env obj vault loanTokenId loanToken outstanding r.2 rest

/-- The outer loop of the V2 payback handler over `obj.loans`; `loanAmounts` is the loan
record of the vault read before the loops. -/
def paybackLoans (env : Env) (obj : CLoanPaybackLoanV2Message) (vault : CVaultData)
    (loanAmounts : CBalances) :
    PaybackState → List (DCT_ID × CBalances) → Res × PaybackState
  | st, [] => (Res.Ok, st)
  | st, idx :: rest =>
    match st.view.GetLoanTokenByID idx.1 with
    | none => (Res.ErrMsg "Loan token with id (%s) does not exist!", st)
    | some loanToken =>
    match mapFind idx.1 loanAmounts with
    | none => (Res.ErrMsg "There is no loan on token (%s) in this vault!", st)
    | some outstanding =>
    let r := paybackEntries env obj vault idx.1 loanToken outstanding st idx.2
    if !r.1.ok then r else paybackLoans env obj vault loanAmounts r.2 rest

/-- `CLoansConsensus::operator()(const CLoanPaybackLoanV2Message&)`: pay back loans, each in
its own token or in another token. -/
def onLoanPaybackLoanV2Message (env : Env) (v : View) (obj : CLoanPaybackLoanV2Message) :
    Res × View :=
  if !env.CheckCustomTx.ok then (env.CheckCustomTx, v) else
  match v.GetVault obj.vaultId with
  | none => (Res.ErrMsg "Cannot find existing vault with id %s", v)
  | some vault =>
  if vault.isUnderLiquidation then
    (Res.ErrMsg "Cannot payback loan on vault under liquidation", v) else
  if (v.GetVaultCollaterals obj.vaultId).isNone then
    (Res.ErrMsg "Vault with id %s has no collaterals", v) else
  match v.GetLoanTokens obj.vaultId with
  | none => (Res.ErrMsg "There are no loans on this vault (%s)!", v)
  | some loanAmounts =>
  if !env.HasAuth obj.from_ then
    (Res.ErrMsg "tx must have at least one input from token owner", v) else
  if castInt env.height < env.FortCanningRoadHeight
      ∧ env.IsVaultPriceValid v obj.vaultId env.height = false then
    (Res.ErrMsg "Cannot payback loan while any of the asset's price is invalid", v) else
  let r := paybackLoans env obj vault loanAmounts ⟨v, v.GetAttributes, false⟩ obj.loans
  if !r.1.ok then (r.1, r.2.view) else
  if r.2.shouldSetVariable then
    match r.2.attributes with
    | some attributes => r.2.view.SetVariable attributes
    | none => (Res.Ok, r.2.view)
  else (Res.Ok, r.2.view)

/-- The loop of the legacy payback handler, which builds the `loans` map of the V2 message:
an amount in token 0 is filed under the token named DUSD when that token exists and dropped
otherwise, any other amount is filed under its own token. -/
def legacyLoans (v : View) : List (DCT_ID × CBalances) → CBalances → List (DCT_ID × CBalances)
  | loans, [] => loans
  | loans, balance :: rest =>
    let amounts := addIgnoringResult [] ⟨balance.1, balance.2⟩
    if balance.1 = 0 then
      match v.GetTokenBySymbol "DUSD" with
      | some tokenDUSD => legacyLoans v (mapPut tokenDUSD.1 amounts loans) rest
      | none => legacyLoans v loans rest
    else legacyLoans v (mapPut balance.1 amounts loans) rest

/-- `CLoansConsensus::operator()(const CLoanPaybackLoanMessage&)`: the legacy payback
message, forwarded to the V2 handler. -/
def onLoanPaybackLoanMessage (env : Env) (v : View) (obj : CLoanPaybackLoanMessage) :
    Res × View :=
  onLoanPaybackLoanV2Message env v ⟨obj.vaultId, obj.from_, legacyLoans v [] obj.amounts⟩

end CLoansConsensus

/-! ## Collateralization engine

`CheckCollateralRatio` belongs to the transaction visitor, which is not part of the two handler
files; the handlers take it from `Env`. The definitions below give the computation the
specification describes for it, over the inputs it draws from its own collaborators. -/

/-- The inputs of the collateralization engine: the validated USD price of a token
(`GetValidatedIntervalPrice`, by `useNextPrice` and `requireLivePrice`), the collateral factor
configured for a token, and the interest accrued on the loan of a vault in a token. -/
structure RatioInputs where
  price : DCT_ID → Bool → Bool → ResVal CAmount
  factor : DCT_ID → CAmount
  accruedInterest : View → CVaultId → DCT_ID → CAmount

/-- Modelled from the spec: the USD value of a set of balances (the collaborator that sums
`amount * price * weight` in fixed point is not part of the sources), each amount multiplied by
the price of its token and by a weight; a price that cannot be validated, a product or a sum
beyond the amount range is a failure. -/
def usdValue (price : DCT_ID → ResVal CAmount) (weight : DCT_ID → CAmount) :
    CBalances → ResVal CAmount
  | [] => .ok 0
  | entry :: rest =>
    match price entry.1 with
    | .error r => .error r
    | .ok p =>
      let value := MultiplyAmounts (weight entry.1) (MultiplyAmounts p entry.2)
      if value > MAX_INT64 then .error (Res.ErrMsg "Value/price too high") else
      match usdValue price weight rest with
      | .error r => .error r
      | .ok s => SafeAdd value s

/-- Modelled from the spec: `CheckCollateralRatio` (defined with the transaction visitor, not
part of the sources). The collateral ratio is the USD value of the collateral, weighted by the
collateral factor of each token, divided by the USD value of the outstanding loans with their
accrued interest, in percent; the check fails when it is below the minimum ratio of the scheme.
A vault without loans passes. -/
def specCheckCollateralRatio (inp : RatioInputs) (v : View) (vaultId : CVaultId)
    (scheme : CLoanSchemeData) (collaterals : CBalances)
    (useNextPrice requireLivePrice : Bool) : Res :=
  match usdValue (fun t => inp.price t useNextPrice requireLivePrice) inp.factor collaterals with
  | .error r => r
  | .ok totalCollaterals =>
  let loans := ((v.GetLoanTokens vaultId).getD []).map
    (fun entry => (entry.1, entry.2 + inp.accruedInterest v vaultId entry.1))
  match usdValue (fun t => inp.price t useNextPrice requireLivePrice) (fun _ => COIN) loans with
  | .error r => r
  | .ok totalLoans =>
  if totalLoans ≤ 0 then Res.Ok else
  if totalCollaterals * 100 / totalLoans < (scheme.ratio : Int) then
    Res.ErrMsg "Vault does not have enough collateralization ratio defined by loan scheme"
  else Res.Ok

/-! ## Reference definitions

Definitions that follow the words of the specification, to be compared with the ones taken
from the source. -/

/-- The payback split as the specification words it (not taken from the source, which is
`CLoansConsensus.paybackSplit`): a payback amount below the accrued interest goes to the
interest and reduces no principal; otherwise the interest is paid in full and the remainder
reduces the principal, capped at the outstanding principal. The pair is (applied interest,
applied principal). -/
def specPaybackSplit (paybackAmount accruedInterest outstanding : CAmount) : CAmount × CAmount :=
  if paybackAmount < accruedInterest then (paybackAmount, 0)
  else (accruedInterest, min (paybackAmount - accruedInterest) outstanding)

/-! ## Community balances (`incentivefunding.cpp`) -/

/-- `CommunityAccountType`, by the code `static_cast<unsigned char>(account)` under which the
balance of the account is stored. -/
abbrev CommunityAccountType := Nat

/-- `CCommunityBalancesView`: the `ById` table of the community balances. -/
structure CCommunityBalancesView where
  byId : List (CommunityAccountType × CAmount)
deriving DecidableEq, Repr

namespace CCommunityBalancesView

/-- `CCommunityBalancesView::GetCommunityBalance`: the stored balance, zero when the account
has no record. -/
def GetCommunityBalance (s : CCommunityBalancesView) (account : CommunityAccountType) :
    CAmount :=
  match mapFind account s.byId with
  | some val => val
  | none => 0

/-- `CCommunityBalancesView::SetCommunityBalance`: denies a negative amount, writes any
other. -/
def SetCommunityBalance (s : CCommunityBalancesView) (account : CommunityAccountType)
    (amount : CAmount) : Res × CCommunityBalancesView :=
  if ¬ (amount ≥ 0) then (Res.ErrMsg "negative amount", s) else
  (Res.Ok, { s with byId := mapSet account amount s.byId })

/-- `CCommunityBalancesView::AddCommunityBalance`. -/
def AddCommunityBalance (s : CCommunityBalancesView) (account : CommunityAccountType)
    (amount : CAmount) : Res × CCommunityBalancesView :=
  if amount = 0 then (Res.Ok, s) else
  match SafeAdd amount (s.GetCommunityBalance account) with
  | .error r => (r, s)
  | .ok sum => s.SetCommunityBalance account sum

/-- `CCommunityBalancesView::SubCommunityBalance`. -/
def SubCommunityBalance (s : CCommunityBalancesView) (account : CommunityAccountType)
    (amount : CAmount) : Res × CCommunityBalancesView :=
  if amount = 0 then (Res.Ok, s) else
  if ¬ (amount > 0) then (Res.ErrMsg "negative amount", s) else
  let oldBalance := s.GetCommunityBalance account
  if ¬ (oldBalance ≥ amount) then (Res.ErrMsg "Amount %d is less than %d", s) else
  s.SetCommunityBalance account (oldBalance - amount)

end CCommunityBalancesView

/-! ## Sample contexts and views

Concrete inputs on which the handlers are evaluated. -/

/-- A context at the given height whose collaborators accept everything and change nothing:
the fork heights are 1000 (FortCanningMuseum) and 2000 (FortCanningRoad). -/
def sampleEnv (height : Nat) : Env where
  height := height
  txHash := 77
  vout0 := ⟨0, 200000000⟩
  vaultCreationFee := 200000000
  FortCanningMuseumHeight := 1000
  FortCanningRoadHeight := 2000
  burnAddress := [255]
  CheckCustomTx := Res.Ok
  HasAuth := fun _ => true
  HasFoundationAuth := true
  IsVaultPriceValid := fun _ _ _ => true
  CheckCollateralRatio := fun _ _ _ _ _ _ => Res.Ok
  CalculateOwnerRewards := fun v _ => v.balances
  GetCollateralTokenFromAttributes := fun _ _ => false
  StoreInterest := fun v _ _ _ _ _ => (Res.Ok, v.interestRates)
  EraseInterest := fun v _ _ _ _ _ _ => (Res.Ok, v.interestRates)
  DeleteInterest := fun v _ _ => (Res.Ok, v.interestRates)
  TotalInterest := fun rate _ => rate.interestToHeight
  GetFixedIntervalPrice := fun _ pair => .ok ⟨pair, 0, COIN, COIN⟩
  isLive := fun _ _ => true
  GetValidatedIntervalPrice := fun _ _ _ _ => .ok COIN
  SwapToDFIOverUSD := fun v _ _ _ _ _ => (Res.Ok, v)
  ScriptToString := fun script => toString script

/-- The view with every table empty. -/
def emptyView : View where
  balances := []
  vaults := []
  vaultCollaterals := []
  vaultLoans := []
  loanSchemes := []
  delayedLoanSchemes := []
  defaultLoanScheme := none
  destroyLoanSchemes := []
  auctions := []
  auctionBatches := []
  auctionBids := []
  tokens := []
  loanTokens := []
  interestRates := []
  attributes := none

/-- A view with one vault (id 1, owner `[1]`, scheme `A`) under liquidation: an auction ending
at height 5000 with the given penalty, one batch (index 0) owing `loan` of token 2, the given
current bid, and a bidder `[2]` holding `funds` of token 2. -/
def auctionView (penalty loan : CAmount) (bid : Option (CScript × CTokenAmount))
    (funds : CAmount) : View :=
  { emptyView with
    balances := [(([2], 2), funds)]
    vaults := [(1, ⟨[1], "A", true⟩)]
    vaultCollaterals := [(1, [(0, 500000000)])]
    vaultLoans := [(1, [(2, loan)])]
    loanSchemes := [("A", ⟨150, 5000000⟩)]
    defaultLoanScheme := some "A"
    auctions := [((1, 5000), ⟨1, 5000, penalty⟩)]
    auctionBatches := [((1, 0), ⟨[(0, 500000000)], ⟨2, loan⟩, 0⟩)]
    auctionBids := match bid with
      | some b => [((1, 0), b)]
      | none => [] }

/-- A registry with the scheme `A` (ratio 150, rate 5%) as default and the scheme `B`
(ratio 200, rate 3%), an update of `B` to (ratio 175, rate 2%) queued for height 3000, and
`B` marked for destruction at height 4000 when `marked` is set. -/
def registryView (marked : Bool) : View :=
  { emptyView with
    loanSchemes := [("A", ⟨150, 5000000⟩), ("B", ⟨200, 3000000⟩)]
    delayedLoanSchemes := [(("B", 3000), ⟨175, 2000000, "B", 3000⟩)]
    defaultLoanScheme := some "A"
    destroyLoanSchemes := if marked then [("B", 4000)] else [] }

/-- The registry after three messages on the empty view at height 1500: the scheme `A`
(ratio 150, rate 5%) is created, the scheme `B` (ratio 200, rate 3%) is created, and `B` is
set to be destroyed at height 4000. -/
def reachedRegistryView : View :=
  (CLoansConsensus.onDestroyLoanSchemeMessage (sampleEnv 1500)
    (CLoansConsensus.onLoanSchemeMessage (sampleEnv 1500)
      (CLoansConsensus.onLoanSchemeMessage (sampleEnv 1500) emptyView
        ⟨150, 5000000, "A", 0⟩).2
      ⟨200, 3000000, "B", 0⟩).2
    ⟨"B", 4000⟩).2

/-- A registry without default pointer that holds the scheme `A` (ratio 150, rate 5%), marked
for destruction at height 4000. -/
def unsetDefaultView : View :=
  { emptyView with
    loanSchemes := [("A", ⟨150, 5000000⟩)]
    destroyLoanSchemes := [("A", 4000)] }

/-- The sample auction view with a current bid of 150 by `[3]` on batch 0, in which `[3]`
already holds the largest representable amount of the bid token. -/
def saturatedBidderView : View :=
  { auctionView 5000000 100 (some ([3], ⟨2, 150⟩)) 1000 with
    balances := [(([2], 2), 1000), (([3], 2), MAX_INT64)] }

/-- The sample context at height 1500 with a rewards collaborator that finds 7 units of
token 2 pending for every owner it is asked about and credits them. -/
def rewardingEnv : Env :=
  { sampleEnv 1500 with
    CalculateOwnerRewards := fun v owner => (v.AddBalance owner ⟨2, 7⟩).2.balances }

/-- Collateralization inputs in which every token is priced 1 USD now and at the next
interval, every collateral factor is 1.0 and no interest has accrued. -/
def unitRatioInputs : RatioInputs where
  price := fun _ _ _ => .ok COIN
  factor := fun _ => COIN
  accruedInterest := fun _ _ _ => 0

/-- The sample context at height 1500 with the collateral ratio computed from
`unitRatioInputs`. -/
def scenarioEnv : Env :=
  { sampleEnv 1500 with CheckCollateralRatio := specCheckCollateralRatio unitRatioInputs }

/-- The start of the lending scenario: a collateral token 1 and a mintable loan token 2 are
registered, the owner `[1]` holds 1000 units of token 1, and nothing else exists. -/
def scenarioStart : View :=
  { emptyView with
    balances := [(([1], 1), 100000000000)]
    tokens := [(1, ⟨"COL", "collateral", 0⟩), (2, ⟨"LOAN", "loan", 0⟩)]
    loanTokens := [(2, ⟨"LOAN", "loan", ("LOAN", "USD"), true, 0⟩)] }

/-- The scenario after the scheme `A` (ratio 150, rate 0.1) has been created. -/
def scenarioAfterScheme : View :=
  (CLoansConsensus.onLoanSchemeMessage scenarioEnv scenarioStart ⟨150, 10000000, "A", 0⟩).2

/-- The scenario after the owner `[1]` has created a vault without naming a scheme; its
identifier is the transaction hash 77. -/
def scenarioAfterVault : View :=
  (CVaultsConsensus.onVaultMessage scenarioEnv scenarioAfterScheme ⟨[1], ""⟩).2

/-- The scenario after the deposit of 1000 units of token 1 into the vault. -/
def scenarioAfterDeposit : View :=
  (CVaultsConsensus.onDepositToVaultMessage scenarioEnv scenarioAfterVault
    ⟨77, [1], ⟨1, 100000000000⟩⟩).state

/-- The scenario after a loan of 500 units of token 2 has been taken. -/
def scenarioAfterLoan : View :=
  (CLoansConsensus.onLoanTakeLoanMessage scenarioEnv scenarioAfterDeposit
    ⟨77, [], [(2, 50000000000)]⟩).2

/-- The sample context at height 1500 for a transaction that fails the generic check
`CheckCustomTx()`. -/
def malformedTxEnv : Env :=
  { sampleEnv 1500 with CheckCustomTx := Res.ErrMsg "malformed tx vouts" }

/-- The sample registry (default `A`, second scheme `B`) with three vaults: vault 1 of owner
`[1]` and vault 3 of owner `[3]` on scheme `B`, vault 2 of owner `[2]` on scheme `A`. -/
def vaultsOnSchemesView : View :=
  { registryView false with
    vaults := [(1, ⟨[1], "B", false⟩), (2, ⟨[2], "A", false⟩), (3, ⟨[3], "B", false⟩)] }

/-- The lending scenario after the loan, with two more schemes in the registry: `B` with
minimum ratio 300 and `C` with minimum ratio 175. The vault 77 stands at a ratio of 200%. -/
def scenarioWithSchemes : View :=
  { scenarioAfterLoan with
    loanSchemes := [("A", ⟨150, 10000000⟩), ("B", ⟨300, 20000000⟩), ("C", ⟨175, 30000000⟩)] }

/-- A registry whose default scheme `A` (ratio 150, rate 5%) is marked for destruction at
height 4000. -/
def markedDefaultView : View :=
  { unsetDefaultView with defaultLoanScheme := some "A" }

/-- The lending scenario after the deposit (vault 77 holds 1000 units of token 1 and owes
nothing), in which the address `[5]` already holds the largest representable amount of
token 1. -/
def saturatedRecipientView : View :=
  { scenarioAfterDeposit with balances := [(([5], 1), MAX_INT64)] }

/-- The lending scenario after the loan, prepared for paybacks: the base token 0 (`DFI`) and
the token 3 (`ALT`) are registered next to the tokens of the scenario, the owner `[1]` holds
500 units of each of the tokens 0, 2 and 3, the loan of the vault 77 in token 2 has an
interest record with nothing accrued, and the stored governance attribute set is the given
one. -/
def paybackView (attributes : Option ATTRIBUTES) : View :=
  { scenarioAfterLoan with
    balances := [(([1], 0), 50000000000), (([1], 2), 50000000000), (([1], 3), 50000000000)]
    tokens := [(0, ⟨"DFI", "base", 0⟩), (1, ⟨"COL", "collateral", 0⟩),
      (2, ⟨"LOAN", "loan", 50000000000⟩), (3, ⟨"ALT", "alt", 0⟩)]
    interestRates := [((77, 2), ⟨1500, 1000, 0⟩)]
    attributes := attributes }

/-- An attribute set that switches on the payback of the loan token 2 in the base token and
in the token 3, with no fee configured for either. -/
def paybackSwitchedOn : ATTRIBUTES :=
  [(⟨.Token, .id 2, .token .PaybackDFI, 0⟩, .bool true),
   (⟨.Token, .id 2, .token .LoanPayback, 3⟩, .bool true)]

/-- The scenario context with uneven prices: the token `ALT` is worth 0.5 USD, the token
`LOAN` 1.5 USD and every other token 1 USD. -/
def unevenPriceEnv : Env :=
  { scenarioEnv with
    GetValidatedIntervalPrice := (fun _ pair _ _ =>
      if pair.1 = "ALT" then .ok 50000000
      else if pair.1 = "LOAN" then .ok 150000000
      else .ok COIN) }

/-- The payback view with the pair (loan token 2, payback token 3) switched on, in which the
vault 77 owes 1.00000001 units of the token 2. -/
def dustLoanView : View :=
  { paybackView (some paybackSwitchedOn) with vaultLoans := [(77, [(2, 100000001)])] }

/-- Helpers of `Export` for the evaluation on concrete attribute sets: numbers are written in
decimal, a type identifier of the parameters as `param`, and the parts of a key are joined
by `/`. -/
def sampleExportHelpers : ExportHelpers where
  typeIdText := (fun t => match t with
    | .id n => toString n
    | .param _ => "param")
  keyIdText := (fun n => toString n)
  KeyBuilder := (fun parts => "/".intercalate parts)
  IsExtendedSize := (fun a =>
    decide (a.type = .Token ∧ (a.key = .token .LoanPayback ∨ a.key = .token .LoanPaybackFeePCT)))

/-- The scenario context with an active price of 3 USD and a next price of 1 USD for every
token. -/
def highPriceEnv : Env :=
  { scenarioEnv with
    GetFixedIntervalPrice := (fun _ pair => .ok ⟨pair, 0, 300000000, COIN⟩) }

/-- The scenario context with an active price of 1 USD and a next price of 3 USD for every
token. -/
def highNextPriceEnv : Env :=
  { scenarioEnv with
    GetFixedIntervalPrice := (fun _ pair => .ok ⟨pair, 0, COIN, 300000000⟩) }

/-- The payback view in which the loan token 2 is the token named `DUSD`, with its payback in
the base token switched on. -/
def dusdPaybackView : View :=
  { paybackView (some paybackSwitchedOn) with
    tokens := [(0, ⟨"DFI", "base", 0⟩), (1, ⟨"COL", "collateral", 0⟩),
      (2, ⟨"DUSD", "dusd", 50000000000⟩), (3, ⟨"ALT", "alt", 0⟩)]
    loanTokens := [(2, ⟨"DUSD", "dusd", ("DUSD", "USD"), true, 0⟩)] }

/-- The attribute set `paybackSwitchedOn` with a fee of 5% on the payback of the loan token 2
in the token 3. -/
def paybackWithFee : ATTRIBUTES :=
  paybackSwitchedOn ++ [(⟨.Token, .id 2, .token .LoanPaybackFeePCT, 3⟩, .amount 5000000)]

/-- The lending scenario after the deposit, with a second mintable loan token 4 registered. -/
def twoLoanTokensView : View :=
  { scenarioAfterDeposit with
    tokens := [(1, ⟨"COL", "collateral", 0⟩), (2, ⟨"LOAN", "loan", 0⟩),
      (4, ⟨"LOAN2", "second loan", 0⟩)]
    loanTokens := [(2, ⟨"LOAN", "loan", ("LOAN", "USD"), true, 0⟩),
      (4, ⟨"LOAN2", "second loan", ("LOAN2", "USD"), true, 0⟩)] }

/-! ## Predicates of the properties -/

/-- No two distinct identifiers of the active scheme table carry the same (ratio, rate). -/
def uniqueRatioRate (v : View) : Prop :=
  ∀ (id₁ id₂ : String) (d₁ d₂ : CLoanSchemeData),
    v.GetLoanScheme id₁ = some d₁ → v.GetLoanScheme id₂ = some d₂ →
    d₁.ratio = d₂.ratio → d₁.rate = d₂.rate → id₁ = id₂

/-- The default-scheme pointer, when set, names a scheme that exists in the active table and
is not marked for destruction. -/
def defaultPointerValid (v : View) : Prop :=
  ∀ d : String, v.GetDefaultLoanScheme = some d →
    (v.GetLoanScheme d).isSome = true ∧ v.GetDestroyLoanScheme d = none

/-- The registry holds no scheme and no destruction mark as long as no default is set. -/
def registryEmptyUntilDefault (v : View) : Prop :=
  v.GetDefaultLoanScheme = none →
    ∀ id : String, v.GetLoanScheme id = none ∧ v.GetDestroyLoanScheme id = none

/-- The views whose scheme registry the handlers can have produced: a view whose scheme
table, default pointer and destruction marks are empty; the view a scheme message, a
set-default message or a destroy message hands back on such a view, whether it succeeds or
fails, in any transaction context; and a view that differs from such a view outside the three
tables only, as after the handlers that write no scheme record. The application of the queued
updates and destructions when their height is reached belongs to block processing, outside
these sources. -/
inductive RegistryReachable : View → Prop where
  | empty (v : View) (hs : v.loanSchemes = []) (hd : v.defaultLoanScheme = none)
      (hm : v.destroyLoanSchemes = []) : RegistryReachable v
  | scheme (env : Env) (v : View) (obj : CLoanSchemeMessage) (h : RegistryReachable v) :
      RegistryReachable (CLoansConsensus.onLoanSchemeMessage env v obj).2
  | setDefault (env : Env) (v : View) (obj : CDefaultLoanSchemeMessage)
      (h : RegistryReachable v) :
      RegistryReachable (CLoansConsensus.onDefaultLoanSchemeMessage env v obj).2
  | destroy (env : Env) (v : View) (obj : CDestroyLoanSchemeMessage) (h : RegistryReachable v) :
      RegistryReachable (CLoansConsensus.onDestroyLoanSchemeMessage env v obj).2
  | other (v w : View) (h : RegistryReachable v) (hs : w.loanSchemes = v.loanSchemes)
      (hd : w.defaultLoanScheme = v.defaultLoanScheme)
      (hm : w.destroyLoanSchemes = v.destroyLoanSchemes) : RegistryReachable w

/-- The collateral a vault holds in a token: zero when the vault has no collateral record or
the record has no entry for the token. -/
def View.collateralOf (v : View) (vaultId : CVaultId) (tokenId : DCT_ID) : CAmount :=
  (mapFind tokenId ((v.GetVaultCollaterals vaultId).getD [])).getD 0

/-- Whether the payback of the loan token `loanTokenId` in the token `paybackTokenId` is
switched on in a governance attribute set, which may be absent: the flag `LoanPayback` of the
pair, or the flag `PaybackDFI` of the loan token when the payback token is the base token. -/
def paybackActive (attributes : Option ATTRIBUTES) (loanTokenId paybackTokenId : DCT_ID) :
    Bool :=
  match attributes with
  | none => false
  | some a =>
    if paybackTokenId ≠ 0 then
      a.GetValueBool ⟨.Token, .id loanTokenId, .token .LoanPayback, paybackTokenId⟩ false
    else a.GetValueBool ⟨.Token, .id loanTokenId, .token .PaybackDFI, 0⟩ false

/-- Two attribute sets, each of which may be absent, are both present or both absent and
carry the same values under every key of type `Token`. -/
def sameTokenKeys (x y : Option ATTRIBUTES) : Prop :=
  x.isSome = y.isSome ∧
  ∀ (a b : ATTRIBUTES), x = some a → y = some b →
    ∀ key : CDataStructureV0, key.type = .Token → mapFind key a = mapFind key b

/-- Whether a V2 payback message holds an entry paid in another token than the loan token it
is filed under. -/
def hasCrossTokenEntry (loans : List (DCT_ID × CBalances)) : Bool :=
  loans.any (fun idx => idx.2.any (fun kv => decide (kv.1 ≠ idx.1)))

/-- Every vault of the view `v` is still a vault of the view `w`. -/
def keepsVaults (v w : View) : Prop :=
  ∀ id : CVaultId, (v.GetVault id).isSome = true → (w.GetVault id).isSome = true

/-- Every balance stored in the community table is non-negative. -/
def CCommunityBalancesView.nonNegative (s : CCommunityBalancesView) : Prop :=
  ∀ p ∈ s.byId, 0 ≤ p.2

/-- The condition under which take-loan rejects an amount at a price record: the price is
above `COIN` and the fixed-point product of price and amount is not above the amount. -/
def valueTooHigh (price amount : CAmount) : Prop :=
  price > COIN ∧ ¬ (MultiplyAmounts64 price amount > amount)

instance (price amount : CAmount) : Decidable (valueTooHigh price amount) := by
  unfold valueTooHigh
  infer_instance

/-- The loan a vault owes in a token: zero when the vault has no loan record or the record has
no entry for the token. -/
def View.loanOf (v : View) (vaultId : CVaultId) (tokenId : DCT_ID) : CAmount :=
  (mapFind tokenId ((v.GetLoanTokens vaultId).getD [])).getD 0

/-- The amount a take-loan request asks for in a token: the amounts of the entries that name
the token (at most one, the request being a `std::map`), zero when none does. -/
def requestedOf : CBalances → DCT_ID → CAmount
  | [], _ => 0
  | kv :: rest, tokenId => (if kv.1 = tokenId then kv.2 else 0) + requestedOf rest tokenId

/-! ## Lemmas on the tables -/

@[simp] theorem Res.ErrMsg_ok (m : String) : (Res.ErrMsg m).ok = false := rfl

@[simp] theorem Res.Ok_ok : Res.Ok.ok = true := rfl

theorem mapFind_mapSet_self {κ τ : Type} [DecidableEq κ] (k : κ) (t : τ) (l : List (κ × τ)) :
    mapFind k (mapSet k t l) = some t := by
  induction l with
  | nil => simp [mapSet, mapFind]
  | cons hd tl ih =>
    obtain ⟨k', t'⟩ := hd
    by_cases h : k' = k
    · simp [mapSet, mapFind, h]
    · simp [mapSet, mapFind, h, ih]

theorem mapFind_mapSet_ne {κ τ : Type} [DecidableEq κ] (k k' : κ) (t : τ) (l : List (κ × τ))
    (hne : k' ≠ k) : mapFind k' (mapSet k t l) = mapFind k' l := by
  induction l with
  | nil => simp [mapSet, mapFind, Ne.symm hne]
  | cons hd tl ih =>
    obtain ⟨k₀, t₀⟩ := hd
    by_cases h : k₀ = k
    · subst h
      simp [mapSet, mapFind, Ne.symm hne]
    · by_cases h' : k₀ = k'
      · subst h'
        simp [mapSet, mapFind, h]
      · simp [mapSet, mapFind, h, h', ih]

theorem mapFind_mapErase_self {κ τ : Type} [DecidableEq κ] (k : κ) (l : List (κ × τ)) :
    mapFind k (mapErase k l) = none := by
  induction l with
  | nil => simp [mapErase, mapFind]
  | cons hd tl ih =>
    obtain ⟨k', t'⟩ := hd
    by_cases h : k' = k
    · simp [mapErase, h, ih]
    · simp [mapErase, mapFind, h, ih]

theorem mapFind_mapErase_ne {κ τ : Type} [DecidableEq κ] (k k' : κ) (l : List (κ × τ))
    (hne : k' ≠ k) : mapFind k' (mapErase k l) = mapFind k' l := by
  induction l with
  | nil => simp [mapErase, mapFind]
  | cons hd tl ih =>
    obtain ⟨k₀, t₀⟩ := hd
    by_cases h : k₀ = k
    · subst h
      simp [mapErase, mapFind, Ne.symm hne, ih]
    · by_cases h' : k₀ = k'
      · subst h'
        simp [mapErase, mapFind, h]
      · simp [mapErase, mapFind, h, h', ih]

theorem mapFind_mem {κ τ : Type} [DecidableEq κ] (k : κ) (t : τ) (l : List (κ × τ))
    (h : mapFind k l = some t) : (k, t) ∈ l := by
  induction l with
  | nil => simp [mapFind] at h
  | cons hd tl ih =>
    obtain ⟨k', t'⟩ := hd
    by_cases hk : k' = k
    · simp [mapFind, hk] at h
      simp [hk, h]
    · simp [mapFind, hk] at h
      exact List.mem_cons_of_mem _ (ih h)

/-! ## Lemmas on the ledger -/

theorem GetBalance_SetBalance_self (v : View) (owner : CScript) (amount : CTokenAmount) :
    ((v.SetBalance owner amount).GetBalance owner amount.nTokenId).nValue = amount.nValue := by
  unfold View.SetBalance View.GetBalance
  by_cases h : amount.nValue ≠ 0
  · rw [if_pos h]
    simp [mapFind_mapSet_self]
  · rw [if_neg h]
    simp [mapFind_mapErase_self, not_not.mp h]

theorem GetBalance_SetBalance_ne (v : View) (owner owner' : CScript) (amount : CTokenAmount)
    (tokenId : DCT_ID) (hne : (owner', tokenId) ≠ (owner, amount.nTokenId)) :
    (v.SetBalance owner amount).GetBalance owner' tokenId = v.GetBalance owner' tokenId := by
  unfold View.SetBalance View.GetBalance
  by_cases h : amount.nValue ≠ 0
  · rw [if_pos h]
    simp [mapFind_mapSet_ne _ _ _ _ hne]
  · rw [if_neg h]
    simp [mapFind_mapErase_ne _ _ _ hne]

theorem SetBalance_frame (v : View) (owner : CScript) (amount : CTokenAmount) :
    v.SetBalance owner amount = { v with balances := (v.SetBalance owner amount).balances } := by
  unfold View.SetBalance
  split <;> rfl

/-- A credit writes the balance table only. -/
theorem AddBalance_frame (v : View) (owner : CScript) (amount : CTokenAmount) :
    (v.AddBalance owner amount).2 =
      { v with balances := (v.AddBalance owner amount).2.balances } := by
  unfold View.AddBalance
  split
  · rfl
  · split
    · rfl
    · exact SetBalance_frame _ _ _

/-- A debit writes the balance table only. -/
theorem SubBalance_frame (v : View) (owner : CScript) (amount : CTokenAmount) :
    (v.SubBalance owner amount).2 =
      { v with balances := (v.SubBalance owner amount).2.balances } := by
  unfold View.SubBalance
  split
  · rfl
  · split
    · rfl
    · exact SetBalance_frame _ _ _

theorem CTokenAmount.Add_ok (cur : CTokenAmount) (amount : CAmount) (b : CTokenAmount)
    (h : cur.Add amount = .ok b) : b = ⟨cur.nTokenId, cur.nValue + amount⟩ := by
  unfold CTokenAmount.Add at h
  by_cases h1 : amount < 0
  · rw [if_pos h1] at h
    cases h
  · rw [if_neg h1] at h
    unfold SafeAdd at h
    by_cases h2 : cur.nValue + amount ≤ MAX_INT64 ∧ -MAX_INT64 - 1 ≤ cur.nValue + amount
    · rw [if_pos h2] at h
      cases h
      rfl
    · rw [if_neg h2] at h
      cases h

theorem CTokenAmount.Add_error (cur : CTokenAmount) (amount : CAmount) (r : Res)
    (h : cur.Add amount = .error r) : r.ok = false := by
  unfold CTokenAmount.Add at h
  by_cases h1 : amount < 0
  · rw [if_pos h1] at h
    cases h
    rfl
  · rw [if_neg h1] at h
    unfold SafeAdd at h
    by_cases h2 : cur.nValue + amount ≤ MAX_INT64 ∧ -MAX_INT64 - 1 ≤ cur.nValue + amount
    · rw [if_pos h2] at h
      cases h
    · rw [if_neg h2] at h
      cases h
      rfl

theorem CTokenAmount.Sub_ok (cur : CTokenAmount) (amount : CAmount) (b : CTokenAmount)
    (h : cur.Sub amount = .ok b) : b = ⟨cur.nTokenId, cur.nValue - amount⟩ := by
  unfold CTokenAmount.Sub at h
  by_cases h1 : amount < 0
  · rw [if_pos h1] at h
    cases h
  · rw [if_neg h1] at h
    by_cases h2 : cur.nValue < amount
    · rw [if_pos h2] at h
      cases h
    · rw [if_neg h2] at h
      cases h
      rfl

theorem CTokenAmount.Sub_error (cur : CTokenAmount) (amount : CAmount) (r : Res)
    (h : cur.Sub amount = .error r) : r.ok = false := by
  unfold CTokenAmount.Sub at h
  by_cases h1 : amount < 0
  · rw [if_pos h1] at h
    cases h
    rfl
  · rw [if_neg h1] at h
    by_cases h2 : cur.nValue < amount
    · rw [if_pos h2] at h
      cases h
      rfl
    · rw [if_neg h2] at h
      cases h

/-- A credit leaves every other balance as it was. -/
theorem AddBalance_other (v : View) (owner owner' : CScript) (amount : CTokenAmount)
    (tokenId : DCT_ID) (hne : (owner', tokenId) ≠ (owner, amount.nTokenId)) :
    (v.AddBalance owner amount).2.GetBalance owner' tokenId = v.GetBalance owner' tokenId := by
  unfold View.AddBalance
  by_cases h0 : amount.nValue = 0
  · rw [if_pos h0]
  · rw [if_neg h0]
    cases hadd : (v.GetBalance owner amount.nTokenId).Add amount.nValue with
    | error r => rfl
    | ok b =>
      rw [CTokenAmount.Add_ok _ _ _ hadd]
      exact GetBalance_SetBalance_ne _ _ _ _ _ hne

/-- A debit leaves every other balance as it was. -/
theorem SubBalance_other (v : View) (owner owner' : CScript) (amount : CTokenAmount)
    (tokenId : DCT_ID) (hne : (owner', tokenId) ≠ (owner, amount.nTokenId)) :
    (v.SubBalance owner amount).2.GetBalance owner' tokenId = v.GetBalance owner' tokenId := by
  unfold View.SubBalance
  by_cases h0 : amount.nValue = 0
  · rw [if_pos h0]
  · rw [if_neg h0]
    cases hsub : (v.GetBalance owner amount.nTokenId).Sub amount.nValue with
    | error r => rfl
    | ok b =>
      rw [CTokenAmount.Sub_ok _ _ _ hsub]
      exact GetBalance_SetBalance_ne _ _ _ _ _ hne

/-- A credit that succeeds raises the balance by exactly the amount. -/
theorem AddBalance_balance (v : View) (owner : CScript) (amount : CTokenAmount)
    (hok : (v.AddBalance owner amount).1.ok = true) :
    ((v.AddBalance owner amount).2.GetBalance owner amount.nTokenId).nValue =
      (v.GetBalance owner amount.nTokenId).nValue + amount.nValue := by
  unfold View.AddBalance at hok ⊢
  by_cases h0 : amount.nValue = 0
  · rw [if_pos h0, h0]
    simp
  · rw [if_neg h0] at hok ⊢
    cases hadd : (v.GetBalance owner amount.nTokenId).Add amount.nValue with
    | error r =>
      rw [hadd] at hok
      have := CTokenAmount.Add_error _ _ _ hadd
      simp [this] at hok
    | ok b =>
      rw [CTokenAmount.Add_ok _ _ _ hadd]
      exact GetBalance_SetBalance_self v owner _

/-- A debit that succeeds lowers the balance by exactly the amount. -/
theorem SubBalance_balance (v : View) (owner : CScript) (amount : CTokenAmount)
    (hok : (v.SubBalance owner amount).1.ok = true) :
    ((v.SubBalance owner amount).2.GetBalance owner amount.nTokenId).nValue =
      (v.GetBalance owner amount.nTokenId).nValue - amount.nValue := by
  unfold View.SubBalance at hok ⊢
  by_cases h0 : amount.nValue = 0
  · rw [if_pos h0, h0]
    simp
  · rw [if_neg h0] at hok ⊢
    cases hsub : (v.GetBalance owner amount.nTokenId).Sub amount.nValue with
    | error r =>
      rw [hsub] at hok
      have := CTokenAmount.Sub_error _ _ _ hsub
      simp [this] at hok
    | ok b =>
      rw [CTokenAmount.Sub_ok _ _ _ hsub]
      exact GetBalance_SetBalance_self v owner _

/-- A debit of a non-negative amount that the balance covers succeeds. -/
theorem SubBalance_ok (v : View) (owner : CScript) (amount : CTokenAmount)
    (h0 : 0 ≤ amount.nValue)
    (hfunds : amount.nValue ≤ (v.GetBalance owner amount.nTokenId).nValue) :
    (v.SubBalance owner amount).1.ok = true := by
  unfold View.SubBalance
  split
  · rfl
  · unfold CTokenAmount.Sub
    rw [if_neg (not_lt.mpr h0), if_neg (not_lt.mpr hfunds)]
    rfl

/-! ## Vaults under liquidation -/

/-- C1. A vault under liquidation rejects every deposit, withdraw, take-loan, payback-loan
(legacy and V2), update and close addressed to it: each handler returns a failure and the
returned view is the view it was given. -/
theorem liquidated_vault_rejects_every_operation (env : Env) (v : View) (V : CVaultId)
    (vault : CVaultData) (hV : v.GetVault V = some vault)
    (hL : vault.isUnderLiquidation = true) :
    (∀ obj : CDepositToVaultMessage, obj.vaultId = V →
      ∃ r : Res, CVaultsConsensus.onDepositToVaultMessage env v obj = .returned r v ∧
        r.ok = false) ∧
    (∀ obj : CWithdrawFromVaultMessage, obj.vaultId = V →
      (CVaultsConsensus.onWithdrawFromVaultMessage env v obj).1.ok = false ∧
      (CVaultsConsensus.onWithdrawFromVaultMessage env v obj).2 = v) ∧
    (∀ obj : CLoanTakeLoanMessage, obj.vaultId = V →
      (CLoansConsensus.onLoanTakeLoanMessage env v obj).1.ok = false ∧
      (CLoansConsensus.onLoanTakeLoanMessage env v obj).2 = v) ∧
    (∀ obj : CLoanPaybackLoanMessage, obj.vaultId = V →
      (CLoansConsensus.onLoanPaybackLoanMessage env v obj).1.ok = false ∧
      (CLoansConsensus.onLoanPaybackLoanMessage env v obj).2 = v) ∧
    (∀ obj : CLoanPaybackLoanV2Message, obj.vaultId = V →
      (CLoansConsensus.onLoanPaybackLoanV2Message env v obj).1.ok = false ∧
      (CLoansConsensus.onLoanPaybackLoanV2Message env v obj).2 = v) ∧
    (∀ obj : CUpdateVaultMessage, obj.vaultId = V →
      (CVaultsConsensus.onUpdateVaultMessage env v obj).1.ok = false ∧
      (CVaultsConsensus.onUpdateVaultMessage env v obj).2 = v) ∧
    (∀ obj : CCloseVaultMessage, obj.vaultId = V →
      (CVaultsConsensus.onCloseVaultMessage env v obj).1.ok = false ∧
      (CVaultsConsensus.onCloseVaultMessage env v obj).2 = v) := by
  refine ⟨?_, ?_, ?_, ?_, ?_, ?_, ?_⟩
  · intro obj hobj
    subst hobj
    unfold CVaultsConsensus.onDepositToVaultMessage
    by_cases h1 : env.CheckCustomTx.ok = true
    · rw [if_neg (by simp [h1])]
      by_cases h2 : env.HasAuth obj.from_ = true
      · rw [if_neg (by simp [h2]), hV]
        dsimp only
        rw [if_pos hL]
        exact ⟨_, rfl, rfl⟩
      · rw [if_pos (by simp [h2])]
        exact ⟨_, rfl, rfl⟩
    · rw [if_pos (by simp [h1])]
      exact ⟨_, rfl, by simpa using h1⟩
  · intro obj hobj
    subst hobj
    unfold CVaultsConsensus.onWithdrawFromVaultMessage
    by_cases h1 : env.CheckCustomTx.ok = true <;> simp [h1, hV, hL]
  · intro obj hobj
    subst hobj
    unfold CLoansConsensus.onLoanTakeLoanMessage
    by_cases h1 : env.CheckCustomTx.ok = true <;> simp [h1, hV, hL]
  · intro obj hobj
    subst hobj
    unfold CLoansConsensus.onLoanPaybackLoanMessage CLoansConsensus.onLoanPaybackLoanV2Message
    by_cases h1 : env.CheckCustomTx.ok = true <;> simp [h1, hV, hL]
  · intro obj hobj
    subst hobj
    unfold CLoansConsensus.onLoanPaybackLoanV2Message
    by_cases h1 : env.CheckCustomTx.ok = true <;> simp [h1, hV, hL]
  · intro obj hobj
    subst hobj
    unfold CVaultsConsensus.onUpdateVaultMessage
    by_cases h1 : env.CheckCustomTx.ok = true <;> simp [h1, hV, hL]
  · intro obj hobj
    subst hobj
    unfold CVaultsConsensus.onCloseVaultMessage
    by_cases h1 : env.CheckCustomTx.ok = true <;> simp [h1, hV, hL]

/-- C1, at a concrete input: vault 1 of the sample auction view is under liquidation, and each
of the seven handlers fails on it and hands the view back. -/
theorem liquidated_vault_rejects_every_operation_witness :
    (auctionView 5000000 1000 none 5000).GetVault 1 = some ⟨[1], "A", true⟩ ∧
    (∃ r : Res, CVaultsConsensus.onDepositToVaultMessage (sampleEnv 1500)
        (auctionView 5000000 1000 none 5000) ⟨1, [2], ⟨2, 10⟩⟩
          = .returned r (auctionView 5000000 1000 none 5000) ∧ r.ok = false) ∧
    (CVaultsConsensus.onWithdrawFromVaultMessage (sampleEnv 1500)
        (auctionView 5000000 1000 none 5000) ⟨1, [1], ⟨0, 10⟩⟩).1.ok = false ∧
    (CLoansConsensus.onLoanTakeLoanMessage (sampleEnv 1500)
        (auctionView 5000000 1000 none 5000) ⟨1, [], [(2, 10)]⟩).1.ok = false ∧
    (CLoansConsensus.onLoanPaybackLoanMessage (sampleEnv 1500)
        (auctionView 5000000 1000 none 5000) ⟨1, [2], [(2, 10)]⟩).1.ok = false ∧
    (CLoansConsensus.onLoanPaybackLoanV2Message (sampleEnv 1500)
        (auctionView 5000000 1000 none 5000) ⟨1, [2], [(2, [(2, 10)])]⟩).1.ok = false ∧
    (CVaultsConsensus.onUpdateVaultMessage (sampleEnv 1500)
        (auctionView 5000000 1000 none 5000) ⟨1, [1], "A"⟩).1.ok = false ∧
    (CVaultsConsensus.onCloseVaultMessage (sampleEnv 1500)
        (auctionView 5000000 1000 none 5000) ⟨1, [1]⟩).2 = auctionView 5000000 1000 none 5000 :=
  have h := liquidated_vault_rejects_every_operation (sampleEnv 1500)
    (auctionView 5000000 1000 none 5000) 1 ⟨[1], "A", true⟩ (by decide) rfl
  ⟨by decide, h.1 _ rfl, (h.2.1 _ rfl).1, (h.2.2.1 _ rfl).1, (h.2.2.2.1 _ rfl).1,
    (h.2.2.2.2.1 _ rfl).1, (h.2.2.2.2.2.1 _ rfl).1, (h.2.2.2.2.2.2 _ rfl).2⟩

/-! ## The payback split -/

/-- C2. The split of a payback amount computed by the V2 payback handler: for a non-negative
outstanding principal (and every payback amount and accrued interest, non-negative ones
included) the applied interest and principal add up to at most the payback amount, the applied
principal is at most the outstanding principal, and a payback amount below the accrued interest
applies no principal. -/
theorem payback_split_bounds (paybackAmount accruedInterest outstanding : CAmount)
    (hL : 0 ≤ outstanding) :
    (CLoansConsensus.paybackSplit paybackAmount accruedInterest outstanding).1 +
        (CLoansConsensus.paybackSplit paybackAmount accruedInterest outstanding).2
      ≤ paybackAmount ∧
    (CLoansConsensus.paybackSplit paybackAmount accruedInterest outstanding).2 ≤ outstanding ∧
    (paybackAmount < accruedInterest →
      (CLoansConsensus.paybackSplit paybackAmount accruedInterest outstanding).2 = 0) := by
  simp only [CLoansConsensus.paybackSplit]
  by_cases h1 : paybackAmount < accruedInterest
  · simp [h1, hL]
  · rw [if_neg h1]
    by_cases h2 : outstanding - (paybackAmount - accruedInterest) < 0
    · rw [if_pos h2]
      simp only [CAmount] at *
      exact ⟨by omega, le_refl _, fun h => absurd h h1⟩
    · rw [if_neg h2]
      simp only [CAmount] at *
      exact ⟨by omega, by omega, fun h => absurd h h1⟩

/-- C2, at a concrete input: paying 70 against 30 of interest and 25 of principal applies
30 of interest and 25 of principal. -/
theorem payback_split_bounds_witness :
    (0 : CAmount) ≤ 25 ∧
    (CLoansConsensus.paybackSplit 70 30 25).1 + (CLoansConsensus.paybackSplit 70 30 25).2 ≤ 70 ∧
    (CLoansConsensus.paybackSplit 70 30 25).2 ≤ 25 ∧
    ((70 : CAmount) < 30 → (CLoansConsensus.paybackSplit 70 30 25).2 = 0) :=
  ⟨by decide, payback_split_bounds 70 30 25 (by decide)⟩

/-! ## The loan-scheme registry -/

/-- The two outcomes of a scheme message: it fails and hands the view back, or it has passed
every check (in particular no active and no delayed scheme carries its (ratio, rate)) and
returns the result of the store it ends with: the message queued in the delayed table when its
update height is a later height, the scheme written otherwise (after the default pointer was
set when there was none). -/
theorem onLoanSchemeMessage_cases (env : Env) (v : View) (obj : CLoanSchemeMessage) :
    ((CLoansConsensus.onLoanSchemeMessage env v obj).1.ok = false ∧
      (CLoansConsensus.onLoanSchemeMessage env v obj).2 = v) ∨
    ((env.CheckCustomTx.ok = true ∧ env.HasFoundationAuth = true ∧ obj.ratio ≥ 100 ∧
        obj.rate ≥ 1000000 ∧ (obj.identifier ≠ "" ∧ obj.identifier.utf8ByteSize ≤ 8) ∧
        CLoansConsensus.findDuplicateScheme v obj = none ∧
        CLoansConsensus.findDuplicateDelayed v obj = none ∧
        ¬ ((v.GetLoanScheme obj.identifier).isSome = true ∧ obj.updateHeight = 0) ∧
        ¬ ((v.GetLoanScheme obj.identifier).isNone = true ∧ obj.updateHeight ≠ 0)) ∧
      (((obj.updateHeight ≠ 0 ∧ obj.updateHeight ≠ CLoansConsensus.UINT64_MAX
            ∧ obj.updateHeight ≠ env.height) ∧ obj.updateHeight ≥ env.height ∧
          CLoansConsensus.onLoanSchemeMessage env v obj = v.StoreDelayedLoanScheme obj) ∨
        (¬ (obj.updateHeight ≠ 0 ∧ obj.updateHeight ≠ CLoansConsensus.UINT64_MAX
            ∧ obj.updateHeight ≠ env.height) ∧
          CLoansConsensus.onLoanSchemeMessage env v obj =
            (if v.GetDefaultLoanScheme.isNone then (v.StoreDefaultLoanScheme obj.identifier).2
              else v).StoreLoanScheme obj))) := by
  unfold CLoansConsensus.onLoanSchemeMessage
  by_cases h1 : (!env.CheckCustomTx.ok) = true
  · rw [if_pos h1]
    simp at h1
    exact Or.inl ⟨h1, rfl⟩
  rw [if_neg h1]
  by_cases h2 : (!env.HasFoundationAuth) = true
  · rw [if_pos h2]
    exact Or.inl ⟨rfl, rfl⟩
  rw [if_neg h2]
  by_cases h3 : ¬ (obj.ratio ≥ 100)
  · rw [if_pos h3]
    exact Or.inl ⟨rfl, rfl⟩
  rw [if_neg h3]
  by_cases h4 : ¬ (obj.rate ≥ 1000000)
  · rw [if_pos h4]
    exact Or.inl ⟨rfl, rfl⟩
  rw [if_neg h4]
  by_cases h5 : ¬ (obj.identifier ≠ "" ∧ obj.identifier.utf8ByteSize ≤ 8)
  · rw [if_pos h5]
    exact Or.inl ⟨rfl, rfl⟩
  rw [if_neg h5]
  cases h6 : CLoansConsensus.findDuplicateScheme v obj with
  | some dup => exact Or.inl ⟨rfl, rfl⟩
  | none =>
  cases h7 : CLoansConsensus.findDuplicateDelayed v obj with
  | some dup => exact Or.inl ⟨rfl, rfl⟩
  | none =>
  dsimp only
  by_cases h8 : (v.GetLoanScheme obj.identifier).isSome = true ∧ obj.updateHeight = 0
  · rw [if_pos h8]
    exact Or.inl ⟨rfl, rfl⟩
  rw [if_neg h8]
  by_cases h9 : (v.GetLoanScheme obj.identifier).isNone = true ∧ obj.updateHeight ≠ 0
  · rw [if_pos h9]
    exact Or.inl ⟨rfl, rfl⟩
  rw [if_neg h9]
  have hpass : env.CheckCustomTx.ok = true ∧ env.HasFoundationAuth = true ∧ obj.ratio ≥ 100 ∧
      obj.rate ≥ 1000000 ∧ (obj.identifier ≠ "" ∧ obj.identifier.utf8ByteSize ≤ 8) ∧
      (none : Option (String × CLoanSchemeData)) = none ∧
      (none : Option ((String × Nat) × CLoanSchemeMessage)) = none ∧
      ¬ ((v.GetLoanScheme obj.identifier).isSome = true ∧ obj.updateHeight = 0) ∧
      ¬ ((v.GetLoanScheme obj.identifier).isNone = true ∧ obj.updateHeight ≠ 0) :=
    ⟨by simpa using h1, by simpa using h2, not_not.mp h3, not_not.mp h4, not_not.mp h5,
      rfl, rfl, h8, h9⟩
  by_cases h10 : obj.updateHeight ≠ 0 ∧ obj.updateHeight ≠ CLoansConsensus.UINT64_MAX
      ∧ obj.updateHeight ≠ env.height
  · rw [if_pos h10]
    by_cases h11 : ¬ (obj.updateHeight ≥ env.height)
    · rw [if_pos h11]
      exact Or.inl ⟨rfl, rfl⟩
    · rw [if_neg h11]
      exact Or.inr ⟨hpass, Or.inl ⟨h10, not_not.mp h11, rfl⟩⟩
  · rw [if_neg h10]
    exact Or.inr ⟨hpass, Or.inr ⟨h10, rfl⟩⟩

/-- A scheme of the active table that carries the (ratio, rate) of the message is found by the
first scan of the scheme handler. -/
theorem findDuplicateScheme_of_active (v : View) (obj : CLoanSchemeMessage) (id : String)
    (d : CLoanSchemeData) (hd : v.GetLoanScheme id = some d) (h1 : d.ratio = obj.ratio)
    (h2 : d.rate = obj.rate) : CLoansConsensus.findDuplicateScheme v obj ≠ none := by
  intro hnone
  have hmem : (id, d) ∈ v.loanSchemes := mapFind_mem id d v.loanSchemes hd
  have := List.find?_eq_none.mp hnone (id, d) hmem
  simp [h1, h2] at this

/-- A scheme of the delayed table that carries the (ratio, rate) of the message is found by the
second scan of the scheme handler. -/
theorem findDuplicateDelayed_of_pending (v : View) (obj : CLoanSchemeMessage)
    (key : String × Nat) (m : CLoanSchemeMessage) (hm : (key, m) ∈ v.delayedLoanSchemes)
    (h1 : m.ratio = obj.ratio) (h2 : m.rate = obj.rate) :
    CLoansConsensus.findDuplicateDelayed v obj ≠ none := by
  intro hnone
  have := List.find?_eq_none.mp hnone (key, m) hm
  simp [h1, h2] at this

/-- Writing a (ratio, rate) that no active scheme carries keeps the (ratio, rate) of the active
table unique. -/
theorem uniqueRatioRate_store (v w : View) (obj : CLoanSchemeMessage)
    (hU : uniqueRatioRate v) (hnone : CLoansConsensus.findDuplicateScheme v obj = none)
    (hw : w.loanSchemes = mapSet obj.identifier obj.data v.loanSchemes) :
    uniqueRatioRate w := by
  have hfresh : ∀ (id : String) (d : CLoanSchemeData), v.GetLoanScheme id = some d →
      d.ratio = obj.ratio → d.rate = obj.rate → False := fun id d hd h1 h2 =>
    findDuplicateScheme_of_active v obj id d hd h1 h2 hnone
  intro id₁ id₂ d₁ d₂ h₁ h₂ hr ht
  unfold View.GetLoanScheme at h₁ h₂
  rw [hw] at h₁ h₂
  by_cases e₁ : id₁ = obj.identifier
  · by_cases e₂ : id₂ = obj.identifier
    · rw [e₁, e₂]
    · exfalso
      rw [e₁, mapFind_mapSet_self] at h₁
      rw [mapFind_mapSet_ne _ _ _ _ e₂] at h₂
      have hd₁ : d₁ = obj.data := (Option.some.inj h₁).symm
      subst hd₁
      exact hfresh id₂ d₂ h₂ hr.symm ht.symm
  · by_cases e₂ : id₂ = obj.identifier
    · exfalso
      rw [e₂, mapFind_mapSet_self] at h₂
      rw [mapFind_mapSet_ne _ _ _ _ e₁] at h₁
      have hd₂ : d₂ = obj.data := (Option.some.inj h₂).symm
      subst hd₂
      exact hfresh id₁ d₁ h₁ hr ht
    · rw [mapFind_mapSet_ne _ _ _ _ e₁] at h₁
      rw [mapFind_mapSet_ne _ _ _ _ e₂] at h₂
      exact hU id₁ id₂ d₁ d₂ h₁ h₂ hr ht

/-- C3. The scheme handler keeps the (ratio, rate) of the active schemes unique: when no two
distinct identifiers of the active table share a (ratio, rate) before a scheme message, none do
after it succeeds; and the message is rejected, the view untouched, whenever an active scheme
or a pending delayed scheme carries exactly its (ratio, rate). -/
theorem scheme_message_keeps_ratio_rate_unique (env : Env) (v : View)
    (obj : CLoanSchemeMessage) :
    (uniqueRatioRate v → (CLoansConsensus.onLoanSchemeMessage env v obj).1.ok = true →
      uniqueRatioRate (CLoansConsensus.onLoanSchemeMessage env v obj).2) ∧
    (∀ (id : String) (d : CLoanSchemeData), v.GetLoanScheme id = some d →
      d.ratio = obj.ratio → d.rate = obj.rate →
      (CLoansConsensus.onLoanSchemeMessage env v obj).1.ok = false ∧
      (CLoansConsensus.onLoanSchemeMessage env v obj).2 = v) ∧
    (∀ (key : String × Nat) (m : CLoanSchemeMessage), (key, m) ∈ v.delayedLoanSchemes →
      m.ratio = obj.ratio → m.rate = obj.rate →
      (CLoansConsensus.onLoanSchemeMessage env v obj).1.ok = false ∧
      (CLoansConsensus.onLoanSchemeMessage env v obj).2 = v) := by
  rcases onLoanSchemeMessage_cases env v obj with hfail | ⟨hpass, hstore⟩
  · refine ⟨fun _ hok => ?_, fun _ _ _ _ _ => hfail, fun _ _ _ _ _ => hfail⟩
    rw [hfail.1] at hok
    exact absurd hok (by decide)
  · obtain ⟨-, -, -, -, -, hnoA, hnoD, -, -⟩ := hpass
    refine ⟨fun hU _ => ?_, fun id d hd h1 h2 => ?_, fun key m hm h1 h2 => ?_⟩
    · rcases hstore with ⟨-, -, hres⟩ | ⟨-, hres⟩
      · rw [hres]
        exact hU
      · rw [hres]
        refine uniqueRatioRate_store v _ obj hU hnoA ?_
        by_cases hdef : v.GetDefaultLoanScheme.isNone = true
        · simp [hdef, View.StoreLoanScheme, View.StoreDefaultLoanScheme]
        · simp [hdef, View.StoreLoanScheme]
    · exact absurd hnoA (findDuplicateScheme_of_active v obj id d hd h1 h2)
    · exact absurd hnoD (findDuplicateDelayed_of_pending v obj key m hm h1 h2)

/-- C3, at a concrete input: in the sample registry (schemes `A` and `B`, unique) the creation
of `C` with a fresh (ratio, rate) succeeds and keeps the table unique, a scheme `D` with the
(ratio, rate) of `A` is rejected, and so is a scheme `E` with the (ratio, rate) queued for
`B`. -/
theorem scheme_message_keeps_ratio_rate_unique_witness :
    uniqueRatioRate (registryView false) ∧
    (CLoansConsensus.onLoanSchemeMessage (sampleEnv 1500) (registryView false)
      ⟨300, 4000000, "C", 0⟩).1.ok = true ∧
    uniqueRatioRate (CLoansConsensus.onLoanSchemeMessage (sampleEnv 1500) (registryView false)
      ⟨300, 4000000, "C", 0⟩).2 ∧
    (CLoansConsensus.onLoanSchemeMessage (sampleEnv 1500) (registryView false)
      ⟨150, 5000000, "D", 0⟩).1.ok = false ∧
    (CLoansConsensus.onLoanSchemeMessage (sampleEnv 1500) (registryView false)
      ⟨175, 2000000, "E", 0⟩).1.ok = false :=
  have hU : uniqueRatioRate (registryView false) := by
    intro id₁ id₂ d₁ d₂ h₁ h₂ hr ht
    have key : ∀ (id : String) (d : CLoanSchemeData),
        (registryView false).GetLoanScheme id = some d →
        (id = "A" ∧ d = ⟨150, 5000000⟩) ∨ (id = "B" ∧ d = ⟨200, 3000000⟩) := by
      intro id d h
      simp only [View.GetLoanScheme, registryView, emptyView, mapFind] at h
      split at h
      · exact Or.inl ⟨by subst_vars; rfl, (Option.some.inj h).symm⟩
      · split at h
        · exact Or.inr ⟨by subst_vars; rfl, (Option.some.inj h).symm⟩
        · exact absurd h (by simp)
    rcases key id₁ d₁ h₁ with ⟨e₁, f₁⟩ | ⟨e₁, f₁⟩ <;>
      rcases key id₂ d₂ h₂ with ⟨e₂, f₂⟩ | ⟨e₂, f₂⟩ <;> subst e₁ f₁ e₂ f₂
    · rfl
    · exact absurd hr (by decide)
    · exact absurd hr (by decide)
    · rfl
  ⟨hU, by decide,
    (scheme_message_keeps_ratio_rate_unique (sampleEnv 1500) (registryView false)
      ⟨300, 4000000, "C", 0⟩).1 hU (by decide),
    ((scheme_message_keeps_ratio_rate_unique (sampleEnv 1500) (registryView false)
      ⟨150, 5000000, "D", 0⟩).2.1 "A" ⟨150, 5000000⟩ (by decide) rfl rfl).1,
    ((scheme_message_keeps_ratio_rate_unique (sampleEnv 1500) (registryView false)
      ⟨175, 2000000, "E", 0⟩).2.2 ("B", 3000) ⟨175, 2000000, "B", 3000⟩ (by decide) rfl rfl).1⟩

/-- The two outcomes of a set-default message: it fails and hands the view back, or the
scheme exists, is not the default, is not marked for destruction, and the default pointer is
written. -/
theorem onDefaultLoanSchemeMessage_cases (env : Env) (v : View)
    (obj : CDefaultLoanSchemeMessage) :
    ((CLoansConsensus.onDefaultLoanSchemeMessage env v obj).1.ok = false ∧
      (CLoansConsensus.onDefaultLoanSchemeMessage env v obj).2 = v) ∨
    (env.CheckCustomTx.ok = true ∧ env.HasFoundationAuth = true ∧
      (obj.identifier ≠ "" ∧ obj.identifier.utf8ByteSize ≤ 8) ∧
      (v.GetLoanScheme obj.identifier).isSome = true ∧
      v.GetDefaultLoanScheme ≠ some obj.identifier ∧
      v.GetDestroyLoanScheme obj.identifier = none ∧
      CLoansConsensus.onDefaultLoanSchemeMessage env v obj =
        v.StoreDefaultLoanScheme obj.identifier) := by
  unfold CLoansConsensus.onDefaultLoanSchemeMessage
  by_cases h1 : (!env.CheckCustomTx.ok) = true
  · rw [if_pos h1]
    simp at h1
    exact Or.inl ⟨h1, rfl⟩
  rw [if_neg h1]
  by_cases h2 : (!env.HasFoundationAuth) = true
  · rw [if_pos h2]
    exact Or.inl ⟨rfl, rfl⟩
  rw [if_neg h2]
  by_cases h3 : ¬ (obj.identifier ≠ "" ∧ obj.identifier.utf8ByteSize ≤ 8)
  · rw [if_pos h3]
    exact Or.inl ⟨rfl, rfl⟩
  rw [if_neg h3]
  by_cases h4 : (v.GetLoanScheme obj.identifier).isNone = true
  · rw [if_pos h4]
    exact Or.inl ⟨rfl, rfl⟩
  rw [if_neg h4]
  by_cases h5 : ¬ (v.GetDefaultLoanScheme = none ∨ v.GetDefaultLoanScheme ≠ some obj.identifier)
  · rw [if_pos h5]
    exact Or.inl ⟨rfl, rfl⟩
  rw [if_neg h5]
  by_cases h6 : (v.GetDestroyLoanScheme obj.identifier).isSome = true
  · rw [if_pos h6]
    exact Or.inl ⟨rfl, rfl⟩
  rw [if_neg h6]
  refine Or.inr ⟨by simpa using h1, by simpa using h2, not_not.mp h3, ?_, ?_, ?_, rfl⟩
  · simpa [Option.isNone_iff_eq_none, Option.isSome_iff_ne_none] using h4
  · rcases not_not.mp h5 with h | h
    · rw [h]
      exact fun hc => Option.noConfusion hc
    · exact h
  · simpa using h6

/-- The `ForEachVault` pass of the destroy handler writes the vault table only. -/
theorem foldl_reassignVault_frame (id : String) (l : List (CVaultId × CVaultData)) (acc : View) :
    l.foldl (CLoansConsensus.reassignVault id) acc =
      { acc with vaults := (l.foldl (CLoansConsensus.reassignVault id) acc).vaults } := by
  induction l generalizing acc with
  | nil => rfl
  | cons hd tl ih =>
    rw [List.foldl_cons, ih]
    have hstep : CLoansConsensus.reassignVault id acc hd =
        { acc with vaults := (CLoansConsensus.reassignVault id acc hd).vaults } := by
      unfold CLoansConsensus.reassignVault
      split <;> rfl
    rw [hstep]

/-- The two outcomes of a destroy message: it fails and hands the view back, or the scheme
exists, is not the default, and the view is the one with the scheme marked for destruction (a
later height given) or the one with the vaults reassigned and the scheme erased. -/
theorem onDestroyLoanSchemeMessage_cases (env : Env) (v : View)
    (obj : CDestroyLoanSchemeMessage) :
    ((CLoansConsensus.onDestroyLoanSchemeMessage env v obj).1.ok = false ∧
      (CLoansConsensus.onDestroyLoanSchemeMessage env v obj).2 = v) ∨
    (env.CheckCustomTx.ok = true ∧ env.HasFoundationAuth = true ∧
      (obj.identifier ≠ "" ∧ obj.identifier.utf8ByteSize ≤ 8) ∧
      (v.GetLoanScheme obj.identifier).isSome = true ∧
      v.GetDefaultLoanScheme ≠ some obj.identifier ∧
      (((obj.destroyHeight ≠ 0 ∧ obj.destroyHeight ≠ env.height) ∧
          obj.destroyHeight ≥ env.height ∧
          CLoansConsensus.onDestroyLoanSchemeMessage env v obj =
            v.StoreDelayedDestroyScheme obj) ∨
        (¬ (obj.destroyHeight ≠ 0 ∧ obj.destroyHeight ≠ env.height) ∧
          CLoansConsensus.onDestroyLoanSchemeMessage env v obj =
            (v.vaults.foldl (CLoansConsensus.reassignVault obj.identifier) v).EraseLoanScheme
              obj.identifier))) := by
  unfold CLoansConsensus.onDestroyLoanSchemeMessage
  by_cases h1 : (!env.CheckCustomTx.ok) = true
  · rw [if_pos h1]
    simp at h1
    exact Or.inl ⟨h1, rfl⟩
  rw [if_neg h1]
  by_cases h2 : (!env.HasFoundationAuth) = true
  · rw [if_pos h2]
    exact Or.inl ⟨rfl, rfl⟩
  rw [if_neg h2]
  by_cases h3 : ¬ (obj.identifier ≠ "" ∧ obj.identifier.utf8ByteSize ≤ 8)
  · rw [if_pos h3]
    exact Or.inl ⟨rfl, rfl⟩
  rw [if_neg h3]
  by_cases h4 : (v.GetLoanScheme obj.identifier).isNone = true
  · rw [if_pos h4]
    exact Or.inl ⟨rfl, rfl⟩
  rw [if_neg h4]
  by_cases h5 : ¬ (v.GetDefaultLoanScheme = none ∨ v.GetDefaultLoanScheme ≠ some obj.identifier)
  · rw [if_pos h5]
    exact Or.inl ⟨rfl, rfl⟩
  rw [if_neg h5]
  have hne : v.GetDefaultLoanScheme ≠ some obj.identifier := by
    rcases not_not.mp h5 with h | h
    · rw [h]
      exact fun hc => Option.noConfusion hc
    · exact h
  have hex : (v.GetLoanScheme obj.identifier).isSome = true := by
    simpa [Option.isNone_iff_eq_none, Option.isSome_iff_ne_none] using h4
  by_cases h6 : obj.destroyHeight ≠ 0 ∧ obj.destroyHeight ≠ env.height
  · rw [if_pos h6]
    by_cases h7 : ¬ (obj.destroyHeight ≥ env.height)
    · rw [if_pos h7]
      exact Or.inl ⟨rfl, rfl⟩
    · rw [if_neg h7]
      exact Or.inr ⟨by simpa using h1, by simpa using h2, not_not.mp h3, hex, hne,
        Or.inl ⟨h6, not_not.mp h7, rfl⟩⟩
  · rw [if_neg h6]
    exact Or.inr ⟨by simpa using h1, by simpa using h2, not_not.mp h3, hex, hne,
      Or.inr ⟨h6, rfl⟩⟩

/-- One step of the registry on a valid default pointer. When the default pointer, if set,
names a scheme that exists and is not marked for destruction, the same holds after a scheme
message (provided that, when no default is set, the identifier of the message is not marked),
after a set-default message and after a destroy message; and none of the three unsets a
default that is set. -/
theorem registry_step_pointer (env : Env) (v : View) (hV : defaultPointerValid v) :
    (∀ obj : CLoanSchemeMessage,
      (v.GetDefaultLoanScheme = none → v.GetDestroyLoanScheme obj.identifier = none) →
      defaultPointerValid (CLoansConsensus.onLoanSchemeMessage env v obj).2) ∧
    (∀ obj : CDefaultLoanSchemeMessage,
      defaultPointerValid (CLoansConsensus.onDefaultLoanSchemeMessage env v obj).2) ∧
    (∀ obj : CDestroyLoanSchemeMessage,
      defaultPointerValid (CLoansConsensus.onDestroyLoanSchemeMessage env v obj).2) ∧
    (v.GetDefaultLoanScheme.isSome = true →
      (∀ obj : CLoanSchemeMessage,
        (CLoansConsensus.onLoanSchemeMessage env v obj).2.GetDefaultLoanScheme.isSome = true) ∧
      (∀ obj : CDefaultLoanSchemeMessage,
        (CLoansConsensus.onDefaultLoanSchemeMessage env v obj).2.GetDefaultLoanScheme.isSome
          = true) ∧
      (∀ obj : CDestroyLoanSchemeMessage,
        (CLoansConsensus.onDestroyLoanSchemeMessage env v obj).2.GetDefaultLoanScheme.isSome
          = true)) := by
  refine ⟨?_, ?_, ?_, ?_⟩
  · intro obj hmark
    rcases onLoanSchemeMessage_cases env v obj with hfail | ⟨-, hstore⟩
    · rw [hfail.2]
      exact hV
    · rcases hstore with ⟨-, -, hres⟩ | ⟨-, hres⟩
      · rw [hres]
        exact hV
      · rw [hres]
        intro d hd
        cases hdef : v.defaultLoanScheme with
        | none =>
          have hd' : d = obj.identifier := by
            simpa [View.GetDefaultLoanScheme, View.StoreLoanScheme,
              View.StoreDefaultLoanScheme, hdef, eq_comm] using hd
          subst hd'
          refine ⟨?_, ?_⟩
          · simp [View.GetLoanScheme, View.GetDefaultLoanScheme, View.StoreLoanScheme,
              View.StoreDefaultLoanScheme, hdef, mapFind_mapSet_self]
          · simpa [View.GetDestroyLoanScheme, View.GetDefaultLoanScheme, View.StoreLoanScheme,
              View.StoreDefaultLoanScheme, hdef] using hmark hdef
        | some d₀ =>
          have hd' : d₀ = d := by
            simpa [View.GetDefaultLoanScheme, View.StoreLoanScheme, hdef] using hd
          subst hd'
          obtain ⟨hex, hnm⟩ := hV d₀ hdef
          refine ⟨?_, ?_⟩
          · by_cases e : d₀ = obj.identifier
            · simp [View.GetLoanScheme, View.GetDefaultLoanScheme, View.StoreLoanScheme, hdef,
                e, mapFind_mapSet_self]
            · simpa [View.GetLoanScheme, View.GetDefaultLoanScheme, View.StoreLoanScheme, hdef,
                mapFind_mapSet_ne _ _ _ _ e] using hex
          · simpa [View.GetDestroyLoanScheme, View.GetDefaultLoanScheme, View.StoreLoanScheme,
              hdef] using hnm
  · intro obj
    rcases onDefaultLoanSchemeMessage_cases env v obj with hfail | ⟨-, -, -, hex, -, hnm, hres⟩
    · rw [hfail.2]
      exact hV
    · rw [hres]
      intro d hd
      have hd' : d = obj.identifier := by
        simpa [View.GetDefaultLoanScheme, View.StoreDefaultLoanScheme, eq_comm] using hd
      subst hd'
      exact ⟨hex, hnm⟩
  · intro obj
    rcases onDestroyLoanSchemeMessage_cases env v obj with hfail | ⟨-, -, -, -, hne, hstore⟩
    · rw [hfail.2]
      exact hV
    · rcases hstore with ⟨-, -, hres⟩ | ⟨-, hres⟩
      · rw [hres]
        intro d hd
        have hd₀ : v.GetDefaultLoanScheme = some d := hd
        obtain ⟨hex, hnm⟩ := hV d hd₀
        have e : d ≠ obj.identifier := fun e => hne (e ▸ hd₀)
        refine ⟨hex, ?_⟩
        simpa [View.GetDestroyLoanScheme, View.StoreDelayedDestroyScheme,
          mapFind_mapSet_ne _ _ _ _ e] using hnm
      · rw [hres, foldl_reassignVault_frame]
        intro d hd
        have hd₀ : v.GetDefaultLoanScheme = some d := hd
        obtain ⟨hex, hnm⟩ := hV d hd₀
        have e : d ≠ obj.identifier := fun e => hne (e ▸ hd₀)
        refine ⟨?_, hnm⟩
        simpa [View.GetLoanScheme, View.EraseLoanScheme, mapFind_mapErase_ne _ _ _ e] using hex
  · intro hset
    refine ⟨fun obj => ?_, fun obj => ?_, fun obj => ?_⟩
    · rcases onLoanSchemeMessage_cases env v obj with hfail | ⟨-, hstore⟩
      · rw [hfail.2]
        exact hset
      · rcases hstore with ⟨-, -, hres⟩ | ⟨-, hres⟩
        · rw [hres]
          exact hset
        · rw [hres]
          have hnn : v.GetDefaultLoanScheme.isNone = false := by
            cases hd : v.GetDefaultLoanScheme with
            | none => rw [hd] at hset; exact absurd hset (by decide)
            | some d => rfl
          rw [hnn]
          exact hset
    · rcases onDefaultLoanSchemeMessage_cases env v obj with hfail | ⟨-, -, -, -, -, -, hres⟩
      · rw [hfail.2]
        exact hset
      · rw [hres]
        rfl
    · rcases onDestroyLoanSchemeMessage_cases env v obj with hfail | ⟨-, -, -, -, -, hstore⟩
      · rw [hfail.2]
        exact hset
      · rcases hstore with ⟨-, -, hres⟩ | ⟨-, hres⟩
        · rw [hres]
          exact hset
        · rw [hres, foldl_reassignVault_frame]
          exact hset

/-- A scheme message leaves a registry that holds nothing until a default is set in that
state: it hands the view back, queues the update, or writes the scheme with a default set. -/
theorem onLoanSchemeMessage_emptyUntilDefault (env : Env) (v : View)
    (obj : CLoanSchemeMessage) (hK : registryEmptyUntilDefault v) :
    registryEmptyUntilDefault (CLoansConsensus.onLoanSchemeMessage env v obj).2 := by
  rcases onLoanSchemeMessage_cases env v obj with hfail | ⟨-, hstore⟩
  · rw [hfail.2]
    exact hK
  · rcases hstore with ⟨-, -, hres⟩ | ⟨-, hres⟩
    · rw [hres]
      exact hK
    · rw [hres]
      intro hnone
      cases hdef : v.defaultLoanScheme with
      | none =>
        simp [View.GetDefaultLoanScheme, View.StoreLoanScheme, View.StoreDefaultLoanScheme,
          hdef] at hnone
      | some d =>
        simp [View.GetDefaultLoanScheme, View.StoreLoanScheme, View.StoreDefaultLoanScheme,
          hdef] at hnone

/-- A set-default message leaves a registry that holds nothing until a default is set in that
state. -/
theorem onDefaultLoanSchemeMessage_emptyUntilDefault (env : Env) (v : View)
    (obj : CDefaultLoanSchemeMessage) (hK : registryEmptyUntilDefault v) :
    registryEmptyUntilDefault (CLoansConsensus.onDefaultLoanSchemeMessage env v obj).2 := by
  rcases onDefaultLoanSchemeMessage_cases env v obj with hfail | ⟨-, -, -, -, -, -, hres⟩
  · rw [hfail.2]
    exact hK
  · rw [hres]
    intro hnone
    exact Option.noConfusion hnone

/-- A destroy message leaves a registry that holds nothing until a default is set in that
state: without a default there is no scheme to destroy. -/
theorem onDestroyLoanSchemeMessage_emptyUntilDefault (env : Env) (v : View)
    (obj : CDestroyLoanSchemeMessage) (hK : registryEmptyUntilDefault v) :
    registryEmptyUntilDefault (CLoansConsensus.onDestroyLoanSchemeMessage env v obj).2 := by
  rcases onDestroyLoanSchemeMessage_cases env v obj with hfail | ⟨-, -, -, hex, -, hstore⟩
  · rw [hfail.2]
    exact hK
  · have hset : v.GetDefaultLoanScheme ≠ none := by
      intro hnone
      rw [(hK hnone obj.identifier).1] at hex
      exact Bool.noConfusion hex
    rcases hstore with ⟨-, -, hres⟩ | ⟨-, hres⟩
    · rw [hres]
      intro hnone
      exact absurd hnone hset
    · rw [hres, foldl_reassignVault_frame]
      intro hnone
      exact absurd hnone hset

/-- In every reachable registry the default pointer, when set, names a scheme that exists and
is not marked for destruction, and the registry holds nothing until a default is set. -/
theorem RegistryReachable_invariant (v : View) (hR : RegistryReachable v) :
    defaultPointerValid v ∧ registryEmptyUntilDefault v := by
  induction hR with
  | empty v hs hd hm =>
    refine ⟨fun d hdef => ?_, fun _ id => ?_⟩
    · rw [View.GetDefaultLoanScheme, hd] at hdef
      exact Option.noConfusion hdef
    · rw [View.GetLoanScheme, View.GetDestroyLoanScheme, hs, hm]
      exact ⟨rfl, rfl⟩
  | scheme env v obj _ ih =>
    exact ⟨(registry_step_pointer env v ih.1).1 obj (fun hnone => (ih.2 hnone _).2),
      onLoanSchemeMessage_emptyUntilDefault env v obj ih.2⟩
  | setDefault env v obj _ ih =>
    exact ⟨(registry_step_pointer env v ih.1).2.1 obj,
      onDefaultLoanSchemeMessage_emptyUntilDefault env v obj ih.2⟩
  | destroy env v obj _ ih =>
    exact ⟨(registry_step_pointer env v ih.1).2.2.1 obj,
      onDestroyLoanSchemeMessage_emptyUntilDefault env v obj ih.2⟩
  | other v w _ hs hd hm ih =>
    refine ⟨fun d hdef => ?_, fun hnone id => ?_⟩
    · rw [View.GetDefaultLoanScheme, hd] at hdef
      have h := ih.1 d hdef
      rw [View.GetLoanScheme, View.GetDestroyLoanScheme, hs, hm]
      exact h
    · rw [View.GetDefaultLoanScheme, hd] at hnone
      have h := ih.2 hnone id
      rw [View.GetLoanScheme, View.GetDestroyLoanScheme, hs, hm]
      exact h

/-- A registry that holds a scheme marked for destruction while no default is set is not
reachable. -/
theorem unsetDefaultView_unreachable : ¬ RegistryReachable unsetDefaultView := fun hR =>
  absurd ((RegistryReachable_invariant _ hR).2 rfl "A").1 (by decide)

/-- A registry whose default scheme is marked for destruction is not reachable. -/
theorem markedDefaultView_unreachable : ¬ RegistryReachable markedDefaultView := fun hR =>
  absurd ((RegistryReachable_invariant _ hR).1 "A" rfl).2 (by decide)

/-- The restriction to reachable registries is needed: on a registry that held a scheme marked
for destruction while no default is set, a registry that is not reachable, the immediate
update of the scheme would make it the default. -/
theorem onLoanSchemeMessage_outside_reachable :
    ¬ RegistryReachable unsetDefaultView ∧
    defaultPointerValid unsetDefaultView ∧
    (CLoansConsensus.onLoanSchemeMessage (sampleEnv 1500) unsetDefaultView
      ⟨175, 4000000, "A", CLoansConsensus.UINT64_MAX⟩).1.ok = true ∧
    (CLoansConsensus.onLoanSchemeMessage (sampleEnv 1500) unsetDefaultView
      ⟨175, 4000000, "A", CLoansConsensus.UINT64_MAX⟩).2.GetDefaultLoanScheme = some "A" ∧
    (CLoansConsensus.onLoanSchemeMessage (sampleEnv 1500) unsetDefaultView
      ⟨175, 4000000, "A", CLoansConsensus.UINT64_MAX⟩).2.GetDestroyLoanScheme "A"
      = some 4000 :=
  ⟨unsetDefaultView_unreachable, fun _ hd => Option.noConfusion hd, by decide, by decide,
    by decide⟩

/-- C4. The default-pointer invariant of the scheme registry, on every registry the handlers
can have produced from the empty one: the default pointer, when set, names a scheme that
exists in the active table and is not marked for destruction; the same holds after every
successful scheme (create or update) message, set-default message and destroy message; and
once a default is set, no handler unsets it. -/
theorem default_pointer_invariant (env : Env) (v : View) (hR : RegistryReachable v) :
    defaultPointerValid v ∧
    (∀ obj : CLoanSchemeMessage,
      (CLoansConsensus.onLoanSchemeMessage env v obj).1.ok = true →
      defaultPointerValid (CLoansConsensus.onLoanSchemeMessage env v obj).2) ∧
    (∀ obj : CDefaultLoanSchemeMessage,
      (CLoansConsensus.onDefaultLoanSchemeMessage env v obj).1.ok = true →
      defaultPointerValid (CLoansConsensus.onDefaultLoanSchemeMessage env v obj).2) ∧
    (∀ obj : CDestroyLoanSchemeMessage,
      (CLoansConsensus.onDestroyLoanSchemeMessage env v obj).1.ok = true →
      defaultPointerValid (CLoansConsensus.onDestroyLoanSchemeMessage env v obj).2) ∧
    (v.GetDefaultLoanScheme.isSome = true →
      (∀ obj : CLoanSchemeMessage,
        (CLoansConsensus.onLoanSchemeMessage env v obj).2.GetDefaultLoanScheme.isSome = true) ∧
      (∀ obj : CDefaultLoanSchemeMessage,
        (CLoansConsensus.onDefaultLoanSchemeMessage env v obj).2.GetDefaultLoanScheme.isSome
          = true) ∧
      (∀ obj : CDestroyLoanSchemeMessage,
        (CLoansConsensus.onDestroyLoanSchemeMessage env v obj).2.GetDefaultLoanScheme.isSome
          = true)) :=
  have hI := RegistryReachable_invariant v hR
  have hS := registry_step_pointer env v hI.1
  ⟨hI.1, fun obj _ => hS.1 obj (fun hnone => (hI.2 hnone _).2), fun obj _ => hS.2.1 obj,
    fun obj _ => hS.2.2.1 obj, hS.2.2.2⟩

/-- C4, at a concrete input: the registry reached from the empty view by the creation of `A`
(which becomes the default), the creation of `B` and the queued destruction of `B` has the
default `A` and the mark on `B`; on it the immediate update of the marked scheme `B`, the
creation of `C` and the immediate destruction of `B` succeed, a set-default to the marked `B`
and a destruction of the default `A` are rejected, and the default pointer names an existing,
unmarked scheme before and after each of them, and stays set. -/
theorem default_pointer_invariant_witness :
    RegistryReachable reachedRegistryView ∧
    reachedRegistryView.GetDefaultLoanScheme = some "A" ∧
    reachedRegistryView.GetDestroyLoanScheme "B" = some 4000 ∧
    defaultPointerValid reachedRegistryView ∧
    (CLoansConsensus.onLoanSchemeMessage (sampleEnv 1500) reachedRegistryView
      ⟨175, 4000000, "B", CLoansConsensus.UINT64_MAX⟩).1.ok = true ∧
    defaultPointerValid (CLoansConsensus.onLoanSchemeMessage (sampleEnv 1500)
      reachedRegistryView ⟨175, 4000000, "B", CLoansConsensus.UINT64_MAX⟩).2 ∧
    (CLoansConsensus.onLoanSchemeMessage (sampleEnv 1500) reachedRegistryView
      ⟨300, 4000000, "C", 0⟩).1.ok = true ∧
    defaultPointerValid (CLoansConsensus.onLoanSchemeMessage (sampleEnv 1500)
      reachedRegistryView ⟨300, 4000000, "C", 0⟩).2 ∧
    (CLoansConsensus.onDefaultLoanSchemeMessage (sampleEnv 1500) reachedRegistryView
      ⟨"B"⟩).1.ok = false ∧
    (CLoansConsensus.onDestroyLoanSchemeMessage (sampleEnv 1500) reachedRegistryView
      ⟨"A", 0⟩).1.ok = false ∧
    (CLoansConsensus.onDestroyLoanSchemeMessage (sampleEnv 1500) reachedRegistryView
      ⟨"B", 0⟩).1.ok = true ∧
    defaultPointerValid (CLoansConsensus.onDestroyLoanSchemeMessage (sampleEnv 1500)
      reachedRegistryView ⟨"B", 0⟩).2 ∧
    (CLoansConsensus.onDestroyLoanSchemeMessage (sampleEnv 1500) reachedRegistryView
      ⟨"B", 0⟩).2.GetDefaultLoanScheme.isSome = true :=
  have hR : RegistryReachable reachedRegistryView :=
    .destroy _ _ _ (.scheme _ _ _ (.scheme _ _ _ (.empty emptyView rfl rfl rfl)))
  have h := default_pointer_invariant (sampleEnv 1500) reachedRegistryView hR
  ⟨hR, by decide, by decide, h.1,
    by decide, h.2.1 ⟨175, 4000000, "B", CLoansConsensus.UINT64_MAX⟩ (by decide),
    by decide, h.2.1 ⟨300, 4000000, "C", 0⟩ (by decide),
    by decide, by decide,
    by decide, h.2.2.2.1 ⟨"B", 0⟩ (by decide), (h.2.2.2.2 (by decide)).2.2 ⟨"B", 0⟩⟩

/-! ## The liquidation auction -/

/-- The outcomes of a bid: it is rejected before any write and the view handed back; or it is
a first bid that passed the threshold of the batch and went on to the debit; or it overbids the
current bid, passed the 1% threshold, and went on to the debit after the refund of the previous
bidder. -/
theorem onAuctionBidMessage_cases (env : Env) (v : View) (obj : CAuctionBidMessage) :
    ((CVaultsConsensus.onAuctionBidMessage env v obj).1.ok = false ∧
      (CVaultsConsensus.onAuctionBidMessage env v obj).2 = v) ∨
    (∃ (vault : CVaultData) (data : CAuctionData) (batch : CAuctionBatch),
      v.GetVault obj.vaultId = some vault ∧ vault.isUnderLiquidation = true ∧
      v.GetAuction obj.vaultId env.height = some data ∧
      v.GetAuctionBatch obj.vaultId obj.index = some batch ∧
      obj.amount.nTokenId = batch.loanAmount.nTokenId ∧
      ((v.GetAuctionBid obj.vaultId obj.index = none ∧
          obj.amount.nValue ≥
            MultiplyAmounts batch.loanAmount.nValue (COIN + data.liquidationPenalty) ∧
          ¬ (castInt env.height ≥ env.FortCanningMuseumHeight ∧ data.liquidationPenalty ≠ 0
              ∧ ¬ (obj.amount.nValue > batch.loanAmount.nValue)) ∧
          CVaultsConsensus.onAuctionBidMessage env v obj = CVaultsConsensus.placeBid env v obj) ∨
        (∃ bid : CScript × CTokenAmount,
          v.GetAuctionBid obj.vaultId obj.index = some bid ∧
          obj.amount.nValue ≥ MultiplyAmounts bid.2.nValue (COIN + Int.tdiv COIN 100) ∧
          ¬ (castInt env.height ≥ env.FortCanningMuseumHeight
              ∧ ¬ (obj.amount.nValue > bid.2.nValue)) ∧
          CVaultsConsensus.onAuctionBidMessage env v obj =
            CVaultsConsensus.placeBid env
              ((env.withOwnerRewards v bid.1).AddBalance bid.1 bid.2).2 obj))) := by
  unfold CVaultsConsensus.onAuctionBidMessage
  by_cases h1 : (!env.CheckCustomTx.ok) = true
  · rw [if_pos h1]
    simp at h1
    exact Or.inl ⟨h1, rfl⟩
  rw [if_neg h1]
  by_cases h2 : (!env.HasAuth obj.from_) = true
  · rw [if_pos h2]
    exact Or.inl ⟨rfl, rfl⟩
  rw [if_neg h2]
  cases h3 : v.GetVault obj.vaultId with
  | none => exact Or.inl ⟨rfl, rfl⟩
  | some vault =>
  dsimp only
  by_cases h4 : (!vault.isUnderLiquidation) = true
  · rw [if_pos h4]
    exact Or.inl ⟨rfl, rfl⟩
  rw [if_neg h4]
  cases h5 : v.GetAuction obj.vaultId env.height with
  | none => exact Or.inl ⟨rfl, rfl⟩
  | some data =>
  dsimp only
  cases h6 : v.GetAuctionBatch obj.vaultId obj.index with
  | none => exact Or.inl ⟨rfl, rfl⟩
  | some batch =>
  dsimp only
  by_cases h7 : obj.amount.nTokenId ≠ batch.loanAmount.nTokenId
  · rw [if_pos h7]
    exact Or.inl ⟨rfl, rfl⟩
  rw [if_neg h7]
  have hL : vault.isUnderLiquidation = true := by simpa using h4
  cases h8 : v.GetAuctionBid obj.vaultId obj.index with
  | none =>
    dsimp only
    by_cases h9 : ¬ (obj.amount.nValue ≥
        MultiplyAmounts batch.loanAmount.nValue (COIN + data.liquidationPenalty))
    · rw [if_pos h9]
      exact Or.inl ⟨rfl, rfl⟩
    rw [if_neg h9]
    by_cases h10 : castInt env.height ≥ env.FortCanningMuseumHeight
        ∧ data.liquidationPenalty ≠ 0 ∧ ¬ (obj.amount.nValue > batch.loanAmount.nValue)
    · rw [if_pos h10]
      exact Or.inl ⟨rfl, rfl⟩
    rw [if_neg h10]
    exact Or.inr ⟨vault, data, batch, rfl, hL, rfl, rfl, not_not.mp h7,
      Or.inl ⟨rfl, not_not.mp h9, h10, rfl⟩⟩
  | some bid =>
    dsimp only
    by_cases h9 : ¬ (obj.amount.nValue ≥ MultiplyAmounts bid.2.nValue (COIN + Int.tdiv COIN 100))
    · rw [if_pos h9]
      exact Or.inl ⟨rfl, rfl⟩
    rw [if_neg h9]
    by_cases h10 : castInt env.height ≥ env.FortCanningMuseumHeight
        ∧ ¬ (obj.amount.nValue > bid.2.nValue)
    · rw [if_pos h10]
      exact Or.inl ⟨rfl, rfl⟩
    rw [if_neg h10]
    exact Or.inr ⟨vault, data, batch, rfl, hL, rfl, rfl, not_not.mp h7,
      Or.inr ⟨bid, rfl, not_not.mp h9, h10, rfl⟩⟩

/-- The tail of the bid handler succeeds exactly when the debit of the bidder does, and then
returns the view with the bid stored. -/
theorem placeBid_eq (env : Env) (w : View) (obj : CAuctionBidMessage) :
    ((CVaultsConsensus.placeBid env w obj).1.ok =
      ((env.withOwnerRewards w obj.from_).SubBalance obj.from_ obj.amount).1.ok) ∧
    ((CVaultsConsensus.placeBid env w obj).1.ok = true →
      (CVaultsConsensus.placeBid env w obj).2 =
        (((env.withOwnerRewards w obj.from_).SubBalance obj.from_ obj.amount).2.StoreAuctionBid
          obj.vaultId obj.index (obj.from_, obj.amount)).2) := by
  unfold CVaultsConsensus.placeBid
  cases hs : ((env.withOwnerRewards w obj.from_).SubBalance obj.from_ obj.amount).1.ok with
  | false => simp [hs]
  | true => simp [hs, View.StoreAuctionBid]

/-- C7 fails as stated: with a loan of 1 and a penalty of 5% the threshold
`MultiplyAmounts(1, 1.05)` is 1; at height 1500, past the gate at 1000, a first bid of exactly
1 by an authorised bidder holding 1000, on a vault under liquidation with an active auction, is
rejected, because it is not above the loan amount of the batch. -/
theorem first_bid_at_threshold_counterexample :
    (auctionView 5000000 1 none 1000).GetAuctionBid 1 0 = none ∧
    (auctionView 5000000 1 none 1000).GetAuction 1 1500 = some ⟨1, 5000, 5000000⟩ ∧
    (auctionView 5000000 1 none 1000).GetAuctionBatch 1 0
      = some ⟨[(0, 500000000)], ⟨2, 1⟩, 0⟩ ∧
    (auctionView 5000000 1 none 1000).GetVault 1 = some ⟨[1], "A", true⟩ ∧
    (sampleEnv 1500).HasAuth [2] = true ∧
    ((auctionView 5000000 1 none 1000).GetBalance [2] 2).nValue = 1000 ∧
    MultiplyAmounts 1 (COIN + 5000000) = 1 ∧
    (CVaultsConsensus.onAuctionBidMessage (sampleEnv 1500) (auctionView 5000000 1 none 1000)
      ⟨1, 0, [2], ⟨2, 1⟩⟩).1.ok = false := by
  refine ⟨by decide, by decide, by decide, by decide, by decide, by decide, by decide,
    by decide⟩

/-- C7, amended. For a batch with no current bid and a non-negative loan amount and penalty,
a first bid of exactly the threshold `MultiplyAmounts(batch.loanAmount, COIN +
liquidationPenalty)`, in the loan token of the batch, in a transaction that passes the generic
check, from an authorised bidder whose balance covers it, on a vault under liquidation with an
active auction, is accepted and stored as the current bid of the batch, provided the height is
before the gate, or the penalty is zero, or the threshold is above the loan amount of the
batch. -/
theorem first_bid_at_threshold_accepted (env : Env) (v : View) (obj : CAuctionBidMessage)
    (vault : CVaultData) (data : CAuctionData) (batch : CAuctionBatch)
    (hcheck : env.CheckCustomTx.ok = true)
    (hauth : env.HasAuth obj.from_ = true)
    (hvault : v.GetVault obj.vaultId = some vault)
    (hliq : vault.isUnderLiquidation = true)
    (hdata : v.GetAuction obj.vaultId env.height = some data)
    (hbatch : v.GetAuctionBatch obj.vaultId obj.index = some batch)
    (htoken : obj.amount.nTokenId = batch.loanAmount.nTokenId)
    (hnone : v.GetAuctionBid obj.vaultId obj.index = none)
    (hloan : 0 ≤ batch.loanAmount.nValue)
    (hpenalty : 0 ≤ data.liquidationPenalty)
    (hamount : obj.amount.nValue =
      MultiplyAmounts batch.loanAmount.nValue (COIN + data.liquidationPenalty))
    (hgate : castInt env.height < env.FortCanningMuseumHeight ∨ data.liquidationPenalty = 0 ∨
      obj.amount.nValue > batch.loanAmount.nValue)
    (hfunds : obj.amount.nValue ≤
      ((env.withOwnerRewards v obj.from_).GetBalance obj.from_ obj.amount.nTokenId).nValue) :
    (CVaultsConsensus.onAuctionBidMessage env v obj).1.ok = true ∧
    (CVaultsConsensus.onAuctionBidMessage env v obj).2.GetAuctionBid obj.vaultId obj.index
      = some (obj.from_, obj.amount) := by
  have hnonneg : 0 ≤ obj.amount.nValue := by
    rw [hamount]
    unfold MultiplyAmounts COIN
    exact Int.ediv_nonneg (mul_nonneg hloan (by simp only [CAmount] at *; omega)) (by decide)
  have hsub := SubBalance_ok (env.withOwnerRewards v obj.from_) obj.from_ obj.amount hnonneg
    hfunds
  have hplace := placeBid_eq env v obj
  have hres : CVaultsConsensus.onAuctionBidMessage env v obj
      = CVaultsConsensus.placeBid env v obj := by
    unfold CVaultsConsensus.onAuctionBidMessage
    rw [if_neg (by simp [hcheck]), if_neg (by simp [hauth]), hvault]
    dsimp only
    rw [if_neg (by simp [hliq]), hdata]
    dsimp only
    rw [hbatch]
    dsimp only
    rw [if_neg (not_not.mpr htoken), hnone]
    dsimp only
    rw [if_neg (not_not.mpr (ge_of_eq hamount)), if_neg]
    rintro ⟨hg, hp, hle⟩
    rcases hgate with h | h | h
    · exact absurd hg (not_le.mpr h)
    · exact hp h
    · exact hle h
  rw [hres]
  have hok : (CVaultsConsensus.placeBid env v obj).1.ok = true := by
    rw [hplace.1]
    exact hsub
  refine ⟨hok, ?_⟩
  rw [hplace.2 hok]
  simp [View.GetAuctionBid, View.StoreAuctionBid, mapFind_mapSet_self]

/-- C7 amended, at a concrete input: with a loan of 1000 and a penalty of 5% a first bid of
exactly 1050 is accepted at height 1500 and stored. -/
theorem first_bid_at_threshold_accepted_witness :
    (auctionView 5000000 1000 none 5000).GetAuctionBid 1 0 = none ∧
    (1050 : CAmount) = MultiplyAmounts 1000 (COIN + 5000000) ∧
    ((CVaultsConsensus.onAuctionBidMessage (sampleEnv 1500) (auctionView 5000000 1000 none 5000)
        ⟨1, 0, [2], ⟨2, 1050⟩⟩).1.ok = true ∧
      (CVaultsConsensus.onAuctionBidMessage (sampleEnv 1500) (auctionView 5000000 1000 none 5000)
        ⟨1, 0, [2], ⟨2, 1050⟩⟩).2.GetAuctionBid 1 0 = some ([2], ⟨2, 1050⟩)) :=
  ⟨by decide, by decide,
    first_bid_at_threshold_accepted (sampleEnv 1500) (auctionView 5000000 1000 none 5000)
      ⟨1, 0, [2], ⟨2, 1050⟩⟩ ⟨[1], "A", true⟩ ⟨1, 5000, 5000000⟩
      ⟨[(0, 500000000)], ⟨2, 1000⟩, 0⟩ (by decide) (by decide) (by decide) (by decide)
      (by decide) (by decide) (by decide) (by decide) (by decide) (by decide) (by decide)
      (Or.inr (Or.inr (by decide))) (by decide)⟩

/-- C8 fails as stated: with a liquidation penalty of zero, at height 1500 (past the gate at
1000), a first bid of exactly the loan amount 1000 of the batch is accepted. -/
theorem first_bid_strictly_above_loan_counterexample :
    castInt (sampleEnv 1500).height ≥ (sampleEnv 1500).FortCanningMuseumHeight ∧
    (auctionView 0 1000 none 5000).GetAuctionBid 1 0 = none ∧
    (auctionView 0 1000 none 5000).GetAuctionBatch 1 0
      = some ⟨[(0, 500000000)], ⟨2, 1000⟩, 0⟩ ∧
    (CVaultsConsensus.onAuctionBidMessage (sampleEnv 1500) (auctionView 0 1000 none 5000)
      ⟨1, 0, [2], ⟨2, 1000⟩⟩).1.ok = true ∧
    ¬ ((1000 : CAmount) > 1000) := by
  refine ⟨by decide, by decide, by decide, by decide, by decide⟩

/-- C8, amended. At every height at or past the gate (the height, read as a signed 32-bit
integer, is at least `FortCanningMuseumHeight`), every accepted first bid on a batch has an
amount strictly greater than the raw loan amount of the batch, for every non-zero liquidation
penalty. -/
theorem first_bid_strictly_above_loan (env : Env) (v : View) (obj : CAuctionBidMessage)
    (data : CAuctionData) (batch : CAuctionBatch)
    (hgate : castInt env.height ≥ env.FortCanningMuseumHeight)
    (hnone : v.GetAuctionBid obj.vaultId obj.index = none)
    (hdata : v.GetAuction obj.vaultId env.height = some data)
    (hbatch : v.GetAuctionBatch obj.vaultId obj.index = some batch)
    (hpenalty : data.liquidationPenalty ≠ 0)
    (hok : (CVaultsConsensus.onAuctionBidMessage env v obj).1.ok = true) :
    obj.amount.nValue > batch.loanAmount.nValue := by
  rcases onAuctionBidMessage_cases env v obj with hfail | ⟨_, data', batch', -, -, hd, hb, -, hcase⟩
  · rw [hfail.1] at hok
    exact absurd hok (by decide)
  · rw [hdata] at hd
    rw [hbatch] at hb
    have e₁ : data = data' := Option.some.inj hd
    have e₂ : batch = batch' := Option.some.inj hb
    subst e₁ e₂
    rcases hcase with ⟨-, -, hstrict, -⟩ | ⟨bid, hsome, -, -, -⟩
    · by_contra hle
      exact hstrict ⟨hgate, hpenalty, hle⟩
    · rw [hnone] at hsome
      exact Option.noConfusion hsome

/-- C8 amended, at a concrete input: with a penalty of 5% the first bid of 1050 on a loan of
1000 is accepted at height 1500, and 1050 > 1000. -/
theorem first_bid_strictly_above_loan_witness :
    castInt (sampleEnv 1500).height ≥ (sampleEnv 1500).FortCanningMuseumHeight ∧
    (5000000 : CAmount) ≠ 0 ∧
    (CVaultsConsensus.onAuctionBidMessage (sampleEnv 1500) (auctionView 5000000 1000 none 5000)
      ⟨1, 0, [2], ⟨2, 1050⟩⟩).1.ok = true ∧
    (1050 : CAmount) > 1000 :=
  ⟨by decide, by decide, by decide,
    first_bid_strictly_above_loan (sampleEnv 1500) (auctionView 5000000 1000 none 5000)
      ⟨1, 0, [2], ⟨2, 1050⟩⟩ ⟨1, 5000, 5000000⟩ ⟨[(0, 500000000)], ⟨2, 1000⟩, 0⟩
      (by decide) (by decide) (by decide) (by decide) (by decide) (by decide)⟩

/-- A collaborator that credits no pending reward leaves the view as it is. -/
theorem withOwnerRewards_eq (env : Env) (w : View) (owner : CScript)
    (h : env.CalculateOwnerRewards w owner = w.balances) :
    env.withOwnerRewards w owner = w := by
  unfold Env.withOwnerRewards
  rw [h]

/-- C10 fails as stated, in two ways. The handler settles the pending owner rewards of the
previous bidder before the refund: with 7 units pending, the bid of 152 by `[2]` over the bid of
150 by `[3]` leaves `[3]` with 157 more, not 150. And the handler does not check the result of
the refund credit: when `[3]` holds the largest representable amount, the same bid is accepted,
the credit of 150 overflows and is dropped, and the balance of `[3]` is what it was. -/
theorem outbid_refund_counterexample :
    (auctionView 5000000 100 (some ([3], ⟨2, 150⟩)) 1000).GetAuctionBid 1 0
      = some ([3], ⟨2, 150⟩) ∧
    ([3] : CScript) ≠ [2] ∧
    (CVaultsConsensus.onAuctionBidMessage rewardingEnv
      (auctionView 5000000 100 (some ([3], ⟨2, 150⟩)) 1000) ⟨1, 0, [2], ⟨2, 152⟩⟩).1.ok = true ∧
    ((CVaultsConsensus.onAuctionBidMessage rewardingEnv
      (auctionView 5000000 100 (some ([3], ⟨2, 150⟩)) 1000)
      ⟨1, 0, [2], ⟨2, 152⟩⟩).2.GetBalance [3] 2).nValue =
      ((auctionView 5000000 100 (some ([3], ⟨2, 150⟩)) 1000).GetBalance [3] 2).nValue + 157 ∧
    saturatedBidderView.GetAuctionBid 1 0 = some ([3], ⟨2, 150⟩) ∧
    (CVaultsConsensus.onAuctionBidMessage (sampleEnv 1500) saturatedBidderView
      ⟨1, 0, [2], ⟨2, 152⟩⟩).1.ok = true ∧
    (CVaultsConsensus.onAuctionBidMessage (sampleEnv 1500) saturatedBidderView
      ⟨1, 0, [2], ⟨2, 152⟩⟩).2.GetAuctionBid 1 0 = some ([2], ⟨2, 152⟩) ∧
    ((CVaultsConsensus.onAuctionBidMessage (sampleEnv 1500) saturatedBidderView
      ⟨1, 0, [2], ⟨2, 152⟩⟩).2.GetBalance [3] 2).nValue =
      (saturatedBidderView.GetBalance [3] 2).nValue ∧
    ¬ (((CVaultsConsensus.onAuctionBidMessage (sampleEnv 1500) saturatedBidderView
      ⟨1, 0, [2], ⟨2, 152⟩⟩).2.GetBalance [3] 2).nValue =
      (saturatedBidderView.GetBalance [3] 2).nValue + 150) := by
  refine ⟨by decide, by decide, by decide, by decide, by decide, by decide, by decide,
    by decide, by decide⟩

/-- C10, amended. When the auction-bid handler accepts a bid by bidder B of amount b that
replaces the current bid (P, p) with P different from B, the refund credit of p to P is one the
ledger takes (p is not negative and the sum stays an amount), and the two bidders have no
pending owner reward, then after the call the balance of P in the token of its bid is larger by
exactly p, the balance of B in the bid token is smaller by exactly b, the stored bid of the
batch is (B, b), and the bids of all other batches are unchanged. -/
theorem outbid_refunds_previous_bidder (env : Env) (v : View) (obj : CAuctionBidMessage)
    (P : CScript) (prev : CTokenAmount)
    (hbid : v.GetAuctionBid obj.vaultId obj.index = some (P, prev))
    (hPB : P ≠ obj.from_)
    (hok : (CVaultsConsensus.onAuctionBidMessage env v obj).1.ok = true)
    (hrP : ∀ w : View, env.CalculateOwnerRewards w P = w.balances)
    (hrB : ∀ w : View, env.CalculateOwnerRewards w obj.from_ = w.balances)
    (hrefund : (v.AddBalance P prev).1.ok = true) :
    ((CVaultsConsensus.onAuctionBidMessage env v obj).2.GetBalance P prev.nTokenId).nValue =
      (v.GetBalance P prev.nTokenId).nValue + prev.nValue ∧
    ((CVaultsConsensus.onAuctionBidMessage env v obj).2.GetBalance obj.from_
        obj.amount.nTokenId).nValue =
      (v.GetBalance obj.from_ obj.amount.nTokenId).nValue - obj.amount.nValue ∧
    (CVaultsConsensus.onAuctionBidMessage env v obj).2.GetAuctionBid obj.vaultId obj.index =
      some (obj.from_, obj.amount) ∧
    (∀ (vaultId : CVaultId) (index : Nat), (vaultId, index) ≠ (obj.vaultId, obj.index) →
      (CVaultsConsensus.onAuctionBidMessage env v obj).2.GetAuctionBid vaultId index =
        v.GetAuctionBid vaultId index) := by
  rcases onAuctionBidMessage_cases env v obj with hfail | ⟨_, _, _, -, -, -, -, -, hcase⟩
  · rw [hfail.1] at hok
    exact absurd hok (by decide)
  rcases hcase with ⟨hnone, -⟩ | ⟨bid', hsome, -, -, hres⟩
  · rw [hnone] at hbid
    exact Option.noConfusion hbid
  rw [hsome] at hbid
  have e : bid' = (P, prev) := Option.some.inj hbid
  subst e
  dsimp only at hres
  rw [withOwnerRewards_eq env v P (hrP v)] at hres
  rw [hres] at hok ⊢
  have hplace := placeBid_eq env (v.AddBalance P prev).2 obj
  rw [withOwnerRewards_eq env _ obj.from_ (hrB _)] at hplace
  have hsub : ((v.AddBalance P prev).2.SubBalance obj.from_ obj.amount).1.ok = true := by
    rw [← hplace.1]
    exact hok
  rw [hplace.2 hok]
  have hbids : ((v.AddBalance P prev).2.SubBalance obj.from_ obj.amount).2.auctionBids
      = v.auctionBids := by
    rw [SubBalance_frame, AddBalance_frame]
  refine ⟨?_, ?_, ?_, ?_⟩
  · have h1 : (((v.AddBalance P prev).2.SubBalance obj.from_ obj.amount).2.GetBalance P
        prev.nTokenId) = (v.AddBalance P prev).2.GetBalance P prev.nTokenId :=
      SubBalance_other _ _ _ _ _ (fun hc => hPB (Prod.mk.inj hc).1)
    have h2 := AddBalance_balance v P prev hrefund
    rw [← h2, ← h1]
    rfl
  · have h1 := SubBalance_balance (v.AddBalance P prev).2 obj.from_ obj.amount hsub
    have h2 : (v.AddBalance P prev).2.GetBalance obj.from_ obj.amount.nTokenId
        = v.GetBalance obj.from_ obj.amount.nTokenId :=
      AddBalance_other _ _ _ _ _ (fun hc => hPB (Prod.mk.inj hc).1.symm)
    rw [← h2, ← h1]
    rfl
  · simp [View.GetAuctionBid, View.StoreAuctionBid, mapFind_mapSet_self]
  · intro vaultId index hne
    simp only [View.GetAuctionBid, View.StoreAuctionBid]
    rw [mapFind_mapSet_ne _ _ _ _ hne, hbids]

/-- C10 amended, at a concrete input: bidder `[2]`, holding 1000, bids 152 over the bid of
150 by `[3]`; afterwards `[3]` holds 150 more, `[2]` holds 152 less, the bid of batch 0 is
(`[2]`, 152) and batch 1 still has no bid. -/
theorem outbid_refunds_previous_bidder_witness :
    (auctionView 5000000 100 (some ([3], ⟨2, 150⟩)) 1000).GetAuctionBid 1 0
      = some ([3], ⟨2, 150⟩) ∧
    ([3] : CScript) ≠ [2] ∧
    (CVaultsConsensus.onAuctionBidMessage (sampleEnv 1500)
      (auctionView 5000000 100 (some ([3], ⟨2, 150⟩)) 1000) ⟨1, 0, [2], ⟨2, 152⟩⟩).1.ok = true ∧
    ((auctionView 5000000 100 (some ([3], ⟨2, 150⟩)) 1000).AddBalance [3] ⟨2, 150⟩).1.ok = true ∧
    ((CVaultsConsensus.onAuctionBidMessage (sampleEnv 1500)
        (auctionView 5000000 100 (some ([3], ⟨2, 150⟩)) 1000)
        ⟨1, 0, [2], ⟨2, 152⟩⟩).2.GetBalance [3] 2).nValue =
      ((auctionView 5000000 100 (some ([3], ⟨2, 150⟩)) 1000).GetBalance [3] 2).nValue + 150 ∧
    ((CVaultsConsensus.onAuctionBidMessage (sampleEnv 1500)
        (auctionView 5000000 100 (some ([3], ⟨2, 150⟩)) 1000)
        ⟨1, 0, [2], ⟨2, 152⟩⟩).2.GetBalance [2] 2).nValue =
      ((auctionView 5000000 100 (some ([3], ⟨2, 150⟩)) 1000).GetBalance [2] 2).nValue - 152 ∧
    (CVaultsConsensus.onAuctionBidMessage (sampleEnv 1500)
      (auctionView 5000000 100 (some ([3], ⟨2, 150⟩)) 1000)
      ⟨1, 0, [2], ⟨2, 152⟩⟩).2.GetAuctionBid 1 0 = some ([2], ⟨2, 152⟩) ∧
    (CVaultsConsensus.onAuctionBidMessage (sampleEnv 1500)
      (auctionView 5000000 100 (some ([3], ⟨2, 150⟩)) 1000)
      ⟨1, 0, [2], ⟨2, 152⟩⟩).2.GetAuctionBid 1 1 =
      (auctionView 5000000 100 (some ([3], ⟨2, 150⟩)) 1000).GetAuctionBid 1 1 :=
  have h := outbid_refunds_previous_bidder (sampleEnv 1500)
    (auctionView 5000000 100 (some ([3], ⟨2, 150⟩)) 1000) ⟨1, 0, [2], ⟨2, 152⟩⟩ [3] ⟨2, 150⟩
    (by decide) (by decide) (by decide) (fun _ => rfl) (fun _ => rfl) (by decide)
  ⟨by decide, by decide, by decide, by decide, h.1, h.2.1, h.2.2.1,
    h.2.2.2 1 1 (by decide)⟩

/-! ## The fields and the heights of a scheme message -/

/-- A string has at least as many bytes as characters. -/
theorem length_le_utf8ByteSize (s : String) : s.length ≤ s.utf8ByteSize := by
  have key : ∀ cs : List Char, cs.length ≤ String.utf8ByteSize.go cs := by
    intro cs
    induction cs with
    | nil => exact Nat.le_refl 0
    | cons c cs ih =>
      simp only [List.length_cons, String.utf8ByteSize.go]
      have := c.utf8Size_pos
      omega
  exact key s.data

/-- C14. The scheme handler rejects every message with ratio below 100, or rate below 1000000
(0.01% in 8-decimal fixed point), or an identifier that is empty or longer than 8 characters
(or bytes), and hands the view back: no scheme, no delayed entry and no default pointer is
stored. -/
theorem scheme_message_rejects_bad_fields (env : Env) (v : View) (obj : CLoanSchemeMessage)
    (hbad : obj.ratio < 100 ∨ obj.rate < 1000000 ∨ obj.identifier = "" ∨
      8 < obj.identifier.length ∨ 8 < obj.identifier.utf8ByteSize) :
    (CLoansConsensus.onLoanSchemeMessage env v obj).1.ok = false ∧
    (CLoansConsensus.onLoanSchemeMessage env v obj).2 = v ∧
    (CLoansConsensus.onLoanSchemeMessage env v obj).2.GetLoanScheme obj.identifier
      = v.GetLoanScheme obj.identifier ∧
    (CLoansConsensus.onLoanSchemeMessage env v obj).2.delayedLoanSchemes
      = v.delayedLoanSchemes ∧
    (CLoansConsensus.onLoanSchemeMessage env v obj).2.GetDefaultLoanScheme
      = v.GetDefaultLoanScheme := by
  rcases onLoanSchemeMessage_cases env v obj with hfail | ⟨hpass, -⟩
  · refine ⟨hfail.1, hfail.2, ?_, ?_, ?_⟩ <;> rw [hfail.2]
  · exfalso
    obtain ⟨-, -, hratio, hrate, ⟨hne, hlen⟩, -⟩ := hpass
    have hchars := length_le_utf8ByteSize obj.identifier
    rcases hbad with h | h | h | h | h
    · omega
    · simp only [CAmount] at *
      omega
    · exact hne h
    · omega
    · omega

/-- C14, at a concrete input: in the sample registry a scheme message with ratio 99, one with
rate 999999, one with an empty identifier and one with a 9-character identifier are all
rejected and the registry is what it was. -/
theorem scheme_message_rejects_bad_fields_witness :
    ((99 : Nat) < 100 ∧
      (CLoansConsensus.onLoanSchemeMessage (sampleEnv 1500) (registryView false)
        ⟨99, 4000000, "C", 0⟩).1.ok = false ∧
      (CLoansConsensus.onLoanSchemeMessage (sampleEnv 1500) (registryView false)
        ⟨99, 4000000, "C", 0⟩).2 = registryView false) ∧
    ((999999 : CAmount) < 1000000 ∧
      (CLoansConsensus.onLoanSchemeMessage (sampleEnv 1500) (registryView false)
        ⟨300, 999999, "C", 0⟩).1.ok = false) ∧
    (CLoansConsensus.onLoanSchemeMessage (sampleEnv 1500) (registryView false)
      ⟨300, 4000000, "", 0⟩).1.ok = false ∧
    (8 < "ABCDEFGHI".length ∧
      (CLoansConsensus.onLoanSchemeMessage (sampleEnv 1500) (registryView false)
        ⟨300, 4000000, "ABCDEFGHI", 0⟩).1.ok = false) :=
  have h₁ := scheme_message_rejects_bad_fields (sampleEnv 1500) (registryView false)
    ⟨99, 4000000, "C", 0⟩ (Or.inl (by decide))
  have h₂ := scheme_message_rejects_bad_fields (sampleEnv 1500) (registryView false)
    ⟨300, 999999, "C", 0⟩ (Or.inr (Or.inl (by decide)))
  have h₃ := scheme_message_rejects_bad_fields (sampleEnv 1500) (registryView false)
    ⟨300, 4000000, "", 0⟩ (Or.inr (Or.inr (Or.inl rfl)))
  have h₄ := scheme_message_rejects_bad_fields (sampleEnv 1500) (registryView false)
    ⟨300, 4000000, "ABCDEFGHI", 0⟩ (Or.inr (Or.inr (Or.inr (Or.inl (by decide)))))
  ⟨⟨by decide, h₁.1, h₁.2.1⟩, ⟨by decide, h₂.1⟩, h₃.1, ⟨by decide, h₄.1⟩⟩

/-- C15. A scheme message is rejected, and the view handed back, when a scheme with its
identifier exists and it carries no update height; when no such scheme exists and it carries an
update height; and when its update height is neither 0 nor the immediate sentinel and is below
the current block height. This holds for every message, the ones that pass the field and
duplicate checks included. -/
theorem scheme_message_rejects_height_mismatch (env : Env) (v : View)
    (obj : CLoanSchemeMessage) :
    ((v.GetLoanScheme obj.identifier).isSome = true → obj.updateHeight = 0 →
      (CLoansConsensus.onLoanSchemeMessage env v obj).1.ok = false ∧
      (CLoansConsensus.onLoanSchemeMessage env v obj).2 = v) ∧
    (v.GetLoanScheme obj.identifier = none → obj.updateHeight ≠ 0 →
      (CLoansConsensus.onLoanSchemeMessage env v obj).1.ok = false ∧
      (CLoansConsensus.onLoanSchemeMessage env v obj).2 = v) ∧
    (obj.updateHeight ≠ 0 → obj.updateHeight ≠ CLoansConsensus.UINT64_MAX →
      obj.updateHeight < env.height →
      (CLoansConsensus.onLoanSchemeMessage env v obj).1.ok = false ∧
      (CLoansConsensus.onLoanSchemeMessage env v obj).2 = v) := by
  rcases onLoanSchemeMessage_cases env v obj with hfail | ⟨hpass, hstore⟩
  · exact ⟨fun _ _ => hfail, fun _ _ => hfail, fun _ _ _ => hfail⟩
  · obtain ⟨-, -, -, -, -, -, -, hcreate, hupdate⟩ := hpass
    refine ⟨fun hex h0 => absurd ⟨hex, h0⟩ hcreate, fun hno hne => ?_, fun h0 hmax hlt => ?_⟩
    · exact absurd ⟨by rw [hno]; rfl, hne⟩ hupdate
    · exfalso
      rcases hstore with ⟨-, hge, -⟩ | ⟨hnot, -⟩
      · omega
      · exact hnot ⟨h0, hmax, by omega⟩

/-- C15, at a concrete input: in the sample registry, at height 1500, a message for the
existing scheme `B` without update height, a message for the unknown scheme `C` with update
height 3000, and an update of `B` for the past height 1200 are rejected. -/
theorem scheme_message_rejects_height_mismatch_witness :
    ((registryView false).GetLoanScheme "B").isSome = true ∧
    (CLoansConsensus.onLoanSchemeMessage (sampleEnv 1500) (registryView false)
      ⟨300, 4000000, "B", 0⟩).1.ok = false ∧
    (registryView false).GetLoanScheme "C" = none ∧
    (CLoansConsensus.onLoanSchemeMessage (sampleEnv 1500) (registryView false)
      ⟨300, 4000000, "C", 3000⟩).1.ok = false ∧
    (1200 < (sampleEnv 1500).height ∧
      (CLoansConsensus.onLoanSchemeMessage (sampleEnv 1500) (registryView false)
        ⟨300, 4000000, "B", 1200⟩).1.ok = false ∧
      (CLoansConsensus.onLoanSchemeMessage (sampleEnv 1500) (registryView false)
        ⟨300, 4000000, "B", 1200⟩).2 = registryView false) :=
  have h₁ := (scheme_message_rejects_height_mismatch (sampleEnv 1500) (registryView false)
    ⟨300, 4000000, "B", 0⟩).1 (by decide) rfl
  have h₂ := (scheme_message_rejects_height_mismatch (sampleEnv 1500) (registryView false)
    ⟨300, 4000000, "C", 3000⟩).2.1 (by decide) (by decide)
  have h₃ := (scheme_message_rejects_height_mismatch (sampleEnv 1500) (registryView false)
    ⟨300, 4000000, "B", 1200⟩).2.2 (by decide) (by decide) (by decide)
  ⟨by decide, h₁.1, by decide, h₂.1, by decide, h₃.1, h₃.2⟩

/-- The store that ends an immediate scheme message, in one record update: the scheme is
written and the default pointer is set when there was none. -/
theorem immediateStore_eq (v : View) (obj : CLoanSchemeMessage) :
    (if v.GetDefaultLoanScheme.isNone then (v.StoreDefaultLoanScheme obj.identifier).2
      else v).StoreLoanScheme obj =
    (Res.Ok, { v with
      defaultLoanScheme :=
        if v.defaultLoanScheme.isNone then some obj.identifier else v.defaultLoanScheme
      loanSchemes := mapSet obj.identifier obj.data v.loanSchemes }) := by
  unfold View.GetDefaultLoanScheme
  by_cases hd : v.defaultLoanScheme.isNone = true
  · rw [if_pos hd, if_pos hd]
    rfl
  · rw [if_neg hd, if_neg hd]
    rfl

/-- C16. For every accepted scheme message: when its update height is 0, the immediate
sentinel or the current height, the scheme is written to the active table in this call (the
other schemes stay as they are) and the delayed table is unchanged; otherwise the update height
is above the current height, the message is stored in the delayed table under (identifier,
update height) (the other delayed entries stay as they are), and the active table and the
default pointer are unchanged. -/
theorem scheme_message_applies_now_or_queues (env : Env) (v : View) (obj : CLoanSchemeMessage)
    (hok : (CLoansConsensus.onLoanSchemeMessage env v obj).1.ok = true) :
    ((obj.updateHeight = 0 ∨ obj.updateHeight = CLoansConsensus.UINT64_MAX
        ∨ obj.updateHeight = env.height) →
      (CLoansConsensus.onLoanSchemeMessage env v obj).2.GetLoanScheme obj.identifier
        = some ⟨obj.ratio, obj.rate⟩ ∧
      (∀ id : String, id ≠ obj.identifier →
        (CLoansConsensus.onLoanSchemeMessage env v obj).2.GetLoanScheme id
          = v.GetLoanScheme id) ∧
      (CLoansConsensus.onLoanSchemeMessage env v obj).2.delayedLoanSchemes
        = v.delayedLoanSchemes) ∧
    (¬ (obj.updateHeight = 0 ∨ obj.updateHeight = CLoansConsensus.UINT64_MAX
        ∨ obj.updateHeight = env.height) →
      env.height < obj.updateHeight ∧
      mapFind (obj.identifier, obj.updateHeight)
        (CLoansConsensus.onLoanSchemeMessage env v obj).2.delayedLoanSchemes = some obj ∧
      (∀ key : String × Nat, key ≠ (obj.identifier, obj.updateHeight) →
        mapFind key (CLoansConsensus.onLoanSchemeMessage env v obj).2.delayedLoanSchemes
          = mapFind key v.delayedLoanSchemes) ∧
      (CLoansConsensus.onLoanSchemeMessage env v obj).2.loanSchemes = v.loanSchemes ∧
      (CLoansConsensus.onLoanSchemeMessage env v obj).2.GetDefaultLoanScheme
        = v.GetDefaultLoanScheme) := by
  rcases onLoanSchemeMessage_cases env v obj with hfail | ⟨-, hstore⟩
  · rw [hfail.1] at hok
    exact absurd hok (by decide)
  rcases hstore with ⟨hlater, hge, hres⟩ | ⟨hnow, hres⟩
  · refine ⟨fun hnow => ?_, fun _ => ?_⟩
    · exfalso
      rcases hnow with h | h | h
      · exact hlater.1 h
      · exact hlater.2.1 h
      · exact hlater.2.2 h
    · rw [hres]
      refine ⟨by omega, ?_, ?_, rfl, rfl⟩
      · exact mapFind_mapSet_self _ _ _
      · intro key hkey
        exact mapFind_mapSet_ne _ _ _ _ hkey
  · refine ⟨fun _ => ?_, fun hnot => ?_⟩
    · rw [hres, immediateStore_eq]
      refine ⟨?_, ?_, rfl⟩
      · exact mapFind_mapSet_self _ _ _
      · intro id hid
        exact mapFind_mapSet_ne _ _ _ _ hid
    · exfalso
      apply hnow
      refine ⟨fun h => hnot (Or.inl h), fun h => hnot (Or.inr (Or.inl h)),
        fun h => hnot (Or.inr (Or.inr h))⟩

/-- C16, at a concrete input: in the sample registry, at height 1500, the creation of `C`
(update height 0) writes `C` to the active table and leaves the delayed table alone; the update
of `B` for height 3500 is queued under (`B`, 3500) and leaves the active table and the default
pointer alone. -/
theorem scheme_message_applies_now_or_queues_witness :
    (CLoansConsensus.onLoanSchemeMessage (sampleEnv 1500) (registryView false)
      ⟨300, 4000000, "C", 0⟩).1.ok = true ∧
    ((CLoansConsensus.onLoanSchemeMessage (sampleEnv 1500) (registryView false)
        ⟨300, 4000000, "C", 0⟩).2.GetLoanScheme "C" = some ⟨300, 4000000⟩ ∧
      (CLoansConsensus.onLoanSchemeMessage (sampleEnv 1500) (registryView false)
        ⟨300, 4000000, "C", 0⟩).2.delayedLoanSchemes = (registryView false).delayedLoanSchemes) ∧
    (CLoansConsensus.onLoanSchemeMessage (sampleEnv 1500) (registryView false)
      ⟨300, 4000000, "B", 3500⟩).1.ok = true ∧
    ((sampleEnv 1500).height < 3500 ∧
      mapFind ("B", 3500) (CLoansConsensus.onLoanSchemeMessage (sampleEnv 1500)
        (registryView false) ⟨300, 4000000, "B", 3500⟩).2.delayedLoanSchemes
        = some ⟨300, 4000000, "B", 3500⟩ ∧
      (CLoansConsensus.onLoanSchemeMessage (sampleEnv 1500) (registryView false)
        ⟨300, 4000000, "B", 3500⟩).2.loanSchemes = (registryView false).loanSchemes ∧
      (CLoansConsensus.onLoanSchemeMessage (sampleEnv 1500) (registryView false)
        ⟨300, 4000000, "B", 3500⟩).2.GetDefaultLoanScheme
        = (registryView false).GetDefaultLoanScheme) :=
  have h₁ := (scheme_message_applies_now_or_queues (sampleEnv 1500) (registryView false)
    ⟨300, 4000000, "C", 0⟩ (by decide)).1 (Or.inl rfl)
  have h₂ := (scheme_message_applies_now_or_queues (sampleEnv 1500) (registryView false)
    ⟨300, 4000000, "B", 3500⟩ (by decide)).2 (by decide)
  ⟨by decide, ⟨h₁.1, h₁.2.2⟩, by decide, h₂.1, h₂.2.1, h₂.2.2.2.1, h₂.2.2.2.2⟩

/-- C17. When no default scheme is set, a successful scheme message that applies now (update
height 0, the immediate sentinel or the current height; a creation is such a message) makes its
identifier the default; when a default is already set, a successful scheme message leaves the
default pointer unchanged. -/
theorem scheme_message_sets_first_default (env : Env) (v : View) (obj : CLoanSchemeMessage)
    (hok : (CLoansConsensus.onLoanSchemeMessage env v obj).1.ok = true) :
    (v.GetDefaultLoanScheme = none →
      (obj.updateHeight = 0 ∨ obj.updateHeight = CLoansConsensus.UINT64_MAX
        ∨ obj.updateHeight = env.height) →
      (CLoansConsensus.onLoanSchemeMessage env v obj).2.GetDefaultLoanScheme
        = some obj.identifier) ∧
    (v.GetDefaultLoanScheme.isSome = true →
      (CLoansConsensus.onLoanSchemeMessage env v obj).2.GetDefaultLoanScheme
        = v.GetDefaultLoanScheme) := by
  rcases onLoanSchemeMessage_cases env v obj with hfail | ⟨-, hstore⟩
  · rw [hfail.1] at hok
    exact absurd hok (by decide)
  rcases hstore with ⟨hlater, -, hres⟩ | ⟨-, hres⟩
  · refine ⟨fun _ hnow => ?_, fun _ => ?_⟩
    · exfalso
      rcases hnow with h | h | h
      · exact hlater.1 h
      · exact hlater.2.1 h
      · exact hlater.2.2 h
    · rw [hres]
      rfl
  · rw [hres, immediateStore_eq]
    refine ⟨fun hnone _ => ?_, fun hsome => ?_⟩
    · have hn : v.defaultLoanScheme = none := hnone
      show (if v.defaultLoanScheme.isNone then some obj.identifier else v.defaultLoanScheme)
        = some obj.identifier
      rw [hn]
      rfl
    · show (if v.defaultLoanScheme.isNone then some obj.identifier else v.defaultLoanScheme)
        = v.defaultLoanScheme
      have hs : v.defaultLoanScheme.isSome = true := hsome
      cases hd : v.defaultLoanScheme with
      | none =>
        rw [hd] at hs
        exact absurd hs (by decide)
      | some d => rfl

/-- C17, at a concrete input: the creation of `A` in the empty registry makes `A` the default;
the creation of `C` in the sample registry, whose default is `A`, leaves `A` the default. -/
theorem scheme_message_sets_first_default_witness :
    emptyView.GetDefaultLoanScheme = none ∧
    (CLoansConsensus.onLoanSchemeMessage (sampleEnv 1500) emptyView
      ⟨150, 5000000, "A", 0⟩).1.ok = true ∧
    (CLoansConsensus.onLoanSchemeMessage (sampleEnv 1500) emptyView
      ⟨150, 5000000, "A", 0⟩).2.GetDefaultLoanScheme = some "A" ∧
    (registryView false).GetDefaultLoanScheme.isSome = true ∧
    (CLoansConsensus.onLoanSchemeMessage (sampleEnv 1500) (registryView false)
      ⟨300, 4000000, "C", 0⟩).1.ok = true ∧
    (CLoansConsensus.onLoanSchemeMessage (sampleEnv 1500) (registryView false)
      ⟨300, 4000000, "C", 0⟩).2.GetDefaultLoanScheme
      = (registryView false).GetDefaultLoanScheme :=
  ⟨rfl, by decide,
    (scheme_message_sets_first_default (sampleEnv 1500) emptyView ⟨150, 5000000, "A", 0⟩
      (by decide)).1 rfl (Or.inl rfl),
    by decide, by decide,
    (scheme_message_sets_first_default (sampleEnv 1500) (registryView false)
      ⟨300, 4000000, "C", 0⟩ (by decide)).2 (by decide)⟩

/-! ## Set-default and destroy messages -/

/-- C18 fails as stated: with foundation authorisation and the well-formed identifier `B` of
a scheme that exists, is not the default and is not marked for destruction, a set-default
message in a transaction that fails the generic check `CheckCustomTx()` does not succeed. -/
theorem set_default_succeeds_iff_counterexample :
    malformedTxEnv.HasFoundationAuth = true ∧
    ("B" ≠ "" ∧ "B".utf8ByteSize ≤ 8) ∧
    ((registryView false).GetLoanScheme "B").isSome = true ∧
    (registryView false).GetDefaultLoanScheme ≠ some "B" ∧
    (registryView false).GetDestroyLoanScheme "B" = none ∧
    (CLoansConsensus.onDefaultLoanSchemeMessage malformedTxEnv (registryView false)
      ⟨"B"⟩).1.ok = false := by
  refine ⟨by decide, by decide, by decide, by decide, by decide, by decide⟩

/-- C18, amended. In a transaction that passes the generic check, with foundation
authorisation and an identifier that is non-empty and at most 8 bytes long, a set-default
message succeeds if and only if the identified scheme exists, is not already the default and is
not marked for destruction; on success the default pointer is the identifier and nothing else
changes; on failure (of any message) the view, and so the default pointer, is unchanged. -/
theorem set_default_succeeds_iff (env : Env) (v : View) (obj : CDefaultLoanSchemeMessage)
    (hcheck : env.CheckCustomTx.ok = true) (hauth : env.HasFoundationAuth = true)
    (hid : obj.identifier ≠ "" ∧ obj.identifier.utf8ByteSize ≤ 8) :
    ((CLoansConsensus.onDefaultLoanSchemeMessage env v obj).1.ok = true ↔
      ((v.GetLoanScheme obj.identifier).isSome = true ∧
        v.GetDefaultLoanScheme ≠ some obj.identifier ∧
        v.GetDestroyLoanScheme obj.identifier = none)) ∧
    ((CLoansConsensus.onDefaultLoanSchemeMessage env v obj).1.ok = true →
      (CLoansConsensus.onDefaultLoanSchemeMessage env v obj).2
        = { v with defaultLoanScheme := some obj.identifier }) ∧
    ((CLoansConsensus.onDefaultLoanSchemeMessage env v obj).1.ok = false →
      (CLoansConsensus.onDefaultLoanSchemeMessage env v obj).2 = v ∧
      (CLoansConsensus.onDefaultLoanSchemeMessage env v obj).2.GetDefaultLoanScheme
        = v.GetDefaultLoanScheme) := by
  refine ⟨⟨fun hok => ?_, fun hcond => ?_⟩, fun hok => ?_, fun hno => ?_⟩
  · rcases onDefaultLoanSchemeMessage_cases env v obj with hfail | ⟨-, -, -, h1, h2, h3, -⟩
    · rw [hfail.1] at hok
      exact absurd hok (by decide)
    · exact ⟨h1, h2, h3⟩
  · obtain ⟨h1, h2, h3⟩ := hcond
    unfold CLoansConsensus.onDefaultLoanSchemeMessage
    rw [if_neg (by simp [hcheck]), if_neg (by simp [hauth]), if_neg (not_not.mpr hid),
      if_neg (by simp [Option.isSome_iff_ne_none.mp h1]),
      if_neg (not_not.mpr (Or.inr h2)), if_neg (by simp [h3])]
    rfl
  · rcases onDefaultLoanSchemeMessage_cases env v obj with hfail | ⟨-, -, -, -, -, -, hres⟩
    · rw [hfail.1] at hok
      exact absurd hok (by decide)
    · rw [hres]
      rfl
  · rcases onDefaultLoanSchemeMessage_cases env v obj with hfail | ⟨-, -, -, -, -, -, hres⟩
    · exact ⟨hfail.2, by rw [hfail.2]⟩
    · rw [hres] at hno
      exact Bool.noConfusion hno

/-- C18 amended, at a concrete input: in the sample registry the choice of `B` as default
succeeds and writes the pointer only; the choice of `A`, already the default, fails, and so
does the choice of `B` once it is marked for destruction. -/
theorem set_default_succeeds_iff_witness :
    (sampleEnv 1500).CheckCustomTx.ok = true ∧ (sampleEnv 1500).HasFoundationAuth = true ∧
    ("B" ≠ "" ∧ "B".utf8ByteSize ≤ 8) ∧
    (((registryView false).GetLoanScheme "B").isSome = true ∧
      (registryView false).GetDefaultLoanScheme ≠ some "B" ∧
      (registryView false).GetDestroyLoanScheme "B" = none) ∧
    (CLoansConsensus.onDefaultLoanSchemeMessage (sampleEnv 1500) (registryView false)
      ⟨"B"⟩).1.ok = true ∧
    (CLoansConsensus.onDefaultLoanSchemeMessage (sampleEnv 1500) (registryView false) ⟨"B"⟩).2
      = { registryView false with defaultLoanScheme := some "B" } ∧
    ¬ ((CLoansConsensus.onDefaultLoanSchemeMessage (sampleEnv 1500) (registryView false)
      ⟨"A"⟩).1.ok = true) ∧
    ¬ ((CLoansConsensus.onDefaultLoanSchemeMessage (sampleEnv 1500) (registryView true)
      ⟨"B"⟩).1.ok = true) :=
  have hB := set_default_succeeds_iff (sampleEnv 1500) (registryView false) ⟨"B"⟩
    (by decide) (by decide) (by decide)
  have hA := set_default_succeeds_iff (sampleEnv 1500) (registryView false) ⟨"A"⟩
    (by decide) (by decide) (by decide)
  have hM := set_default_succeeds_iff (sampleEnv 1500) (registryView true) ⟨"B"⟩
    (by decide) (by decide) (by decide)
  have hcond : ((registryView false).GetLoanScheme "B").isSome = true ∧
      (registryView false).GetDefaultLoanScheme ≠ some "B" ∧
      (registryView false).GetDestroyLoanScheme "B" = none := by decide
  ⟨by decide, by decide, by decide, hcond, hB.1.mpr hcond, hB.2.1 (hB.1.mpr hcond),
    fun h => (hA.1.mp h).2.1 (by decide), fun h => absurd (hM.1.mp h).2.2 (by decide)⟩

theorem mapFind_eq_none_of_not_mem {κ τ : Type} [DecidableEq κ] (k : κ) (l : List (κ × τ))
    (h : k ∉ l.map Prod.fst) : mapFind k l = none := by
  induction l with
  | nil => rfl
  | cons hd tl ih =>
    obtain ⟨k', t'⟩ := hd
    simp only [List.map_cons, List.mem_cons, not_or] at h
    simp only [mapFind]
    rw [if_neg (fun e => h.1 e.symm)]
    exact ih h.2

/-- One step of the `ForEachVault` pass of the destroy handler leaves the default pointer as
it is. -/
theorem reassignVault_default (X : String) (acc : View) (entry : CVaultId × CVaultData) :
    (CLoansConsensus.reassignVault X acc entry).GetDefaultLoanScheme
      = acc.GetDefaultLoanScheme := by
  unfold CLoansConsensus.reassignVault
  split <;> rfl

/-- The vault table after the `ForEachVault` pass of the destroy handler over the records `l`,
each vault identifier occurring once: a vault of `l` bound to the destroyed scheme `X` is
bound to the default `D`, every other vault is what it was. -/
theorem foldl_reassignVault_lookup (X D : String) (l : List (CVaultId × CVaultData))
    (acc : View) (hD : acc.GetDefaultLoanScheme = some D) (hnd : (l.map Prod.fst).Nodup)
    (id : CVaultId) :
    mapFind id (l.foldl (CLoansConsensus.reassignVault X) acc).vaults =
      match mapFind id l with
      | some vault =>
        if vault.schemeId = X then some { vault with schemeId := D } else mapFind id acc.vaults
      | none => mapFind id acc.vaults := by
  induction l generalizing acc with
  | nil => rfl
  | cons hd tl ih =>
    obtain ⟨k, vd⟩ := hd
    simp only [List.map_cons, List.nodup_cons] at hnd
    rw [List.foldl_cons,
      ih (CLoansConsensus.reassignVault X acc (k, vd))
        ((reassignVault_default X acc (k, vd)).trans hD) hnd.2]
    by_cases hk : k = id
    · subst hk
      rw [mapFind_eq_none_of_not_mem k tl hnd.1]
      simp only [mapFind, if_true]
      unfold CLoansConsensus.reassignVault
      by_cases hX : vd.schemeId = X
      · simp only [hX, if_true, View.StoreVault, hD, Option.getD_some]
        exact mapFind_mapSet_self _ _ _
      · simp only [hX, if_false]
    · have hstep : mapFind id (CLoansConsensus.reassignVault X acc (k, vd)).vaults
          = mapFind id acc.vaults := by
        unfold CLoansConsensus.reassignVault
        by_cases hX : vd.schemeId = X
        · simp only [hX, if_true, View.StoreVault]
          exact mapFind_mapSet_ne _ _ _ _ (fun e => hk e.symm)
        · simp only [hX, if_false]
      simp only [mapFind, if_neg hk]
      rw [hstep]

/-- C19. A destroy message is rejected, the view handed back, when its target is the current
default. When it executes immediately (destroy height 0 or the current height) and succeeds for
the identifier X, in a view with a current default D and one record per vault identifier:
afterwards the default is still D, every vault whose scheme was X has the scheme D and is
otherwise what it was, every vault whose scheme was not X is unchanged, no vault refers to X,
and the scheme record X is erased. -/
theorem destroy_scheme_reassigns_vaults (env : Env) (v : View)
    (obj : CDestroyLoanSchemeMessage) :
    (v.GetDefaultLoanScheme = some obj.identifier →
      (CLoansConsensus.onDestroyLoanSchemeMessage env v obj).1.ok = false ∧
      (CLoansConsensus.onDestroyLoanSchemeMessage env v obj).2 = v) ∧
    ((CLoansConsensus.onDestroyLoanSchemeMessage env v obj).1.ok = true →
      (obj.destroyHeight = 0 ∨ obj.destroyHeight = env.height) →
      ∀ D : String, v.GetDefaultLoanScheme = some D → (v.vaults.map Prod.fst).Nodup →
      (CLoansConsensus.onDestroyLoanSchemeMessage env v obj).2.GetDefaultLoanScheme = some D ∧
      (∀ (id : CVaultId) (vault : CVaultData), v.GetVault id = some vault →
        vault.schemeId = obj.identifier →
        (CLoansConsensus.onDestroyLoanSchemeMessage env v obj).2.GetVault id
          = some { vault with schemeId := D }) ∧
      (∀ (id : CVaultId) (vault : CVaultData), v.GetVault id = some vault →
        vault.schemeId ≠ obj.identifier →
        (CLoansConsensus.onDestroyLoanSchemeMessage env v obj).2.GetVault id = some vault) ∧
      (∀ (id : CVaultId) (vault : CVaultData),
        (CLoansConsensus.onDestroyLoanSchemeMessage env v obj).2.GetVault id = some vault →
        vault.schemeId ≠ obj.identifier) ∧
      (CLoansConsensus.onDestroyLoanSchemeMessage env v obj).2.GetLoanScheme obj.identifier
        = none) := by
  rcases onDestroyLoanSchemeMessage_cases env v obj with hfail | ⟨-, -, -, -, hne, hstore⟩
  · refine ⟨fun _ => hfail, fun hok => ?_⟩
    rw [hfail.1] at hok
    exact absurd hok (by decide)
  refine ⟨fun hdef => absurd hdef hne, fun _ himm D hD hnd => ?_⟩
  rcases hstore with ⟨hlater, -, -⟩ | ⟨-, hres⟩
  · exfalso
    rcases himm with h | h
    · exact hlater.1 h
    · exact hlater.2 h
  have hDX : D ≠ obj.identifier := fun e => hne (e ▸ hD)
  have hlook : ∀ id : CVaultId,
      (CLoansConsensus.onDestroyLoanSchemeMessage env v obj).2.GetVault id =
        match v.GetVault id with
        | some vault =>
          if vault.schemeId = obj.identifier then some { vault with schemeId := D }
          else v.GetVault id
        | none => v.GetVault id := by
    intro id
    rw [hres]
    exact foldl_reassignVault_lookup obj.identifier D v.vaults v hD hnd id
  refine ⟨?_, ?_, ?_, ?_, ?_⟩
  · rw [hres, foldl_reassignVault_frame]
    exact hD
  · intro id vault hv hX
    rw [hlook id, hv]
    simp only [hX, if_true]
  · intro id vault hv hX
    rw [hlook id, hv]
    simp only [hX, if_false]
  · intro id vault hv'
    rw [hlook id] at hv'
    cases hv : v.GetVault id with
    | none =>
      rw [hv] at hv'
      exact Option.noConfusion hv'
    | some vault₀ =>
      rw [hv] at hv'
      by_cases hX : vault₀.schemeId = obj.identifier
      · simp only [hX, if_true] at hv'
        rw [← Option.some.inj hv']
        exact hDX
      · simp only [hX, if_false] at hv'
        rw [← Option.some.inj hv']
        exact hX
  · rw [hres]
    exact mapFind_mapErase_self _ _

/-- C19, at a concrete input: with default `A`, the destruction of `A` is rejected; the
immediate destruction of `B` succeeds, moves the vaults 1 and 3 from `B` to `A`, leaves vault 2
as it was, and erases the record of `B`. -/
theorem destroy_scheme_reassigns_vaults_witness :
    vaultsOnSchemesView.GetDefaultLoanScheme = some "A" ∧
    (vaultsOnSchemesView.vaults.map Prod.fst).Nodup ∧
    (CLoansConsensus.onDestroyLoanSchemeMessage (sampleEnv 1500) vaultsOnSchemesView
      ⟨"A", 0⟩).1.ok = false ∧
    (CLoansConsensus.onDestroyLoanSchemeMessage (sampleEnv 1500) vaultsOnSchemesView
      ⟨"B", 0⟩).1.ok = true ∧
    (CLoansConsensus.onDestroyLoanSchemeMessage (sampleEnv 1500) vaultsOnSchemesView
      ⟨"B", 0⟩).2.GetVault 1 = some ⟨[1], "A", false⟩ ∧
    (CLoansConsensus.onDestroyLoanSchemeMessage (sampleEnv 1500) vaultsOnSchemesView
      ⟨"B", 0⟩).2.GetVault 3 = some ⟨[3], "A", false⟩ ∧
    (CLoansConsensus.onDestroyLoanSchemeMessage (sampleEnv 1500) vaultsOnSchemesView
      ⟨"B", 0⟩).2.GetVault 2 = some ⟨[2], "A", false⟩ ∧
    (CLoansConsensus.onDestroyLoanSchemeMessage (sampleEnv 1500) vaultsOnSchemesView
      ⟨"B", 0⟩).2.GetLoanScheme "B" = none :=
  have hA := (destroy_scheme_reassigns_vaults (sampleEnv 1500) vaultsOnSchemesView
    ⟨"A", 0⟩).1 rfl
  have hB := (destroy_scheme_reassigns_vaults (sampleEnv 1500) vaultsOnSchemesView
    ⟨"B", 0⟩).2 (by decide) (Or.inl rfl) "A" rfl (by decide)
  ⟨rfl, by decide, hA.1, by decide, hB.2.1 1 ⟨[1], "B", false⟩ (by decide) rfl,
    hB.2.1 3 ⟨[3], "B", false⟩ (by decide) rfl,
    hB.2.2.1 2 ⟨[2], "A", false⟩ (by decide) (by decide), hB.2.2.2.2⟩

/-! ## Vault creation -/

/-- The two outcomes of a create-vault message: it fails and hands the view back, or output 0
of the transaction carries the creation fee in token 0, the scheme (the one named, or the
default when none is named) exists, the scheme named in the message is not marked for
destruction, and the vault is stored under the hash of the transaction. -/
theorem onVaultMessage_cases (env : Env) (v : View) (obj : CVaultMessage) :
    ((CVaultsConsensus.onVaultMessage env v obj).1.ok = false ∧
      (CVaultsConsensus.onVaultMessage env v obj).2 = v) ∨
    (∃ schemeId : String,
      (env.vout0.nValue = env.vaultCreationFee ∧ env.vout0.nTokenId = 0) ∧
      (if obj.schemeId = "" then v.GetDefaultLoanScheme else some obj.schemeId) = some schemeId ∧
      (v.GetLoanScheme schemeId).isSome = true ∧
      v.GetDestroyLoanScheme obj.schemeId = none ∧
      CVaultsConsensus.onVaultMessage env v obj =
        v.StoreVault env.txHash ⟨obj.ownerAddress, schemeId, false⟩) := by
  unfold CVaultsConsensus.onVaultMessage
  by_cases h1 : ¬ (env.vout0.nValue = env.vaultCreationFee ∧ env.vout0.nTokenId = 0)
  · rw [if_pos h1]
    exact Or.inl ⟨rfl, rfl⟩
  rw [if_neg h1]
  dsimp only
  cases h2 : (if obj.schemeId = "" then v.GetDefaultLoanScheme else some obj.schemeId) with
  | none => exact Or.inl ⟨rfl, rfl⟩
  | some schemeId =>
  dsimp only
  by_cases h3 : (v.GetLoanScheme schemeId).isNone = true
  · rw [if_pos h3]
    exact Or.inl ⟨rfl, rfl⟩
  rw [if_neg h3]
  by_cases h4 : (v.GetDestroyLoanScheme obj.schemeId).isSome = true
  · rw [if_pos h4]
    exact Or.inl ⟨rfl, rfl⟩
  rw [if_neg h4]
  refine Or.inr ⟨schemeId, not_not.mp h1, rfl, ?_, ?_, rfl⟩
  · simpa [Option.isNone_iff_eq_none, Option.isSome_iff_ne_none] using h3
  · simpa using h4

/-- C20. A create-vault message is rejected, the view handed back, unless output 0 of the
transaction carries exactly the vault creation fee in the base token (id 0). When the message
names no scheme, creation fails if no default exists, and on success the scheme of the stored
vault is the registry default. On success the vault is stored under the hash of the creating
transaction with the owner address of the message, the resolved scheme (the one named, or the
default) and isUnderLiquidation = false, and every other vault is what it was. -/
theorem create_vault_stores_vault (env : Env) (v : View) (obj : CVaultMessage) :
    (¬ (env.vout0.nValue = env.vaultCreationFee ∧ env.vout0.nTokenId = 0) →
      (CVaultsConsensus.onVaultMessage env v obj).1.ok = false ∧
      (CVaultsConsensus.onVaultMessage env v obj).2 = v) ∧
    (obj.schemeId = "" → v.GetDefaultLoanScheme = none →
      (CVaultsConsensus.onVaultMessage env v obj).1.ok = false ∧
      (CVaultsConsensus.onVaultMessage env v obj).2 = v) ∧
    ((CVaultsConsensus.onVaultMessage env v obj).1.ok = true →
      ∃ schemeId : String,
        (if obj.schemeId = "" then v.GetDefaultLoanScheme else some obj.schemeId)
          = some schemeId ∧
        (CVaultsConsensus.onVaultMessage env v obj).2.GetVault env.txHash
          = some ⟨obj.ownerAddress, schemeId, false⟩ ∧
        (∀ id : CVaultId, id ≠ env.txHash →
          (CVaultsConsensus.onVaultMessage env v obj).2.GetVault id = v.GetVault id)) := by
  rcases onVaultMessage_cases env v obj with hfail | ⟨schemeId, hfee, hres, -, -, hstore⟩
  · refine ⟨fun _ => hfail, fun _ _ => hfail, fun hok => ?_⟩
    rw [hfail.1] at hok
    exact absurd hok (by decide)
  · refine ⟨fun hno => absurd hfee hno, fun hempty hnone => ?_, fun _ => ?_⟩
    · rw [if_pos hempty, hnone] at hres
      exact Option.noConfusion hres
    · refine ⟨schemeId, hres, ?_, ?_⟩
      · rw [hstore]
        exact mapFind_mapSet_self _ _ _
      · intro id hid
        rw [hstore]
        exact mapFind_mapSet_ne _ _ _ _ hid

/-- C20, at a concrete input: in the scenario with the scheme `A` as default, the owner `[1]`
creates a vault without naming a scheme and with the exact fee: the vault is stored under the
transaction hash 77 with owner `[1]`, scheme `A` and no liquidation flag. With no default (the
start of the scenario) the same message is rejected. -/
theorem create_vault_stores_vault_witness :
    (CVaultsConsensus.onVaultMessage scenarioEnv scenarioAfterScheme ⟨[1], ""⟩).1.ok = true ∧
    scenarioAfterScheme.GetDefaultLoanScheme = some "A" ∧
    (CVaultsConsensus.onVaultMessage scenarioEnv scenarioAfterScheme ⟨[1], ""⟩).2.GetVault
      scenarioEnv.txHash = some ⟨[1], "A", false⟩ ∧
    scenarioStart.GetDefaultLoanScheme = none ∧
    (CVaultsConsensus.onVaultMessage scenarioEnv scenarioStart ⟨[1], ""⟩).1.ok = false :=
  have h := create_vault_stores_vault scenarioEnv scenarioAfterScheme ⟨[1], ""⟩
  have h₀ := (create_vault_stores_vault scenarioEnv scenarioStart ⟨[1], ""⟩).2.1 rfl rfl
  ⟨by decide, by decide,
    (h.2.2 (by decide)).elim (fun schemeId hs => by
      have e : schemeId = "A" := by
        have h₁ := hs.1
        rw [if_pos rfl] at h₁
        exact (Option.some.inj ((show scenarioAfterScheme.GetDefaultLoanScheme = some "A" by
          decide).symm.trans h₁)).symm
      rw [← e]
      exact hs.2.1),
    rfl, h₀.1⟩

/-! ## Take-loan and withdraw against the collateral ratio -/

/-- Adding a loan writes the vault-loan table only. -/
theorem AddLoanToken_frame (v : View) (vaultId : CVaultId) (amount : CTokenAmount) :
    (v.AddLoanToken vaultId amount).2 =
      { v with vaultLoans := (v.AddLoanToken vaultId amount).2.vaultLoans } := by
  unfold View.AddLoanToken
  split
  · rfl
  · split
    · rfl
    · split <;> rfl

/-- Raising the minted total writes the token registry only. -/
theorem AddMintedTokens_frame (v : View) (tokenId : DCT_ID) (amount : CAmount) :
    (v.AddMintedTokens tokenId amount).2 =
      { v with tokens := (v.AddMintedTokens tokenId amount).2.tokens } := by
  unfold View.AddMintedTokens
  split
  · rfl
  · split <;> rfl

/-- Removing collateral writes the vault-collateral table only. -/
theorem SubVaultCollateral_frame (v : View) (vaultId : CVaultId) (amount : CTokenAmount) :
    (v.SubVaultCollateral vaultId amount).2 =
      { v with vaultCollaterals := (v.SubVaultCollateral vaultId amount).2.vaultCollaterals } := by
  unfold View.SubVaultCollateral
  split
  · rfl
  · split
    · rfl
    · split <;> rfl

/-- One pass of the take-loan loop leaves the scheme table, the vault table and the collateral
table as they are. -/
theorem takeLoanStep_frame (env : Env) (obj : CLoanTakeLoanMessage) (vault : CVaultData)
    (st : CLoansConsensus.TakeLoanState) (kv : DCT_ID × CAmount) :
    (CLoansConsensus.takeLoanStep env obj vault st kv).2.view.loanSchemes
      = st.view.loanSchemes ∧
    (CLoansConsensus.takeLoanStep env obj vault st kv).2.view.vaults = st.view.vaults ∧
    (CLoansConsensus.takeLoanStep env obj vault st kv).2.view.vaultCollaterals
      = st.view.vaultCollaterals := by
  have h1 := AddLoanToken_frame st.view obj.vaultId ⟨kv.1, kv.2⟩
  have h3 := fun w : View => AddMintedTokens_frame w kv.1 kv.2
  have h5 := fun (w : View) (a : CScript) => AddBalance_frame w a ⟨kv.1, kv.2⟩
  unfold CLoansConsensus.takeLoanStep
  dsimp only
  split
  · exact ⟨rfl, rfl, rfl⟩
  split
  · exact ⟨rfl, rfl, rfl⟩
  split
  · dsimp only
    rw [h1]
    exact ⟨rfl, rfl, rfl⟩
  split
  · dsimp only
    rw [h1]
    exact ⟨rfl, rfl, rfl⟩
  split
  · dsimp only
    rw [h1]
    exact ⟨rfl, rfl, rfl⟩
  split
  · dsimp only
    rw [h1]
    exact ⟨rfl, rfl, rfl⟩
  split
  · dsimp only
    rw [h1]
    exact ⟨rfl, rfl, rfl⟩
  split
  · dsimp only
    rw [h1]
    exact ⟨rfl, rfl, rfl⟩
  split
  · dsimp only
    rw [h3, h1]
    exact ⟨rfl, rfl, rfl⟩
  · dsimp only
    rw [h5, Env.withOwnerRewards, h3, h1]
    exact ⟨rfl, rfl, rfl⟩

/-- The take-loan loop leaves the scheme table, the vault table and the collateral table as
they are. -/
theorem takeLoanLoop_frame (env : Env) (obj : CLoanTakeLoanMessage) (vault : CVaultData)
    (amounts : List (DCT_ID × CAmount)) (st : CLoansConsensus.TakeLoanState) :
    (CLoansConsensus.takeLoanLoop env obj vault st amounts).2.view.loanSchemes
      = st.view.loanSchemes ∧
    (CLoansConsensus.takeLoanLoop env obj vault st amounts).2.view.vaults = st.view.vaults ∧
    (CLoansConsensus.takeLoanLoop env obj vault st amounts).2.view.vaultCollaterals
      = st.view.vaultCollaterals := by
  induction amounts generalizing st with
  | nil => exact ⟨rfl, rfl, rfl⟩
  | cons kv rest ih =>
    have hstep := takeLoanStep_frame env obj vault st kv
    unfold CLoansConsensus.takeLoanLoop
    dsimp only
    split
    · exact hstep
    · have hrest := ih (CLoansConsensus.takeLoanStep env obj vault st kv).2
      exact ⟨hrest.1.trans hstep.1, hrest.2.1.trans hstep.2.1, hrest.2.2.trans hstep.2.2⟩

/-! ### The loans a take-loan has added -/

theorem CBalancesAdd_lookup (b : CBalances) (amount : CTokenAmount) (b' : CBalances)
    (h : CBalancesAdd b amount = .ok b') (t : DCT_ID) :
    (mapFind t b').getD 0 =
      (mapFind t b).getD 0 + (if t = amount.nTokenId then amount.nValue else 0) := by
  unfold CBalancesAdd at h
  by_cases h0 : amount.nValue = 0
  · rw [if_pos h0] at h
    cases h
    rw [h0]
    simp
  · rw [if_neg h0] at h
    cases hadd : CTokenAmount.Add ⟨amount.nTokenId, (mapFind amount.nTokenId b).getD 0⟩
        amount.nValue with
    | error r =>
      rw [hadd] at h
      exact Except.noConfusion h
    | ok cur =>
      rw [hadd] at h
      dsimp only at h
      have hcur := CTokenAmount.Add_ok _ _ _ hadd
      have hval : cur.nValue = (mapFind amount.nTokenId b).getD 0 + amount.nValue := by
        rw [hcur]
      by_cases ht : t = amount.nTokenId
      · rw [if_pos ht, ht]
        by_cases hz : cur.nValue = 0
        · rw [if_pos hz] at h
          cases h
          rw [mapFind_mapErase_self, ← hval, hz]
          rfl
        · rw [if_neg hz] at h
          cases h
          rw [mapFind_mapSet_self, hval]
          rfl
      · rw [if_neg ht, add_zero]
        by_cases hz : cur.nValue = 0
        · rw [if_pos hz] at h
          cases h
          rw [mapFind_mapErase_ne _ _ _ ht]
        · rw [if_neg hz] at h
          cases h
          rw [mapFind_mapSet_ne _ _ _ _ ht]

theorem CBalancesAdd_ok_nonneg (b : CBalances) (amount : CTokenAmount) (b' : CBalances)
    (h : CBalancesAdd b amount = .ok b') : 0 ≤ amount.nValue := by
  unfold CBalancesAdd at h
  by_cases h0 : amount.nValue = 0
  · rw [h0]
  · rw [if_neg h0] at h
    by_cases hneg : amount.nValue < 0
    · unfold CTokenAmount.Add at h
      rw [if_pos hneg] at h
      exact Except.noConfusion h
    · exact not_lt.mp hneg

theorem CBalancesAdd_error (b : CBalances) (amount : CTokenAmount) (r : Res)
    (h : CBalancesAdd b amount = .error r) : r.ok = false := by
  unfold CBalancesAdd at h
  by_cases hz : amount.nValue = 0
  · rw [if_pos hz] at h
    exact Except.noConfusion h
  · rw [if_neg hz] at h
    cases hta : CTokenAmount.Add ⟨amount.nTokenId, (mapFind amount.nTokenId b).getD 0⟩
        amount.nValue with
    | error r' =>
      rw [hta] at h
      cases h
      exact CTokenAmount.Add_error _ _ _ hta
    | ok cur =>
      rw [hta] at h
      dsimp only at h
      split at h <;> exact Except.noConfusion h

/-- A loan added to a vault whose loan in the token is not negative: the amount is not
negative, and the loan of the vault in every token is the one before, plus the amount in the
token of the amount. -/
theorem AddLoanToken_loanOf (v : View) (vaultId : CVaultId) (amount : CTokenAmount)
    (hok : (v.AddLoanToken vaultId amount).1.ok = true)
    (h0 : 0 ≤ v.loanOf vaultId amount.nTokenId) :
    0 ≤ amount.nValue ∧
    ∀ t : DCT_ID, (v.AddLoanToken vaultId amount).2.loanOf vaultId t =
      v.loanOf vaultId t + (if t = amount.nTokenId then amount.nValue else 0) := by
  unfold View.AddLoanToken at hok ⊢
  cases hlt : v.GetLoanTokenByID amount.nTokenId with
  | none =>
    rw [hlt] at hok
    exact Bool.noConfusion hok
  | some lt =>
  rw [hlt] at hok
  dsimp only at hok ⊢
  cases hadd : CBalancesAdd ((mapFind vaultId v.vaultLoans).getD []) amount with
  | error r =>
    rw [hadd] at hok
    dsimp only at hok
    rw [CBalancesAdd_error _ _ _ hadd] at hok
    exact Bool.noConfusion hok
  | ok amounts =>
  dsimp only
  have hnn := CBalancesAdd_ok_nonneg _ _ _ hadd
  have hlook := CBalancesAdd_lookup _ _ _ hadd
  refine ⟨hnn, fun t => ?_⟩
  by_cases hne : amounts ≠ []
  · rw [if_pos hne]
    unfold View.loanOf View.GetLoanTokens
    dsimp only
    rw [mapFind_mapSet_self]
    exact hlook t
  · rw [if_neg hne]
    have hempty : amounts = [] := not_not.mp hne
    have hl := hlook t
    rw [hempty] at hl
    have hl0 := hlook amount.nTokenId
    rw [hempty, if_pos rfl] at hl0
    unfold View.loanOf View.GetLoanTokens at h0 ⊢
    have hz : amount.nValue = 0 := by
      have e : (0 : CAmount) =
          (mapFind amount.nTokenId ((mapFind vaultId v.vaultLoans).getD [])).getD 0
            + amount.nValue := hl0
      simp only [CAmount] at *
      omega
    by_cases ht : t = amount.nTokenId
    · rw [if_pos ht, hz, add_zero]
    · rw [if_neg ht, add_zero]

/-- One pass of the take-loan loop that succeeds has added the loan to the vault, and the loan
table it leaves is the one left by that addition. -/
theorem takeLoanStep_vaultLoans (env : Env) (obj : CLoanTakeLoanMessage) (vault : CVaultData)
    (st : CLoansConsensus.TakeLoanState) (kv : DCT_ID × CAmount)
    (hok : (CLoansConsensus.takeLoanStep env obj vault st kv).1.ok = true) :
    (st.view.AddLoanToken obj.vaultId ⟨kv.1, kv.2⟩).1.ok = true ∧
    (CLoansConsensus.takeLoanStep env obj vault st kv).2.view.vaultLoans =
      (st.view.AddLoanToken obj.vaultId ⟨kv.1, kv.2⟩).2.vaultLoans := by
  have h3 := fun w : View => AddMintedTokens_frame w kv.1 kv.2
  have h5 := fun (w : View) (a : CScript) => AddBalance_frame w a ⟨kv.1, kv.2⟩
  generalize hr : CLoansConsensus.takeLoanStep env obj vault st kv = r at hok ⊢
  unfold CLoansConsensus.takeLoanStep at hr
  dsimp only at hr
  split at hr
  · subst hr
    exact Bool.noConfusion hok
  split at hr
  · subst hr
    exact Bool.noConfusion hok
  split at hr
  · rename_i h
    subst hr
    dsimp only at hok
    rw [hok] at h
    exact Bool.noConfusion h
  rename_i hadd
  have haddok : (st.view.AddLoanToken obj.vaultId ⟨kv.1, kv.2⟩).1.ok = true := by
    cases hb : (st.view.AddLoanToken obj.vaultId ⟨kv.1, kv.2⟩).1.ok with
    | true => rfl
    | false =>
      rw [hb] at hadd
      exact absurd rfl hadd
  refine ⟨haddok, ?_⟩
  split at hr
  · subst hr
    rfl
  split at hr
  · subst hr
    rfl
  split at hr
  · subst hr
    rfl
  split at hr
  · subst hr
    rfl
  split at hr
  · subst hr
    rfl
  split at hr
  · subst hr
    dsimp only
    rw [h3]
  · subst hr
    dsimp only
    rw [h5, Env.withOwnerRewards, h3]

/-- The take-loan loop, when it succeeds on a vault whose loans are not negative, leaves a
view in which the loan of the vault in every token is the loan before plus the amount requested
in the token. -/
theorem takeLoanLoop_loans (env : Env) (obj : CLoanTakeLoanMessage) (vault : CVaultData)
    (amounts : List (DCT_ID × CAmount)) (st : CLoansConsensus.TakeLoanState)
    (h0 : ∀ t : DCT_ID, 0 ≤ st.view.loanOf obj.vaultId t)
    (hok : (CLoansConsensus.takeLoanLoop env obj vault st amounts).1.ok = true) :
    ∀ t : DCT_ID,
      (CLoansConsensus.takeLoanLoop env obj vault st amounts).2.view.loanOf obj.vaultId t =
        st.view.loanOf obj.vaultId t + requestedOf amounts t := by
  induction amounts generalizing st with
  | nil =>
    intro t
    exact (add_zero _).symm
  | cons kv rest ih =>
    unfold CLoansConsensus.takeLoanLoop at hok ⊢
    dsimp only at hok ⊢
    by_cases hs : (!(CLoansConsensus.takeLoanStep env obj vault st kv).1.ok) = true
    · rw [if_pos hs] at hok
      rw [hok] at hs
      exact Bool.noConfusion hs
    rw [if_neg hs] at hok ⊢
    have hsok : (CLoansConsensus.takeLoanStep env obj vault st kv).1.ok = true := by
      cases hb : (CLoansConsensus.takeLoanStep env obj vault st kv).1.ok with
      | true => rfl
      | false =>
        rw [hb] at hs
        exact absurd rfl hs
    obtain ⟨haddok, hloans⟩ := takeLoanStep_vaultLoans env obj vault st kv hsok
    obtain ⟨hnn, hadd⟩ := AddLoanToken_loanOf st.view obj.vaultId ⟨kv.1, kv.2⟩ haddok (h0 kv.1)
    have hstep : ∀ t : DCT_ID,
        (CLoansConsensus.takeLoanStep env obj vault st kv).2.view.loanOf obj.vaultId t =
          st.view.loanOf obj.vaultId t + (if t = kv.1 then kv.2 else 0) := by
      intro t
      have : (CLoansConsensus.takeLoanStep env obj vault st kv).2.view.loanOf obj.vaultId t =
          (st.view.AddLoanToken obj.vaultId ⟨kv.1, kv.2⟩).2.loanOf obj.vaultId t := by
        unfold View.loanOf View.GetLoanTokens
        rw [hloans]
      rw [this]
      exact hadd t
    have h0' : ∀ t : DCT_ID,
        0 ≤ (CLoansConsensus.takeLoanStep env obj vault st kv).2.view.loanOf obj.vaultId t := by
      intro t
      rw [hstep t]
      have := h0 t
      by_cases ht : t = kv.1
      · rw [if_pos ht]
        exact add_nonneg this hnn
      · rw [if_neg ht, add_zero]
        exact this
    intro t
    rw [ih (CLoansConsensus.takeLoanStep env obj vault st kv).2 h0' hok t, hstep t]
    show _ = _ + ((if kv.1 = t then kv.2 else 0) + requestedOf rest t)
    by_cases ht : t = kv.1
    · rw [if_pos ht, if_pos ht.symm, add_assoc]
    · rw [if_neg ht, if_neg (Ne.symm ht), add_assoc]

/-- C12. Take-loan on a vault with collateral, bound to an existing scheme: the handler
succeeds only if every per-token step succeeds and the collateral ratio, checked on the view
after all requested loan amounts have been added, meets the minimum of the scheme under the
current and under the next price; and when the transaction checks pass and every per-token
step succeeds, the result of the handler is exactly the result of
`CheckNextCollateralRatio(vault, scheme, collaterals)` on that view. That view is the state
after the mutation: its scheme and collateral records are the ones read before the loop, and,
the loans of the vault before the call not being negative, the loan of the vault in every
token is the loan before the call plus the amount requested in the token. -/
theorem take_loan_result_is_ratio_check (env : Env) (v : View) (obj : CLoanTakeLoanMessage)
    (vault : CVaultData) (collaterals : CBalances) (scheme : CLoanSchemeData)
    (hvault : v.GetVault obj.vaultId = some vault)
    (hcol : v.GetVaultCollaterals obj.vaultId = some collaterals)
    (hscheme : v.GetLoanScheme vault.schemeId = some scheme) :
    ((CLoansConsensus.onLoanTakeLoanMessage env v obj).1.ok = true →
      (CLoansConsensus.takeLoanLoop env obj vault ⟨v, 0, 0⟩ obj.amounts).1.ok = true ∧
      (env.CheckCollateralRatio
        (CLoansConsensus.takeLoanLoop env obj vault ⟨v, 0, 0⟩ obj.amounts).2.view
        obj.vaultId scheme collaterals false true).ok = true ∧
      (env.CheckCollateralRatio
        (CLoansConsensus.takeLoanLoop env obj vault ⟨v, 0, 0⟩ obj.amounts).2.view
        obj.vaultId scheme collaterals true true).ok = true) ∧
    (env.CheckCustomTx.ok = true → vault.isUnderLiquidation = false →
      env.HasAuth vault.ownerAddress = true →
      env.IsVaultPriceValid v obj.vaultId env.height = true →
      (CLoansConsensus.takeLoanLoop env obj vault ⟨v, 0, 0⟩ obj.amounts).1.ok = true →
      CLoansConsensus.onLoanTakeLoanMessage env v obj =
        (env.CheckNextCollateralRatio
          (CLoansConsensus.takeLoanLoop env obj vault ⟨v, 0, 0⟩ obj.amounts).2.view
          obj.vaultId scheme collaterals,
         (CLoansConsensus.takeLoanLoop env obj vault ⟨v, 0, 0⟩ obj.amounts).2.view)) ∧
    (CLoansConsensus.takeLoanLoop env obj vault ⟨v, 0, 0⟩ obj.amounts).2.view.GetLoanScheme
      vault.schemeId = some scheme ∧
    (CLoansConsensus.takeLoanLoop env obj vault ⟨v, 0, 0⟩ obj.amounts).2.view.GetVaultCollaterals
      obj.vaultId = some collaterals ∧
    ((CLoansConsensus.takeLoanLoop env obj vault ⟨v, 0, 0⟩ obj.amounts).1.ok = true →
      (∀ t : DCT_ID, 0 ≤ v.loanOf obj.vaultId t) →
      ∀ t : DCT_ID,
        (CLoansConsensus.takeLoanLoop env obj vault ⟨v, 0, 0⟩ obj.amounts).2.view.loanOf
            obj.vaultId t =
          v.loanOf obj.vaultId t + requestedOf obj.amounts t) := by
  have hframe := takeLoanLoop_frame env obj vault obj.amounts ⟨v, 0, 0⟩
  have hs : (CLoansConsensus.takeLoanLoop env obj vault ⟨v, 0, 0⟩ obj.amounts).2.view.GetLoanScheme
      vault.schemeId = some scheme := by
    unfold View.GetLoanScheme
    rw [hframe.1]
    exact hscheme
  have hc : (CLoansConsensus.takeLoanLoop env obj vault ⟨v, 0, 0⟩
      obj.amounts).2.view.GetVaultCollaterals obj.vaultId = some collaterals := by
    unfold View.GetVaultCollaterals
    rw [hframe.2.2]
    exact hcol
  have hres : env.CheckCustomTx.ok = true → vault.isUnderLiquidation = false →
      env.HasAuth vault.ownerAddress = true →
      env.IsVaultPriceValid v obj.vaultId env.height = true →
      (CLoansConsensus.takeLoanLoop env obj vault ⟨v, 0, 0⟩ obj.amounts).1.ok = true →
      CLoansConsensus.onLoanTakeLoanMessage env v obj =
        (env.CheckNextCollateralRatio
          (CLoansConsensus.takeLoanLoop env obj vault ⟨v, 0, 0⟩ obj.amounts).2.view
          obj.vaultId scheme collaterals,
         (CLoansConsensus.takeLoanLoop env obj vault ⟨v, 0, 0⟩ obj.amounts).2.view) := by
    intro h1 h2 h3 h4 h5
    unfold CLoansConsensus.onLoanTakeLoanMessage
    rw [if_neg (by simp [h1]), hvault]
    dsimp only
    rw [if_neg (by simp [h2]), if_neg (by simp [h3]), if_neg (by simp [h4]), hcol]
    dsimp only
    rw [if_neg (by simp [h5]), hs]
    rfl
  refine ⟨fun hok => ?_, hres, hs, hc,
    fun hok h0 => takeLoanLoop_loans env obj vault obj.amounts ⟨v, 0, 0⟩ h0 hok⟩
  by_cases h1 : env.CheckCustomTx.ok = true
  swap
  · exfalso
    unfold CLoansConsensus.onLoanTakeLoanMessage at hok
    rw [if_pos (by simp [h1])] at hok
    exact h1 hok
  by_cases h2 : vault.isUnderLiquidation = true
  · exfalso
    unfold CLoansConsensus.onLoanTakeLoanMessage at hok
    rw [if_neg (by simp [h1]), hvault] at hok
    dsimp only at hok
    rw [if_pos h2] at hok
    exact Bool.noConfusion hok
  by_cases h3 : env.HasAuth vault.ownerAddress = true
  swap
  · exfalso
    unfold CLoansConsensus.onLoanTakeLoanMessage at hok
    rw [if_neg (by simp [h1]), hvault] at hok
    dsimp only at hok
    rw [if_neg h2, if_pos (by simp [h3])] at hok
    exact Bool.noConfusion hok
  by_cases h4 : env.IsVaultPriceValid v obj.vaultId env.height = true
  swap
  · exfalso
    unfold CLoansConsensus.onLoanTakeLoanMessage at hok
    rw [if_neg (by simp [h1]), hvault] at hok
    dsimp only at hok
    rw [if_neg h2, if_neg (by simp [h3]), if_pos (by simp [h4])] at hok
    exact Bool.noConfusion hok
  by_cases h5 : (CLoansConsensus.takeLoanLoop env obj vault ⟨v, 0, 0⟩ obj.amounts).1.ok = true
  swap
  · exfalso
    unfold CLoansConsensus.onLoanTakeLoanMessage at hok
    rw [if_neg (by simp [h1]), hvault] at hok
    dsimp only at hok
    rw [if_neg h2, if_neg (by simp [h3]), if_neg (by simp [h4]), hcol] at hok
    dsimp only at hok
    rw [if_pos (by simp [h5])] at hok
    exact h5 hok
  rw [hres h1 (by simpa using h2) h3 h4 h5] at hok
  refine ⟨h5, ?_⟩
  unfold Env.CheckNextCollateralRatio at hok
  dsimp only at hok
  by_cases hc0 : (env.CheckCollateralRatio
      (CLoansConsensus.takeLoanLoop env obj vault ⟨v, 0, 0⟩ obj.amounts).2.view
      obj.vaultId scheme collaterals false true).ok = true
  swap
  · exfalso
    rw [if_pos (by simp [hc0])] at hok
    exact hc0 hok
  by_cases hc1 : (env.CheckCollateralRatio
      (CLoansConsensus.takeLoanLoop env obj vault ⟨v, 0, 0⟩ obj.amounts).2.view
      obj.vaultId scheme collaterals true true).ok = true
  swap
  · exfalso
    rw [if_neg (by simp [hc0]), if_pos (by simp [hc1])] at hok
    exact hc1 hok
  exact ⟨hc0, hc1⟩

/-- C12, at a concrete input: on the vault of the scenario, which holds 1000 units of
collateral and owes nothing, the request of 300 units of the loan token 2 and 100 units of the
loan token 4 is decided by `CheckNextCollateralRatio` on the view in which the vault owes the
300 and the 100 units, and it succeeds. -/
theorem take_loan_result_is_ratio_check_witness :
    twoLoanTokensView.GetVault 77 = some ⟨[1], "A", false⟩ ∧
    twoLoanTokensView.GetVaultCollaterals 77 = some [(1, 100000000000)] ∧
    twoLoanTokensView.GetLoanScheme "A" = some ⟨150, 10000000⟩ ∧
    twoLoanTokensView.GetLoanTokens 77 = none ∧
    (CLoansConsensus.takeLoanLoop scenarioEnv ⟨77, [], [(2, 30000000000), (4, 10000000000)]⟩
      ⟨[1], "A", false⟩ ⟨twoLoanTokensView, 0, 0⟩
      [(2, 30000000000), (4, 10000000000)]).2.view.GetLoanTokens 77
      = some [(2, 30000000000), (4, 10000000000)] ∧
    (CLoansConsensus.takeLoanLoop scenarioEnv ⟨77, [], [(2, 30000000000), (4, 10000000000)]⟩
      ⟨[1], "A", false⟩ ⟨twoLoanTokensView, 0, 0⟩
      [(2, 30000000000), (4, 10000000000)]).2.view.loanOf 77 4
      = twoLoanTokensView.loanOf 77 4 + requestedOf [(2, 30000000000), (4, 10000000000)] 4 ∧
    CLoansConsensus.onLoanTakeLoanMessage scenarioEnv twoLoanTokensView
        ⟨77, [], [(2, 30000000000), (4, 10000000000)]⟩ =
      (scenarioEnv.CheckNextCollateralRatio
        (CLoansConsensus.takeLoanLoop scenarioEnv
          ⟨77, [], [(2, 30000000000), (4, 10000000000)]⟩ ⟨[1], "A", false⟩
          ⟨twoLoanTokensView, 0, 0⟩ [(2, 30000000000), (4, 10000000000)]).2.view
        77 ⟨150, 10000000⟩ [(1, 100000000000)],
       (CLoansConsensus.takeLoanLoop scenarioEnv
          ⟨77, [], [(2, 30000000000), (4, 10000000000)]⟩ ⟨[1], "A", false⟩
          ⟨twoLoanTokensView, 0, 0⟩ [(2, 30000000000), (4, 10000000000)]).2.view) ∧
    (CLoansConsensus.onLoanTakeLoanMessage scenarioEnv twoLoanTokensView
      ⟨77, [], [(2, 30000000000), (4, 10000000000)]⟩).1.ok = true ∧
    (CLoansConsensus.onLoanTakeLoanMessage scenarioEnv twoLoanTokensView
      ⟨77, [], [(2, 60000000000), (4, 10000000000)]⟩).1.ok = false :=
  have h := take_loan_result_is_ratio_check scenarioEnv twoLoanTokensView
    ⟨77, [], [(2, 30000000000), (4, 10000000000)]⟩ ⟨[1], "A", false⟩ [(1, 100000000000)]
    ⟨150, 10000000⟩ (by decide) (by decide) (by decide)
  ⟨by decide, by decide, by decide, by decide, by decide,
    h.2.2.2.2 (by decide) (fun _ => le_refl _) 4,
    h.2.1 (by decide) (by decide) (by decide) (by decide) (by decide), by decide, by decide⟩

/-- C13. The lending scenario, with the collateral ratio computed as the specification
describes it (factor-weighted collateral USD value over loan USD value, every token priced
1 USD now and next, factor 1.0, no accrued interest): the scheme `A` with minimum ratio 150 is
created and becomes the default, a vault is created with the exact fee, 1000 units of the
collateral token are deposited, a loan of 500 units of the mintable loan token succeeds (ratio
200%), and a further loan of 200 units on the resulting view is rejected (ratio 1000/700,
142%). -/
theorem lending_scenario :
    (CLoansConsensus.onLoanSchemeMessage scenarioEnv scenarioStart
      ⟨150, 10000000, "A", 0⟩).1.ok = true ∧
    scenarioAfterScheme.GetDefaultLoanScheme = some "A" ∧
    (CVaultsConsensus.onVaultMessage scenarioEnv scenarioAfterScheme ⟨[1], ""⟩).1.ok = true ∧
    scenarioAfterVault.GetVault 77 = some ⟨[1], "A", false⟩ ∧
    (CVaultsConsensus.onDepositToVaultMessage scenarioEnv scenarioAfterVault
      ⟨77, [1], ⟨1, 100000000000⟩⟩).succeeded = true ∧
    scenarioAfterDeposit.GetVaultCollaterals 77 = some [(1, 100000000000)] ∧
    (CLoansConsensus.onLoanTakeLoanMessage scenarioEnv scenarioAfterDeposit
      ⟨77, [], [(2, 50000000000)]⟩).1.ok = true ∧
    scenarioAfterLoan.GetLoanTokens 77 = some [(2, 50000000000)] ∧
    (scenarioAfterLoan.GetBalance [1] 2).nValue = 50000000000 ∧
    (100000000000 : CAmount) * 100 / 50000000000 = 200 ∧
    (CLoansConsensus.onLoanTakeLoanMessage scenarioEnv scenarioAfterLoan
      ⟨77, [], [(2, 20000000000)]⟩).1.ok = false ∧
    (100000000000 : CAmount) * 100 / 70000000000 = 142 := by
  refine ⟨by decide, by decide, by decide, by decide, by decide, by decide, by decide,
    by decide, by decide, by decide, by decide, by decide⟩

/-- C11 fails as stated: in the scenario after the loan (1000 units of collateral, 500 units
owed, minimum ratio 150) a withdrawal of 400 units fails at the post-withdrawal ratio check
(600/500 is 120%), the recipient `[5]` is not credited, but in the view the handler returns the
collateral of the vault is 600 units, not the 1000 units it was before the call: the debit made
before the check is not rolled back by the handler. -/
theorem withdraw_failed_check_counterexample :
    (scenarioAfterLoan.GetLoanTokens 77).isSome = true ∧
    scenarioAfterLoan.GetVaultCollaterals 77 = some [(1, 100000000000)] ∧
    (scenarioEnv.CheckNextCollateralRatio
      (scenarioAfterLoan.SubVaultCollateral 77 ⟨1, 40000000000⟩).2 77 ⟨150, 10000000⟩
      [(1, 60000000000)]).ok = false ∧
    (CVaultsConsensus.onWithdrawFromVaultMessage scenarioEnv scenarioAfterLoan
      ⟨77, [5], ⟨1, 40000000000⟩⟩).1.ok = false ∧
    ((CVaultsConsensus.onWithdrawFromVaultMessage scenarioEnv scenarioAfterLoan
      ⟨77, [5], ⟨1, 40000000000⟩⟩).2.GetBalance [5] 1).nValue = 0 ∧
    (CVaultsConsensus.onWithdrawFromVaultMessage scenarioEnv scenarioAfterLoan
      ⟨77, [5], ⟨1, 40000000000⟩⟩).2.GetVaultCollaterals 77 = some [(1, 60000000000)] ∧
    (CVaultsConsensus.onWithdrawFromVaultMessage scenarioEnv scenarioAfterLoan
      ⟨77, [5], ⟨1, 40000000000⟩⟩).2.GetVaultCollaterals 77
      ≠ scenarioAfterLoan.GetVaultCollaterals 77 := by
  refine ⟨by decide, by decide, by decide, by decide, by decide, by decide, by decide⟩

/-- C11, amended. For a withdraw-from-vault that reaches the post-withdrawal ratio check on a
vault that carries loans: if `CheckNextCollateralRatio` fails, the handler returns that
failure, no balance changes (the recipient is not credited), and the view it returns is the
view after its collateral debit, which differs from the view before the call in the
vault-collateral table only; the debit is left to the caller, who discards the view of a failed
transaction. -/
theorem withdraw_failed_check_keeps_debit (env : Env) (v : View)
    (obj : CWithdrawFromVaultMessage) (vault : CVaultData) (collaterals : CBalances)
    (scheme : CLoanSchemeData)
    (hcheck : env.CheckCustomTx.ok = true)
    (hvault : v.GetVault obj.vaultId = some vault)
    (hliq : vault.isUnderLiquidation = false)
    (hauth : env.HasAuth vault.ownerAddress = true)
    (hprice : env.IsVaultPriceValid v obj.vaultId env.height = true)
    (hsub : (v.SubVaultCollateral obj.vaultId obj.amount).1.ok = true)
    (hloans : (v.GetLoanTokens obj.vaultId).isSome = true)
    (hcol : (v.SubVaultCollateral obj.vaultId obj.amount).2.GetVaultCollaterals obj.vaultId
      = some collaterals)
    (hscheme : v.GetLoanScheme vault.schemeId = some scheme)
    (hfail : (env.CheckNextCollateralRatio (v.SubVaultCollateral obj.vaultId obj.amount).2
      obj.vaultId scheme collaterals).ok = false) :
    CVaultsConsensus.onWithdrawFromVaultMessage env v obj =
      (env.CheckNextCollateralRatio (v.SubVaultCollateral obj.vaultId obj.amount).2
        obj.vaultId scheme collaterals, (v.SubVaultCollateral obj.vaultId obj.amount).2) ∧
    (CVaultsConsensus.onWithdrawFromVaultMessage env v obj).1.ok = false ∧
    (CVaultsConsensus.onWithdrawFromVaultMessage env v obj).2.balances = v.balances ∧
    (∀ (owner : CScript) (tokenId : DCT_ID),
      (CVaultsConsensus.onWithdrawFromVaultMessage env v obj).2.GetBalance owner tokenId
        = v.GetBalance owner tokenId) ∧
    (CVaultsConsensus.onWithdrawFromVaultMessage env v obj).2 =
      { v with vaultCollaterals :=
          (v.SubVaultCollateral obj.vaultId obj.amount).2.vaultCollaterals } := by
  have hframe := SubVaultCollateral_frame v obj.vaultId obj.amount
  have hl : ((v.SubVaultCollateral obj.vaultId obj.amount).2.GetLoanTokens obj.vaultId).isNone
      = false := by
    rw [hframe]
    cases h : v.GetLoanTokens obj.vaultId with
    | none =>
      rw [h] at hloans
      exact Bool.noConfusion hloans
    | some l =>
      show (v.GetLoanTokens obj.vaultId).isNone = false
      rw [h]
      rfl
  have hs : (v.SubVaultCollateral obj.vaultId obj.amount).2.GetLoanScheme vault.schemeId
      = some scheme := by
    rw [hframe]
    exact hscheme
  have hres : CVaultsConsensus.onWithdrawFromVaultMessage env v obj =
      (env.CheckNextCollateralRatio (v.SubVaultCollateral obj.vaultId obj.amount).2
        obj.vaultId scheme collaterals, (v.SubVaultCollateral obj.vaultId obj.amount).2) := by
    unfold CVaultsConsensus.onWithdrawFromVaultMessage
    rw [if_neg (by simp [hcheck]), hvault]
    dsimp only
    rw [if_neg (by simp [hliq]), if_neg (by simp [hauth]), if_neg (by simp [hprice]),
      if_neg (by simp [hsub]), if_neg (by simp [hl]), hcol]
    dsimp only
    rw [hs]
    dsimp only [Option.getD]
    rw [if_pos (by simp [hfail])]
  rw [hres]
  refine ⟨rfl, hfail, ?_, ?_, hframe⟩
  · show (v.SubVaultCollateral obj.vaultId obj.amount).2.balances = v.balances
    rw [hframe]
  · intro owner tokenId
    show (v.SubVaultCollateral obj.vaultId obj.amount).2.GetBalance owner tokenId = _
    rw [hframe]
    rfl

/-- C11 amended, at a concrete input: in the scenario after the loan, the withdrawal of 400
units to `[5]` meets every hypothesis, so it fails, `[5]` holds nothing of token 1 afterwards
and the returned view is the view after the debit. -/
theorem withdraw_failed_check_keeps_debit_witness :
    scenarioAfterLoan.GetLoanScheme "A" = some ⟨150, 10000000⟩ ∧
    (CVaultsConsensus.onWithdrawFromVaultMessage scenarioEnv scenarioAfterLoan
      ⟨77, [5], ⟨1, 40000000000⟩⟩).1.ok = false ∧
    (CVaultsConsensus.onWithdrawFromVaultMessage scenarioEnv scenarioAfterLoan
      ⟨77, [5], ⟨1, 40000000000⟩⟩).2.balances = scenarioAfterLoan.balances :=
  ⟨by decide,
   (withdraw_failed_check_keeps_debit scenarioEnv scenarioAfterLoan ⟨77, [5], ⟨1, 40000000000⟩⟩
      ⟨[1], "A", false⟩ [(1, 60000000000)] ⟨150, 10000000⟩ (by decide) (by decide) (by decide)
      (by decide) (by decide) (by decide) (by decide) (by decide) (by decide) (by decide)).2.1,
   (withdraw_failed_check_keeps_debit scenarioEnv scenarioAfterLoan ⟨77, [5], ⟨1, 40000000000⟩⟩
      ⟨[1], "A", false⟩ [(1, 60000000000)] ⟨150, 10000000⟩ (by decide) (by decide) (by decide)
      (by decide) (by decide) (by decide) (by decide) (by decide) (by decide) (by decide)).2.2.1⟩

/-! ## Bids that the auction does not take -/

/-- C26. The auction-bid handler rejects every bid on a vault that exists but is not under
liquidation, and every bid whose token differs from the loan token of the batch it names; in
both cases the view is handed back as it was, so no balance and no bid record changes. -/
theorem bid_rejected_outside_liquidation_or_token (env : Env) (v : View)
    (obj : CAuctionBidMessage) :
    (∀ vault : CVaultData, v.GetVault obj.vaultId = some vault →
      vault.isUnderLiquidation = false →
      (CVaultsConsensus.onAuctionBidMessage env v obj).1.ok = false ∧
      (CVaultsConsensus.onAuctionBidMessage env v obj).2 = v ∧
      (CVaultsConsensus.onAuctionBidMessage env v obj).2.balances = v.balances ∧
      (CVaultsConsensus.onAuctionBidMessage env v obj).2.auctionBids = v.auctionBids) ∧
    (∀ batch : CAuctionBatch, v.GetAuctionBatch obj.vaultId obj.index = some batch →
      obj.amount.nTokenId ≠ batch.loanAmount.nTokenId →
      (CVaultsConsensus.onAuctionBidMessage env v obj).1.ok = false ∧
      (CVaultsConsensus.onAuctionBidMessage env v obj).2 = v ∧
      (CVaultsConsensus.onAuctionBidMessage env v obj).2.balances = v.balances ∧
      (CVaultsConsensus.onAuctionBidMessage env v obj).2.auctionBids = v.auctionBids) := by
  constructor
  · intro vault hvault hliq
    rcases onAuctionBidMessage_cases env v obj with hfail | ⟨vault', _, _, hv, hl, _⟩
    · exact ⟨hfail.1, hfail.2, by rw [hfail.2], by rw [hfail.2]⟩
    · rw [hvault] at hv
      cases hv
      rw [hliq] at hl
      exact Bool.noConfusion hl
  · intro batch hbatch htoken
    rcases onAuctionBidMessage_cases env v obj with hfail | ⟨_, _, batch', _, _, _, hb, ht, _⟩
    · exact ⟨hfail.1, hfail.2, by rw [hfail.2], by rw [hfail.2]⟩
    · rw [hbatch] at hb
      cases hb
      exact absurd ht htoken

/-- C26, at concrete inputs: a bid on the vault 77 of the lending scenario, which is not under
liquidation, and a bid in token 3 on a batch that owes token 2 are both rejected with the view
unchanged. -/
theorem bid_rejected_outside_liquidation_or_token_witness :
    ((CVaultsConsensus.onAuctionBidMessage scenarioEnv scenarioAfterLoan
      ⟨77, 0, [1], ⟨2, 100⟩⟩).1.ok = false ∧
     (CVaultsConsensus.onAuctionBidMessage scenarioEnv scenarioAfterLoan
      ⟨77, 0, [1], ⟨2, 100⟩⟩).2 = scenarioAfterLoan) ∧
    ((CVaultsConsensus.onAuctionBidMessage (sampleEnv 1500) (auctionView 5000000 100 none 1000)
      ⟨1, 0, [2], ⟨3, 200⟩⟩).1.ok = false ∧
     (CVaultsConsensus.onAuctionBidMessage (sampleEnv 1500) (auctionView 5000000 100 none 1000)
      ⟨1, 0, [2], ⟨3, 200⟩⟩).2 = auctionView 5000000 100 none 1000) :=
  ⟨have h := (bid_rejected_outside_liquidation_or_token scenarioEnv scenarioAfterLoan
      ⟨77, 0, [1], ⟨2, 100⟩⟩).1 ⟨[1], "A", false⟩ (by decide) rfl
   ⟨h.1, h.2.1⟩,
   have h := (bid_rejected_outside_liquidation_or_token (sampleEnv 1500)
      (auctionView 5000000 100 none 1000) ⟨1, 0, [2], ⟨3, 200⟩⟩).2
      ⟨[(0, 500000000)], ⟨2, 100⟩, 0⟩ (by decide) (by decide)
   ⟨h.1, h.2.1⟩⟩

/-! ## Update of a vault -/

/-- The update handler either fails, handing back the view, or has passed every check and
writes the record of the vault with the scheme and the owner of the message. -/
theorem onUpdateVaultMessage_cases (env : Env) (v : View) (obj : CUpdateVaultMessage) :
    ((CVaultsConsensus.onUpdateVaultMessage env v obj).1.ok = false ∧
      (CVaultsConsensus.onUpdateVaultMessage env v obj).2 = v) ∨
    (∃ (vault : CVaultData) (scheme : CLoanSchemeData),
      v.GetVault obj.vaultId = some vault ∧
      v.GetLoanScheme obj.schemeId = some scheme ∧
      (vault.schemeId ≠ obj.schemeId → ∀ collaterals : CBalances,
        v.GetVaultCollaterals obj.vaultId = some collaterals →
        (env.CheckCollateralRatio v obj.vaultId scheme collaterals false true).ok = true ∧
        (env.CheckCollateralRatio v obj.vaultId scheme collaterals true true).ok = true) ∧
      CVaultsConsensus.onUpdateVaultMessage env v obj =
        (Res.Ok, { v with vaults := (mapSet obj.vaultId
          ⟨obj.ownerAddress, obj.schemeId, vault.isUnderLiquidation⟩ v.vaults) })) := by
  unfold CVaultsConsensus.onUpdateVaultMessage
  by_cases h1 : (!env.CheckCustomTx.ok) = true
  · rw [if_pos h1]
    exact Or.inl ⟨by simpa using h1, rfl⟩
  rw [if_neg h1]
  cases hv : v.GetVault obj.vaultId with
  | none => exact Or.inl ⟨rfl, rfl⟩
  | some vault =>
  dsimp only
  by_cases h2 : vault.isUnderLiquidation = true
  · rw [if_pos h2]
    exact Or.inl ⟨rfl, rfl⟩
  rw [if_neg h2]
  by_cases h3 : (!env.HasAuth vault.ownerAddress) = true
  · rw [if_pos h3]
    exact Or.inl ⟨rfl, rfl⟩
  rw [if_neg h3]
  cases hs : v.GetLoanScheme obj.schemeId with
  | none => exact Or.inl ⟨rfl, rfl⟩
  | some scheme =>
  dsimp only
  by_cases h4 : (v.GetDestroyLoanScheme obj.schemeId).isSome = true
  · rw [if_pos h4]
    exact Or.inl ⟨rfl, rfl⟩
  rw [if_neg h4]
  by_cases h5 : (!env.IsVaultPriceValid v obj.vaultId env.height) = true
  · rw [if_pos h5]
    exact Or.inl ⟨rfl, rfl⟩
  rw [if_neg h5]
  have hupd : v.UpdateVault obj.vaultId
      { vault with schemeId := obj.schemeId, ownerAddress := obj.ownerAddress } =
      (Res.Ok, { v with vaults := (mapSet obj.vaultId
        ⟨obj.ownerAddress, obj.schemeId, vault.isUnderLiquidation⟩ v.vaults) }) := by
    unfold View.UpdateVault
    rw [hv]
  by_cases hsame : vault.schemeId ≠ obj.schemeId
  · rw [if_pos hsame]
    cases hc : v.GetVaultCollaterals obj.vaultId with
    | none =>
      dsimp only
      rw [if_neg (by simp), hupd]
      exact Or.inr ⟨vault, scheme, rfl, rfl, fun _ c hc' => Option.noConfusion hc', rfl⟩
    | some collaterals =>
      dsimp only
      by_cases h6 : (!(env.CheckCollateralRatio v obj.vaultId scheme collaterals false true).ok)
          = true
      · rw [if_pos h6, if_pos h6]
        exact Or.inl ⟨by simpa using h6, rfl⟩
      rw [if_neg h6]
      by_cases h7 : (!(env.CheckCollateralRatio v obj.vaultId scheme collaterals true true).ok)
          = true
      · rw [if_pos h7, if_pos h7]
        exact Or.inl ⟨by simpa using h7, rfl⟩
      rw [if_neg h7, if_neg (by simp), hupd]
      refine Or.inr ⟨vault, scheme, rfl, rfl, fun _ c hc' => ?_, rfl⟩
      cases hc'
      exact ⟨by simpa using h6, by simpa using h7⟩
  · rw [if_neg hsame, if_neg (by simp), hupd]
    exact Or.inr ⟨vault, scheme, rfl, rfl, fun h => absurd h hsame, rfl⟩

/-- With the scheme of the message equal to the scheme of the vault, the update handler does
not consult the ratio check: its result is the same under every ratio check. -/
theorem onUpdateVaultMessage_same_scheme (env : Env) (v : View) (obj : CUpdateVaultMessage)
    (vault : CVaultData) (hv : v.GetVault obj.vaultId = some vault)
    (hsame : vault.schemeId = obj.schemeId)
    (f : View → CVaultId → CLoanSchemeData → CBalances → Bool → Bool → Res) :
    CVaultsConsensus.onUpdateVaultMessage { env with CheckCollateralRatio := f } v obj =
      CVaultsConsensus.onUpdateVaultMessage env v obj := by
  unfold CVaultsConsensus.onUpdateVaultMessage
  dsimp only
  rw [hv]
  dsimp only
  cases hs : v.GetLoanScheme obj.schemeId with
  | none => rfl
  | some scheme =>
    dsimp only
    rw [if_neg (not_not.mpr hsame), if_neg (not_not.mpr hsame)]

/-- C22. Update-vault. When the scheme of the message differs from the scheme of the vault and
the vault holds collateral, a successful update has passed `CheckCollateralRatio` against the
new scheme, live prices required, under the current and under the next price. When the scheme
is unchanged no ratio check is made: the result is the same under every ratio check. On success
the stored vault carries the scheme and the owner of the message and keeps its liquidation
flag, every other vault and every other table is as before; on failure the view, and so the
vault record, is unchanged. -/
theorem update_vault_rechecks_new_scheme (env : Env) (v : View) (obj : CUpdateVaultMessage) :
    (∀ (vault : CVaultData) (scheme : CLoanSchemeData) (collaterals : CBalances),
      v.GetVault obj.vaultId = some vault → vault.schemeId ≠ obj.schemeId →
      v.GetVaultCollaterals obj.vaultId = some collaterals →
      v.GetLoanScheme obj.schemeId = some scheme →
      (CVaultsConsensus.onUpdateVaultMessage env v obj).1.ok = true →
      (env.CheckCollateralRatio v obj.vaultId scheme collaterals false true).ok = true ∧
      (env.CheckCollateralRatio v obj.vaultId scheme collaterals true true).ok = true) ∧
    (∀ vault : CVaultData, v.GetVault obj.vaultId = some vault →
      vault.schemeId = obj.schemeId →
      ∀ f : View → CVaultId → CLoanSchemeData → CBalances → Bool → Bool → Res,
        CVaultsConsensus.onUpdateVaultMessage { env with CheckCollateralRatio := f } v obj =
          CVaultsConsensus.onUpdateVaultMessage env v obj) ∧
    ((CVaultsConsensus.onUpdateVaultMessage env v obj).1.ok = true →
      ∃ vault : CVaultData, v.GetVault obj.vaultId = some vault ∧
        (CVaultsConsensus.onUpdateVaultMessage env v obj).2.GetVault obj.vaultId =
          some ⟨obj.ownerAddress, obj.schemeId, vault.isUnderLiquidation⟩ ∧
        (∀ id : CVaultId, id ≠ obj.vaultId →
          (CVaultsConsensus.onUpdateVaultMessage env v obj).2.GetVault id = v.GetVault id) ∧
        (CVaultsConsensus.onUpdateVaultMessage env v obj).2 =
          { v with vaults := (CVaultsConsensus.onUpdateVaultMessage env v obj).2.vaults }) ∧
    ((CVaultsConsensus.onUpdateVaultMessage env v obj).1.ok = false →
      (CVaultsConsensus.onUpdateVaultMessage env v obj).2 = v ∧
      (CVaultsConsensus.onUpdateVaultMessage env v obj).2.GetVault obj.vaultId
        = v.GetVault obj.vaultId) := by
  refine ⟨?_, ?_, ?_, ?_⟩
  · intro vault scheme collaterals hv hne hc hs hok
    rcases onUpdateVaultMessage_cases env v obj with hfail | ⟨vault', scheme', hv', hs', hchk, -⟩
    · rw [hfail.1] at hok
      exact Bool.noConfusion hok
    · rw [hv] at hv'
      rw [hs] at hs'
      cases hv'
      cases hs'
      exact hchk hne collaterals hc
  · intro vault hv hsame f
    exact onUpdateVaultMessage_same_scheme env v obj vault hv hsame f
  · intro hok
    rcases onUpdateVaultMessage_cases env v obj with hfail | ⟨vault, scheme, hv, -, -, hres⟩
    · rw [hfail.1] at hok
      exact Bool.noConfusion hok
    · rw [hres]
      refine ⟨vault, hv, ?_, ?_, rfl⟩
      · exact mapFind_mapSet_self _ _ _
      · intro id hne
        exact mapFind_mapSet_ne _ _ _ _ hne
  · intro hno
    rcases onUpdateVaultMessage_cases env v obj with hfail | ⟨vault, scheme, -, -, -, hres⟩
    · exact ⟨hfail.2, by rw [hfail.2]⟩
    · rw [hres] at hno
      exact Bool.noConfusion hno

/-- C22, at concrete inputs: in the lending scenario (ratio 200%) the move of the vault 77 to
the scheme `C` (minimum 175) succeeds, has passed both checks and stores owner `[9]` and
scheme `C`; the move to `B` (minimum 300) fails and leaves the view as it was; a change of
owner under the unchanged scheme `A` gives the same result under a ratio check that rejects
everything. -/
theorem update_vault_rechecks_new_scheme_witness :
    ((CVaultsConsensus.onUpdateVaultMessage scenarioEnv scenarioWithSchemes
        ⟨77, [9], "C"⟩).1.ok = true ∧
      (scenarioEnv.CheckCollateralRatio scenarioWithSchemes 77 ⟨175, 30000000⟩
        [(1, 100000000000)] false true).ok = true ∧
      (scenarioEnv.CheckCollateralRatio scenarioWithSchemes 77 ⟨175, 30000000⟩
        [(1, 100000000000)] true true).ok = true) ∧
    (CVaultsConsensus.onUpdateVaultMessage scenarioEnv scenarioWithSchemes
        ⟨77, [9], "C"⟩).2.GetVault 77 = some ⟨[9], "C", false⟩ ∧
    ((CVaultsConsensus.onUpdateVaultMessage scenarioEnv scenarioWithSchemes
        ⟨77, [9], "B"⟩).1.ok = false ∧
      (CVaultsConsensus.onUpdateVaultMessage scenarioEnv scenarioWithSchemes
        ⟨77, [9], "B"⟩).2 = scenarioWithSchemes) ∧
    CVaultsConsensus.onUpdateVaultMessage
        { scenarioEnv with CheckCollateralRatio := fun _ _ _ _ _ _ => Res.ErrMsg "never" }
        scenarioWithSchemes ⟨77, [9], "A"⟩ =
      CVaultsConsensus.onUpdateVaultMessage scenarioEnv scenarioWithSchemes ⟨77, [9], "A"⟩ :=
  have hC := update_vault_rechecks_new_scheme scenarioEnv scenarioWithSchemes ⟨77, [9], "C"⟩
  have hB := update_vault_rechecks_new_scheme scenarioEnv scenarioWithSchemes ⟨77, [9], "B"⟩
  have hA := update_vault_rechecks_new_scheme scenarioEnv scenarioWithSchemes ⟨77, [9], "A"⟩
  ⟨⟨by decide, hC.1 ⟨[1], "A", false⟩ ⟨175, 30000000⟩ [(1, 100000000000)] (by decide)
      (by decide) (by decide) (by decide) (by decide)⟩,
   by
    obtain ⟨vault, hv, hstored, -⟩ := hC.2.2.1 (by decide)
    have hvault : vault = ⟨[1], "A", false⟩ :=
      Option.some.inj (hv.symm.trans (by decide))
    rw [hstored, hvault],
   ⟨by decide, (hB.2.2.2 (by decide)).1⟩,
   hA.2.1 ⟨[1], "A", false⟩ (by decide) rfl _⟩

/-! ## Deposit into a vault -/

/-- A write of the collateral of a vault touches the vault-collateral table only. -/
theorem AddVaultCollateral_frame (v : View) (vaultId : CVaultId) (amount : CTokenAmount) :
    (v.AddVaultCollateral vaultId amount).2 =
      { v with vaultCollaterals := (v.AddVaultCollateral vaultId amount).2.vaultCollaterals } := by
  unfold View.AddVaultCollateral
  split
  · rfl
  · split <;> rfl

/-- C23. Deposit-to-vault checks the collateral ratio against the current price only. For a
deposit that passes the checks of the handler, once the sender is debited and the collateral of
the vault credited, the result of the handler is exactly
`CheckCollateralRatio(vaultId, scheme, collaterals, useNextPrice = false, requireLivePrice =
false)` on the view after the two writes, with the scheme of the vault and the credited
collaterals; and for every deposit the result of the handler is the same under every ratio
check that agrees with the given one on the calls with `useNextPrice = false`, so the next
price has no influence. -/
theorem deposit_checks_current_price_only (env : Env) (v : View)
    (obj : CDepositToVaultMessage) :
    (∀ (vault : CVaultData) (scheme : CLoanSchemeData) (collaterals : CBalances),
      env.CheckCustomTx.ok = true → env.HasAuth obj.from_ = true →
      v.GetVault obj.vaultId = some vault → vault.isUnderLiquidation = false →
      (env.GetCollateralTokenFromAttributes v obj.amount.nTokenId = true →
        ∀ attributes : ATTRIBUTES, v.GetAttributes = some attributes →
          attributes.GetValueBool
            ⟨.Token, .id obj.amount.nTokenId, .token .LoanCollateralEnabled, 0⟩ false = true) →
      ((env.withOwnerRewards v obj.from_).SubBalance obj.from_ obj.amount).1.ok = true →
      (((env.withOwnerRewards v obj.from_).SubBalance obj.from_ obj.amount).2.AddVaultCollateral
        obj.vaultId obj.amount).1.ok = true →
      v.GetLoanScheme vault.schemeId = some scheme →
      (((env.withOwnerRewards v obj.from_).SubBalance obj.from_ obj.amount).2.AddVaultCollateral
        obj.vaultId obj.amount).2.GetVaultCollaterals obj.vaultId = some collaterals →
      CVaultsConsensus.onDepositToVaultMessage env v obj =
        .returned
          (env.CheckCollateralRatio
            (((env.withOwnerRewards v obj.from_).SubBalance obj.from_
              obj.amount).2.AddVaultCollateral obj.vaultId obj.amount).2
            obj.vaultId scheme collaterals false false)
          (((env.withOwnerRewards v obj.from_).SubBalance obj.from_
            obj.amount).2.AddVaultCollateral obj.vaultId obj.amount).2) ∧
    (∀ f : View → CVaultId → CLoanSchemeData → CBalances → Bool → Bool → Res,
      (∀ (w : View) (id : CVaultId) (s : CLoanSchemeData) (c : CBalances) (live : Bool),
        f w id s c false live = env.CheckCollateralRatio w id s c false live) →
      CVaultsConsensus.onDepositToVaultMessage { env with CheckCollateralRatio := f } v obj =
        CVaultsConsensus.onDepositToVaultMessage env v obj) := by
  constructor
  · intro vault scheme collaterals hcheck hauth hv hliq hen hsub hadd hs hc
    have hs2 : (((env.withOwnerRewards v obj.from_).SubBalance obj.from_
        obj.amount).2.AddVaultCollateral obj.vaultId obj.amount).2.GetLoanScheme vault.schemeId
        = some scheme := by
      rw [AddVaultCollateral_frame, SubBalance_frame]
      exact hs
    have henabled : (if env.GetCollateralTokenFromAttributes v obj.amount.nTokenId = true then
        match v.GetAttributes with
        | some attributes =>
          attributes.GetValueBool
            ⟨.Token, .id obj.amount.nTokenId, .token .LoanCollateralEnabled, 0⟩ false
        | none => true
      else true) = true := by
      by_cases hg : env.GetCollateralTokenFromAttributes v obj.amount.nTokenId = true
      · rw [if_pos hg]
        cases ha : v.GetAttributes with
        | none => rfl
        | some attributes => exact hen hg attributes ha
      · rw [if_neg hg]
    unfold CVaultsConsensus.onDepositToVaultMessage
    rw [if_neg (by simp [hcheck]), if_neg (by simp [hauth]), hv]
    dsimp only
    rw [if_neg (by simp [hliq]), henabled, if_neg (by simp), if_neg (by simp [hsub]),
      if_neg (by simp [hadd]), hs2, hc]
    rfl
  · intro f hf
    unfold CVaultsConsensus.onDepositToVaultMessage
    simp only [hf]
    rfl

/-- C23, at a concrete input: the deposit of the lending scenario returns the result of the
ratio check under the current price on the view after the deposit, and it returns the same
under a ratio check that rejects every call made for the next price. -/
theorem deposit_checks_current_price_only_witness :
    CVaultsConsensus.onDepositToVaultMessage scenarioEnv scenarioAfterVault
        ⟨77, [1], ⟨1, 100000000000⟩⟩ =
      .returned (scenarioEnv.CheckCollateralRatio scenarioAfterDeposit 77 ⟨150, 10000000⟩
        [(1, 100000000000)] false false) scenarioAfterDeposit ∧
    CVaultsConsensus.onDepositToVaultMessage
        { scenarioEnv with CheckCollateralRatio := (fun w id s c next live =>
            if next then Res.ErrMsg "next price"
            else scenarioEnv.CheckCollateralRatio w id s c next live) }
        scenarioAfterVault ⟨77, [1], ⟨1, 100000000000⟩⟩ =
      CVaultsConsensus.onDepositToVaultMessage scenarioEnv scenarioAfterVault
        ⟨77, [1], ⟨1, 100000000000⟩⟩ :=
  ⟨((deposit_checks_current_price_only scenarioEnv scenarioAfterVault
      ⟨77, [1], ⟨1, 100000000000⟩⟩).1 ⟨[1], "A", false⟩ ⟨150, 10000000⟩ [(1, 100000000000)]
      (by decide) (by decide) (by decide) (by decide) (fun h => absurd h (by decide))
      (by decide) (by decide) (by decide) (by decide)).trans (by decide),
   (deposit_checks_current_price_only scenarioEnv scenarioAfterVault
      ⟨77, [1], ⟨1, 100000000000⟩⟩).2 _ (fun _ _ _ _ _ => rfl)⟩

/-! ## The scheme of a new vault -/

/-- The handler tests the identifier named in the message for pending destruction
(`GetDestroyLoanScheme(obj.schemeId)`), not the scheme it resolved: on a registry whose default
`A` were marked for destruction, a registry that is not reachable, a message that names no
scheme would store a vault on `A`. -/
theorem onVaultMessage_tests_named_scheme :
    ¬ RegistryReachable markedDefaultView ∧
    markedDefaultView.GetDefaultLoanScheme = some "A" ∧
    markedDefaultView.GetDestroyLoanScheme "A" = some 4000 ∧
    (CVaultsConsensus.onVaultMessage (sampleEnv 1500) markedDefaultView ⟨[1], ""⟩).1.ok = true ∧
    (CVaultsConsensus.onVaultMessage (sampleEnv 1500) markedDefaultView ⟨[1], ""⟩).2.GetVault 77
      = some ⟨[1], "A", false⟩ :=
  ⟨markedDefaultView_unreachable, by decide, by decide, by decide, by decide⟩

/-- C21. On every registry the handlers can have produced from the empty one, create-vault is
rejected, the view handed back, whenever the scheme the vault would be bound to (the scheme
named in the message, or the registry default when the message names none) does not exist or
is marked for destruction, and when no scheme is named and no default is set; and every
successful create-vault stores a vault whose scheme is the one it was to be bound to, exists
and is not marked for destruction. -/
theorem create_vault_scheme_checks (env : Env) (v : View) (obj : CVaultMessage)
    (hR : RegistryReachable v) :
    (∀ schemeId : String,
      (if obj.schemeId = "" then v.GetDefaultLoanScheme else some obj.schemeId) = some schemeId →
      v.GetLoanScheme schemeId = none ∨ (v.GetDestroyLoanScheme schemeId).isSome = true →
      (CVaultsConsensus.onVaultMessage env v obj).1.ok = false ∧
      (CVaultsConsensus.onVaultMessage env v obj).2 = v) ∧
    ((if obj.schemeId = "" then v.GetDefaultLoanScheme else some obj.schemeId) = none →
      (CVaultsConsensus.onVaultMessage env v obj).1.ok = false ∧
      (CVaultsConsensus.onVaultMessage env v obj).2 = v) ∧
    ((CVaultsConsensus.onVaultMessage env v obj).1.ok = true →
      ∃ vault : CVaultData,
        (CVaultsConsensus.onVaultMessage env v obj).2.GetVault env.txHash = some vault ∧
        (if obj.schemeId = "" then v.GetDefaultLoanScheme else some obj.schemeId)
          = some vault.schemeId ∧
        ((CVaultsConsensus.onVaultMessage env v obj).2.GetLoanScheme vault.schemeId).isSome
          = true ∧
        (CVaultsConsensus.onVaultMessage env v obj).2.GetDestroyLoanScheme vault.schemeId
          = none) := by
  have hV := (RegistryReachable_invariant v hR).1
  refine ⟨?_, ?_, ?_⟩
  · intro schemeId hres hbad
    rcases onVaultMessage_cases env v obj with hfail | ⟨schemeId', -, hres', hsome, hnot, -⟩
    · exact hfail
    · rw [hres] at hres'
      cases hres'
      rcases hbad with hnone | hmarked
      · rw [hnone] at hsome
        exact Bool.noConfusion hsome
      · by_cases hempty : obj.schemeId = ""
        · rw [if_pos hempty] at hres
          rw [(hV schemeId hres).2] at hmarked
          exact Bool.noConfusion hmarked
        · rw [if_neg hempty] at hres
          cases hres
          rw [hnot] at hmarked
          exact Bool.noConfusion hmarked
  · intro hres
    rcases onVaultMessage_cases env v obj with hfail | ⟨schemeId', -, hres', -, -, -⟩
    · exact hfail
    · rw [hres] at hres'
      exact Option.noConfusion hres'
  · intro hok
    rcases onVaultMessage_cases env v obj with hfail | ⟨schemeId, -, hres, hsome, hnot, hstore⟩
    · rw [hfail.1] at hok
      exact Bool.noConfusion hok
    · rw [hstore]
      refine ⟨⟨obj.ownerAddress, schemeId, false⟩, mapFind_mapSet_self _ _ _, hres, hsome, ?_⟩
      show v.GetDestroyLoanScheme schemeId = none
      by_cases hempty : obj.schemeId = ""
      · rw [if_pos hempty] at hres
        exact (hV schemeId hres).2
      · rw [if_neg hempty] at hres
        cases hres
        exact hnot

/-- C21, at concrete inputs: on the registry reached from the empty view by the creation of
`A` (the default), the creation of `B` and the queued destruction of `B`, a vault that names the
marked scheme `B` and a vault that names the unknown scheme `Z` are rejected, and a vault that
names no scheme is stored on the default `A`, which exists and is not marked; on the empty
view, which has no default, a vault that names no scheme is rejected. -/
theorem create_vault_scheme_checks_witness :
    RegistryReachable reachedRegistryView ∧
    reachedRegistryView.GetDestroyLoanScheme "B" = some 4000 ∧
    (CVaultsConsensus.onVaultMessage (sampleEnv 1500) reachedRegistryView ⟨[1], "Z"⟩).1.ok
      = false ∧
    (CVaultsConsensus.onVaultMessage (sampleEnv 1500) reachedRegistryView ⟨[1], "B"⟩).1.ok
      = false ∧
    (CVaultsConsensus.onVaultMessage (sampleEnv 1500) emptyView ⟨[1], ""⟩).1.ok = false ∧
    (CVaultsConsensus.onVaultMessage (sampleEnv 1500) reachedRegistryView ⟨[1], ""⟩).2.GetVault 77
      = some ⟨[1], "A", false⟩ ∧
    (∃ vault : CVaultData,
      (CVaultsConsensus.onVaultMessage (sampleEnv 1500) reachedRegistryView
        ⟨[1], ""⟩).2.GetVault 77 = some vault ∧
      (if ("" : String) = "" then reachedRegistryView.GetDefaultLoanScheme else some "")
        = some vault.schemeId ∧
      ((CVaultsConsensus.onVaultMessage (sampleEnv 1500) reachedRegistryView
        ⟨[1], ""⟩).2.GetLoanScheme vault.schemeId).isSome = true ∧
      (CVaultsConsensus.onVaultMessage (sampleEnv 1500) reachedRegistryView
        ⟨[1], ""⟩).2.GetDestroyLoanScheme vault.schemeId = none) :=
  have hR : RegistryReachable reachedRegistryView :=
    .destroy _ _ _ (.scheme _ _ _ (.scheme _ _ _ (.empty emptyView rfl rfl rfl)))
  ⟨hR, by decide,
   ((create_vault_scheme_checks (sampleEnv 1500) reachedRegistryView ⟨[1], "Z"⟩ hR).1 "Z"
      (by decide) (Or.inl (by decide))).1,
   ((create_vault_scheme_checks (sampleEnv 1500) reachedRegistryView ⟨[1], "B"⟩ hR).1 "B"
      (by decide) (Or.inr (by decide))).1,
   ((create_vault_scheme_checks (sampleEnv 1500) emptyView ⟨[1], ""⟩
      (.empty emptyView rfl rfl rfl)).2.1 (by decide)).1,
   by decide,
   (create_vault_scheme_checks (sampleEnv 1500) reachedRegistryView ⟨[1], ""⟩ hR).2.2
      (by decide)⟩

/-! ## Withdrawal from a vault without loans -/

/-- A subtraction of a non-negative amount that the balance covers succeeds; the balance of
the token falls by the amount and every other balance is as before. -/
theorem CBalancesSub_ok (b : CBalances) (amount : CTokenAmount) (h0 : 0 ≤ amount.nValue)
    (hle : amount.nValue ≤ (mapFind amount.nTokenId b).getD 0) :
    ∃ b' : CBalances, CBalancesSub b amount = .ok b' ∧
      (mapFind amount.nTokenId b').getD 0 = (mapFind amount.nTokenId b).getD 0 - amount.nValue ∧
      ∀ t : DCT_ID, t ≠ amount.nTokenId → mapFind t b' = mapFind t b := by
  unfold CBalancesSub
  by_cases hz : amount.nValue = 0
  · rw [if_pos hz]
    exact ⟨b, rfl, by rw [hz]; simp, fun _ _ => rfl⟩
  · rw [if_neg hz]
    unfold CTokenAmount.Sub
    dsimp only
    rw [if_neg (not_lt.mpr h0), if_neg (not_lt.mpr hle)]
    dsimp only
    by_cases hr : (mapFind amount.nTokenId b).getD 0 - amount.nValue = 0
    · rw [if_pos hr]
      refine ⟨_, rfl, ?_, fun t ht => mapFind_mapErase_ne _ _ _ ht⟩
      rw [mapFind_mapErase_self, hr]
      rfl
    · rw [if_neg hr]
      refine ⟨_, rfl, ?_, fun t ht => mapFind_mapSet_ne _ _ _ _ ht⟩
      rw [mapFind_mapSet_self]
      rfl

/-- The collateral of a vault after a write of its record: the written balances, also when an
empty record is erased instead. -/
theorem collateralOf_write (v : View) (vaultId : CVaultId) (amounts : CBalances)
    (tokenId : DCT_ID) :
    (if amounts = [] then
        ({ v with vaultCollaterals := mapErase vaultId v.vaultCollaterals } : View)
      else { v with vaultCollaterals := mapSet vaultId amounts v.vaultCollaterals }).collateralOf
      vaultId tokenId = (mapFind tokenId amounts).getD 0 := by
  unfold View.collateralOf View.GetVaultCollaterals
  by_cases h : amounts = []
  · rw [if_pos h, h]
    dsimp only
    rw [mapFind_mapErase_self]
    rfl
  · rw [if_neg h]
    dsimp only
    rw [mapFind_mapSet_self]
    rfl

/-- A withdrawal of a non-negative amount that the collateral of the vault covers succeeds at
`SubVaultCollateral`; the collateral in the token falls by the amount and the collateral in
every other token is as before. -/
theorem SubVaultCollateral_ok (v : View) (vaultId : CVaultId) (amount : CTokenAmount)
    (cur : CBalances) (hcol : v.GetVaultCollaterals vaultId = some cur)
    (h0 : 0 ≤ amount.nValue) (hle : amount.nValue ≤ v.collateralOf vaultId amount.nTokenId) :
    (v.SubVaultCollateral vaultId amount).1.ok = true ∧
    (v.SubVaultCollateral vaultId amount).2.collateralOf vaultId amount.nTokenId =
      v.collateralOf vaultId amount.nTokenId - amount.nValue ∧
    ∀ t : DCT_ID, t ≠ amount.nTokenId →
      (v.SubVaultCollateral vaultId amount).2.collateralOf vaultId t
        = v.collateralOf vaultId t := by
  have hcur : ∀ t : DCT_ID, v.collateralOf vaultId t = (mapFind t cur).getD 0 := by
    intro t
    unfold View.collateralOf
    rw [hcol]
    rfl
  rw [hcur] at hle
  obtain ⟨b', hb', hself, hother⟩ := CBalancesSub_ok cur amount h0 hle
  have hres : v.SubVaultCollateral vaultId amount =
      (Res.Ok, if b' = [] then
        ({ v with vaultCollaterals := mapErase vaultId v.vaultCollaterals } : View)
      else { v with vaultCollaterals := mapSet vaultId b' v.vaultCollaterals }) := by
    unfold View.SubVaultCollateral
    rw [hcol]
    dsimp only
    rw [hb']
    dsimp only
    by_cases hb : b' = []
    · rw [if_pos hb, if_pos hb]
    · rw [if_neg hb, if_neg hb]
  rw [hres]
  refine ⟨rfl, ?_, ?_⟩
  · rw [collateralOf_write, hcur, hself]
  · intro t ht
    rw [collateralOf_write, hcur, hother t ht]

/-- A credit of a non-negative amount that keeps the balance within the amount range
succeeds. -/
theorem AddBalance_ok (v : View) (owner : CScript) (amount : CTokenAmount)
    (h0 : 0 ≤ amount.nValue)
    (hmax : (v.GetBalance owner amount.nTokenId).nValue + amount.nValue ≤ MAX_INT64)
    (hmin : -MAX_INT64 - 1 ≤ (v.GetBalance owner amount.nTokenId).nValue + amount.nValue) :
    (v.AddBalance owner amount).1.ok = true := by
  unfold View.AddBalance
  split
  · rfl
  · unfold CTokenAmount.Add SafeAdd
    rw [if_neg (not_lt.mpr h0), if_pos ⟨hmax, hmin⟩]
    rfl

/-- C24 fails as stated: with the owner authorised, the vault not under liquidation, the
prices valid, no loans and enough collateral, a withdrawal fails when the transaction does
not pass the generic check `CheckCustomTx()`, and it fails when the credit would take the
balance of the recipient beyond the amount range (the collateral is then already debited in
the returned view). -/
theorem withdraw_without_loans_counterexample :
    (malformedTxEnv.HasAuth [1] = true ∧
      scenarioAfterDeposit.GetVault 77 = some ⟨[1], "A", false⟩ ∧
      malformedTxEnv.IsVaultPriceValid scenarioAfterDeposit 77 malformedTxEnv.height = true ∧
      scenarioAfterDeposit.GetLoanTokens 77 = none ∧
      (40000000000 : CAmount) ≤ scenarioAfterDeposit.collateralOf 77 1 ∧
      (CVaultsConsensus.onWithdrawFromVaultMessage malformedTxEnv scenarioAfterDeposit
        ⟨77, [5], ⟨1, 40000000000⟩⟩).1.ok = false) ∧
    (scenarioEnv.CheckCustomTx.ok = true ∧ scenarioEnv.HasAuth [1] = true ∧
      saturatedRecipientView.GetVault 77 = some ⟨[1], "A", false⟩ ∧
      scenarioEnv.IsVaultPriceValid saturatedRecipientView 77 scenarioEnv.height = true ∧
      saturatedRecipientView.GetLoanTokens 77 = none ∧
      (40000000000 : CAmount) ≤ saturatedRecipientView.collateralOf 77 1 ∧
      (CVaultsConsensus.onWithdrawFromVaultMessage scenarioEnv saturatedRecipientView
        ⟨77, [5], ⟨1, 40000000000⟩⟩).1.ok = false ∧
      (CVaultsConsensus.onWithdrawFromVaultMessage scenarioEnv saturatedRecipientView
        ⟨77, [5], ⟨1, 40000000000⟩⟩).2.collateralOf 77 1 = 60000000000) := by
  refine ⟨⟨by decide, by decide, by decide, by decide, by decide, by decide⟩,
    ⟨by decide, by decide, by decide, by decide, by decide, by decide, by decide, by decide⟩⟩

/-- C24, amended. Withdraw-from-vault on a vault with no loans, in a transaction that passes
the generic check, with the owner authorised, the vault not under liquidation, the prices
valid, a non-negative amount that the collateral of the vault covers, and a recipient whose
balance plus the amount stays within the amount range: the withdrawal succeeds, no
collateral-ratio check is made (the result is the same under every ratio check), the
collateral of the vault in the withdrawn token falls by exactly the amount and the balance of
the recipient in that token rises by exactly the amount. -/
theorem withdraw_without_loans (env : Env) (v : View) (obj : CWithdrawFromVaultMessage)
    (vault : CVaultData) (cur : CBalances)
    (hcheck : env.CheckCustomTx.ok = true)
    (hvault : v.GetVault obj.vaultId = some vault)
    (hliq : vault.isUnderLiquidation = false)
    (hauth : env.HasAuth vault.ownerAddress = true)
    (hprice : env.IsVaultPriceValid v obj.vaultId env.height = true)
    (hloans : v.GetLoanTokens obj.vaultId = none)
    (hcol : v.GetVaultCollaterals obj.vaultId = some cur)
    (h0 : 0 ≤ obj.amount.nValue)
    (hle : obj.amount.nValue ≤ v.collateralOf obj.vaultId obj.amount.nTokenId)
    (hmax : (v.GetBalance obj.to_ obj.amount.nTokenId).nValue + obj.amount.nValue ≤ MAX_INT64)
    (hmin : -MAX_INT64 - 1 ≤ (v.GetBalance obj.to_ obj.amount.nTokenId).nValue
      + obj.amount.nValue) :
    (CVaultsConsensus.onWithdrawFromVaultMessage env v obj).1.ok = true ∧
    (∀ f : View → CVaultId → CLoanSchemeData → CBalances → Bool → Bool → Res,
      CVaultsConsensus.onWithdrawFromVaultMessage { env with CheckCollateralRatio := f } v obj =
        CVaultsConsensus.onWithdrawFromVaultMessage env v obj) ∧
    (CVaultsConsensus.onWithdrawFromVaultMessage env v obj).2.collateralOf obj.vaultId
        obj.amount.nTokenId
      = v.collateralOf obj.vaultId obj.amount.nTokenId - obj.amount.nValue ∧
    ((CVaultsConsensus.onWithdrawFromVaultMessage env v obj).2.GetBalance obj.to_
        obj.amount.nTokenId).nValue
      = (v.GetBalance obj.to_ obj.amount.nTokenId).nValue + obj.amount.nValue := by
  obtain ⟨hsub, hself, -⟩ := SubVaultCollateral_ok v obj.vaultId obj.amount cur hcol h0 hle
  have hframe := SubVaultCollateral_frame v obj.vaultId obj.amount
  have hnone : ((v.SubVaultCollateral obj.vaultId obj.amount).2.GetLoanTokens
      obj.vaultId).isNone = true := by
    rw [hframe]
    show (v.GetLoanTokens obj.vaultId).isNone = true
    rw [hloans]
    rfl
  have hbal : (v.SubVaultCollateral obj.vaultId obj.amount).2.GetBalance obj.to_
      obj.amount.nTokenId = v.GetBalance obj.to_ obj.amount.nTokenId := by
    rw [hframe]
    rfl
  have hres : ∀ e : Env, e.CheckCustomTx = env.CheckCustomTx → e.HasAuth = env.HasAuth →
      e.IsVaultPriceValid = env.IsVaultPriceValid → e.height = env.height →
      CVaultsConsensus.onWithdrawFromVaultMessage e v obj =
        (v.SubVaultCollateral obj.vaultId obj.amount).2.AddBalance obj.to_ obj.amount := by
    intro e h1 h2 h3 h4
    unfold CVaultsConsensus.onWithdrawFromVaultMessage
    rw [h1, h2, h3, h4, if_neg (by simp [hcheck]), hvault]
    dsimp only
    rw [if_neg (by simp [hliq]), if_neg (by simp [hauth]), if_neg (by simp [hprice]),
      if_neg (by simp [hsub]), if_pos hnone]
  have hok : ((v.SubVaultCollateral obj.vaultId obj.amount).2.AddBalance obj.to_
      obj.amount).1.ok = true :=
    AddBalance_ok _ _ _ h0 (by rw [hbal]; exact hmax) (by rw [hbal]; exact hmin)
  refine ⟨?_, ?_, ?_, ?_⟩
  · rw [hres env rfl rfl rfl rfl]
    exact hok
  · intro f
    rw [hres env rfl rfl rfl rfl, hres { env with CheckCollateralRatio := f } rfl rfl rfl rfl]
  · rw [hres env rfl rfl rfl rfl, AddBalance_frame]
    exact hself
  · rw [hres env rfl rfl rfl rfl, AddBalance_balance _ _ _ hok, hbal]

/-- C24 amended, at a concrete input: in the lending scenario after the deposit, the
withdrawal of 400 units of token 1 to `[5]` succeeds, leaves 600 units of collateral and
credits `[5]` with 400 units. -/
theorem withdraw_without_loans_witness :
    (CVaultsConsensus.onWithdrawFromVaultMessage scenarioEnv scenarioAfterDeposit
      ⟨77, [5], ⟨1, 40000000000⟩⟩).1.ok = true ∧
    (CVaultsConsensus.onWithdrawFromVaultMessage scenarioEnv scenarioAfterDeposit
      ⟨77, [5], ⟨1, 40000000000⟩⟩).2.collateralOf 77 1 = 60000000000 ∧
    ((CVaultsConsensus.onWithdrawFromVaultMessage scenarioEnv scenarioAfterDeposit
      ⟨77, [5], ⟨1, 40000000000⟩⟩).2.GetBalance [5] 1).nValue = 40000000000 :=
  have h := withdraw_without_loans scenarioEnv scenarioAfterDeposit ⟨77, [5], ⟨1, 40000000000⟩⟩
    ⟨[1], "A", false⟩ [(1, 100000000000)] (by decide) (by decide) (by decide) (by decide)
    (by decide) (by decide) (by decide) (by decide) (by decide) (by decide) (by decide)
  ⟨h.1, h.2.2.1.trans (by decide), h.2.2.2.trans (by decide)⟩

/-! ## What a loan credits -/

/-- A raise of the minted total that succeeds rewrites the record of the token with the total
raised by the amount. -/
theorem AddMintedTokens_ok (v : View) (tokenId : DCT_ID) (amount : CAmount)
    (hok : (v.AddMintedTokens tokenId amount).1.ok = true) :
    ∃ tok : CToken, v.GetToken tokenId = some tok ∧
      (v.AddMintedTokens tokenId amount).2.tokens =
        mapSet tokenId { tok with minted := tok.minted + amount } v.tokens := by
  unfold View.AddMintedTokens at hok ⊢
  cases ht : v.GetToken tokenId with
  | none =>
    rw [ht] at hok
    exact Bool.noConfusion hok
  | some tok =>
    rw [ht] at hok
    dsimp only at hok ⊢
    unfold SafeAdd at hok ⊢
    by_cases hs : tok.minted + amount ≤ MAX_INT64 ∧ -MAX_INT64 - 1 ≤ tok.minted + amount
    · rw [if_pos hs]
      exact ⟨tok, rfl, rfl⟩
    · rw [if_neg hs] at hok
      exact Bool.noConfusion hok

/-- A failure of the value check of take-loan is a failing result. -/
theorem addLoanValue_error (price amount : CAmount) (totalLoans : Nat) (r : Res)
    (h : CLoansConsensus.addLoanValue price amount totalLoans = .error r) : r.ok = false := by
  unfold CLoansConsensus.addLoanValue at h
  dsimp only at h
  split at h
  · cases h
    rfl
  · split at h
    · cases h
      rfl
    · cases h

/-- One pass of the take-loan loop that succeeds: the requested token is a loan token with
the mintable flag set, the loan-token registry is as before, the record of the token carries
the minted total raised by the amount, and, when no owner rewards are credited, the balance of
the recipient in the token has grown by the amount while every other balance is as before. -/
theorem takeLoanStep_ok (env : Env) (obj : CLoanTakeLoanMessage) (vault : CVaultData)
    (st : CLoansConsensus.TakeLoanState) (kv : DCT_ID × CAmount)
    (hfeed : ∀ (w : View) (pair : CTokenCurrencyPair) (r : Res),
      env.GetFixedIntervalPrice w pair = .error r → r.ok = false)
    (hok : (CLoansConsensus.takeLoanStep env obj vault st kv).1.ok = true) :
    (∃ loanToken : CLoanSetLoanToken,
      st.view.GetLoanTokenByID kv.1 = some loanToken ∧ loanToken.mintable = true) ∧
    (CLoansConsensus.takeLoanStep env obj vault st kv).2.view.loanTokens
      = st.view.loanTokens ∧
    (∃ tok : CToken, st.view.GetToken kv.1 = some tok ∧
      (CLoansConsensus.takeLoanStep env obj vault st kv).2.view.tokens =
        mapSet kv.1 { tok with minted := tok.minted + kv.2 } st.view.tokens) ∧
    ((∀ w : View, env.CalculateOwnerRewards w
        (if obj.to_ ≠ [] then obj.to_ else vault.ownerAddress) = w.balances) →
      ((CLoansConsensus.takeLoanStep env obj vault st kv).2.view.GetBalance
          (if obj.to_ ≠ [] then obj.to_ else vault.ownerAddress) kv.1).nValue =
        (st.view.GetBalance (if obj.to_ ≠ [] then obj.to_ else vault.ownerAddress) kv.1).nValue
          + kv.2 ∧
      ∀ (owner : CScript) (t : DCT_ID),
        (owner, t) ≠ ((if obj.to_ ≠ [] then obj.to_ else vault.ownerAddress), kv.1) →
        (CLoansConsensus.takeLoanStep env obj vault st kv).2.view.GetBalance owner t =
          st.view.GetBalance owner t) := by
  have h1 := AddLoanToken_frame st.view obj.vaultId ⟨kv.1, kv.2⟩
  generalize hr : CLoansConsensus.takeLoanStep env obj vault st kv = r at hok ⊢
  unfold CLoansConsensus.takeLoanStep at hr
  dsimp only at hr
  split at hr
  · subst hr
    exact Bool.noConfusion hok
  rename_i loanToken hlt
  split at hr
  · subst hr
    exact Bool.noConfusion hok
  rename_i hmint
  split at hr
  · rename_i h
    subst hr
    dsimp only at hok
    rw [hok] at h
    exact Bool.noConfusion h
  split at hr
  · rename_i h
    subst hr
    dsimp only at hok
    rw [hok] at h
    exact Bool.noConfusion h
  split at hr
  · rename_i r herr
    subst hr
    dsimp only at hok
    rw [hfeed _ _ r herr] at hok
    exact Bool.noConfusion hok
  rename_i priceFeed hpf
  split at hr
  · subst hr
    exact Bool.noConfusion hok
  split at hr
  · rename_i r herr
    subst hr
    dsimp only at hok
    rw [addLoanValue_error _ _ _ r herr] at hok
    exact Bool.noConfusion hok
  split at hr
  · rename_i r herr
    subst hr
    dsimp only at hok
    rw [addLoanValue_error _ _ _ r herr] at hok
    exact Bool.noConfusion hok
  split at hr
  · rename_i h
    subst hr
    dsimp only at hok
    rw [hok] at h
    exact Bool.noConfusion h
  rename_i hminted
  subst hr
  dsimp only at hok ⊢
  obtain ⟨w2, hw2⟩ : ∃ w2 : View, w2 =
      { (st.view.AddLoanToken obj.vaultId ⟨kv.1, kv.2⟩).2 with
        interestRates := (env.StoreInterest (st.view.AddLoanToken obj.vaultId ⟨kv.1, kv.2⟩).2
          env.height obj.vaultId vault.schemeId kv.1 kv.2).2 } := ⟨_, rfl⟩
  rw [← hw2] at hok hminted ⊢
  have hb2 : w2.balances = st.view.balances := by
    rw [hw2]
    show (st.view.AddLoanToken obj.vaultId ⟨kv.1, kv.2⟩).2.balances = _
    rw [h1]
  have ht2 : w2.tokens = st.view.tokens := by
    rw [hw2]
    show (st.view.AddLoanToken obj.vaultId ⟨kv.1, kv.2⟩).2.tokens = _
    rw [h1]
  have hl2 : w2.loanTokens = st.view.loanTokens := by
    rw [hw2]
    show (st.view.AddLoanToken obj.vaultId ⟨kv.1, kv.2⟩).2.loanTokens = _
    rw [h1]
  clear hw2 h1
  have hmok : (w2.AddMintedTokens kv.1 kv.2).1.ok = true := by
    cases hb : (w2.AddMintedTokens kv.1 kv.2).1.ok with
    | true => rfl
    | false =>
      rw [hb] at hminted
      exact absurd rfl hminted
  obtain ⟨tok, htok, htokens⟩ := AddMintedTokens_ok w2 kv.1 kv.2 hmok
  have h3 := AddMintedTokens_frame w2 kv.1 kv.2
  have hmintable : loanToken.mintable = true := by
    cases hb : loanToken.mintable with
    | true => rfl
    | false =>
      rw [hb] at hmint
      exact absurd rfl hmint
  refine ⟨⟨loanToken, hlt, hmintable⟩, ?_, ⟨tok, ?_, ?_⟩, ?_⟩
  · rw [AddBalance_frame]
    show (w2.AddMintedTokens kv.1 kv.2).2.loanTokens = _
    rw [h3]
    exact hl2
  · show mapFind kv.1 st.view.tokens = some tok
    rw [← ht2]
    exact htok
  · rw [AddBalance_frame]
    show (w2.AddMintedTokens kv.1 kv.2).2.tokens = _
    rw [htokens, ht2]
  · intro hrew
    have hw4 : env.withOwnerRewards (w2.AddMintedTokens kv.1 kv.2).2
        (if obj.to_ ≠ [] then obj.to_ else vault.ownerAddress)
        = (w2.AddMintedTokens kv.1 kv.2).2 := by
      unfold Env.withOwnerRewards
      rw [hrew]
    rw [hw4] at hok ⊢
    have hbal : ∀ (owner : CScript) (t : DCT_ID),
        (w2.AddMintedTokens kv.1 kv.2).2.GetBalance owner t = st.view.GetBalance owner t := by
      intro owner t
      rw [h3]
      show (⟨t, (mapFind (owner, t) w2.balances).getD 0⟩ : CTokenAmount) = _
      rw [hb2]
      rfl
    constructor
    · rw [AddBalance_balance _ _ _ hok, hbal]
    · intro owner t hne
      rw [AddBalance_other _ _ _ _ _ hne, hbal]

/-- The take-loan loop, when it succeeds: the loan-token registry is as before; every requested
token is a loan token with the mintable flag set; the record of a token that is not requested is
as before, and, when no owner rewards are credited, so is every balance other than those of
the recipient in a requested token; and when no token is requested twice, the minted total of
every requested token has grown by the requested amount, and so has, when no owner rewards are
credited, the balance of the recipient in it. -/
theorem takeLoanLoop_ok (env : Env) (obj : CLoanTakeLoanMessage) (vault : CVaultData)
    (hfeed : ∀ (w : View) (pair : CTokenCurrencyPair) (r : Res),
      env.GetFixedIntervalPrice w pair = .error r → r.ok = false)
    (amounts : List (DCT_ID × CAmount)) (st : CLoansConsensus.TakeLoanState)
    (hok : (CLoansConsensus.takeLoanLoop env obj vault st amounts).1.ok = true) :
    (CLoansConsensus.takeLoanLoop env obj vault st amounts).2.view.loanTokens
      = st.view.loanTokens ∧
    (∀ kv ∈ amounts, ∃ loanToken : CLoanSetLoanToken,
      st.view.GetLoanTokenByID kv.1 = some loanToken ∧ loanToken.mintable = true) ∧
    (∀ t : DCT_ID, t ∉ amounts.map Prod.fst →
      (CLoansConsensus.takeLoanLoop env obj vault st amounts).2.view.GetToken t
        = st.view.GetToken t) ∧
    ((∀ w : View, env.CalculateOwnerRewards w
        (if obj.to_ ≠ [] then obj.to_ else vault.ownerAddress) = w.balances) →
      ∀ (owner : CScript) (t : DCT_ID),
        (owner = (if obj.to_ ≠ [] then obj.to_ else vault.ownerAddress) →
          t ∉ amounts.map Prod.fst) →
        (CLoansConsensus.takeLoanLoop env obj vault st amounts).2.view.GetBalance owner t
          = st.view.GetBalance owner t) ∧
    ((amounts.map Prod.fst).Nodup →
      (∀ kv ∈ amounts, ∃ tok : CToken, st.view.GetToken kv.1 = some tok ∧
        (CLoansConsensus.takeLoanLoop env obj vault st amounts).2.view.GetToken kv.1
          = some { tok with minted := tok.minted + kv.2 }) ∧
      ((∀ w : View, env.CalculateOwnerRewards w
          (if obj.to_ ≠ [] then obj.to_ else vault.ownerAddress) = w.balances) →
        ∀ kv ∈ amounts,
          ((CLoansConsensus.takeLoanLoop env obj vault st amounts).2.view.GetBalance
              (if obj.to_ ≠ [] then obj.to_ else vault.ownerAddress) kv.1).nValue =
            (st.view.GetBalance (if obj.to_ ≠ [] then obj.to_ else vault.ownerAddress)
              kv.1).nValue + kv.2)) := by
  induction amounts generalizing st with
  | nil =>
    refine ⟨rfl, ?_, fun _ _ => rfl, fun _ _ _ _ => rfl, fun _ => ⟨?_, fun _ => ?_⟩⟩
    · intro kv hkv
      cases hkv
    · intro kv hkv
      cases hkv
    · intro kv hkv
      cases hkv
  | cons kv rest ih =>
    unfold CLoansConsensus.takeLoanLoop at hok ⊢
    dsimp only at hok ⊢
    by_cases hs : (!(CLoansConsensus.takeLoanStep env obj vault st kv).1.ok) = true
    · rw [if_pos hs] at hok
      rw [hok] at hs
      exact Bool.noConfusion hs
    rw [if_neg hs] at hok ⊢
    have hsok : (CLoansConsensus.takeLoanStep env obj vault st kv).1.ok = true := by
      cases hb : (CLoansConsensus.takeLoanStep env obj vault st kv).1.ok with
      | true => rfl
      | false =>
        rw [hb] at hs
        exact absurd rfl hs
    obtain ⟨hmint, hlt, ⟨tok, htok, htokens⟩, hbal⟩ :=
      takeLoanStep_ok env obj vault st kv hfeed hsok
    obtain ⟨ihA, ihB, ihC, ihD, ihE⟩ :=
      ih (CLoansConsensus.takeLoanStep env obj vault st kv).2 hok
    have htok1 : ∀ t : DCT_ID, t ≠ kv.1 →
        (CLoansConsensus.takeLoanStep env obj vault st kv).2.view.GetToken t
          = st.view.GetToken t := by
      intro t ht
      show mapFind t (CLoansConsensus.takeLoanStep env obj vault st kv).2.view.tokens = _
      rw [htokens]
      exact mapFind_mapSet_ne _ _ _ _ ht
    have htok2 : (CLoansConsensus.takeLoanStep env obj vault st kv).2.view.GetToken kv.1
        = some { tok with minted := tok.minted + kv.2 } := by
      show mapFind kv.1 (CLoansConsensus.takeLoanStep env obj vault st kv).2.view.tokens = _
      rw [htokens]
      exact mapFind_mapSet_self _ _ _
    refine ⟨ihA.trans hlt, ?_, ?_, ?_, ?_⟩
    · intro kv' hkv'
      rcases List.mem_cons.mp hkv' with h | h
      · rw [h]
        exact hmint
      · obtain ⟨lt, hlt', hm⟩ := ihB kv' h
        refine ⟨lt, ?_, hm⟩
        have : mapFind kv'.1 (CLoansConsensus.takeLoanStep env obj vault st kv).2.view.loanTokens
            = some lt := hlt'
        rw [hlt] at this
        exact this
    · intro t ht
      rw [List.map_cons, List.mem_cons, not_or] at ht
      rw [ihC t ht.2]
      exact htok1 t ht.1
    · intro hrew owner t hcond
      have hcond' : owner = (if obj.to_ ≠ [] then obj.to_ else vault.ownerAddress) →
          t ≠ kv.1 ∧ t ∉ rest.map Prod.fst := by
        intro ho
        have := hcond ho
        rw [List.map_cons, List.mem_cons, not_or] at this
        exact this
      rw [ihD hrew owner t (fun ho => (hcond' ho).2)]
      apply (hbal hrew).2
      intro heq
      have ho : owner = (if obj.to_ ≠ [] then obj.to_ else vault.ownerAddress) :=
        congrArg Prod.fst heq
      have ht : t = kv.1 := congrArg Prod.snd heq
      exact (hcond' ho).1 ht
    · intro hnodup
      rw [List.map_cons, List.nodup_cons] at hnodup
      obtain ⟨ihE1, ihE2⟩ := ihE hnodup.2
      have hne : ∀ kv' ∈ rest, kv'.1 ≠ kv.1 := by
        intro kv' hkv' heq
        apply hnodup.1
        rw [← heq]
        exact List.mem_map_of_mem Prod.fst hkv'
      constructor
      · intro kv' hkv'
        rcases List.mem_cons.mp hkv' with h | h
        · rw [h]
          refine ⟨tok, htok, ?_⟩
          rw [ihC kv.1 hnodup.1]
          exact htok2
        · obtain ⟨tok', htok', hpost⟩ := ihE1 kv' h
          rw [htok1 kv'.1 (hne kv' h)] at htok'
          exact ⟨tok', htok', hpost⟩
      · intro hrew kv' hkv'
        rcases List.mem_cons.mp hkv' with h | h
        · rw [h, ihD hrew _ kv.1 (fun _ => hnodup.1)]
          exact (hbal hrew).1
        · rw [ihE2 hrew kv' h]
          rw [(hbal hrew).2 _ kv'.1 (fun heq => hne kv' h (congrArg Prod.snd heq))]

/-- A take-loan that succeeds has found the vault and run the loop to its end; the view it
returns is the view the loop leaves. -/
theorem onLoanTakeLoanMessage_ok (env : Env) (v : View) (obj : CLoanTakeLoanMessage)
    (hok : (CLoansConsensus.onLoanTakeLoanMessage env v obj).1.ok = true) :
    ∃ vault : CVaultData, v.GetVault obj.vaultId = some vault ∧
      (CLoansConsensus.takeLoanLoop env obj vault ⟨v, 0, 0⟩ obj.amounts).1.ok = true ∧
      (CLoansConsensus.onLoanTakeLoanMessage env v obj).2 =
        (CLoansConsensus.takeLoanLoop env obj vault ⟨v, 0, 0⟩ obj.amounts).2.view := by
  generalize hr : CLoansConsensus.onLoanTakeLoanMessage env v obj = r at hok ⊢
  unfold CLoansConsensus.onLoanTakeLoanMessage at hr
  split at hr
  · rename_i h
    subst hr
    dsimp only at hok
    rw [hok] at h
    exact Bool.noConfusion h
  split at hr
  · subst hr
    exact Bool.noConfusion hok
  rename_i vault hv
  split at hr
  · subst hr
    exact Bool.noConfusion hok
  split at hr
  · subst hr
    exact Bool.noConfusion hok
  split at hr
  · subst hr
    exact Bool.noConfusion hok
  split at hr
  · subst hr
    exact Bool.noConfusion hok
  rename_i collaterals hc
  dsimp only at hr
  split at hr
  · rename_i h
    subst hr
    dsimp only at hok
    rw [hok] at h
    exact Bool.noConfusion h
  rename_i hloop
  subst hr
  refine ⟨vault, hv, ?_, rfl⟩
  cases hb : (CLoansConsensus.takeLoanLoop env obj vault ⟨v, 0, 0⟩ obj.amounts).1.ok with
  | true => rfl
  | false =>
    rw [hb] at hloop
    exact absurd rfl hloop

/-- C27 fails as stated. The handler settles the pending owner rewards of the credited
address before the credit (`CalculateOwnerRewards(address)`): with 7 units of token 2 pending
for the owner `[1]`, the loan of 500 units of token 2 of the lending scenario, taken without a
recipient address, leaves `[1]` with 50000000007 more, not 50000000000. -/
theorem take_loan_credit_counterexample :
    (CLoansConsensus.onLoanTakeLoanMessage rewardingEnv scenarioAfterDeposit
      ⟨77, [], [(2, 50000000000)]⟩).1.ok = true ∧
    scenarioAfterDeposit.GetVault 77 = some ⟨[1], "A", false⟩ ∧
    (scenarioAfterDeposit.GetBalance [1] 2).nValue = 0 ∧
    ((CLoansConsensus.onLoanTakeLoanMessage rewardingEnv scenarioAfterDeposit
      ⟨77, [], [(2, 50000000000)]⟩).2.GetBalance [1] 2).nValue = 50000000007 ∧
    ((CLoansConsensus.onLoanTakeLoanMessage rewardingEnv scenarioAfterDeposit
      ⟨77, [], [(2, 50000000000)]⟩).2.GetBalance [1] 2).nValue
      ≠ (scenarioAfterDeposit.GetBalance [1] 2).nValue + 50000000000 :=
  ⟨by decide, by decide, by decide, by decide, by decide⟩

/-- C27, amended. Take-loan credits the recipient. A request that names a loan token whose
mintable flag is false is rejected. For every successful take-loan and every requested (token,
amount), the tokens of the request being distinct as the keys of a map are: the minted total
of the token has grown by exactly the amount, and, when the handler finds no owner rewards
pending for the credited address, the balance in the token of the address of the message,
when it is non-empty, and of the owner of the vault otherwise, has grown by exactly the
amount. -/
theorem take_loan_credits_recipient (env : Env) (v : View) (obj : CLoanTakeLoanMessage)
    (hfeed : ∀ (w : View) (pair : CTokenCurrencyPair) (r : Res),
      env.GetFixedIntervalPrice w pair = .error r → r.ok = false) :
    (∀ kv ∈ obj.amounts, ∀ loanToken : CLoanSetLoanToken,
      v.GetLoanTokenByID kv.1 = some loanToken → loanToken.mintable = false →
      (CLoansConsensus.onLoanTakeLoanMessage env v obj).1.ok = false) ∧
    ((CLoansConsensus.onLoanTakeLoanMessage env v obj).1.ok = true →
      (obj.amounts.map Prod.fst).Nodup →
      ∃ vault : CVaultData, v.GetVault obj.vaultId = some vault ∧
        ∀ kv ∈ obj.amounts,
          (∃ tok : CToken, v.GetToken kv.1 = some tok ∧
            (CLoansConsensus.onLoanTakeLoanMessage env v obj).2.GetToken kv.1
              = some { tok with minted := tok.minted + kv.2 }) ∧
          (obj.to_ ≠ [] →
            (∀ w : View, env.CalculateOwnerRewards w obj.to_ = w.balances) →
            ((CLoansConsensus.onLoanTakeLoanMessage env v obj).2.GetBalance obj.to_
                kv.1).nValue = (v.GetBalance obj.to_ kv.1).nValue + kv.2) ∧
          (obj.to_ = [] →
            (∀ w : View, env.CalculateOwnerRewards w vault.ownerAddress = w.balances) →
            ((CLoansConsensus.onLoanTakeLoanMessage env v obj).2.GetBalance
                vault.ownerAddress kv.1).nValue
              = (v.GetBalance vault.ownerAddress kv.1).nValue + kv.2)) := by
  constructor
  · intro kv hkv loanToken hlt hmint
    cases hb : (CLoansConsensus.onLoanTakeLoanMessage env v obj).1.ok with
    | false => rfl
    | true =>
      obtain ⟨vault, -, hloop, -⟩ := onLoanTakeLoanMessage_ok env v obj hb
      obtain ⟨-, hB, -⟩ := takeLoanLoop_ok env obj vault hfeed obj.amounts ⟨v, 0, 0⟩ hloop
      obtain ⟨lt, hlt', hm⟩ := hB kv hkv
      rw [hlt] at hlt'
      cases hlt'
      rw [hmint] at hm
      exact Bool.noConfusion hm
  · intro hok hnodup
    obtain ⟨vault, hv, hloop, hres⟩ := onLoanTakeLoanMessage_ok env v obj hok
    obtain ⟨-, -, -, -, hE⟩ := takeLoanLoop_ok env obj vault hfeed obj.amounts ⟨v, 0, 0⟩ hloop
    obtain ⟨hE1, hE2⟩ := hE hnodup
    refine ⟨vault, hv, fun kv hkv => ⟨?_, fun hto hrew => ?_, fun hto hrew => ?_⟩⟩
    · rw [hres]
      exact hE1 kv hkv
    · rw [if_pos hto] at hE2
      rw [hres]
      exact hE2 hrew kv hkv
    · rw [if_neg (not_not.mpr hto)] at hE2
      rw [hres]
      exact hE2 hrew kv hkv

/-- C27, at concrete inputs: the loan of 500 units of token 2 of the lending scenario, taken
without a recipient address, raises the balance of the owner `[1]` in token 2 by 500 units; the
same request is rejected when the mintable flag of token 2 is cleared. -/
theorem take_loan_credits_recipient_witness :
    (CLoansConsensus.onLoanTakeLoanMessage scenarioEnv
      { scenarioAfterDeposit with
        loanTokens := [(2, ⟨"LOAN", "loan", ("LOAN", "USD"), false, 0⟩)] }
      ⟨77, [], [(2, 50000000000)]⟩).1.ok = false ∧
    ((CLoansConsensus.onLoanTakeLoanMessage scenarioEnv scenarioAfterDeposit
        ⟨77, [], [(2, 50000000000)]⟩).2.GetBalance [1] 2).nValue
      = (scenarioAfterDeposit.GetBalance [1] 2).nValue + 50000000000 := by
  have hfeed : ∀ (w : View) (pair : CTokenCurrencyPair) (r : Res),
      scenarioEnv.GetFixedIntervalPrice w pair = .error r → r.ok = false :=
    fun _ _ _ h => Except.noConfusion h
  constructor
  · exact (take_loan_credits_recipient scenarioEnv _ ⟨77, [], [(2, 50000000000)]⟩ hfeed).1
      (2, 50000000000) (List.mem_singleton.mpr rfl)
      ⟨"LOAN", "loan", ("LOAN", "USD"), false, 0⟩ (by decide) rfl
  · obtain ⟨vault, hv, h⟩ :=
      (take_loan_credits_recipient scenarioEnv scenarioAfterDeposit
        ⟨77, [], [(2, 50000000000)]⟩ hfeed).2 (by decide) (by decide)
    have hvault : vault = ⟨[1], "A", false⟩ := Option.some.inj (hv.symm.trans (by decide))
    rw [hvault] at h
    exact (h (2, 50000000000) (List.mem_singleton.mpr rfl)).2.2 rfl (fun _ => rfl)

/-! ## The V2 payback loops -/

/-- A write of the loans of a vault touches the vault-loan table only. -/
theorem SubLoanToken_frame (v : View) (vaultId : CVaultId) (amount : CTokenAmount) :
    (v.SubLoanToken vaultId amount).2 =
      { v with vaultLoans := (v.SubLoanToken vaultId amount).2.vaultLoans } := by
  unfold View.SubLoanToken
  split
  · rfl
  · split
    · rfl
    · split
      · rfl
      · split <;> rfl

/-- Lowering the minted total writes the token registry only. -/
theorem SubMintedTokens_frame (v : View) (tokenId : DCT_ID) (amount : CAmount) :
    (v.SubMintedTokens tokenId amount).2 =
      { v with tokens := (v.SubMintedTokens tokenId amount).2.tokens } := by
  unfold View.SubMintedTokens
  split
  · rfl
  · split <;> rfl

/-- A transfer between two addresses writes the balance table only. -/
theorem TransferTokenBalance_frame (v : View) (id : DCT_ID) (amount : CAmount)
    (from_ to_ : CScript) :
    (TransferTokenBalance v id amount from_ to_).2 =
      { v with balances := (TransferTokenBalance v id amount from_ to_).2.balances } := by
  have hsub := SubBalance_frame v from_ ⟨id, amount⟩
  have hadd := fun w : View => AddBalance_frame w to_ ⟨id, amount⟩
  unfold TransferTokenBalance
  dsimp only
  by_cases hf : from_ ≠ []
  · rw [if_pos hf]
    by_cases h1 : (!(v.SubBalance from_ ⟨id, amount⟩).1.ok) = true
    · rw [if_pos h1]
      exact hsub
    · rw [if_neg h1]
      by_cases ht : to_ ≠ []
      · rw [if_pos ht]
        by_cases h2 : (!((v.SubBalance from_ ⟨id, amount⟩).2.AddBalance to_ ⟨id, amount⟩).1.ok)
            = true
        · rw [if_pos h2, hadd, hsub]
        · rw [if_neg h2, hadd, hsub]
      · rw [if_neg ht]
        dsimp only
        rw [if_neg (by simp)]
        exact hsub
  · rw [if_neg hf]
    dsimp only
    rw [if_neg (by simp)]
    by_cases ht : to_ ≠ []
    · rw [if_pos ht]
      by_cases h2 : (!(v.AddBalance to_ ⟨id, amount⟩).1.ok) = true
      · rw [if_pos h2]
        exact hadd v
      · rw [if_neg h2]
        exact hadd v
    · rw [if_neg ht]
      dsimp only
      rw [if_neg (by simp)]

/-- A conversion is refused with a failure when the payback of the pair is not switched on. -/
theorem convertPayback_inactive (env : Env) (obj : CLoanPaybackLoanV2Message)
    (st : CLoansConsensus.PaybackState) (loanTokenId : DCT_ID) (loanToken : CLoanSetLoanToken)
    (paybackToken : CToken) (kv : DCT_ID × CAmount)
    (hflag : paybackActive st.attributes loanTokenId kv.1 = false) :
    ∃ r : Res, CLoansConsensus.convertPayback env obj st loanTokenId loanToken paybackToken kv
      = .error r ∧ r.ok = false := by
  unfold CLoansConsensus.convertPayback
  dsimp only
  by_cases h1 : (!env.IsVaultPriceValid st.view obj.vaultId env.height) = true
  · rw [if_pos h1]
    exact ⟨_, rfl, rfl⟩
  rw [if_neg h1]
  cases ha : st.attributes with
  | none => exact ⟨_, rfl, rfl⟩
  | some attributes =>
    dsimp only
    rw [ha] at hflag
    unfold paybackActive at hflag
    dsimp only at hflag
    rw [hflag, if_pos (by rfl)]
    exact ⟨_, rfl, rfl⟩

/-- A conversion that goes through has found the attribute set, with the payback of the pair
switched on, and the USD price of the payback token; its penalty factor is one minus the fee
configured for the pair, read with the default 0, or with the default `COIN / 100` when the
payback token is the base token, and the price it applies is the USD price times that
factor. -/
theorem convertPayback_ok (env : Env) (obj : CLoanPaybackLoanV2Message)
    (st : CLoansConsensus.PaybackState) (loanTokenId : DCT_ID) (loanToken : CLoanSetLoanToken)
    (paybackToken : CToken) (kv : DCT_ID × CAmount) (c : CLoansConsensus.PaybackConversion)
    (h : CLoansConsensus.convertPayback env obj st loanTokenId loanToken paybackToken kv
      = .ok c) :
    ∃ (attributes : ATTRIBUTES) (price : CAmount), st.attributes = some attributes ∧
      paybackActive st.attributes loanTokenId kv.1 = true ∧
      env.GetValidatedIntervalPrice st.view (paybackToken.symbol, "USD") false true
        = .ok price ∧
      c.penaltyPct = (if kv.1 ≠ 0 then
          COIN - attributes.GetValueAmount
            ⟨.Token, .id loanTokenId, .token .LoanPaybackFeePCT, kv.1⟩ 0
        else
          COIN - attributes.GetValueAmount
            ⟨.Token, .id loanTokenId, .token .PaybackDFIFeePCT, 0⟩ (Int.tdiv COIN 100)) ∧
      c.paybackUsdPrice = MultiplyAmounts price c.penaltyPct := by
  unfold CLoansConsensus.convertPayback at h
  dsimp only at h
  split at h
  · cases h
  cases ha : st.attributes with
  | none =>
    rw [ha] at h
    cases h
  | some attributes =>
  rw [ha] at h
  dsimp only at h
  have hactive : paybackActive (some attributes) loanTokenId kv.1 =
      (if kv.1 ≠ 0 then
        attributes.GetValueBool ⟨.Token, .id loanTokenId, .token .LoanPayback, kv.1⟩ false
      else attributes.GetValueBool ⟨.Token, .id loanTokenId, .token .PaybackDFI, 0⟩ false) := rfl
  generalize (if kv.1 ≠ 0 then
      attributes.GetValueBool ⟨.Token, .id loanTokenId, .token .LoanPayback, kv.1⟩ false
    else attributes.GetValueBool ⟨.Token, .id loanTokenId, .token .PaybackDFI, 0⟩ false) = act
    at h hactive
  generalize hpen : (if kv.1 ≠ 0 then
      COIN - attributes.GetValueAmount
        ⟨.Token, .id loanTokenId, .token .LoanPaybackFeePCT, kv.1⟩ 0
    else
      COIN - attributes.GetValueAmount
        ⟨.Token, .id loanTokenId, .token .PaybackDFIFeePCT, 0⟩ (Int.tdiv COIN 100)) = pen at h
  cases act with
  | false => cases h
  | true =>
  rw [if_neg (by simp)] at h
  cases hp : env.GetValidatedIntervalPrice st.view (paybackToken.symbol, "USD") false true with
  | error r =>
    rw [hp] at h
    cases h
  | ok price =>
  rw [hp] at h
  dsimp only at h
  split at h
  · split at h
    · cases h
    · cases h
      exact ⟨attributes, price, rfl, hactive, rfl, hpen.symm, rfl⟩
  · split at h
    · cases h
    · cases h
      exact ⟨attributes, price, rfl, hactive, rfl, hpen.symm, rfl⟩

/-- A conversion that is refused is refused with a failure, the price collaborator reporting
its own refusals as failures. -/
theorem convertPayback_error (env : Env) (obj : CLoanPaybackLoanV2Message)
    (hprice : ∀ (w : View) (pair : CTokenCurrencyPair) (next live : Bool) (r : Res),
      env.GetValidatedIntervalPrice w pair next live = .error r → r.ok = false)
    (st : CLoansConsensus.PaybackState) (loanTokenId : DCT_ID) (loanToken : CLoanSetLoanToken)
    (paybackToken : CToken) (kv : DCT_ID × CAmount) (r : Res)
    (h : CLoansConsensus.convertPayback env obj st loanTokenId loanToken paybackToken kv
      = .error r) : r.ok = false := by
  unfold CLoansConsensus.convertPayback at h
  dsimp only at h
  split at h
  · cases h
    rfl
  cases ha : st.attributes with
  | none =>
    rw [ha] at h
    cases h
    rfl
  | some attributes =>
  rw [ha] at h
  dsimp only at h
  generalize (if kv.1 ≠ 0 then
      attributes.GetValueBool ⟨.Token, .id loanTokenId, .token .LoanPayback, kv.1⟩ false
    else attributes.GetValueBool ⟨.Token, .id loanTokenId, .token .PaybackDFI, 0⟩ false) = act
    at h
  generalize (if kv.1 ≠ 0 then
      COIN - attributes.GetValueAmount
        ⟨.Token, .id loanTokenId, .token .LoanPaybackFeePCT, kv.1⟩ 0
    else
      COIN - attributes.GetValueAmount
        ⟨.Token, .id loanTokenId, .token .PaybackDFIFeePCT, 0⟩ (Int.tdiv COIN 100)) = pen at h
  cases act with
  | false =>
    cases h
    rfl
  | true =>
  rw [if_neg (by simp)] at h
  cases hp : env.GetValidatedIntervalPrice st.view (paybackToken.symbol, "USD") false true with
  | error r' =>
    rw [hp] at h
    cases h
    exact hprice _ _ _ _ _ hp
  | ok price =>
  rw [hp] at h
  dsimp only at h
  split at h
  · split at h
    · cases h
      rfl
    · cases h
  · split at h
    · rename_i r' hr'
      cases h
      exact hprice _ _ _ _ _ hr'
    · cases h

theorem SubLoanToken_keeps (v : View) (vaultId : CVaultId) (amount : CTokenAmount) :
    (v.SubLoanToken vaultId amount).2.vaults = v.vaults ∧
    (v.SubLoanToken vaultId amount).2.attributes = v.attributes := by
  rw [SubLoanToken_frame]
  exact ⟨rfl, rfl⟩

theorem SubMintedTokens_keeps (v : View) (tokenId : DCT_ID) (amount : CAmount) :
    (v.SubMintedTokens tokenId amount).2.vaults = v.vaults ∧
    (v.SubMintedTokens tokenId amount).2.attributes = v.attributes := by
  rw [SubMintedTokens_frame]
  exact ⟨rfl, rfl⟩

theorem SubBalance_keeps (v : View) (owner : CScript) (amount : CTokenAmount) :
    (v.SubBalance owner amount).2.vaults = v.vaults ∧
    (v.SubBalance owner amount).2.attributes = v.attributes := by
  rw [SubBalance_frame]
  exact ⟨rfl, rfl⟩

theorem TransferTokenBalance_keeps (v : View) (id : DCT_ID) (amount : CAmount)
    (from_ to_ : CScript) :
    (TransferTokenBalance v id amount from_ to_).2.vaults = v.vaults ∧
    (TransferTokenBalance v id amount from_ to_).2.attributes = v.attributes := by
  rw [TransferTokenBalance_frame]
  exact ⟨rfl, rfl⟩

/-- One entry of the V2 payback loops. Either the local attribute set and the flag
`shouldSetVariable` are as before, and the entry has failed if it pays in another token than
the loan token; or the entry pays in another token, its conversion went through, the local
attribute set has received the economy record and the flag is set. The vault table and the
stored attribute set of the view are as before, as far as the swap collaborator leaves them
alone. -/
theorem paybackEntry_shape (env : Env) (obj : CLoanPaybackLoanV2Message) (vault : CVaultData)
    (loanTokenId : DCT_ID) (loanToken : CLoanSetLoanToken) (outstanding : CAmount)
    (hprice : ∀ (w : View) (pair : CTokenCurrencyPair) (next live : Bool) (r : Res),
      env.GetValidatedIntervalPrice w pair next live = .error r → r.ok = false)
    (st : CLoansConsensus.PaybackState) (kv : DCT_ID × CAmount) :
    (((CLoansConsensus.paybackEntry env obj vault loanTokenId loanToken outstanding st
          kv).2.attributes = st.attributes ∧
        (CLoansConsensus.paybackEntry env obj vault loanTokenId loanToken outstanding st
          kv).2.shouldSetVariable = st.shouldSetVariable ∧
        (kv.1 ≠ loanTokenId →
          (CLoansConsensus.paybackEntry env obj vault loanTokenId loanToken outstanding st
            kv).1.ok = false)) ∨
      (kv.1 ≠ loanTokenId ∧
        (∃ (paybackToken : CToken) (c : CLoansConsensus.PaybackConversion),
          CLoansConsensus.convertPayback env obj st loanTokenId loanToken paybackToken kv
            = .ok c) ∧
        (∃ subAmount penalty : CAmount,
          (CLoansConsensus.paybackEntry env obj vault loanTokenId loanToken outstanding st
            kv).2.attributes =
              st.attributes.map (fun a =>
                CLoansConsensus.recordPayback a loanTokenId kv.1 subAmount penalty)) ∧
        (CLoansConsensus.paybackEntry env obj vault loanTokenId loanToken outstanding st
          kv).2.shouldSetVariable = true)) ∧
    ((∀ (w : View) (t : DCT_ID) (a : CAmount) (f b : CScript) (h : Nat),
        (env.SwapToDFIOverUSD w t a f b h).2.vaults = w.vaults) →
      (CLoansConsensus.paybackEntry env obj vault loanTokenId loanToken outstanding st
        kv).2.view.vaults = st.view.vaults) ∧
    ((∀ (w : View) (t : DCT_ID) (a : CAmount) (f b : CScript) (h : Nat),
        (env.SwapToDFIOverUSD w t a f b h).2.attributes = w.attributes) →
      (CLoansConsensus.paybackEntry env obj vault loanTokenId loanToken outstanding st
        kv).2.view.attributes = st.view.attributes) := by
  have k1 := fun (w : View) (a : CTokenAmount) => SubLoanToken_keeps w obj.vaultId a
  have k2 := fun (w : View) (t : DCT_ID) (a : CAmount) => SubMintedTokens_keeps w t a
  have k3 := fun (w : View) (o : CScript) (a : CTokenAmount) => SubBalance_keeps w o a
  have k4 := fun (w : View) (t : DCT_ID) (a : CAmount) (f b : CScript) =>
    TransferTokenBalance_keeps w t a f b
  generalize hr : CLoansConsensus.paybackEntry env obj vault loanTokenId loanToken outstanding
    st kv = r
  unfold CLoansConsensus.paybackEntry at hr
  dsimp only at hr
  cases hpt : st.view.GetToken kv.1 with
  | none =>
    rw [hpt] at hr
    subst hr
    exact ⟨Or.inl ⟨rfl, rfl, fun _ => rfl⟩, fun _ => rfl, fun _ => rfl⟩
  | some paybackToken =>
  rw [hpt] at hr
  dsimp only at hr
  generalize hconv : (if loanTokenId ≠ kv.1 then
      CLoansConsensus.convertPayback env obj st loanTokenId loanToken paybackToken kv
    else Except.ok ⟨kv.2, 0, 0, COIN⟩) = conv at hr
  cases conv with
  | error e =>
    dsimp only at hr
    subst hr
    refine ⟨Or.inl ⟨rfl, rfl, fun hne => ?_⟩, fun _ => rfl, fun _ => rfl⟩
    rw [if_pos (Ne.symm hne)] at hconv
    exact convertPayback_error env obj hprice st loanTokenId loanToken paybackToken kv e hconv
  | ok c =>
  dsimp only at hr
  cases hrate : st.view.GetInterestRate obj.vaultId loanTokenId env.height with
  | none =>
    rw [hrate] at hr
    subst hr
    exact ⟨Or.inl ⟨rfl, rfl, fun _ => rfl⟩, fun _ => rfl, fun _ => rfl⟩
  | some rate =>
  rw [hrate] at hr
  dsimp only at hr
  generalize CLoansConsensus.paybackSplit c.paybackAmount (env.TotalInterest rate env.height)
    outstanding = sp at hr
  have hk1 := k1 st.view ⟨loanTokenId, sp.2⟩
  generalize st.view.SubLoanToken obj.vaultId ⟨loanTokenId, sp.2⟩ = r1 at hr hk1
  by_cases h1 : (!r1.1.ok) = true
  · rw [if_pos h1] at hr
    subst hr
    exact ⟨Or.inl ⟨rfl, rfl, fun _ => by simpa using h1⟩, fun _ => hk1.1, fun _ => hk1.2⟩
  rw [if_neg h1] at hr
  generalize env.EraseInterest r1.2 env.height obj.vaultId vault.schemeId loanTokenId sp.2 sp.1
    = r2 at hr
  obtain ⟨v2, hv2⟩ : ∃ v2 : View, v2 = { r1.2 with interestRates := r2.2 } := ⟨_, rfl⟩
  rw [← hv2] at hr
  have hk2 : v2.vaults = st.view.vaults ∧ v2.attributes = st.view.attributes := by
    rw [hv2]
    exact hk1
  clear hv2
  by_cases h2 : (!r2.1.ok) = true
  · rw [if_pos h2] at hr
    subst hr
    exact ⟨Or.inl ⟨rfl, rfl, fun _ => by simpa using h2⟩, fun _ => hk2.1, fun _ => hk2.2⟩
  rw [if_neg h2] at hr
  generalize (if castInt env.height ≥ env.FortCanningMuseumHeight ∧ sp.2 < outstanding then _
    else Res.Ok) = rateCheck at hr
  by_cases h3 : (!rateCheck.ok) = true
  · rw [if_pos h3] at hr
    subst hr
    exact ⟨Or.inl ⟨rfl, rfl, fun _ => by simpa using h3⟩, fun _ => hk2.1, fun _ => hk2.2⟩
  rw [if_neg h3] at hr
  by_cases hown : kv.1 = loanTokenId
  · rw [if_pos hown] at hr
    have hk3 := k2 (env.withOwnerRewards v2 obj.from_) loanTokenId sp.2
    generalize (env.withOwnerRewards v2 obj.from_).SubMintedTokens loanTokenId sp.2 = r4
      at hr hk3
    have hk3 : r4.2.vaults = st.view.vaults ∧ r4.2.attributes = st.view.attributes :=
      ⟨hk3.1.trans hk2.1, hk3.2.trans hk2.2⟩
    by_cases h4 : (!r4.1.ok) = true
    · rw [if_pos h4] at hr
      subst hr
      exact ⟨Or.inl ⟨rfl, rfl, fun hne => absurd hown hne⟩, fun _ => hk3.1, fun _ => hk3.2⟩
    rw [if_neg h4] at hr
    have hk5 := k3 r4.2 obj.from_ ⟨loanTokenId, sp.2⟩
    generalize r4.2.SubBalance obj.from_ ⟨loanTokenId, sp.2⟩ = r5 at hr hk5
    have hk5 : r5.2.vaults = st.view.vaults ∧ r5.2.attributes = st.view.attributes :=
      ⟨hk5.1.trans hk3.1, hk5.2.trans hk3.2⟩
    by_cases h5 : (!r5.1.ok) = true
    · rw [if_pos h5] at hr
      subst hr
      exact ⟨Or.inl ⟨rfl, rfl, fun hne => absurd hown hne⟩, fun _ => hk5.1, fun _ => hk5.2⟩
    rw [if_neg h5] at hr
    by_cases h6 : sp.1 ≠ 0
    · rw [if_pos h6] at hr
      subst hr
      exact ⟨Or.inl ⟨rfl, rfl, fun hne => absurd hown hne⟩,
        fun hs => (hs _ _ _ _ _ _).trans hk5.1, fun hs => (hs _ _ _ _ _ _).trans hk5.2⟩
    · rw [if_neg h6] at hr
      subst hr
      exact ⟨Or.inl ⟨rfl, rfl, fun hne => absurd hown hne⟩, fun _ => hk5.1, fun _ => hk5.2⟩
  · rw [if_neg hown] at hr
    subst hr
    have hk7 := k4 (env.withOwnerRewards v2 obj.from_) kv.1
      (CLoansConsensus.computeSubInToken loanToken c (sp.2 + sp.1) kv.2) obj.from_
      env.burnAddress
    refine ⟨Or.inr ⟨hown, ⟨paybackToken, c, ?_⟩, ⟨_, _, rfl⟩, rfl⟩,
      fun _ => hk7.1.trans hk2.1, fun _ => hk7.2.trans hk2.2⟩
    rw [if_pos (Ne.symm hown)] at hconv
    exact hconv

theorem sameTokenKeys_refl (x : Option ATTRIBUTES) : sameTokenKeys x x := by
  refine ⟨rfl, fun a b ha hb key _ => ?_⟩
  rw [ha] at hb
  cases hb
  rfl

theorem sameTokenKeys_trans (x y z : Option ATTRIBUTES) (h1 : sameTokenKeys x y)
    (h2 : sameTokenKeys y z) : sameTokenKeys x z := by
  refine ⟨h1.1.trans h2.1, fun a c ha hc key hkey => ?_⟩
  cases hy : y with
  | none =>
    have := h1.1
    rw [ha, hy] at this
    exact Bool.noConfusion this
  | some b => exact (h1.2 a b ha hy key hkey).trans (h2.2 b c hy hc key hkey)

/-- The economy record of a cross-token payback is written under a key of type `Live`: the
values under the keys of type `Token` stay as they are. -/
theorem sameTokenKeys_record (x : Option ATTRIBUTES) (loanTokenId paybackTokenId : DCT_ID)
    (subAmount penalty : CAmount) :
    sameTokenKeys
      (x.map (fun a => CLoansConsensus.recordPayback a loanTokenId paybackTokenId subAmount
        penalty)) x := by
  cases x with
  | none => exact sameTokenKeys_refl none
  | some a =>
    refine ⟨rfl, fun a' b ha' hb key hkey => ?_⟩
    cases hb
    cases ha'
    unfold CLoansConsensus.recordPayback
    dsimp only
    split
    · apply mapFind_mapSet_ne
      intro h
      rw [h] at hkey
      cases hkey
    · apply mapFind_mapSet_ne
      intro h
      rw [h] at hkey
      cases hkey

/-- The switch of a pair is read under keys of type `Token` only. -/
theorem paybackActive_congr (x y : Option ATTRIBUTES) (h : sameTokenKeys x y)
    (loanTokenId paybackTokenId : DCT_ID) :
    paybackActive x loanTokenId paybackTokenId = paybackActive y loanTokenId paybackTokenId := by
  cases x with
  | none =>
    cases y with
    | none => rfl
    | some b => exact Bool.noConfusion h.1
  | some a =>
    cases y with
    | none => exact Bool.noConfusion h.1
    | some b =>
      have hk := h.2 a b rfl rfl
      unfold paybackActive ATTRIBUTES.GetValueBool
      dsimp only
      rw [hk _ rfl, hk _ rfl]

/-- What one entry of the V2 payback loops does to the local attribute set and to
`shouldSetVariable`. -/
theorem paybackEntry_facts (env : Env) (obj : CLoanPaybackLoanV2Message) (vault : CVaultData)
    (loanTokenId : DCT_ID) (loanToken : CLoanSetLoanToken) (outstanding : CAmount)
    (hprice : ∀ (w : View) (pair : CTokenCurrencyPair) (next live : Bool) (r : Res),
      env.GetValidatedIntervalPrice w pair next live = .error r → r.ok = false)
    (st : CLoansConsensus.PaybackState) (kv : DCT_ID × CAmount) :
    sameTokenKeys
      (CLoansConsensus.paybackEntry env obj vault loanTokenId loanToken outstanding st
        kv).2.attributes st.attributes ∧
    ((st.shouldSetVariable = true → st.attributes.isSome = true) →
      (CLoansConsensus.paybackEntry env obj vault loanTokenId loanToken outstanding st
        kv).2.shouldSetVariable = true →
      (CLoansConsensus.paybackEntry env obj vault loanTokenId loanToken outstanding st
        kv).2.attributes.isSome = true) ∧
    (kv.1 = loanTokenId →
      (CLoansConsensus.paybackEntry env obj vault loanTokenId loanToken outstanding st
        kv).2.attributes = st.attributes ∧
      (CLoansConsensus.paybackEntry env obj vault loanTokenId loanToken outstanding st
        kv).2.shouldSetVariable = st.shouldSetVariable) ∧
    ((CLoansConsensus.paybackEntry env obj vault loanTokenId loanToken outstanding st
        kv).1.ok = true →
      (CLoansConsensus.paybackEntry env obj vault loanTokenId loanToken outstanding st
        kv).2.shouldSetVariable = (st.shouldSetVariable || decide (kv.1 ≠ loanTokenId))) ∧
    (kv.1 ≠ loanTokenId → paybackActive st.attributes loanTokenId kv.1 = false →
      (CLoansConsensus.paybackEntry env obj vault loanTokenId loanToken outstanding st
        kv).1.ok = false) := by
  obtain ⟨hshape, -, -⟩ :=
    paybackEntry_shape env obj vault loanTokenId loanToken outstanding hprice st kv
  rcases hshape with ⟨ha, hf, hfail⟩ | ⟨hne, ⟨paybackToken, c, hc⟩, ⟨sa, pen, ha⟩, hf⟩
  · refine ⟨?_, ?_, fun _ => ⟨ha, hf⟩, ?_, fun hne _ => hfail hne⟩
    · rw [ha]
      exact sameTokenKeys_refl _
    · intro hJ hflag
      rw [ha]
      rw [hf] at hflag
      exact hJ hflag
    · intro hok
      rw [hf]
      by_cases hne : kv.1 ≠ loanTokenId
      · rw [hfail hne] at hok
        exact Bool.noConfusion hok
      · simp [hne]
  · obtain ⟨attributes, price, hsome, hactive, -⟩ :=
      convertPayback_ok env obj st loanTokenId loanToken paybackToken kv c hc
    refine ⟨?_, ?_, fun heq => absurd heq hne, ?_, ?_⟩
    · rw [ha]
      exact sameTokenKeys_record _ _ _ _ _
    · intro _ _
      rw [ha, hsome]
      rfl
    · intro _
      rw [hf]
      simp [hne]
    · intro _ hflag
      rw [hflag] at hactive
      exact Bool.noConfusion hactive

/-- The inner loop of the V2 payback handler, over the payback amounts of one loan token. -/
theorem paybackEntries_facts (env : Env) (obj : CLoanPaybackLoanV2Message) (vault : CVaultData)
    (loanTokenId : DCT_ID) (loanToken : CLoanSetLoanToken) (outstanding : CAmount)
    (hprice : ∀ (w : View) (pair : CTokenCurrencyPair) (next live : Bool) (r : Res),
      env.GetValidatedIntervalPrice w pair next live = .error r → r.ok = false)
    (l : List (DCT_ID × CAmount)) (st : CLoansConsensus.PaybackState) :
    sameTokenKeys
      (CLoansConsensus.paybackEntries env obj vault loanTokenId loanToken outstanding st
        l).2.attributes st.attributes ∧
    ((st.shouldSetVariable = true → st.attributes.isSome = true) →
      (CLoansConsensus.paybackEntries env obj vault loanTokenId loanToken outstanding st
        l).2.shouldSetVariable = true →
      (CLoansConsensus.paybackEntries env obj vault loanTokenId loanToken outstanding st
        l).2.attributes.isSome = true) ∧
    (l.any (fun kv => decide (kv.1 ≠ loanTokenId)) = false →
      (CLoansConsensus.paybackEntries env obj vault loanTokenId loanToken outstanding st
        l).2.attributes = st.attributes ∧
      (CLoansConsensus.paybackEntries env obj vault loanTokenId loanToken outstanding st
        l).2.shouldSetVariable = st.shouldSetVariable) ∧
    ((CLoansConsensus.paybackEntries env obj vault loanTokenId loanToken outstanding st
        l).1.ok = true →
      (CLoansConsensus.paybackEntries env obj vault loanTokenId loanToken outstanding st
        l).2.shouldSetVariable =
          (st.shouldSetVariable || l.any (fun kv => decide (kv.1 ≠ loanTokenId)))) ∧
    ((∃ kv ∈ l, kv.1 ≠ loanTokenId ∧ paybackActive st.attributes loanTokenId kv.1 = false) →
      (CLoansConsensus.paybackEntries env obj vault loanTokenId loanToken outstanding st
        l).1.ok = false) ∧
    ((∀ (w : View) (t : DCT_ID) (a : CAmount) (f b : CScript) (h : Nat),
        (env.SwapToDFIOverUSD w t a f b h).2.vaults = w.vaults) →
      (CLoansConsensus.paybackEntries env obj vault loanTokenId loanToken outstanding st
        l).2.view.vaults = st.view.vaults) ∧
    ((∀ (w : View) (t : DCT_ID) (a : CAmount) (f b : CScript) (h : Nat),
        (env.SwapToDFIOverUSD w t a f b h).2.attributes = w.attributes) →
      (CLoansConsensus.paybackEntries env obj vault loanTokenId loanToken outstanding st
        l).2.view.attributes = st.view.attributes) := by
  induction l generalizing st with
  | nil =>
    refine ⟨sameTokenKeys_refl _, fun h => h, fun _ => ⟨rfl, rfl⟩, fun _ => ?_, ?_,
      fun _ => rfl, fun _ => rfl⟩
    · show st.shouldSetVariable = (st.shouldSetVariable || false)
      simp
    · rintro ⟨kv, hkv, -⟩
      cases hkv
  | cons kv rest ih =>
    obtain ⟨e1, e2, e3, e4, e5⟩ :=
      paybackEntry_facts env obj vault loanTokenId loanToken outstanding hprice st kv
    obtain ⟨-, eV, eA⟩ :=
      paybackEntry_shape env obj vault loanTokenId loanToken outstanding hprice st kv
    unfold CLoansConsensus.paybackEntries
    dsimp only
    generalize CLoansConsensus.paybackEntry env obj vault loanTokenId loanToken outstanding st kv
      = r at e1 e2 e3 e4 e5 eV eA
    by_cases hfail : (!r.1.ok) = true
    · rw [if_pos hfail]
      have hno : r.1.ok = false := by simpa using hfail
      refine ⟨e1, e2, ?_, ?_, fun _ => hno, eV, eA⟩
      · intro hall
        rw [List.any_cons, Bool.or_eq_false_iff] at hall
        exact e3 (by simpa using hall.1)
      · intro hok
        rw [hno] at hok
        exact Bool.noConfusion hok
    · rw [if_neg hfail]
      have hok : r.1.ok = true := by simpa using hfail
      obtain ⟨i1, i2, i3, i4, i5, iV, iA⟩ := ih r.2
      refine ⟨sameTokenKeys_trans _ _ _ i1 e1, fun hJ => i2 (e2 hJ), ?_, ?_, ?_,
        fun hs => (iV hs).trans (eV hs), fun hs => (iA hs).trans (eA hs)⟩
      · intro hall
        rw [List.any_cons, Bool.or_eq_false_iff] at hall
        have h3 := e3 (by simpa using hall.1)
        have h3' := i3 hall.2
        exact ⟨h3'.1.trans h3.1, h3'.2.trans h3.2⟩
      · intro hok'
        rw [i4 hok', e4 hok, List.any_cons, Bool.or_assoc]
      · rintro ⟨kv', hkv', hne, hflag⟩
        rcases List.mem_cons.mp hkv' with h | h
        · rw [h] at hne hflag
          rw [e5 hne hflag] at hok
          exact Bool.noConfusion hok
        · apply i5
          refine ⟨kv', h, hne, ?_⟩
          rw [paybackActive_congr _ _ e1]
          exact hflag

/-- The outer loop of the V2 payback handler, over the loan tokens of the message. -/
theorem paybackLoans_facts (env : Env) (obj : CLoanPaybackLoanV2Message) (vault : CVaultData)
    (loanAmounts : CBalances)
    (hprice : ∀ (w : View) (pair : CTokenCurrencyPair) (next live : Bool) (r : Res),
      env.GetValidatedIntervalPrice w pair next live = .error r → r.ok = false)
    (loans : List (DCT_ID × CBalances)) (st : CLoansConsensus.PaybackState) :
    sameTokenKeys
      (CLoansConsensus.paybackLoans env obj vault loanAmounts st loans).2.attributes
      st.attributes ∧
    ((st.shouldSetVariable = true → st.attributes.isSome = true) →
      (CLoansConsensus.paybackLoans env obj vault loanAmounts st loans).2.shouldSetVariable
        = true →
      (CLoansConsensus.paybackLoans env obj vault loanAmounts st loans).2.attributes.isSome
        = true) ∧
    (hasCrossTokenEntry loans = false →
      (CLoansConsensus.paybackLoans env obj vault loanAmounts st loans).2.attributes
        = st.attributes ∧
      (CLoansConsensus.paybackLoans env obj vault loanAmounts st loans).2.shouldSetVariable
        = st.shouldSetVariable) ∧
    ((CLoansConsensus.paybackLoans env obj vault loanAmounts st loans).1.ok = true →
      (CLoansConsensus.paybackLoans env obj vault loanAmounts st loans).2.shouldSetVariable =
        (st.shouldSetVariable || hasCrossTokenEntry loans)) ∧
    ((∃ idx ∈ loans, ∃ kv ∈ idx.2,
        kv.1 ≠ idx.1 ∧ paybackActive st.attributes idx.1 kv.1 = false) →
      (CLoansConsensus.paybackLoans env obj vault loanAmounts st loans).1.ok = false) ∧
    ((∀ (w : View) (t : DCT_ID) (a : CAmount) (f b : CScript) (h : Nat),
        (env.SwapToDFIOverUSD w t a f b h).2.vaults = w.vaults) →
      (CLoansConsensus.paybackLoans env obj vault loanAmounts st loans).2.view.vaults
        = st.view.vaults) ∧
    ((∀ (w : View) (t : DCT_ID) (a : CAmount) (f b : CScript) (h : Nat),
        (env.SwapToDFIOverUSD w t a f b h).2.attributes = w.attributes) →
      (CLoansConsensus.paybackLoans env obj vault loanAmounts st loans).2.view.attributes
        = st.view.attributes) := by
  induction loans generalizing st with
  | nil =>
    refine ⟨sameTokenKeys_refl _, fun h => h, fun _ => ⟨rfl, rfl⟩, fun _ => ?_, ?_,
      fun _ => rfl, fun _ => rfl⟩
    · show st.shouldSetVariable = (st.shouldSetVariable || false)
      simp
    · rintro ⟨idx, hidx, -⟩
      cases hidx
  | cons idx rest ih =>
    have hcross : hasCrossTokenEntry (idx :: rest) =
        (idx.2.any (fun kv => decide (kv.1 ≠ idx.1)) || hasCrossTokenEntry rest) := by
      unfold hasCrossTokenEntry
      rw [List.any_cons]
    rw [hcross]
    unfold CLoansConsensus.paybackLoans
    have hstop : ∀ m : String,
        sameTokenKeys st.attributes st.attributes ∧
        ((st.shouldSetVariable = true → st.attributes.isSome = true) →
          st.shouldSetVariable = true → st.attributes.isSome = true) ∧
        ((idx.2.any (fun kv => decide (kv.1 ≠ idx.1)) || hasCrossTokenEntry rest) = false →
          st.attributes = st.attributes ∧ st.shouldSetVariable = st.shouldSetVariable) ∧
        ((Res.ErrMsg m).ok = true → st.shouldSetVariable =
          (st.shouldSetVariable ||
            (idx.2.any (fun kv => decide (kv.1 ≠ idx.1)) || hasCrossTokenEntry rest))) ∧
        ((∃ idx' ∈ idx :: rest, ∃ kv ∈ idx'.2,
            kv.1 ≠ idx'.1 ∧ paybackActive st.attributes idx'.1 kv.1 = false) →
          (Res.ErrMsg m).ok = false) ∧
        ((∀ (w : View) (t : DCT_ID) (a : CAmount) (f b : CScript) (h : Nat),
            (env.SwapToDFIOverUSD w t a f b h).2.vaults = w.vaults) →
          st.view.vaults = st.view.vaults) ∧
        ((∀ (w : View) (t : DCT_ID) (a : CAmount) (f b : CScript) (h : Nat),
            (env.SwapToDFIOverUSD w t a f b h).2.attributes = w.attributes) →
          st.view.attributes = st.view.attributes) :=
      fun m => ⟨sameTokenKeys_refl _, fun h => h, fun _ => ⟨rfl, rfl⟩,
        fun h => Bool.noConfusion h, fun _ => rfl, fun _ => rfl, fun _ => rfl⟩
    cases hlt : st.view.GetLoanTokenByID idx.1 with
    | none => exact hstop _
    | some loanToken =>
    dsimp only
    cases hout : mapFind idx.1 loanAmounts with
    | none => exact hstop _
    | some outstanding =>
    dsimp only
    obtain ⟨e1, e2, e3, e4, e5, eV, eA⟩ :=
      paybackEntries_facts env obj vault idx.1 loanToken outstanding hprice idx.2 st
    generalize CLoansConsensus.paybackEntries env obj vault idx.1 loanToken outstanding st idx.2
      = r at e1 e2 e3 e4 e5 eV eA
    by_cases hfail : (!r.1.ok) = true
    · rw [if_pos hfail]
      have hno : r.1.ok = false := by simpa using hfail
      refine ⟨e1, e2, ?_, ?_, fun _ => hno, eV, eA⟩
      · intro hall
        rw [Bool.or_eq_false_iff] at hall
        exact e3 hall.1
      · intro hok
        rw [hno] at hok
        exact Bool.noConfusion hok
    · rw [if_neg hfail]
      have hok : r.1.ok = true := by simpa using hfail
      obtain ⟨i1, i2, i3, i4, i5, iV, iA⟩ := ih r.2
      refine ⟨sameTokenKeys_trans _ _ _ i1 e1, fun hJ => i2 (e2 hJ), ?_, ?_, ?_,
        fun hs => (iV hs).trans (eV hs), fun hs => (iA hs).trans (eA hs)⟩
      · intro hall
        rw [Bool.or_eq_false_iff] at hall
        have h3 := e3 hall.1
        have h3' := i3 hall.2
        exact ⟨h3'.1.trans h3.1, h3'.2.trans h3.2⟩
      · intro hok'
        rw [i4 hok', e4 hok, Bool.or_assoc]
      · rintro ⟨idx', hidx', kv, hkv, hne, hflag⟩
        rcases List.mem_cons.mp hidx' with h | h
        · rw [h] at hkv hne hflag
          rw [e5 ⟨kv, hkv, hne, hflag⟩] at hok
          exact Bool.noConfusion hok
        · apply i5
          refine ⟨idx', h, kv, hkv, hne, ?_⟩
          rw [paybackActive_congr _ _ e1]
          exact hflag

/-- The V2 payback handler either fails before its loops, handing back the view, or has found
the vault and its loans and ends as its last statement says: the failure of the loops, or
`SetVariable` on the local attribute set when `shouldSetVariable` is set, or success. -/
theorem onLoanPaybackLoanV2Message_cases (env : Env) (v : View)
    (obj : CLoanPaybackLoanV2Message) :
    ((CLoansConsensus.onLoanPaybackLoanV2Message env v obj).1.ok = false ∧
      (CLoansConsensus.onLoanPaybackLoanV2Message env v obj).2 = v) ∨
    (∃ (vault : CVaultData) (loanAmounts : CBalances),
      v.GetVault obj.vaultId = some vault ∧ v.GetLoanTokens obj.vaultId = some loanAmounts ∧
      CLoansConsensus.onLoanPaybackLoanV2Message env v obj =
        (if !(CLoansConsensus.paybackLoans env obj vault loanAmounts
              ⟨v, v.GetAttributes, false⟩ obj.loans).1.ok then
          ((CLoansConsensus.paybackLoans env obj vault loanAmounts
              ⟨v, v.GetAttributes, false⟩ obj.loans).1,
           (CLoansConsensus.paybackLoans env obj vault loanAmounts
              ⟨v, v.GetAttributes, false⟩ obj.loans).2.view)
        else if (CLoansConsensus.paybackLoans env obj vault loanAmounts
              ⟨v, v.GetAttributes, false⟩ obj.loans).2.shouldSetVariable then
          match (CLoansConsensus.paybackLoans env obj vault loanAmounts
              ⟨v, v.GetAttributes, false⟩ obj.loans).2.attributes with
          | some attributes =>
            (CLoansConsensus.paybackLoans env obj vault loanAmounts
              ⟨v, v.GetAttributes, false⟩ obj.loans).2.view.SetVariable attributes
          | none =>
            (Res.Ok, (CLoansConsensus.paybackLoans env obj vault loanAmounts
              ⟨v, v.GetAttributes, false⟩ obj.loans).2.view)
        else
          (Res.Ok, (CLoansConsensus.paybackLoans env obj vault loanAmounts
              ⟨v, v.GetAttributes, false⟩ obj.loans).2.view))) := by
  unfold CLoansConsensus.onLoanPaybackLoanV2Message
  by_cases h1 : (!env.CheckCustomTx.ok) = true
  · rw [if_pos h1]
    exact Or.inl ⟨by simpa using h1, rfl⟩
  rw [if_neg h1]
  cases hv : v.GetVault obj.vaultId with
  | none => exact Or.inl ⟨rfl, rfl⟩
  | some vault =>
  dsimp only
  by_cases h2 : vault.isUnderLiquidation = true
  · rw [if_pos h2]
    exact Or.inl ⟨rfl, rfl⟩
  rw [if_neg h2]
  by_cases h3 : (v.GetVaultCollaterals obj.vaultId).isNone = true
  · rw [if_pos h3]
    exact Or.inl ⟨rfl, rfl⟩
  rw [if_neg h3]
  cases hl : v.GetLoanTokens obj.vaultId with
  | none => exact Or.inl ⟨rfl, rfl⟩
  | some loanAmounts =>
  dsimp only
  by_cases h4 : (!env.HasAuth obj.from_) = true
  · rw [if_pos h4]
    exact Or.inl ⟨rfl, rfl⟩
  rw [if_neg h4]
  by_cases h5 : castInt env.height < env.FortCanningRoadHeight
      ∧ env.IsVaultPriceValid v obj.vaultId env.height = false
  · rw [if_pos h5]
    exact Or.inl ⟨rfl, rfl⟩
  rw [if_neg h5]
  exact Or.inr ⟨vault, loanAmounts, rfl, rfl, rfl⟩

/-! ## Cross-token payback: the switch and the fee -/

/-- C28. In a V2 payback, an entry paid in another token than the loan token makes the handler
fail unless the governance switch of the (loan token, payback token) pair is set. A conversion
that goes through applies the penalty factor one minus the fee configured for the pair; when
no fee is configured the factor is `COIN` (fee 0) for a payback token other than the base
token and `COIN - COIN / 100` (fee 1%) for the base token, id 0; the price applied is the USD
price of the payback token times the factor. The default fee of the base token, `COIN / 100`,
is strictly above the default 0 of any other token. -/
theorem cross_token_payback_switch_and_fee (env : Env) (v : View)
    (obj : CLoanPaybackLoanV2Message)
    (hprice : ∀ (w : View) (pair : CTokenCurrencyPair) (next live : Bool) (r : Res),
      env.GetValidatedIntervalPrice w pair next live = .error r → r.ok = false) :
    (∀ idx ∈ obj.loans, ∀ kv ∈ idx.2, kv.1 ≠ idx.1 →
      paybackActive v.GetAttributes idx.1 kv.1 = false →
      (CLoansConsensus.onLoanPaybackLoanV2Message env v obj).1.ok = false) ∧
    (∀ (st : CLoansConsensus.PaybackState) (loanTokenId : DCT_ID)
      (loanToken : CLoanSetLoanToken) (paybackToken : CToken) (kv : DCT_ID × CAmount)
      (c : CLoansConsensus.PaybackConversion),
      CLoansConsensus.convertPayback env obj st loanTokenId loanToken paybackToken kv = .ok c →
      ∃ (attributes : ATTRIBUTES) (price : CAmount), st.attributes = some attributes ∧
        paybackActive st.attributes loanTokenId kv.1 = true ∧
        env.GetValidatedIntervalPrice st.view (paybackToken.symbol, "USD") false true
          = .ok price ∧
        c.paybackUsdPrice = MultiplyAmounts price c.penaltyPct ∧
        (kv.1 ≠ 0 →
          c.penaltyPct = COIN - attributes.GetValueAmount
            ⟨.Token, .id loanTokenId, .token .LoanPaybackFeePCT, kv.1⟩ 0 ∧
          (mapFind ⟨.Token, .id loanTokenId, .token .LoanPaybackFeePCT, kv.1⟩ attributes = none →
            c.penaltyPct = COIN)) ∧
        (kv.1 = 0 →
          c.penaltyPct = COIN - attributes.GetValueAmount
            ⟨.Token, .id loanTokenId, .token .PaybackDFIFeePCT, 0⟩ (Int.tdiv COIN 100) ∧
          (mapFind ⟨.Token, .id loanTokenId, .token .PaybackDFIFeePCT, 0⟩ attributes = none →
            c.penaltyPct = COIN - 1000000))) ∧
    ((0 : CAmount) < Int.tdiv COIN 100 ∧ Int.tdiv COIN 100 * 100 = COIN) := by
  refine ⟨?_, ?_, by decide, by decide⟩
  · intro idx hidx kv hkv hne hflag
    rcases onLoanPaybackLoanV2Message_cases env v obj with hfail | ⟨vault, loanAmounts, -, -, hres⟩
    · exact hfail.1
    · obtain ⟨-, -, -, -, h5, -, -⟩ := paybackLoans_facts env obj vault loanAmounts hprice
        obj.loans ⟨v, v.GetAttributes, false⟩
      have hloop := h5 ⟨idx, hidx, kv, hkv, hne, hflag⟩
      rw [hres, if_pos (by simp [hloop])]
      exact hloop
  · intro st loanTokenId loanToken paybackToken kv c hc
    obtain ⟨attributes, price, hsome, hactive, hp, hpen, husd⟩ :=
      convertPayback_ok env obj st loanTokenId loanToken paybackToken kv c hc
    refine ⟨attributes, price, hsome, hactive, hp, husd, fun hk => ?_, fun hk => ?_⟩
    · rw [if_pos hk] at hpen
      refine ⟨hpen, fun hnone => ?_⟩
      rw [hpen]
      unfold ATTRIBUTES.GetValueAmount
      rw [hnone]
      simp [CAmount]
    · rw [if_neg (not_not.mpr hk)] at hpen
      refine ⟨hpen, fun hnone => ?_⟩
      rw [hpen]
      unfold ATTRIBUTES.GetValueAmount
      rw [hnone]
      rfl

/-- C28, at concrete inputs: the payback of 100 units of the base token against the loan in
token 2 is rejected when no attribute set is stored and when the stored set is empty; with
the pair switched on and no fee configured, the conversion of a payback in the base token
applies the factor 0.99 and the conversion of a payback in the token 3 the factor 1. -/
theorem cross_token_payback_switch_and_fee_witness :
    (CLoansConsensus.onLoanPaybackLoanV2Message scenarioEnv (paybackView none)
      ⟨77, [1], [(2, [(0, 10000000000)])]⟩).1.ok = false ∧
    (CLoansConsensus.onLoanPaybackLoanV2Message scenarioEnv (paybackView (some []))
      ⟨77, [1], [(2, [(0, 10000000000)])]⟩).1.ok = false ∧
    (∃ (attributes : ATTRIBUTES) (price : CAmount),
      some paybackSwitchedOn = some attributes ∧ price = COIN ∧
      (99000000 : CAmount) = COIN - 1000000) ∧
    (CLoansConsensus.onLoanPaybackLoanV2Message scenarioEnv
      (paybackView (some paybackSwitchedOn)) ⟨77, [1], [(2, [(0, 10000000000)])]⟩).1.ok
        = true := by
  have hprice : ∀ (w : View) (pair : CTokenCurrencyPair) (next live : Bool) (r : Res),
      scenarioEnv.GetValidatedIntervalPrice w pair next live = .error r → r.ok = false :=
    fun _ _ _ _ _ h => Except.noConfusion h
  refine ⟨?_, ?_, ?_, by decide⟩
  · exact (cross_token_payback_switch_and_fee scenarioEnv (paybackView none)
      ⟨77, [1], [(2, [(0, 10000000000)])]⟩ hprice).1 (2, [(0, 10000000000)])
      (List.mem_singleton.mpr rfl) (0, 10000000000) (List.mem_singleton.mpr rfl)
      (by decide) (by decide)
  · exact (cross_token_payback_switch_and_fee scenarioEnv (paybackView (some []))
      ⟨77, [1], [(2, [(0, 10000000000)])]⟩ hprice).1 (2, [(0, 10000000000)])
      (List.mem_singleton.mpr rfl) (0, 10000000000) (List.mem_singleton.mpr rfl)
      (by decide) (by decide)
  · obtain ⟨attributes, price, hsome, -, hp, -, -, hbase⟩ :=
      (cross_token_payback_switch_and_fee scenarioEnv (paybackView (some paybackSwitchedOn))
        ⟨77, [1], [(2, [(0, 10000000000)])]⟩ hprice).2.1
        ⟨paybackView (some paybackSwitchedOn), some paybackSwitchedOn, false⟩ 2
        ⟨"LOAN", "loan", ("LOAN", "USD"), true, 0⟩ ⟨"DFI", "base", 0⟩ (0, 10000000000)
        ⟨(MultiplyAmounts (MultiplyAmounts COIN 99000000) 10000000000) * COIN / COIN,
          MultiplyAmounts COIN 99000000, COIN, 99000000⟩ rfl
    refine ⟨attributes, price, hsome, ?_, by decide⟩
    exact (Except.ok.inj hp).symm

/-! ## When a payback persists the governance attributes -/

/-- C29. For every successful V2 payback: `shouldSetVariable` is set at the end of the loops
if and only if some entry of the message pays a loan in another token than the loan token. In
that case the handler ends in `SetVariable` on the local attribute set, which the view then
stores; otherwise `SetVariable` is not applied, the handler returns the view the loops leave,
and the stored attribute set is the one stored before the call, the swap collaborator leaving
the attribute store alone. -/
theorem payback_persists_attributes_iff_cross_token (env : Env) (v : View)
    (obj : CLoanPaybackLoanV2Message)
    (hprice : ∀ (w : View) (pair : CTokenCurrencyPair) (next live : Bool) (r : Res),
      env.GetValidatedIntervalPrice w pair next live = .error r → r.ok = false)
    (hok : (CLoansConsensus.onLoanPaybackLoanV2Message env v obj).1.ok = true) :
    ∃ (vault : CVaultData) (loanAmounts : CBalances),
      v.GetVault obj.vaultId = some vault ∧ v.GetLoanTokens obj.vaultId = some loanAmounts ∧
      ((CLoansConsensus.paybackLoans env obj vault loanAmounts ⟨v, v.GetAttributes, false⟩
          obj.loans).2.shouldSetVariable = true ↔ hasCrossTokenEntry obj.loans = true) ∧
      (hasCrossTokenEntry obj.loans = true →
        ∃ attributes : ATTRIBUTES,
          (CLoansConsensus.paybackLoans env obj vault loanAmounts ⟨v, v.GetAttributes, false⟩
            obj.loans).2.attributes = some attributes ∧
          CLoansConsensus.onLoanPaybackLoanV2Message env v obj =
            (CLoansConsensus.paybackLoans env obj vault loanAmounts ⟨v, v.GetAttributes, false⟩
              obj.loans).2.view.SetVariable attributes ∧
          (CLoansConsensus.onLoanPaybackLoanV2Message env v obj).2.GetAttributes
            = some attributes) ∧
      (hasCrossTokenEntry obj.loans = false →
        CLoansConsensus.onLoanPaybackLoanV2Message env v obj =
          (Res.Ok, (CLoansConsensus.paybackLoans env obj vault loanAmounts
            ⟨v, v.GetAttributes, false⟩ obj.loans).2.view) ∧
        ((∀ (w : View) (t : DCT_ID) (a : CAmount) (f b : CScript) (h : Nat),
            (env.SwapToDFIOverUSD w t a f b h).2.attributes = w.attributes) →
          (CLoansConsensus.onLoanPaybackLoanV2Message env v obj).2.GetAttributes
            = v.GetAttributes)) := by
  rcases onLoanPaybackLoanV2Message_cases env v obj with hfail | ⟨vault, loanAmounts, hv, hl, hres⟩
  · rw [hfail.1] at hok
    exact Bool.noConfusion hok
  obtain ⟨-, h2, -, h4, -, -, hA⟩ := paybackLoans_facts env obj vault loanAmounts hprice
    obj.loans ⟨v, v.GetAttributes, false⟩
  refine ⟨vault, loanAmounts, hv, hl, ?_⟩
  rw [hres] at hok ⊢
  generalize CLoansConsensus.paybackLoans env obj vault loanAmounts ⟨v, v.GetAttributes, false⟩
    obj.loans = r at hok h2 h4 hA ⊢
  have hloop : r.1.ok = true := by
    cases hb : r.1.ok with
    | true => rfl
    | false =>
      rw [if_pos (by simp [hb])] at hok
      exact hb.symm.trans hok
  have hflag : r.2.shouldSetVariable = hasCrossTokenEntry obj.loans := by
    rw [h4 hloop]
    exact Bool.false_or _
  rw [if_neg (by simp [hloop])]
  refine ⟨by rw [hflag], fun hcross => ?_, fun hcross => ?_⟩
  · have hset : r.2.shouldSetVariable = true := hflag.trans hcross
    have hsome := h2 (fun h => Bool.noConfusion h) hset
    rw [if_pos hset]
    cases ha : r.2.attributes with
    | none =>
      rw [ha] at hsome
      exact Bool.noConfusion hsome
    | some attributes => exact ⟨attributes, rfl, rfl, rfl⟩
  · have hset : r.2.shouldSetVariable = false := hflag.trans hcross
    rw [if_neg (by simp [hset])]
    exact ⟨rfl, fun hs => hA hs⟩

/-- C29, at concrete inputs: the payback of 100 units of the loan in token 2 in its own token
succeeds and leaves the stored attribute set as it was; the payback of the same loan in the
base token succeeds and stores an attribute set. -/
theorem payback_persists_attributes_iff_cross_token_witness :
    (hasCrossTokenEntry [(2, [(2, 10000000000)])] = false ∧
      (CLoansConsensus.onLoanPaybackLoanV2Message scenarioEnv
        (paybackView (some paybackSwitchedOn))
        ⟨77, [1], [(2, [(2, 10000000000)])]⟩).2.GetAttributes = some paybackSwitchedOn) ∧
    (hasCrossTokenEntry [(2, [(0, 10000000000)])] = true ∧
      ∃ attributes : ATTRIBUTES,
        (CLoansConsensus.onLoanPaybackLoanV2Message scenarioEnv
          (paybackView (some paybackSwitchedOn))
          ⟨77, [1], [(2, [(0, 10000000000)])]⟩).2.GetAttributes = some attributes) := by
  have hprice : ∀ (w : View) (pair : CTokenCurrencyPair) (next live : Bool) (r : Res),
      scenarioEnv.GetValidatedIntervalPrice w pair next live = .error r → r.ok = false :=
    fun _ _ _ _ _ h => Except.noConfusion h
  constructor
  · obtain ⟨vault, loanAmounts, -, -, -, -, hown⟩ :=
      payback_persists_attributes_iff_cross_token scenarioEnv
        (paybackView (some paybackSwitchedOn)) ⟨77, [1], [(2, [(2, 10000000000)])]⟩ hprice
        (by decide)
    exact ⟨by decide, (hown (by decide)).2 (fun _ _ _ _ _ _ => rfl)⟩
  · obtain ⟨vault, loanAmounts, -, -, -, hcross, -⟩ :=
      payback_persists_attributes_iff_cross_token scenarioEnv
        (paybackView (some paybackSwitchedOn)) ⟨77, [1], [(2, [(0, 10000000000)])]⟩ hprice
        (by decide)
    obtain ⟨attributes, -, -, hstored⟩ := hcross (by decide)
    exact ⟨by decide, attributes, hstored⟩

/-! ## Closing a vault, and the vaults that stay -/

theorem keepsVaults_refl (v : View) : keepsVaults v v := fun _ h => h

theorem keepsVaults_trans (u v w : View) (h1 : keepsVaults u v) (h2 : keepsVaults v w) :
    keepsVaults u w := fun id h => h2 id (h1 id h)

theorem keepsVaults_of_eq (v w : View) (h : w.vaults = v.vaults) : keepsVaults v w := by
  intro id hid
  unfold View.GetVault at hid ⊢
  rw [h]
  exact hid

theorem keepsVaults_mapSet (v w : View) (k : CVaultId) (vault : CVaultData)
    (h : w.vaults = mapSet k vault v.vaults) : keepsVaults v w := by
  intro id hid
  unfold View.GetVault at hid ⊢
  rw [h]
  by_cases hk : id = k
  · rw [hk, mapFind_mapSet_self]
    rfl
  · rw [mapFind_mapSet_ne _ _ _ _ hk]
    exact hid

/-- The reassignment pass of the destroy handler keeps every vault. -/
theorem foldl_reassignVault_keeps (X : String) (l : List (CVaultId × CVaultData)) (acc : View) :
    keepsVaults acc (l.foldl (CLoansConsensus.reassignVault X) acc) := by
  induction l generalizing acc with
  | nil => exact keepsVaults_refl acc
  | cons entry rest ih =>
    rw [List.foldl_cons]
    refine keepsVaults_trans _ _ _ ?_ (ih _)
    unfold CLoansConsensus.reassignVault
    by_cases h : entry.2.schemeId = X
    · rw [if_pos h]
      exact keepsVaults_mapSet _ _ _ _ rfl
    · rw [if_neg h]
      exact keepsVaults_refl acc

/-- Create-vault keeps every vault. -/
theorem onVaultMessage_keeps (env : Env) (v : View) (obj : CVaultMessage) :
    keepsVaults v (CVaultsConsensus.onVaultMessage env v obj).2 := by
  rcases onVaultMessage_cases env v obj with hfail | ⟨schemeId, -, -, -, -, hres⟩
  · rw [hfail.2]
    exact keepsVaults_refl v
  · rw [hres]
    exact keepsVaults_mapSet _ _ _ _ rfl

/-- Update-vault keeps every vault. -/
theorem onUpdateVaultMessage_keeps (env : Env) (v : View) (obj : CUpdateVaultMessage) :
    keepsVaults v (CVaultsConsensus.onUpdateVaultMessage env v obj).2 := by
  rcases onUpdateVaultMessage_cases env v obj with hfail | ⟨vault, scheme, -, -, -, hres⟩
  · rw [hfail.2]
    exact keepsVaults_refl v
  · rw [hres]
    exact keepsVaults_mapSet _ _ _ _ rfl

/-- Deposit-to-vault leaves the vault table as it is. -/
theorem onDepositToVaultMessage_keeps (env : Env) (v : View) (obj : CDepositToVaultMessage) :
    keepsVaults v (CVaultsConsensus.onDepositToVaultMessage env v obj).state := by
  apply keepsVaults_of_eq
  have hs := SubBalance_frame (env.withOwnerRewards v obj.from_) obj.from_ obj.amount
  have ha := fun w : View => AddVaultCollateral_frame w obj.vaultId obj.amount
  unfold CVaultsConsensus.onDepositToVaultMessage
  split
  · rfl
  split
  · rfl
  split
  · rfl
  dsimp only
  split
  · rfl
  generalize (if env.GetCollateralTokenFromAttributes v obj.amount.nTokenId = true then _
    else true) = enabled
  cases enabled with
  | false => rfl
  | true =>
  rw [if_neg (by simp)]
  split
  · split
    · show ((env.withOwnerRewards v obj.from_).SubBalance obj.from_ obj.amount).2.vaults = _
      rw [hs]
      rfl
    · show ((env.withOwnerRewards v obj.from_).SubBalance obj.from_ obj.amount).2.vaults = _
      rw [hs]
      rfl
  split
  · show (((env.withOwnerRewards v obj.from_).SubBalance obj.from_
      obj.amount).2.AddVaultCollateral obj.vaultId obj.amount).2.vaults = _
    rw [ha, hs]
    rfl
  · show (((env.withOwnerRewards v obj.from_).SubBalance obj.from_
      obj.amount).2.AddVaultCollateral obj.vaultId obj.amount).2.vaults = _
    rw [ha, hs]
    rfl

/-- Withdraw-from-vault leaves the vault table as it is. -/
theorem onWithdrawFromVaultMessage_keeps (env : Env) (v : View)
    (obj : CWithdrawFromVaultMessage) :
    keepsVaults v (CVaultsConsensus.onWithdrawFromVaultMessage env v obj).2 := by
  apply keepsVaults_of_eq
  have hs := SubVaultCollateral_frame v obj.vaultId obj.amount
  have ha := fun w : View => AddBalance_frame w obj.to_ obj.amount
  unfold CVaultsConsensus.onWithdrawFromVaultMessage
  split
  · rfl
  split
  · rfl
  dsimp only
  split
  · rfl
  split
  · rfl
  split
  · rfl
  split
  · rw [hs]
  split
  · rw [ha, hs]
  split
  · rw [hs]
  split
  · rw [hs]
  · rw [ha, hs]

/-- The debit and the record of a bid leave the vault table as it is. -/
theorem placeBid_vaults (env : Env) (w : View) (obj : CAuctionBidMessage) :
    (CVaultsConsensus.placeBid env w obj).2.vaults = w.vaults := by
  have hs := SubBalance_frame (env.withOwnerRewards w obj.from_) obj.from_ obj.amount
  unfold CVaultsConsensus.placeBid
  dsimp only
  split
  · rw [hs]
    rfl
  · unfold View.StoreAuctionBid
    dsimp only
    rw [hs]
    rfl

/-- The auction-bid handler leaves the vault table as it is. -/
theorem onAuctionBidMessage_keeps (env : Env) (v : View) (obj : CAuctionBidMessage) :
    keepsVaults v (CVaultsConsensus.onAuctionBidMessage env v obj).2 := by
  apply keepsVaults_of_eq
  rcases onAuctionBidMessage_cases env v obj with hfail | ⟨_, _, _, -, -, -, -, -, hcase⟩
  · rw [hfail.2]
  · rcases hcase with ⟨-, -, -, hres⟩ | ⟨bid, -, -, -, hres⟩
    · rw [hres, placeBid_vaults]
    · rw [hres, placeBid_vaults, AddBalance_frame]
      rfl

/-- The scheme handler leaves the vault table as it is. -/
theorem onLoanSchemeMessage_keeps (env : Env) (v : View) (obj : CLoanSchemeMessage) :
    keepsVaults v (CLoansConsensus.onLoanSchemeMessage env v obj).2 := by
  apply keepsVaults_of_eq
  rcases onLoanSchemeMessage_cases env v obj with hfail | ⟨-, hcase⟩
  · rw [hfail.2]
  · rcases hcase with ⟨-, -, hres⟩ | ⟨-, hres⟩
    · rw [hres]
      rfl
    · rw [hres]
      by_cases hd : v.GetDefaultLoanScheme.isNone = true
      · rw [if_pos hd]
        rfl
      · rw [if_neg hd]
        rfl

/-- The set-default handler leaves the vault table as it is. -/
theorem onDefaultLoanSchemeMessage_keeps (env : Env) (v : View)
    (obj : CDefaultLoanSchemeMessage) :
    keepsVaults v (CLoansConsensus.onDefaultLoanSchemeMessage env v obj).2 := by
  apply keepsVaults_of_eq
  rcases onDefaultLoanSchemeMessage_cases env v obj with hfail | ⟨-, -, -, -, -, -, hres⟩
  · rw [hfail.2]
  · rw [hres]
    rfl

/-- The destroy handler keeps every vault: it rewrites the scheme of some and erases none. -/
theorem onDestroyLoanSchemeMessage_keeps (env : Env) (v : View)
    (obj : CDestroyLoanSchemeMessage) :
    keepsVaults v (CLoansConsensus.onDestroyLoanSchemeMessage env v obj).2 := by
  rcases onDestroyLoanSchemeMessage_cases env v obj with hfail | ⟨-, -, -, -, -, hcase⟩
  · rw [hfail.2]
    exact keepsVaults_refl v
  · rcases hcase with ⟨-, -, hres⟩ | ⟨-, hres⟩
    · rw [hres]
      exact keepsVaults_of_eq _ _ rfl
    · rw [hres]
      exact keepsVaults_trans _ _ _ (foldl_reassignVault_keeps obj.identifier v.vaults v)
        (keepsVaults_of_eq _ _ rfl)

/-- The take-loan handler leaves the vault table as it is. -/
theorem onLoanTakeLoanMessage_keeps (env : Env) (v : View) (obj : CLoanTakeLoanMessage) :
    keepsVaults v (CLoansConsensus.onLoanTakeLoanMessage env v obj).2 := by
  apply keepsVaults_of_eq
  unfold CLoansConsensus.onLoanTakeLoanMessage
  split
  · rfl
  split
  · rfl
  rename_i vault hv
  split
  · rfl
  split
  · rfl
  split
  · rfl
  split
  · rfl
  dsimp only
  have hloop := (takeLoanLoop_frame env obj vault obj.amounts ⟨v, 0, 0⟩).2.1
  split
  · exact hloop
  · exact hloop

/-- The V2 payback handler leaves the vault table as it is, the swap collaborator leaving it
alone. -/
theorem onLoanPaybackLoanV2Message_keeps (env : Env) (v : View)
    (obj : CLoanPaybackLoanV2Message)
    (hprice : ∀ (w : View) (pair : CTokenCurrencyPair) (next live : Bool) (r : Res),
      env.GetValidatedIntervalPrice w pair next live = .error r → r.ok = false)
    (hswap : ∀ (w : View) (t : DCT_ID) (a : CAmount) (f b : CScript) (h : Nat),
      (env.SwapToDFIOverUSD w t a f b h).2.vaults = w.vaults) :
    keepsVaults v (CLoansConsensus.onLoanPaybackLoanV2Message env v obj).2 := by
  apply keepsVaults_of_eq
  rcases onLoanPaybackLoanV2Message_cases env v obj with hfail | ⟨vault, loanAmounts, -, -, hres⟩
  · rw [hfail.2]
  · obtain ⟨-, -, -, -, -, hV, -⟩ := paybackLoans_facts env obj vault loanAmounts hprice
      obj.loans ⟨v, v.GetAttributes, false⟩
    have hV := hV hswap
    rw [hres]
    generalize CLoansConsensus.paybackLoans env obj vault loanAmounts
      ⟨v, v.GetAttributes, false⟩ obj.loans = r at hV ⊢
    split
    · exact hV
    split
    · split
      · exact hV
      · exact hV
    · exact hV

/-- The refund loop of the close handler writes the balance table only. -/
theorem refundCollaterals_frame (to_ : CScript) (l : CBalances) (w : View) :
    (CVaultsConsensus.refundCollaterals w to_ l).2 =
      { w with balances := (CVaultsConsensus.refundCollaterals w to_ l).2.balances } := by
  induction l generalizing w with
  | nil => rfl
  | cons col rest ih =>
    unfold CVaultsConsensus.refundCollaterals
    dsimp only
    split
    · exact AddBalance_frame _ _ _
    · rw [ih, AddBalance_frame]

/-- The refund loop of the close handler, when it succeeds over collateral balances with one
entry per token, raises the balance of the recipient in every token by the collateral held in
that token. -/
theorem refundCollaterals_ok (to_ : CScript) (l : CBalances) (w : View)
    (hnodup : (l.map Prod.fst).Nodup)
    (hok : (CVaultsConsensus.refundCollaterals w to_ l).1.ok = true) (t : DCT_ID) :
    ((CVaultsConsensus.refundCollaterals w to_ l).2.GetBalance to_ t).nValue =
      (w.GetBalance to_ t).nValue + (mapFind t l).getD 0 := by
  induction l generalizing w with
  | nil =>
    show (w.GetBalance to_ t).nValue = (w.GetBalance to_ t).nValue + 0
    simp [CAmount]
  | cons col rest ih =>
    rw [List.map_cons, List.nodup_cons] at hnodup
    unfold CVaultsConsensus.refundCollaterals at hok ⊢
    dsimp only at hok ⊢
    by_cases hfail : (!(w.AddBalance to_ ⟨col.1, col.2⟩).1.ok) = true
    · rw [if_pos hfail] at hok
      rw [hok] at hfail
      exact Bool.noConfusion hfail
    rw [if_neg hfail] at hok ⊢
    have hadd : (w.AddBalance to_ ⟨col.1, col.2⟩).1.ok = true := by simpa using hfail
    rw [ih _ hnodup.2 hok]
    by_cases ht : col.1 = t
    · have hnone : mapFind t rest = none := by
        apply mapFind_eq_none_of_not_mem
        rw [← ht]
        exact hnodup.1
      have hfind : mapFind t (col :: rest) = some col.2 := by
        unfold mapFind
        rw [if_pos ht]
      rw [hnone, hfind, ← ht]
      have := AddBalance_balance w to_ ⟨col.1, col.2⟩ hadd
      dsimp only at this
      rw [this]
      simp [CAmount]
    · have hfind : mapFind t (col :: rest) = mapFind t rest := by
        conv => lhs; unfold mapFind
        rw [if_neg ht]
      rw [hfind, AddBalance_other w to_ to_ ⟨col.1, col.2⟩ t
        (fun h => ht (congrArg Prod.snd h).symm)]

/-- A close that succeeds, the collateral record holding one entry per token: the vault
existed, was not under liquidation and had no loans; afterwards the vault record is gone and
the balance of the recipient in every token is its balance after the settlement of its owner
rewards, plus the collateral of the vault in that token, plus half the creation fee in the
base token. -/
theorem onCloseVaultMessage_settled (env : Env) (v : View) (obj : CCloseVaultMessage)
    (hok : (CVaultsConsensus.onCloseVaultMessage env v obj).1.ok = true) :
    (∃ vault : CVaultData, v.GetVault obj.vaultId = some vault ∧
      vault.isUnderLiquidation = false) ∧
    v.GetLoanTokens obj.vaultId = none ∧
    (CVaultsConsensus.onCloseVaultMessage env v obj).2.GetVault obj.vaultId = none ∧
    ((((v.GetVaultCollaterals obj.vaultId).getD []).map Prod.fst).Nodup → ∀ t : DCT_ID,
      ((CVaultsConsensus.onCloseVaultMessage env v obj).2.GetBalance obj.to_ t).nValue =
        ((env.withOwnerRewards v obj.to_).GetBalance obj.to_ t).nValue +
          v.collateralOf obj.vaultId t +
          (if t = 0 then Int.tdiv env.vaultCreationFee 2 else 0)) := by
  generalize hr : CVaultsConsensus.onCloseVaultMessage env v obj = r at hok ⊢
  unfold CVaultsConsensus.onCloseVaultMessage at hr
  split at hr
  · rename_i h
    subst hr
    dsimp only at hok
    rw [hok] at h
    exact Bool.noConfusion h
  split at hr
  · subst hr
    exact Bool.noConfusion hok
  rename_i vault hv
  split at hr
  · subst hr
    exact Bool.noConfusion hok
  rename_i hliq
  split at hr
  · subst hr
    exact Bool.noConfusion hok
  split at hr
  · subst hr
    exact Bool.noConfusion hok
  rename_i hloans
  have hnoloans : v.GetLoanTokens obj.vaultId = none := by
    cases hl : v.GetLoanTokens obj.vaultId with
    | none => rfl
    | some l =>
      rw [hl] at hloans
      exact absurd rfl hloans
  have hnotliq : vault.isUnderLiquidation = false := by
    cases hb : vault.isUnderLiquidation with
    | false => rfl
    | true => exact absurd hb hliq
  refine ⟨⟨vault, hv, hnotliq⟩, hnoloans, ?_⟩
  have key : ∀ r2 : Res × View, r2.2.vaults = v.vaults →
      ((((v.GetVaultCollaterals obj.vaultId).getD []).map Prod.fst).Nodup →
        r2.1.ok = true → ∀ t : DCT_ID, (r2.2.GetBalance obj.to_ t).nValue =
        ((env.withOwnerRewards v obj.to_).GetBalance obj.to_ t).nValue +
          v.collateralOf obj.vaultId t) →
      (if !r2.1.ok then r2 else
        if !(env.DeleteInterest r2.2 obj.vaultId env.height).1.ok then
          ((env.DeleteInterest r2.2 obj.vaultId env.height).1,
            ({ r2.2 with
              interestRates := (env.DeleteInterest r2.2 obj.vaultId env.height).2 } : View))
        else
          if !(({ r2.2 with
              interestRates := (env.DeleteInterest r2.2 obj.vaultId env.height).2 } :
                View).AddBalance obj.to_ ⟨0, Int.tdiv env.vaultCreationFee 2⟩).1.ok then
            ({ r2.2 with
              interestRates := (env.DeleteInterest r2.2 obj.vaultId env.height).2 } :
                View).AddBalance obj.to_ ⟨0, Int.tdiv env.vaultCreationFee 2⟩
          else
            (({ r2.2 with
              interestRates := (env.DeleteInterest r2.2 obj.vaultId env.height).2 } :
                View).AddBalance obj.to_ ⟨0, Int.tdiv env.vaultCreationFee 2⟩).2.EraseVault
              obj.vaultId) = r →
      r.2.GetVault obj.vaultId = none ∧
      ((((v.GetVaultCollaterals obj.vaultId).getD []).map Prod.fst).Nodup →
        ∀ t : DCT_ID, (r.2.GetBalance obj.to_ t).nValue =
        ((env.withOwnerRewards v obj.to_).GetBalance obj.to_ t).nValue +
          v.collateralOf obj.vaultId t +
          (if t = 0 then Int.tdiv env.vaultCreationFee 2 else 0)) := by
    intro r2 hvaults hbal htail
    by_cases h2 : (!r2.1.ok) = true
    · rw [if_pos h2] at htail
      subst htail
      rw [hok] at h2
      exact Bool.noConfusion h2
    rw [if_neg h2] at htail
    have h2ok : r2.1.ok = true := by simpa using h2
    by_cases h3 : (!(env.DeleteInterest r2.2 obj.vaultId env.height).1.ok) = true
    · rw [if_pos h3] at htail
      subst htail
      dsimp only at hok
      rw [hok] at h3
      exact Bool.noConfusion h3
    rw [if_neg h3] at htail
    obtain ⟨v3, hv3⟩ : ∃ v3 : View, v3 = { r2.2 with
        interestRates := (env.DeleteInterest r2.2 obj.vaultId env.height).2 } := ⟨_, rfl⟩
    rw [← hv3] at htail
    have hv3b : ∀ t : DCT_ID, v3.GetBalance obj.to_ t = r2.2.GetBalance obj.to_ t := by
      intro t
      rw [hv3]
      rfl
    have hv3v : v3.vaults = v.vaults := by
      rw [hv3]
      exact hvaults
    clear hv3
    by_cases h4 : (!(v3.AddBalance obj.to_ ⟨0, Int.tdiv env.vaultCreationFee 2⟩).1.ok) = true
    · rw [if_pos h4] at htail
      subst htail
      rw [hok] at h4
      exact Bool.noConfusion h4
    rw [if_neg h4] at htail
    have h4ok : (v3.AddBalance obj.to_ ⟨0, Int.tdiv env.vaultCreationFee 2⟩).1.ok = true := by
      simpa using h4
    have hfound : (v3.AddBalance obj.to_ ⟨0, Int.tdiv env.vaultCreationFee 2⟩).2.GetVault
        obj.vaultId = some vault := by
      rw [AddBalance_frame]
      show mapFind obj.vaultId v3.vaults = some vault
      rw [hv3v]
      exact hv
    have herase : (v3.AddBalance obj.to_ ⟨0, Int.tdiv env.vaultCreationFee 2⟩).2.EraseVault
        obj.vaultId = (Res.Ok,
          { (v3.AddBalance obj.to_ ⟨0, Int.tdiv env.vaultCreationFee 2⟩).2 with
            vaults := mapErase obj.vaultId
              (v3.AddBalance obj.to_ ⟨0, Int.tdiv env.vaultCreationFee 2⟩).2.vaults,
            vaultCollaterals := mapErase obj.vaultId
              (v3.AddBalance obj.to_
                ⟨0, Int.tdiv env.vaultCreationFee 2⟩).2.vaultCollaterals }) := by
      unfold View.EraseVault
      rw [hfound]
    rw [herase] at htail
    subst htail
    constructor
    · exact mapFind_mapErase_self _ _
    · intro hnodup t
      have hbal := hbal hnodup
      show ((v3.AddBalance obj.to_ ⟨0, Int.tdiv env.vaultCreationFee 2⟩).2.GetBalance obj.to_
        t).nValue = _
      by_cases ht : t = 0
      · rw [if_pos ht, ht]
        have := AddBalance_balance v3 obj.to_ ⟨0, Int.tdiv env.vaultCreationFee 2⟩ h4ok
        dsimp only at this
        rw [this, hv3b, hbal h2ok]
      · rw [if_neg ht, AddBalance_other v3 obj.to_ obj.to_ ⟨0, Int.tdiv env.vaultCreationFee 2⟩
          t (fun h => ht (congrArg Prod.snd h)), hv3b, hbal h2ok]
        simp [CAmount]
  dsimp only at hr
  have hc1 : (env.withOwnerRewards v obj.to_).GetVaultCollaterals obj.vaultId
      = v.GetVaultCollaterals obj.vaultId := rfl
  rw [hc1] at hr
  cases hc : v.GetVaultCollaterals obj.vaultId with
  | none =>
    rw [← hc]
    rw [hc] at hr
    refine key (Res.Ok, env.withOwnerRewards v obj.to_) rfl (fun _ _ t => ?_) hr
    unfold View.collateralOf
    rw [hc]
    show ((env.withOwnerRewards v obj.to_).GetBalance obj.to_ t).nValue =
      ((env.withOwnerRewards v obj.to_).GetBalance obj.to_ t).nValue + 0
    simp [CAmount]
  | some collaterals =>
    rw [← hc]
    rw [hc] at hr
    refine key (CVaultsConsensus.refundCollaterals (env.withOwnerRewards v obj.to_) obj.to_
      collaterals) ?_ (fun hnodup h t => ?_) hr
    · rw [refundCollaterals_frame]
      rfl
    · rw [hc] at hnodup
      rw [refundCollaterals_ok obj.to_ collaterals (env.withOwnerRewards v obj.to_) hnodup h t]
      unfold View.collateralOf
      rw [hc]
      rfl

/-- The close handler leaves the vault table as it is, except that a close that succeeds
erases the record of its vault. -/
theorem onCloseVaultMessage_vaults (env : Env) (v : View) (obj : CCloseVaultMessage) :
    (CVaultsConsensus.onCloseVaultMessage env v obj).2.vaults = v.vaults ∨
    ((CVaultsConsensus.onCloseVaultMessage env v obj).1.ok = true ∧
      (CVaultsConsensus.onCloseVaultMessage env v obj).2.vaults
        = mapErase obj.vaultId v.vaults) := by
  unfold CVaultsConsensus.onCloseVaultMessage
  split
  · exact Or.inl rfl
  split
  · exact Or.inl rfl
  split
  · exact Or.inl rfl
  split
  · exact Or.inl rfl
  split
  · exact Or.inl rfl
  dsimp only
  have key : ∀ r2 : Res × View, r2.2.vaults = v.vaults →
      ∀ r : Res × View,
      (if !r2.1.ok then r2 else
        if !(env.DeleteInterest r2.2 obj.vaultId env.height).1.ok then
          ((env.DeleteInterest r2.2 obj.vaultId env.height).1,
            ({ r2.2 with
              interestRates := (env.DeleteInterest r2.2 obj.vaultId env.height).2 } : View))
        else
          if !(({ r2.2 with
              interestRates := (env.DeleteInterest r2.2 obj.vaultId env.height).2 } :
                View).AddBalance obj.to_ ⟨0, Int.tdiv env.vaultCreationFee 2⟩).1.ok then
            ({ r2.2 with
              interestRates := (env.DeleteInterest r2.2 obj.vaultId env.height).2 } :
                View).AddBalance obj.to_ ⟨0, Int.tdiv env.vaultCreationFee 2⟩
          else
            (({ r2.2 with
              interestRates := (env.DeleteInterest r2.2 obj.vaultId env.height).2 } :
                View).AddBalance obj.to_ ⟨0, Int.tdiv env.vaultCreationFee 2⟩).2.EraseVault
              obj.vaultId) = r →
      r.2.vaults = v.vaults ∨ (r.1.ok = true ∧ r.2.vaults = mapErase obj.vaultId v.vaults) := by
    intro r2 hvaults r htail
    by_cases h2 : (!r2.1.ok) = true
    · rw [if_pos h2] at htail
      subst htail
      exact Or.inl hvaults
    rw [if_neg h2] at htail
    by_cases h3 : (!(env.DeleteInterest r2.2 obj.vaultId env.height).1.ok) = true
    · rw [if_pos h3] at htail
      subst htail
      exact Or.inl hvaults
    rw [if_neg h3] at htail
    obtain ⟨v3, hv3⟩ : ∃ v3 : View, v3 = { r2.2 with
        interestRates := (env.DeleteInterest r2.2 obj.vaultId env.height).2 } := ⟨_, rfl⟩
    rw [← hv3] at htail
    have hv3v : v3.vaults = v.vaults := by
      rw [hv3]
      exact hvaults
    clear hv3
    have h4v : (v3.AddBalance obj.to_ ⟨0, Int.tdiv env.vaultCreationFee 2⟩).2.vaults
        = v.vaults := by
      rw [AddBalance_frame]
      exact hv3v
    by_cases h4 : (!(v3.AddBalance obj.to_ ⟨0, Int.tdiv env.vaultCreationFee 2⟩).1.ok) = true
    · rw [if_pos h4] at htail
      subst htail
      exact Or.inl h4v
    rw [if_neg h4] at htail
    unfold View.EraseVault at htail
    cases hfound : (v3.AddBalance obj.to_ ⟨0, Int.tdiv env.vaultCreationFee 2⟩).2.GetVault
        obj.vaultId with
    | none =>
      rw [hfound] at htail
      subst htail
      exact Or.inl h4v
    | some vault =>
      rw [hfound] at htail
      subst htail
      refine Or.inr ⟨rfl, ?_⟩
      show mapErase obj.vaultId
        (v3.AddBalance obj.to_ ⟨0, Int.tdiv env.vaultCreationFee 2⟩).2.vaults = _
      rw [h4v]
  cases hc : (env.withOwnerRewards v obj.to_).GetVaultCollaterals obj.vaultId with
  | none => exact key (Res.Ok, env.withOwnerRewards v obj.to_) rfl _ rfl
  | some collaterals =>
    refine key (CVaultsConsensus.refundCollaterals (env.withOwnerRewards v obj.to_) obj.to_
      collaterals) ?_ _ rfl
    rw [refundCollaterals_frame]
    rfl

/-- A close that fails keeps every vault, and a close keeps every vault but its own. -/
theorem onCloseVaultMessage_keeps (env : Env) (v : View) (obj : CCloseVaultMessage)
    (id : CVaultId)
    (h : id ≠ obj.vaultId ∨ (CVaultsConsensus.onCloseVaultMessage env v obj).1.ok = false)
    (hid : (v.GetVault id).isSome = true) :
    ((CVaultsConsensus.onCloseVaultMessage env v obj).2.GetVault id).isSome = true := by
  rcases onCloseVaultMessage_vaults env v obj with hsame | ⟨hok, herase⟩
  · exact keepsVaults_of_eq _ _ hsame id hid
  · rcases h with hne | hno
    · unfold View.GetVault at hid ⊢
      rw [herase, mapFind_mapErase_ne _ _ _ hne]
      exact hid
    · rw [hok] at hno
      exact Bool.noConfusion hno

/-- C25 fails as stated. The handler settles the pending owner rewards of the recipient
before the refund (`CalculateOwnerRewards(obj.to)`): with 7 units of token 2 pending for `[5]`,
the close of the vault 77 of the lending scenario, which holds no collateral in token 2, leaves
`[5]` with 7 units of token 2 more, so the balance of the recipient has grown by more than the
collateral of the vault and half the creation fee. -/
theorem close_vault_refund_counterexample :
    (CVaultsConsensus.onCloseVaultMessage rewardingEnv scenarioAfterDeposit ⟨77, [5]⟩).1.ok
      = true ∧
    scenarioAfterDeposit.collateralOf 77 2 = 0 ∧
    (scenarioAfterDeposit.GetBalance [5] 2).nValue = 0 ∧
    ((CVaultsConsensus.onCloseVaultMessage rewardingEnv scenarioAfterDeposit
      ⟨77, [5]⟩).2.GetBalance [5] 2).nValue = 7 ∧
    ¬ (∀ t : DCT_ID,
      ((CVaultsConsensus.onCloseVaultMessage rewardingEnv scenarioAfterDeposit
          ⟨77, [5]⟩).2.GetBalance [5] t).nValue =
        (scenarioAfterDeposit.GetBalance [5] t).nValue + scenarioAfterDeposit.collateralOf 77 t +
          (if t = 0 then Int.tdiv rewardingEnv.vaultCreationFee 2 else 0)) :=
  ⟨by decide, by decide, by decide, by decide, fun h => absurd (h 2) (by decide)⟩

/-- C25, amended. Close-vault is rejected, the view handed back, whenever the vault has a loan
record. When it succeeds, the vault had no loans and its record no longer exists; and, the
collateral record holding one entry per token as a map does, the balance of the recipient in
every token is its balance after the settlement of its pending owner rewards, which the
handler does first, plus the collateral of the vault in that token, plus
`vaultCreationFee / 2` (integer division) in the base token: when no owner rewards are pending
for the recipient, its balance has grown by exactly the collateral of the vault and half the
creation fee. A vault is erased only through
such a close: a close that fails keeps every vault, a close that succeeds keeps every vault
but its own, and create, update, deposit, withdraw, bid, the three scheme handlers,
take-loan and, the swap collaborator leaving the vault table alone, the two payback handlers
keep every vault. -/
theorem close_vault_refunds_and_erases (env : Env) (v : View) (obj : CCloseVaultMessage) :
    ((v.GetLoanTokens obj.vaultId).isSome = true →
      (CVaultsConsensus.onCloseVaultMessage env v obj).1.ok = false ∧
      (CVaultsConsensus.onCloseVaultMessage env v obj).2 = v) ∧
    ((CVaultsConsensus.onCloseVaultMessage env v obj).1.ok = true →
      v.GetLoanTokens obj.vaultId = none ∧
      (CVaultsConsensus.onCloseVaultMessage env v obj).2.GetVault obj.vaultId = none ∧
      ((((v.GetVaultCollaterals obj.vaultId).getD []).map Prod.fst).Nodup →
        (∀ t : DCT_ID,
          ((CVaultsConsensus.onCloseVaultMessage env v obj).2.GetBalance obj.to_ t).nValue =
            ((env.withOwnerRewards v obj.to_).GetBalance obj.to_ t).nValue +
              v.collateralOf obj.vaultId t +
              (if t = 0 then Int.tdiv env.vaultCreationFee 2 else 0)) ∧
        (env.CalculateOwnerRewards v obj.to_ = v.balances →
          ∀ t : DCT_ID,
            ((CVaultsConsensus.onCloseVaultMessage env v obj).2.GetBalance obj.to_ t).nValue =
              (v.GetBalance obj.to_ t).nValue + v.collateralOf obj.vaultId t +
                (if t = 0 then Int.tdiv env.vaultCreationFee 2 else 0)))) ∧
    (∀ id : CVaultId,
      id ≠ obj.vaultId ∨ (CVaultsConsensus.onCloseVaultMessage env v obj).1.ok = false →
      (v.GetVault id).isSome = true →
      ((CVaultsConsensus.onCloseVaultMessage env v obj).2.GetVault id).isSome = true) ∧
    ((∀ m : CVaultMessage, keepsVaults v (CVaultsConsensus.onVaultMessage env v m).2) ∧
      (∀ m : CUpdateVaultMessage,
        keepsVaults v (CVaultsConsensus.onUpdateVaultMessage env v m).2) ∧
      (∀ m : CDepositToVaultMessage,
        keepsVaults v (CVaultsConsensus.onDepositToVaultMessage env v m).state) ∧
      (∀ m : CWithdrawFromVaultMessage,
        keepsVaults v (CVaultsConsensus.onWithdrawFromVaultMessage env v m).2) ∧
      (∀ m : CAuctionBidMessage,
        keepsVaults v (CVaultsConsensus.onAuctionBidMessage env v m).2) ∧
      (∀ m : CLoanSchemeMessage,
        keepsVaults v (CLoansConsensus.onLoanSchemeMessage env v m).2) ∧
      (∀ m : CDefaultLoanSchemeMessage,
        keepsVaults v (CLoansConsensus.onDefaultLoanSchemeMessage env v m).2) ∧
      (∀ m : CDestroyLoanSchemeMessage,
        keepsVaults v (CLoansConsensus.onDestroyLoanSchemeMessage env v m).2) ∧
      (∀ m : CLoanTakeLoanMessage,
        keepsVaults v (CLoansConsensus.onLoanTakeLoanMessage env v m).2) ∧
      ((∀ (w : View) (pair : CTokenCurrencyPair) (next live : Bool) (r : Res),
          env.GetValidatedIntervalPrice w pair next live = .error r → r.ok = false) →
        (∀ (w : View) (t : DCT_ID) (a : CAmount) (f b : CScript) (h : Nat),
          (env.SwapToDFIOverUSD w t a f b h).2.vaults = w.vaults) →
        (∀ m : CLoanPaybackLoanV2Message,
          keepsVaults v (CLoansConsensus.onLoanPaybackLoanV2Message env v m).2) ∧
        (∀ m : CLoanPaybackLoanMessage,
          keepsVaults v (CLoansConsensus.onLoanPaybackLoanMessage env v m).2))) := by
  refine ⟨?_, ?_, ?_, ?_⟩
  · intro hloans
    unfold CVaultsConsensus.onCloseVaultMessage
    by_cases h1 : (!env.CheckCustomTx.ok) = true
    · rw [if_pos h1]
      exact ⟨by simpa using h1, rfl⟩
    rw [if_neg h1]
    cases hv : v.GetVault obj.vaultId with
    | none => exact ⟨rfl, rfl⟩
    | some vault =>
      dsimp only
      by_cases h2 : vault.isUnderLiquidation = true
      · rw [if_pos h2]
        exact ⟨rfl, rfl⟩
      rw [if_neg h2]
      by_cases h3 : (!env.HasAuth vault.ownerAddress) = true
      · rw [if_pos h3]
        exact ⟨rfl, rfl⟩
      rw [if_neg h3, if_pos hloans]
      exact ⟨rfl, rfl⟩
  · intro hok
    have h := onCloseVaultMessage_settled env v obj hok
    refine ⟨h.2.1, h.2.2.1, fun hnodup => ⟨h.2.2.2 hnodup, fun hrew => ?_⟩⟩
    have h' := h.2.2.2 hnodup
    rw [withOwnerRewards_eq env v obj.to_ hrew] at h'
    exact h'
  · exact fun id h hid => onCloseVaultMessage_keeps env v obj id h hid
  · exact ⟨fun m => onVaultMessage_keeps env v m, fun m => onUpdateVaultMessage_keeps env v m,
      fun m => onDepositToVaultMessage_keeps env v m,
      fun m => onWithdrawFromVaultMessage_keeps env v m,
      fun m => onAuctionBidMessage_keeps env v m, fun m => onLoanSchemeMessage_keeps env v m,
      fun m => onDefaultLoanSchemeMessage_keeps env v m,
      fun m => onDestroyLoanSchemeMessage_keeps env v m,
      fun m => onLoanTakeLoanMessage_keeps env v m,
      fun hprice hswap => ⟨fun m => onLoanPaybackLoanV2Message_keeps env v m hprice hswap,
        fun m => onLoanPaybackLoanV2Message_keeps env v _ hprice hswap⟩⟩

/-- C25, amended, at concrete inputs: in the lending scenario, the close of the vault 77 is
rejected once it has taken its loan; after the deposit, before any loan, it succeeds, erases
the vault and credits the recipient `[5]` with the 1000 units of collateral in token 1 and with
half the creation fee of 2 coins in the base token; and when 7 units of token 2 are pending
for `[5]` as owner rewards, the balance of `[5]` in token 2 after the close is the 7 units that
the settlement has credited. -/
theorem close_vault_refunds_and_erases_witness :
    (CVaultsConsensus.onCloseVaultMessage scenarioEnv scenarioAfterLoan ⟨77, [5]⟩).1.ok
      = false ∧
    (CVaultsConsensus.onCloseVaultMessage scenarioEnv scenarioAfterDeposit ⟨77, [5]⟩).2.GetVault
      77 = none ∧
    ((CVaultsConsensus.onCloseVaultMessage scenarioEnv scenarioAfterDeposit
      ⟨77, [5]⟩).2.GetBalance [5] 1).nValue = 100000000000 ∧
    ((CVaultsConsensus.onCloseVaultMessage scenarioEnv scenarioAfterDeposit
      ⟨77, [5]⟩).2.GetBalance [5] 0).nValue = 100000000 ∧
    ((CVaultsConsensus.onCloseVaultMessage rewardingEnv scenarioAfterDeposit
      ⟨77, [5]⟩).2.GetBalance [5] 2).nValue = 7 :=
  have hloan := (close_vault_refunds_and_erases scenarioEnv scenarioAfterLoan ⟨77, [5]⟩).1
    (by decide)
  have hclose := (close_vault_refunds_and_erases scenarioEnv scenarioAfterDeposit
    ⟨77, [5]⟩).2.1 (by decide)
  have hbal := (hclose.2.2 (by decide)).2 rfl
  have hsettled := (((close_vault_refunds_and_erases rewardingEnv scenarioAfterDeposit
    ⟨77, [5]⟩).2.1 (by decide)).2.2 (by decide)).1
  ⟨hloan.1, hclose.2.1, (hbal 1).trans (by decide), (hbal 0).trans (by decide),
    (hsettled 2).trans (by decide)⟩

/-! ## Community balances -/

theorem mem_mapSet {κ τ : Type} [DecidableEq κ] (k : κ) (t : τ) (l : List (κ × τ))
    (p : κ × τ) (h : p ∈ mapSet k t l) : p = (k, t) ∨ p ∈ l := by
  induction l with
  | nil =>
    simp only [mapSet, List.mem_singleton] at h
    exact Or.inl h
  | cons hd tl ih =>
    obtain ⟨k', t'⟩ := hd
    by_cases hk : k' = k
    · simp only [mapSet, if_pos hk, List.mem_cons] at h
      rcases h with h | h
      · exact Or.inl h
      · exact Or.inr (List.mem_cons_of_mem _ h)
    · simp only [mapSet, if_neg hk, List.mem_cons] at h
      rcases h with h | h
      · exact Or.inr (h ▸ List.mem_cons_self _ _)
      · rcases ih h with h | h
        · exact Or.inl h
        · exact Or.inr (List.mem_cons_of_mem _ h)

theorem SafeAdd_error (a b : CAmount) (r : Res) (h : SafeAdd a b = .error r) :
    r.ok = false := by
  unfold SafeAdd at h
  split at h
  · exact Except.noConfusion h
  · injection h with h
    rw [← h]
    rfl

theorem SetCommunityBalance_cases (s : CCommunityBalancesView) (account : CommunityAccountType)
    (amount : CAmount) :
    (amount < 0 ∧ (s.SetCommunityBalance account amount).1.ok = false ∧
        (s.SetCommunityBalance account amount).2 = s) ∨
    (0 ≤ amount ∧ s.SetCommunityBalance account amount =
        (Res.Ok, { s with byId := mapSet account amount s.byId })) := by
  unfold CCommunityBalancesView.SetCommunityBalance
  by_cases h : amount ≥ 0
  · rw [if_neg (not_not.mpr h)]
    exact Or.inr ⟨h, rfl⟩
  · rw [if_pos h]
    exact Or.inl ⟨lt_of_not_ge h, rfl, rfl⟩

theorem SetCommunityBalance_nonNegative (s : CCommunityBalancesView)
    (account : CommunityAccountType) (amount : CAmount) (h : s.nonNegative) :
    (s.SetCommunityBalance account amount).2.nonNegative := by
  rcases SetCommunityBalance_cases s account amount with ⟨_, _, e⟩ | ⟨h0, e⟩
  · rw [e]
    exact h
  · rw [e]
    intro p hp
    rcases mem_mapSet account amount s.byId p hp with hp | hp
    · rw [hp]
      exact h0
    · exact h p hp

theorem SetCommunityBalance_failed (s : CCommunityBalancesView)
    (account : CommunityAccountType) (amount : CAmount)
    (hf : (s.SetCommunityBalance account amount).1.ok = false) :
    (s.SetCommunityBalance account amount).2 = s := by
  rcases SetCommunityBalance_cases s account amount with ⟨_, _, e⟩ | ⟨_, e⟩
  · exact e
  · rw [e] at hf
    exact Bool.noConfusion hf

theorem AddCommunityBalance_cases (s : CCommunityBalancesView) (account : CommunityAccountType)
    (amount : CAmount) :
    s.AddCommunityBalance account amount = (Res.Ok, s) ∨
    ((s.AddCommunityBalance account amount).1.ok = false ∧
        (s.AddCommunityBalance account amount).2 = s) ∨
    (∃ sum, s.AddCommunityBalance account amount = s.SetCommunityBalance account sum) := by
  unfold CCommunityBalancesView.AddCommunityBalance
  by_cases h : amount = 0
  · rw [if_pos h]
    exact Or.inl rfl
  · rw [if_neg h]
    cases hs : SafeAdd amount (s.GetCommunityBalance account) with
    | error r => exact Or.inr (Or.inl ⟨SafeAdd_error _ _ r hs, rfl⟩)
    | ok sum => exact Or.inr (Or.inr ⟨sum, rfl⟩)

theorem SubCommunityBalance_cases (s : CCommunityBalancesView) (account : CommunityAccountType)
    (amount : CAmount) :
    (amount = 0 ∧ s.SubCommunityBalance account amount = (Res.Ok, s)) ∨
    ((s.SubCommunityBalance account amount).1.ok = false ∧
        (s.SubCommunityBalance account amount).2 = s) ∨
    (0 < amount ∧ amount ≤ s.GetCommunityBalance account ∧
      s.SubCommunityBalance account amount =
        (Res.Ok,
          { s with byId := (mapSet account (s.GetCommunityBalance account - amount) s.byId) })) := by
  unfold CCommunityBalancesView.SubCommunityBalance
  by_cases h : amount = 0
  · rw [if_pos h]
    exact Or.inl ⟨h, rfl⟩
  · rw [if_neg h]
    by_cases h1 : amount > 0
    · rw [if_neg (not_not.mpr h1)]
      dsimp only
      by_cases h2 : s.GetCommunityBalance account ≥ amount
      · rw [if_neg (not_not.mpr h2)]
        rcases SetCommunityBalance_cases s account (s.GetCommunityBalance account - amount)
          with ⟨hneg, _, _⟩ | ⟨_, e⟩
        · simp only [CAmount] at *
          omega
        · exact Or.inr (Or.inr ⟨h1, h2, e⟩)
      · rw [if_pos h2]
        exact Or.inr (Or.inl ⟨rfl, rfl⟩)
    · rw [if_pos h1]
      exact Or.inr (Or.inl ⟨rfl, rfl⟩)

/-- C40. Community balances are never negative. On a table whose stored balances are all
non-negative, `SetCommunityBalance`, `AddCommunityBalance` and `SubCommunityBalance` leave a
table whose stored balances are all non-negative; a call that fails leaves the table as it
was; `AddCommunityBalance` and `SubCommunityBalance` with amount zero succeed and change
nothing; and after a successful `SubCommunityBalance` the balance of the account is the old
balance less the amount, the balance of every other account being the one it was. -/
theorem community_balances_never_negative (s : CCommunityBalancesView)
    (account : CommunityAccountType) (amount : CAmount) (h : s.nonNegative) :
    (s.SetCommunityBalance account amount).2.nonNegative ∧
    (s.AddCommunityBalance account amount).2.nonNegative ∧
    (s.SubCommunityBalance account amount).2.nonNegative ∧
    ((s.SetCommunityBalance account amount).1.ok = false →
      (s.SetCommunityBalance account amount).2 = s) ∧
    ((s.AddCommunityBalance account amount).1.ok = false →
      (s.AddCommunityBalance account amount).2 = s) ∧
    ((s.SubCommunityBalance account amount).1.ok = false →
      (s.SubCommunityBalance account amount).2 = s) ∧
    s.AddCommunityBalance account 0 = (Res.Ok, s) ∧
    s.SubCommunityBalance account 0 = (Res.Ok, s) ∧
    ((s.SubCommunityBalance account amount).1.ok = true →
      (s.SubCommunityBalance account amount).2.GetCommunityBalance account =
        s.GetCommunityBalance account - amount ∧
      ∀ other : CommunityAccountType, other ≠ account →
        (s.SubCommunityBalance account amount).2.GetCommunityBalance other =
          s.GetCommunityBalance other) := by
  refine ⟨SetCommunityBalance_nonNegative s account amount h, ?_, ?_,
    SetCommunityBalance_failed s account amount, ?_, ?_, rfl, rfl, ?_⟩
  · rcases AddCommunityBalance_cases s account amount with e | ⟨_, e⟩ | ⟨sum, e⟩
    · rw [e]
      exact h
    · rw [e]
      exact h
    · rw [e]
      exact SetCommunityBalance_nonNegative s account sum h
  · rcases SubCommunityBalance_cases s account amount with ⟨_, e⟩ | ⟨_, e⟩ | ⟨h0, hle, e⟩
    · rw [e]
      exact h
    · rw [e]
      exact h
    · rw [e]
      intro p hp
      rcases mem_mapSet account _ s.byId p hp with hp | hp
      · rw [hp]
        exact sub_nonneg.mpr hle
      · exact h p hp
  · intro hf
    rcases AddCommunityBalance_cases s account amount with e | ⟨_, e⟩ | ⟨sum, e⟩
    · rw [e]
    · exact e
    · rw [e] at hf ⊢
      exact SetCommunityBalance_failed s account sum hf
  · intro hf
    rcases SubCommunityBalance_cases s account amount with ⟨_, e⟩ | ⟨_, e⟩ | ⟨_, _, e⟩
    · rw [e]
    · exact e
    · rw [e] at hf
      exact Bool.noConfusion hf
  · intro hok
    rcases SubCommunityBalance_cases s account amount with ⟨h0, e⟩ | ⟨hf, _⟩ | ⟨_, _, e⟩
    · rw [e, h0]
      exact ⟨(sub_zero _).symm, fun _ _ => rfl⟩
    · rw [hok] at hf
      exact Bool.noConfusion hf
    · rw [e]
      refine ⟨?_, fun other hne => ?_⟩
      · simp only [CCommunityBalancesView.GetCommunityBalance, mapFind_mapSet_self]
      · simp only [CCommunityBalancesView.GetCommunityBalance,
          mapFind_mapSet_ne account other _ s.byId hne]

/-- C40, at a concrete input: on the table holding 50 for account 1 and 7 for account 2, every
call with account 1 and amount 20 keeps the balances non-negative, and the withdrawal leaves
30 for account 1 and 7 for account 2. -/
theorem community_balances_never_negative_witness :
    (CCommunityBalancesView.mk [(1, 50), (2, 7)]).nonNegative ∧
    ((CCommunityBalancesView.mk [(1, 50), (2, 7)]).SubCommunityBalance 1 20).2.GetCommunityBalance
        1 = 30 ∧
    ((CCommunityBalancesView.mk [(1, 50), (2, 7)]).SubCommunityBalance 1 20).2.GetCommunityBalance
        2 = 7 :=
  have hnn : (CCommunityBalancesView.mk [(1, 50), (2, 7)]).nonNegative := by
    intro p hp
    simp only [List.mem_cons, List.mem_singleton, List.not_mem_nil, or_false] at hp
    rcases hp with hp | hp <;> rw [hp] <;> decide
  have hall := community_balances_never_negative
    (CCommunityBalancesView.mk [(1, 50), (2, 7)]) 1 20 hnn
  ⟨hnn, (hall.2.2.2.2.2.2.2.2 (by decide)).1,
    (hall.2.2.2.2.2.2.2.2 (by decide)).2 2 (by decide)⟩

/-! ## The payback split against its reference definition -/

/-- C31. The split of a payback amount computed by the V2 payback handler equals the reference
definition: for a payback amount `a`, accrued interest `i` and a non-negative outstanding
principal `L` (non-negative `a` and `i` included) it is `(a, 0)` when `a < i` and
`(i, min (a - i) L)` otherwise; the applied principal is never negative, and the applied
interest and principal add up to `a` whenever `a - i ≤ L`. -/
theorem payback_split_refines_reference (a i L : CAmount) (hL : 0 ≤ L) :
    CLoansConsensus.paybackSplit a i L = specPaybackSplit a i L ∧
    CLoansConsensus.paybackSplit a i L =
      (if a < i then (a, 0) else (i, min (a - i) L)) ∧
    0 ≤ (CLoansConsensus.paybackSplit a i L).2 ∧
    (a - i ≤ L →
      (CLoansConsensus.paybackSplit a i L).1 + (CLoansConsensus.paybackSplit a i L).2 = a) := by
  have key : CLoansConsensus.paybackSplit a i L =
      (if a < i then (a, 0) else (i, min (a - i) L)) := by
    simp only [CLoansConsensus.paybackSplit]
    by_cases h1 : a < i
    · rw [if_pos h1, if_pos h1]
    · rw [if_neg h1, if_neg h1]
      by_cases h2 : L - (a - i) < 0
      · rw [if_pos h2, min_eq_right (by simp only [CAmount] at *; omega)]
      · rw [if_neg h2, min_eq_left (by simp only [CAmount] at *; omega)]
  refine ⟨key, key, ?_, ?_⟩
  · rw [key]
    by_cases h1 : a < i
    · rw [if_pos h1]
    · rw [if_neg h1]
      exact le_min (by simp only [CAmount] at *; omega) hL
  · intro hle
    rw [key]
    by_cases h1 : a < i
    · rw [if_pos h1]
      exact add_zero a
    · rw [if_neg h1]
      show i + min (a - i) L = a
      rw [min_eq_left hle]
      simp only [CAmount] at *
      omega

/-- C31, at a concrete input: paying 70 against 30 of interest and 25 of principal applies 30
of interest and 25 of principal, as the reference definition does. -/
theorem payback_split_refines_reference_witness :
    (0 : CAmount) ≤ 25 ∧
    CLoansConsensus.paybackSplit 70 30 25 = specPaybackSplit 70 30 25 ∧
    CLoansConsensus.paybackSplit 70 30 25 = (30, 25) :=
  ⟨by decide, (payback_split_refines_reference 70 30 25 (by decide)).1,
    (payback_split_refines_reference 70 30 25 (by decide)).2.1⟩

/-! ## Fixed-point products and quotients -/

theorem COIN_pos : (0 : Int) < COIN := by decide

/-- The fixed-point product is the floor of `a * b / COIN`. -/
theorem MultiplyAmounts_floor (a b : CAmount) :
    MultiplyAmounts a b * COIN ≤ a * b ∧ a * b < (MultiplyAmounts a b + 1) * COIN :=
  ⟨Int.ediv_mul_le _ (ne_of_gt COIN_pos), Int.lt_ediv_add_one_mul_self _ COIN_pos⟩

/-- The fixed-point quotient by a positive amount is the floor of `a * COIN / b`. -/
theorem DivideAmounts_floor (a b : CAmount) (hb : 0 < b) :
    DivideAmounts a b * b ≤ a * COIN ∧ a * COIN < (DivideAmounts a b + 1) * b :=
  ⟨Int.ediv_mul_le _ (ne_of_gt hb), Int.lt_ediv_add_one_mul_self _ hb⟩

theorem le_MultiplyAmounts_iff (x a b : CAmount) :
    x ≤ MultiplyAmounts a b ↔ x * COIN ≤ a * b :=
  Int.le_ediv_iff_mul_le COIN_pos

theorem le_DivideAmounts_iff (x a b : CAmount) (hb : 0 < b) :
    x ≤ DivideAmounts a b ↔ x * b ≤ a * COIN :=
  Int.le_ediv_iff_mul_le hb

theorem DivideAmounts_lt_iff (x a b : CAmount) (hb : 0 < b) :
    DivideAmounts a b < x ↔ a * COIN < x * b :=
  Int.ediv_lt_iff_lt_mul hb

/-- What a successful conversion fixes as the payback amount in loan-token units: the USD
amount itself for the loan token named DUSD, and the fixed-point quotient of the USD amount by
the validated USD price of the loan token for any other. -/
theorem convertPayback_amount (env : Env) (obj : CLoanPaybackLoanV2Message)
    (st : CLoansConsensus.PaybackState) (loanTokenId : DCT_ID) (loanToken : CLoanSetLoanToken)
    (paybackToken : CToken) (kv : DCT_ID × CAmount) (c : CLoansConsensus.PaybackConversion)
    (h : CLoansConsensus.convertPayback env obj st loanTokenId loanToken paybackToken kv
      = .ok c) :
    (loanToken.symbol = "DUSD" →
      c.paybackAmount = MultiplyAmounts c.paybackUsdPrice kv.2) ∧
    (loanToken.symbol ≠ "DUSD" →
      env.GetValidatedIntervalPrice st.view (loanToken.symbol, "USD") false true
        = .ok c.loanUsdPrice ∧
      c.paybackAmount =
        DivideAmounts (MultiplyAmounts c.paybackUsdPrice kv.2) c.loanUsdPrice) := by
  unfold CLoansConsensus.convertPayback at h
  dsimp only at h
  split at h
  · cases h
  cases ha : st.attributes with
  | none =>
    rw [ha] at h
    cases h
  | some attributes =>
  rw [ha] at h
  dsimp only at h
  generalize (if kv.1 ≠ 0 then
      attributes.GetValueBool ⟨.Token, .id loanTokenId, .token .LoanPayback, kv.1⟩ false
    else attributes.GetValueBool ⟨.Token, .id loanTokenId, .token .PaybackDFI, 0⟩ false) = act
    at h
  generalize (if kv.1 ≠ 0 then
      COIN - attributes.GetValueAmount
        ⟨.Token, .id loanTokenId, .token .LoanPaybackFeePCT, kv.1⟩ 0
    else
      COIN - attributes.GetValueAmount
        ⟨.Token, .id loanTokenId, .token .PaybackDFIFeePCT, 0⟩ (Int.tdiv COIN 100)) = pen at h
  cases act with
  | false => cases h
  | true =>
  rw [if_neg (by simp)] at h
  cases hp : env.GetValidatedIntervalPrice st.view (paybackToken.symbol, "USD") false true with
  | error r =>
    rw [hp] at h
    cases h
  | ok price =>
  rw [hp] at h
  dsimp only at h
  by_cases hd : loanToken.symbol = "DUSD"
  · rw [if_pos hd] at h
    split at h
    · cases h
    · cases h
      exact ⟨fun _ => rfl, fun hne => absurd hd hne⟩
  · rw [if_neg hd] at h
    cases hl : env.GetValidatedIntervalPrice st.view (loanToken.symbol, "USD") false true with
    | error r =>
      rw [hl] at h
      cases h
    | ok loanUsdPrice =>
      rw [hl] at h
      cases h
      exact ⟨fun he => absurd he hd, fun _ => ⟨rfl, rfl⟩⟩

/-! ## What an overpaying cross-token payback charges -/

/-- C35. The path of the loan token named DUSD in an overpaying cross-token payback: the
payback-token amount charged, the fixed-point quotient of the amount owed by the payback
price plus one when its product with the price is not the amount owed, covers the amount
owed: its fixed-point product with the payback price is at least the amount owed, for every
amount owed (non-negative ones included) and every positive payback price. -/
theorem dusd_path_covers_amount_owed (loanToken : CLoanSetLoanToken)
    (c : CLoansConsensus.PaybackConversion) (subAmount offered : CAmount)
    (hsym : loanToken.symbol = "DUSD") (hover : c.paybackAmount > subAmount)
    (hprice : 0 < c.paybackUsdPrice) :
    CLoansConsensus.computeSubInToken loanToken c subAmount offered =
        (if MultiplyAmounts (DivideAmounts subAmount c.paybackUsdPrice) c.paybackUsdPrice
            ≠ subAmount
          then DivideAmounts subAmount c.paybackUsdPrice + 1
          else DivideAmounts subAmount c.paybackUsdPrice) ∧
    MultiplyAmounts (CLoansConsensus.computeSubInToken loanToken c subAmount offered)
        c.paybackUsdPrice ≥ subAmount := by
  have hshape : CLoansConsensus.computeSubInToken loanToken c subAmount offered =
      (if MultiplyAmounts (DivideAmounts subAmount c.paybackUsdPrice) c.paybackUsdPrice
          ≠ subAmount
        then DivideAmounts subAmount c.paybackUsdPrice + 1
        else DivideAmounts subAmount c.paybackUsdPrice) := by
    unfold CLoansConsensus.computeSubInToken
    rw [if_pos hover, if_pos hsym]
  refine ⟨hshape, ?_⟩
  rw [hshape]
  by_cases hm : MultiplyAmounts (DivideAmounts subAmount c.paybackUsdPrice) c.paybackUsdPrice
      ≠ subAmount
  · rw [if_pos hm]
    exact (le_MultiplyAmounts_iff _ _ _).mpr
      (le_of_lt (DivideAmounts_floor subAmount c.paybackUsdPrice hprice).2)
  · rw [if_neg hm]
    exact le_of_eq (not_not.mp hm).symm

/-- C35, at a concrete input: 10 units owed at the payback price 3.0 are charged 4 units
(the quotient 3 does not give 10 back), which are worth 12. -/
theorem dusd_path_covers_amount_owed_witness :
    CLoansConsensus.computeSubInToken ⟨"DUSD", "dusd", ("DUSD", "USD"), true, 0⟩
        ⟨30, 300000000, 0, COIN⟩ 10 10 = 4 ∧
    MultiplyAmounts (CLoansConsensus.computeSubInToken ⟨"DUSD", "dusd", ("DUSD", "USD"), true, 0⟩
        ⟨30, 300000000, 0, COIN⟩ 10 10) 300000000 ≥ 10 :=
  ⟨by decide, (dusd_path_covers_amount_owed ⟨"DUSD", "dusd", ("DUSD", "USD"), true, 0⟩
    ⟨30, 300000000, 0, COIN⟩ 10 10 rfl (by decide) (by decide)).2⟩

/-- C34. In a cross-token payback the payback-token amount charged is never above the amount
of payback token offered, also when the payback overpays and the amount charged is the
converted amount owed with its correction by one: for every successful conversion of an entry
and every non-negative amount owed, on the path of the loan token named DUSD with a
non-negative (fee-adjusted) payback price and on the general path with such a payback price
and a positive price of the loan token, the amount charged is at most the amount offered. -/
theorem overpaying_charge_within_offer (env : Env) (obj : CLoanPaybackLoanV2Message)
    (st : CLoansConsensus.PaybackState) (loanTokenId : DCT_ID) (loanToken : CLoanSetLoanToken)
    (paybackToken : CToken) (kv : DCT_ID × CAmount) (c : CLoansConsensus.PaybackConversion)
    (subAmount : CAmount)
    (hc : CLoansConsensus.convertPayback env obj st loanTokenId loanToken paybackToken kv
      = .ok c)
    (hprice0 : 0 ≤ c.paybackUsdPrice)
    (hloan : loanToken.symbol ≠ "DUSD" → 0 < c.loanUsdPrice)
    (hsub : 0 ≤ subAmount) :
    CLoansConsensus.computeSubInToken loanToken c subAmount kv.2 ≤ kv.2 := by
  obtain ⟨hdusd, hgen⟩ :=
    convertPayback_amount env obj st loanTokenId loanToken paybackToken kv c hc
  unfold CLoansConsensus.computeSubInToken
  by_cases hover : c.paybackAmount > subAmount
  swap
  · rw [if_neg hover]
  rw [if_pos hover]
  -- a payback price of zero converts every offer to zero, which overpays nothing
  have hprice : 0 < c.paybackUsdPrice := by
    rcases lt_or_eq_of_le hprice0 with h | h
    · exact h
    · exfalso
      by_cases hsym : loanToken.symbol = "DUSD"
      · have hA := hdusd hsym
        rw [← h] at hA
        simp only [MultiplyAmounts, zero_mul, Int.zero_ediv] at hA
        rw [hA] at hover
        exact absurd hsub (not_le.mpr hover)
      · obtain ⟨-, hA⟩ := hgen hsym
        rw [← h] at hA
        simp only [MultiplyAmounts, DivideAmounts, zero_mul, Int.zero_ediv] at hA
        rw [hA] at hover
        exact absurd hsub (not_le.mpr hover)
  by_cases hsym : loanToken.symbol = "DUSD"
  · rw [if_pos hsym]
    dsimp only
    have hA := hdusd hsym
    -- the offer is worth more than the amount owed
    have h1 : (subAmount + 1) * COIN ≤ c.paybackUsdPrice * kv.2 := by
      have : subAmount + 1 ≤ MultiplyAmounts c.paybackUsdPrice kv.2 := by
        rw [← hA]
        exact Int.add_one_le_of_lt hover
      exact (le_MultiplyAmounts_iff _ _ _).mp this
    have hq : DivideAmounts subAmount c.paybackUsdPrice < kv.2 := by
      refine (DivideAmounts_lt_iff _ _ _ hprice).mpr ?_
      have hcoin := COIN_pos
      simp only [CAmount] at *
      nlinarith
    have hq1 : DivideAmounts subAmount c.paybackUsdPrice + 1 ≤ kv.2 :=
      Int.add_one_le_of_lt hq
    split
    · exact hq1
    · exact le_of_lt hq
  · rw [if_neg hsym]
    dsimp only
    obtain ⟨-, hA⟩ := hgen hsym
    have hL := hloan hsym
    have h1 : (subAmount + 1) * c.loanUsdPrice
        ≤ MultiplyAmounts c.paybackUsdPrice kv.2 * COIN := by
      have : subAmount + 1
          ≤ DivideAmounts (MultiplyAmounts c.paybackUsdPrice kv.2) c.loanUsdPrice := by
        rw [← hA]
        exact Int.add_one_le_of_lt hover
      exact (le_DivideAmounts_iff _ _ _ hL).mp this
    have h2 := (MultiplyAmounts_floor subAmount c.loanUsdPrice).1
    have h3 := (MultiplyAmounts_floor c.paybackUsdPrice kv.2).1
    have hcoin := COIN_pos
    have hT : MultiplyAmounts subAmount c.loanUsdPrice + 1
        ≤ MultiplyAmounts c.paybackUsdPrice kv.2 := by
      refine Int.add_one_le_of_lt ?_
      have : MultiplyAmounts subAmount c.loanUsdPrice * COIN
          < MultiplyAmounts c.paybackUsdPrice kv.2 * COIN := by
        simp only [CAmount] at *
        nlinarith
      exact lt_of_mul_lt_mul_right this (le_of_lt hcoin)
    have hq : DivideAmounts (MultiplyAmounts subAmount c.loanUsdPrice) c.paybackUsdPrice
        < kv.2 := by
      refine (DivideAmounts_lt_iff _ _ _ hprice).mpr ?_
      simp only [CAmount] at *
      nlinarith
    split
    · exact Int.add_one_le_of_lt hq
    · exact le_of_lt hq

/-- C34, at a concrete input: 2 units of the token `ALT` (0.5 USD) offered against a loan in
the token `LOAN` (1.5 USD) convert to 0.66666666 units; for 100 base units owed the handler
charges 300 base units of `ALT`, below the 2 units offered. -/
theorem overpaying_charge_within_offer_witness :
    CLoansConsensus.computeSubInToken ⟨"LOAN", "loan", ("LOAN", "USD"), true, 0⟩
        ⟨66666666, 50000000, 150000000, COIN⟩ 100 200000000 = 300 ∧
    CLoansConsensus.computeSubInToken ⟨"LOAN", "loan", ("LOAN", "USD"), true, 0⟩
        ⟨66666666, 50000000, 150000000, COIN⟩ 100 200000000 ≤ 200000000 :=
  ⟨by decide, overpaying_charge_within_offer unevenPriceEnv ⟨77, [1], [(2, [(3, 200000000)])]⟩
    ⟨paybackView (some paybackSwitchedOn), some paybackSwitchedOn, false⟩ 2
    ⟨"LOAN", "loan", ("LOAN", "USD"), true, 0⟩ ⟨"ALT", "alt", 0⟩ (3, 200000000)
    ⟨66666666, 50000000, 150000000, COIN⟩ 100 rfl (by decide) (fun _ => by decide)
    (by decide)⟩

/-- C36 fails as stated. On the general path of an overpaying cross-token payback, 200 units
of the token `ALT` (0.5 USD) are offered against a loan of 1.00000001 units of the token `LOAN`
(1.5 USD) without interest. The handler succeeds, clears the loan and charges 3.00000003 units
of `ALT`, which the conversion of the claim (fixed-point product with the payback price, then
fixed-point quotient by the price of the loan token, each rounding down) values at 1.00000000
units of `LOAN`, below the 1.00000001 units owed: the second rounding of that conversion loses
what the correction by one has added. -/
theorem general_path_charge_below_amount_owed :
    (CLoansConsensus.onLoanPaybackLoanV2Message unevenPriceEnv dustLoanView
      ⟨77, [1], [(2, [(3, 20000000000)])]⟩).1.ok = true ∧
    (CLoansConsensus.onLoanPaybackLoanV2Message unevenPriceEnv dustLoanView
      ⟨77, [1], [(2, [(3, 20000000000)])]⟩).2.GetLoanTokens 77 = none ∧
    ((CLoansConsensus.onLoanPaybackLoanV2Message unevenPriceEnv dustLoanView
      ⟨77, [1], [(2, [(3, 20000000000)])]⟩).2.GetBalance [255] 3).nValue = 300000003 ∧
    CLoansConsensus.computeSubInToken ⟨"LOAN", "loan", ("LOAN", "USD"), true, 0⟩
      ⟨6666666666, 50000000, 150000000, COIN⟩ 100000001 20000000000 = 300000003 ∧
    DivideAmounts (MultiplyAmounts
      (CLoansConsensus.computeSubInToken ⟨"LOAN", "loan", ("LOAN", "USD"), true, 0⟩
        ⟨6666666666, 50000000, 150000000, COIN⟩ 100000001 20000000000) 50000000) 150000000
      = 100000000 ∧
    ¬ (DivideAmounts (MultiplyAmounts
      (CLoansConsensus.computeSubInToken ⟨"LOAN", "loan", ("LOAN", "USD"), true, 0⟩
        ⟨6666666666, 50000000, 150000000, COIN⟩ 100000001 20000000000) 50000000) 150000000
      ≥ 100000001) := by
  refine ⟨by decide, by decide, by decide, by decide, by decide, by decide⟩

/-- C36, amended. On the general (non-DUSD) path of an overpaying cross-token payback, the
payback prices being positive, the amount charged after the correction by one covers the USD
value of the amount owed under the conversion of the handler: the fixed-point product of the
amount charged with the payback price is at least the fixed-point product of the amount owed
with the price of the loan token, `MultiplyAmounts(subInToken, paybackUsdPrice) >=
MultiplyAmounts(subAmount, loanUsdPrice)`. -/
theorem general_path_covers_usd_value (loanToken : CLoanSetLoanToken)
    (c : CLoansConsensus.PaybackConversion) (subAmount offered : CAmount)
    (hsym : loanToken.symbol ≠ "DUSD") (hover : c.paybackAmount > subAmount)
    (hprice : 0 < c.paybackUsdPrice) (hloan : 0 < c.loanUsdPrice) :
    MultiplyAmounts (CLoansConsensus.computeSubInToken loanToken c subAmount offered)
        c.paybackUsdPrice ≥ MultiplyAmounts subAmount c.loanUsdPrice := by
  unfold CLoansConsensus.computeSubInToken
  rw [if_pos hover, if_neg hsym]
  dsimp only
  have hcoin := COIN_pos
  split
  · refine (le_MultiplyAmounts_iff _ _ _).mpr (le_of_lt ?_)
    exact (DivideAmounts_floor (MultiplyAmounts subAmount c.loanUsdPrice) c.paybackUsdPrice
      hprice).2
  · rename_i heq
    have heq := not_not.mp heq
    have h1 := (le_DivideAmounts_iff subAmount _ c.loanUsdPrice hloan).mp (le_of_eq heq.symm)
    have h2 := (MultiplyAmounts_floor subAmount c.loanUsdPrice).1
    have h3 : MultiplyAmounts subAmount c.loanUsdPrice * COIN ≤
        MultiplyAmounts (DivideAmounts (MultiplyAmounts subAmount c.loanUsdPrice)
          c.paybackUsdPrice) c.paybackUsdPrice * COIN := le_trans h2 h1
    exact le_of_mul_le_mul_right h3 hcoin

/-- C36, amended, at the input on which the claim fails: for 1.00000001 units of `LOAN`
(1.5 USD) owed the handler charges 3.00000003 units of `ALT` (0.5 USD), whose USD value
1.50000001 is the USD value of the amount owed. -/
theorem general_path_covers_usd_value_witness :
    CLoansConsensus.computeSubInToken ⟨"LOAN", "loan", ("LOAN", "USD"), true, 0⟩
      ⟨6666666666, 50000000, 150000000, COIN⟩ 100000001 20000000000 = 300000003 ∧
    MultiplyAmounts 100000001 150000000 = 150000001 ∧
    MultiplyAmounts (CLoansConsensus.computeSubInToken
        ⟨"LOAN", "loan", ("LOAN", "USD"), true, 0⟩
        ⟨6666666666, 50000000, 150000000, COIN⟩ 100000001 20000000000) 50000000
      ≥ MultiplyAmounts 100000001 150000000 :=
  ⟨by decide, by decide,
    general_path_covers_usd_value ⟨"LOAN", "loan", ("LOAN", "USD"), true, 0⟩
      ⟨6666666666, 50000000, 150000000, COIN⟩ 100000001 20000000000 (by decide) (by decide)
      (by decide) (by decide)⟩

/-! ## The rounding of the converted payback amount -/

/-- C32 fails as stated: 2 units of the token `ALT` (0.5 USD) paid against a loan in the
token `LOAN` (1.5 USD) are worth 1 USD, which the handler converts to 0.66666666 units of
`LOAN`, not to the 0.66666667 units of the quotient rounded up; the converted amount times the
price of the loan token is below the USD amount times `10^8`. -/
theorem converted_payback_amount_rounds_up_counterexample :
    ∃ c : CLoansConsensus.PaybackConversion,
      CLoansConsensus.convertPayback unevenPriceEnv ⟨77, [1], [(2, [(3, 200000000)])]⟩
        ⟨paybackView (some paybackSwitchedOn), some paybackSwitchedOn, false⟩ 2
        ⟨"LOAN", "loan", ("LOAN", "USD"), true, 0⟩ ⟨"ALT", "alt", 0⟩ (3, 200000000) = .ok c ∧
      MultiplyAmounts c.paybackUsdPrice 200000000 = 100000000 ∧
      c.loanUsdPrice = 150000000 ∧
      c.paybackAmount = 66666666 ∧
      ¬ (c.paybackAmount * c.loanUsdPrice
          ≥ MultiplyAmounts c.paybackUsdPrice 200000000 * 10 ^ 8) :=
  ⟨⟨66666666, 50000000, 150000000, COIN⟩, rfl, by decide, rfl, rfl, by decide⟩

/-- C32, amended. In a cross-token payback of a loan token that is not named DUSD, the payback
amount in loan-token units is the fixed-point quotient of the USD amount by the validated USD
price of the loan token, rounded down: for a positive price, the payback amount times the
price is at most the USD amount times `COIN` (`10^8`), which is below the payback amount plus
one times the price. -/
theorem converted_payback_amount_rounds_down (env : Env) (obj : CLoanPaybackLoanV2Message)
    (st : CLoansConsensus.PaybackState) (loanTokenId : DCT_ID) (loanToken : CLoanSetLoanToken)
    (paybackToken : CToken) (kv : DCT_ID × CAmount) (c : CLoansConsensus.PaybackConversion)
    (hc : CLoansConsensus.convertPayback env obj st loanTokenId loanToken paybackToken kv
      = .ok c)
    (hsym : loanToken.symbol ≠ "DUSD") (hloan : 0 < c.loanUsdPrice) :
    env.GetValidatedIntervalPrice st.view (loanToken.symbol, "USD") false true
      = .ok c.loanUsdPrice ∧
    c.paybackAmount = DivideAmounts (MultiplyAmounts c.paybackUsdPrice kv.2) c.loanUsdPrice ∧
    c.paybackAmount * c.loanUsdPrice ≤ MultiplyAmounts c.paybackUsdPrice kv.2 * COIN ∧
    MultiplyAmounts c.paybackUsdPrice kv.2 * COIN < (c.paybackAmount + 1) * c.loanUsdPrice := by
  obtain ⟨hp, hA⟩ :=
    (convertPayback_amount env obj st loanTokenId loanToken paybackToken kv c hc).2 hsym
  refine ⟨hp, hA, ?_, ?_⟩
  · rw [hA]
    exact (DivideAmounts_floor _ _ hloan).1
  · rw [hA]
    exact (DivideAmounts_floor _ _ hloan).2

/-- C32, amended, at a concrete input: the conversion of 2 units of `ALT` (0.5 USD) against a
loan in `LOAN` (1.5 USD) gives 0.66666666 units, the quotient of 1 USD by 1.5 USD rounded
down. -/
theorem converted_payback_amount_rounds_down_witness :
    (66666666 : CAmount) * 150000000 ≤ MultiplyAmounts 50000000 200000000 * COIN ∧
    MultiplyAmounts 50000000 200000000 * COIN < ((66666666 : CAmount) + 1) * 150000000 :=
  (converted_payback_amount_rounds_down unevenPriceEnv ⟨77, [1], [(2, [(3, 200000000)])]⟩
    ⟨paybackView (some paybackSwitchedOn), some paybackSwitchedOn, false⟩ 2
    ⟨"LOAN", "loan", ("LOAN", "USD"), true, 0⟩ ⟨"ALT", "alt", 0⟩ (3, 200000000)
    ⟨66666666, 50000000, 150000000, COIN⟩ rfl (by decide) (by decide)).2.2

/-! ## The export of the economy records -/

/-- C39. The economy key of a payback in a token other than the base token has no display
name, so that `Export` skips its record: the payback of a loan in the token 2 with the token 3
succeeds and stores the record under the key (`Live`, `Economy`, `PaybackTokens`);
`displayKeys` has the name `dfi_payback_tokens` for `PaybackDFITokens` under `Live` and none
for `PaybackTokens`; `Export` emits an entry for every record under `PaybackDFITokens` and
none for any record under `PaybackTokens`, whatever the helpers that build the key text; and
the export of the attribute set the payback stored holds the two switches of the set and not
the record of the payback. -/
theorem export_skips_payback_tokens :
    (CLoansConsensus.onLoanPaybackLoanV2Message unevenPriceEnv dustLoanView
      ⟨77, [1], [(2, [(3, 20000000000)])]⟩).1.ok = true ∧
    (CLoansConsensus.onLoanPaybackLoanV2Message unevenPriceEnv dustLoanView
      ⟨77, [1], [(2, [(3, 20000000000)])]⟩).2.attributes =
      some (paybackSwitchedOn ++
        [(⟨.Live, .param .Economy, .economy .PaybackTokens, 0⟩,
          .tokenPayback ⟨[], [(2, 100000001)]⟩)]) ∧
    ATTRIBUTES.displayKeys .Live (.economy .PaybackDFITokens) = some "dfi_payback_tokens" ∧
    ATTRIBUTES.displayKeys .Live (.economy .PaybackTokens) = none ∧
    (∀ (h : ExportHelpers) (value : CAttributeValue),
      (ATTRIBUTES.exportEntry h
        (⟨.Live, .param .Economy, .economy .PaybackDFITokens, 0⟩, value)).isSome = true) ∧
    (∀ (h : ExportHelpers) (value : CAttributeValue),
      ATTRIBUTES.exportEntry h
        (⟨.Live, .param .Economy, .economy .PaybackTokens, 0⟩, value) = none) ∧
    (∀ h : ExportHelpers,
      (ATTRIBUTES.Export h (paybackSwitchedOn ++
        [(⟨.Live, .param .Economy, .economy .PaybackTokens, 0⟩,
          .tokenPayback ⟨[], [(2, 100000001)]⟩)])).map (fun e => e.2) =
        [.bool true, .bool true]) ∧
    ATTRIBUTES.Export sampleExportHelpers (paybackSwitchedOn ++
        [(⟨.Live, .param .Economy, .economy .PaybackTokens, 0⟩,
          .tokenPayback ⟨[], [(2, 100000001)]⟩)]) =
      [("v0/token/2/payback_dfi", .bool true), ("v0/token/2/loan_payback/3", .bool true)] := by
  refine ⟨by decide, by decide, rfl, rfl, fun h value => ?_, fun _ _ => rfl, fun h => ?_,
    by decide⟩
  · unfold ATTRIBUTES.exportEntry
    rfl
  · rfl

/-- As long as the operands are not negative and the exact result is within the range of an
amount, the 64-bit `MultiplyAmounts` returns the exact fixed-point product. -/
theorem MultiplyAmounts64_eq (a b : CAmount) (ha : 0 ≤ a) (hb : 0 ≤ b)
    (ha' : a < 18446744073709551616) (hb' : b < 18446744073709551616)
    (h : MultiplyAmounts a b < 9223372036854775808) :
    MultiplyAmounts64 a b = MultiplyAmounts a b := by
  obtain ⟨m, rfl⟩ := Int.eq_ofNat_of_zero_le ha
  obtain ⟨n, rfl⟩ := Int.eq_ofNat_of_zero_le hb
  have hm : toU64 (m : Int) = m := by
    unfold toU64
    have : ((m : Int) % 2 ^ 64) = (m : Int) := Int.emod_eq_of_lt ha (by norm_num at ha' ⊢; exact ha')
    rw [this]
    exact Int.toNat_ofNat m
  have hn : toU64 (n : Int) = n := by
    unfold toU64
    have : ((n : Int) % 2 ^ 64) = (n : Int) := Int.emod_eq_of_lt hb (by norm_num at hb' ⊢; exact hb')
    rw [this]
    exact Int.toNat_ofNat n
  have hq : ((m * n / 100000000 : Nat) : Int) = MultiplyAmounts (m : Int) (n : Int) := by
    unfold MultiplyAmounts COIN
    push_cast
    rfl
  unfold MultiplyAmounts64
  rw [hm, hn]
  have hlt : m * n / 100000000 < 9223372036854775808 := by
    have : ((m * n / 100000000 : Nat) : Int) < 9223372036854775808 := by
      rw [hq]
      exact h
    exact_mod_cast this
  unfold castInt64
  have hmod : m * n / 100000000 % 18446744073709551616 = m * n / 100000000 :=
    Nat.mod_eq_of_lt (by omega)
  rw [hmod, if_pos hlt]
  exact hq

/-! ## The value check of take-loan -/

theorem addLoanValue_too_high (price amount : CAmount) (totalLoans : Nat)
    (h : valueTooHigh price amount) :
    CLoansConsensus.addLoanValue price amount totalLoans
      = .error (Res.ErrMsg "Value/price too high (%s/%s)") := by
  unfold valueTooHigh at h
  unfold CLoansConsensus.addLoanValue
  dsimp only
  rw [if_pos h]

theorem addLoanValue_not_high (price amount : CAmount) (totalLoans : Nat)
    (h : ¬ valueTooHigh price amount) :
    CLoansConsensus.addLoanValue price amount totalLoans =
      (match SafeAddU64 totalLoans (toU64 (MultiplyAmounts64 price amount)) with
        | none => .error (Res.ErrMsg "Exceed maximum loans")
        | some sumLoans => .ok sumLoans) := by
  unfold valueTooHigh at h
  unfold CLoansConsensus.addLoanValue
  dsimp only
  rw [if_neg h]

theorem addLoanValue_ok_not_high (price amount : CAmount) (totalLoans t : Nat)
    (h : CLoansConsensus.addLoanValue price amount totalLoans = .ok t) :
    ¬ valueTooHigh price amount := by
  intro hh
  rw [addLoanValue_too_high price amount totalLoans hh] at h
  exact Except.noConfusion h

/-- One pass of the take-loan loop that succeeds has read a price feed for the requested
token at neither of whose two price records the amount is rejected. -/
theorem takeLoanStep_prices (env : Env) (obj : CLoanTakeLoanMessage) (vault : CVaultData)
    (st : CLoansConsensus.TakeLoanState) (kv : DCT_ID × CAmount)
    (hfeed : ∀ (w : View) (pair : CTokenCurrencyPair) (r : Res),
      env.GetFixedIntervalPrice w pair = .error r → r.ok = false)
    (hok : (CLoansConsensus.takeLoanStep env obj vault st kv).1.ok = true) :
    ∃ (loanToken : CLoanSetLoanToken) (w : View) (priceFeed : CFixedIntervalPrice),
      st.view.GetLoanTokenByID kv.1 = some loanToken ∧
      env.GetFixedIntervalPrice w loanToken.fixedIntervalPriceId = .ok priceFeed ∧
      ¬ valueTooHigh priceFeed.priceRecord0 kv.2 ∧
      ¬ valueTooHigh priceFeed.priceRecord1 kv.2 := by
  generalize hr : CLoansConsensus.takeLoanStep env obj vault st kv = r at hok
  unfold CLoansConsensus.takeLoanStep at hr
  dsimp only at hr
  split at hr
  · subst hr
    exact Bool.noConfusion hok
  rename_i loanToken hlt
  split at hr
  · subst hr
    exact Bool.noConfusion hok
  split at hr
  · rename_i h
    subst hr
    dsimp only at hok
    rw [hok] at h
    exact Bool.noConfusion h
  split at hr
  · rename_i h
    subst hr
    dsimp only at hok
    rw [hok] at h
    exact Bool.noConfusion h
  split at hr
  · rename_i r herr
    subst hr
    dsimp only at hok
    rw [hfeed _ _ r herr] at hok
    exact Bool.noConfusion hok
  rename_i priceFeed hpf
  split at hr
  · subst hr
    exact Bool.noConfusion hok
  split at hr
  · rename_i r herr
    subst hr
    dsimp only at hok
    rw [addLoanValue_error _ _ _ r herr] at hok
    exact Bool.noConfusion hok
  rename_i totalActive hA
  split at hr
  · rename_i r herr
    subst hr
    dsimp only at hok
    rw [addLoanValue_error _ _ _ r herr] at hok
    exact Bool.noConfusion hok
  rename_i totalNext hN
  exact ⟨loanToken, _, priceFeed, hlt, hpf, addLoanValue_ok_not_high _ _ _ _ hA,
    addLoanValue_ok_not_high _ _ _ _ hN⟩

/-- The take-loan loop, when it succeeds, has read for every requested token a price feed at
neither of whose two price records the requested amount is rejected. -/
theorem takeLoanLoop_prices (env : Env) (obj : CLoanTakeLoanMessage) (vault : CVaultData)
    (hfeed : ∀ (w : View) (pair : CTokenCurrencyPair) (r : Res),
      env.GetFixedIntervalPrice w pair = .error r → r.ok = false)
    (amounts : List (DCT_ID × CAmount)) (st : CLoansConsensus.TakeLoanState)
    (hok : (CLoansConsensus.takeLoanLoop env obj vault st amounts).1.ok = true) :
    ∀ kv ∈ amounts,
      ∃ (loanToken : CLoanSetLoanToken) (w : View) (priceFeed : CFixedIntervalPrice),
        st.view.GetLoanTokenByID kv.1 = some loanToken ∧
        env.GetFixedIntervalPrice w loanToken.fixedIntervalPriceId = .ok priceFeed ∧
        ¬ valueTooHigh priceFeed.priceRecord0 kv.2 ∧
        ¬ valueTooHigh priceFeed.priceRecord1 kv.2 := by
  induction amounts generalizing st with
  | nil =>
    intro kv hkv
    cases hkv
  | cons kv rest ih =>
    unfold CLoansConsensus.takeLoanLoop at hok
    dsimp only at hok
    by_cases hs : (!(CLoansConsensus.takeLoanStep env obj vault st kv).1.ok) = true
    · rw [if_pos hs] at hok
      rw [hok] at hs
      exact Bool.noConfusion hs
    rw [if_neg hs] at hok
    have hsok : (CLoansConsensus.takeLoanStep env obj vault st kv).1.ok = true := by
      cases hb : (CLoansConsensus.takeLoanStep env obj vault st kv).1.ok with
      | true => rfl
      | false =>
        rw [hb] at hs
        exact absurd rfl hs
    have hlt := (takeLoanStep_ok env obj vault st kv hfeed hsok).2.1
    intro kv' hkv'
    rcases List.mem_cons.mp hkv' with h | h
    · rw [h]
      exact takeLoanStep_prices env obj vault st kv hfeed hsok
    · obtain ⟨loanToken, w, priceFeed, hl, hp, h0, h1⟩ :=
        ih (CLoansConsensus.takeLoanStep env obj vault st kv).2 hok kv' h
      refine ⟨loanToken, w, priceFeed, ?_, hp, h0, h1⟩
      have : mapFind kv'.1 (CLoansConsensus.takeLoanStep env obj vault st kv).2.view.loanTokens
          = some loanToken := hl
      rw [hlt] at this
      exact this

/-- C33. The value check of take-loan. At a price record above `COIN` at which the
fixed-point product of price and amount, as the 64-bit amount `MultiplyAmounts` returns, is not
above the amount, the pass of the inner loop fails with the error `Value/price too high`; at a
price record of at most `COIN` the check is not applied, the pass being the overflow-checked
addition alone. A pass of the take-loan loop that reaches the price records (the token is a
mintable loan token, the loan and the interest are stored, a live price feed is found) fails
with that error when the amount is rejected at the active price, and when it is added at the
active price and rejected at the next price. And a take-loan fails when a requested amount is
rejected at one of the two price records of its token: a take-loan that succeeds has read for
every requested (token, amount) a price feed at neither of whose price records the amount is
rejected. -/
theorem take_loan_value_too_high (env : Env) (v : View) (obj : CLoanTakeLoanMessage)
    (hfeed : ∀ (w : View) (pair : CTokenCurrencyPair) (r : Res),
      env.GetFixedIntervalPrice w pair = .error r → r.ok = false) :
    (∀ (price amount : CAmount) (totalLoans : Nat),
      price > COIN → ¬ (MultiplyAmounts64 price amount > amount) →
      CLoansConsensus.addLoanValue price amount totalLoans
        = .error (Res.ErrMsg "Value/price too high (%s/%s)")) ∧
    (∀ (price amount : CAmount) (totalLoans : Nat), price ≤ COIN →
      CLoansConsensus.addLoanValue price amount totalLoans =
        (match SafeAddU64 totalLoans (toU64 (MultiplyAmounts64 price amount)) with
          | none => .error (Res.ErrMsg "Exceed maximum loans")
          | some sumLoans => .ok sumLoans)) ∧
    (∀ (vault : CVaultData) (st : CLoansConsensus.TakeLoanState) (kv : DCT_ID × CAmount)
        (loanToken : CLoanSetLoanToken) (priceFeed : CFixedIntervalPrice),
      st.view.GetLoanTokenByID kv.1 = some loanToken → loanToken.mintable = true →
      (st.view.AddLoanToken obj.vaultId ⟨kv.1, kv.2⟩).1.ok = true →
      (env.StoreInterest (st.view.AddLoanToken obj.vaultId ⟨kv.1, kv.2⟩).2 env.height
        obj.vaultId vault.schemeId kv.1 kv.2).1.ok = true →
      env.GetFixedIntervalPrice
        { (st.view.AddLoanToken obj.vaultId ⟨kv.1, kv.2⟩).2 with
          interestRates := (env.StoreInterest (st.view.AddLoanToken obj.vaultId ⟨kv.1, kv.2⟩).2
            env.height obj.vaultId vault.schemeId kv.1 kv.2).2 }
        loanToken.fixedIntervalPriceId = .ok priceFeed →
      env.isLive
        { (st.view.AddLoanToken obj.vaultId ⟨kv.1, kv.2⟩).2 with
          interestRates := (env.StoreInterest (st.view.AddLoanToken obj.vaultId ⟨kv.1, kv.2⟩).2
            env.height obj.vaultId vault.schemeId kv.1 kv.2).2 }
        priceFeed = true →
      (valueTooHigh priceFeed.priceRecord0 kv.2 →
        (CLoansConsensus.takeLoanStep env obj vault st kv).1
          = Res.ErrMsg "Value/price too high (%s/%s)") ∧
      ((∃ t, CLoansConsensus.addLoanValue priceFeed.priceRecord0 kv.2 st.totalLoansActivePrice
          = .ok t) →
        valueTooHigh priceFeed.priceRecord1 kv.2 →
        (CLoansConsensus.takeLoanStep env obj vault st kv).1
          = Res.ErrMsg "Value/price too high (%s/%s)")) ∧
    ((CLoansConsensus.onLoanTakeLoanMessage env v obj).1.ok = true →
      ∀ kv ∈ obj.amounts,
        ∃ (loanToken : CLoanSetLoanToken) (w : View) (priceFeed : CFixedIntervalPrice),
          v.GetLoanTokenByID kv.1 = some loanToken ∧
          env.GetFixedIntervalPrice w loanToken.fixedIntervalPriceId = .ok priceFeed ∧
          ¬ valueTooHigh priceFeed.priceRecord0 kv.2 ∧
          ¬ valueTooHigh priceFeed.priceRecord1 kv.2) ∧
    (∀ kv ∈ obj.amounts, ∀ (loanToken : CLoanSetLoanToken) (priceFeed : CFixedIntervalPrice),
      v.GetLoanTokenByID kv.1 = some loanToken →
      (∀ w : View, env.GetFixedIntervalPrice w loanToken.fixedIntervalPriceId = .ok priceFeed) →
      valueTooHigh priceFeed.priceRecord0 kv.2 ∨ valueTooHigh priceFeed.priceRecord1 kv.2 →
      (CLoansConsensus.onLoanTakeLoanMessage env v obj).1.ok = false) := by
  have hD : (CLoansConsensus.onLoanTakeLoanMessage env v obj).1.ok = true →
      ∀ kv ∈ obj.amounts,
        ∃ (loanToken : CLoanSetLoanToken) (w : View) (priceFeed : CFixedIntervalPrice),
          v.GetLoanTokenByID kv.1 = some loanToken ∧
          env.GetFixedIntervalPrice w loanToken.fixedIntervalPriceId = .ok priceFeed ∧
          ¬ valueTooHigh priceFeed.priceRecord0 kv.2 ∧
          ¬ valueTooHigh priceFeed.priceRecord1 kv.2 := by
    intro hok
    obtain ⟨vault, -, hloop, -⟩ := onLoanTakeLoanMessage_ok env v obj hok
    exact takeLoanLoop_prices env obj vault hfeed obj.amounts ⟨v, 0, 0⟩ hloop
  refine ⟨fun price amount totalLoans h1 h2 => addLoanValue_too_high _ _ _ ⟨h1, h2⟩,
    fun price amount totalLoans h =>
      addLoanValue_not_high _ _ _ (fun hh => absurd hh.1 (not_lt.mpr h)), ?_, hD, ?_⟩
  · intro vault st kv loanToken priceFeed hlt hmint h1 h2 hpf hlive
    constructor
    · intro hhigh
      unfold CLoansConsensus.takeLoanStep
      simp only [hlt, hmint, h1, h2, hpf, hlive, addLoanValue_too_high _ _ _ hhigh,
        Bool.not_true, Bool.false_eq_true, if_false]
    · rintro ⟨t, ht⟩ hhigh
      unfold CLoansConsensus.takeLoanStep
      simp only [hlt, hmint, h1, h2, hpf, hlive, ht, addLoanValue_too_high _ _ _ hhigh,
        Bool.not_true, Bool.false_eq_true, if_false]
  · intro kv hkv loanToken priceFeed hlt hall hhigh
    cases hb : (CLoansConsensus.onLoanTakeLoanMessage env v obj).1.ok with
    | false => rfl
    | true =>
      exfalso
      obtain ⟨loanToken', w, priceFeed', hlt', hp, h0, h1⟩ := hD hb kv hkv
      rw [hlt] at hlt'
      cases hlt'
      rw [hall w] at hp
      cases hp
      rcases hhigh with h | h
      · exact h0 h
      · exact h1 h

/-- C33, at concrete inputs: a request of 40 000 000 000 units of the loan token 2 is rejected
with `Value/price too high` when the active price is 3 USD and when the next price is 3 USD
(the product, 120 000 000 000 units, is beyond the 64-bit range and comes back negative), and
it is not rejected by the value check when both prices are 1 USD (the scenario context); at
the active price of 3 USD a request of 100 units passes the check and is taken, and a request of the amount zero is rejected (three
times zero is not above zero). -/
theorem take_loan_value_too_high_witness :
    MultiplyAmounts64 300000000 4000000000000000000 = -6446744073709551616 ∧
    (CLoansConsensus.onLoanTakeLoanMessage highPriceEnv scenarioAfterDeposit
      ⟨77, [], [(2, 4000000000000000000)]⟩).1 = Res.ErrMsg "Value/price too high (%s/%s)" ∧
    (CLoansConsensus.onLoanTakeLoanMessage highNextPriceEnv scenarioAfterDeposit
      ⟨77, [], [(2, 4000000000000000000)]⟩).1 = Res.ErrMsg "Value/price too high (%s/%s)" ∧
    (CLoansConsensus.onLoanTakeLoanMessage scenarioEnv scenarioAfterDeposit
      ⟨77, [], [(2, 4000000000000000000)]⟩).1 ≠ Res.ErrMsg "Value/price too high (%s/%s)" ∧
    (CLoansConsensus.onLoanTakeLoanMessage
      { highPriceEnv with CheckCollateralRatio := (fun _ _ _ _ _ _ => Res.Ok) }
      scenarioAfterDeposit ⟨77, [], [(2, 10000000000)]⟩).1.ok = true ∧
    (CLoansConsensus.onLoanTakeLoanMessage highPriceEnv scenarioAfterDeposit
      ⟨77, [], [(2, 0)]⟩).1 = Res.ErrMsg "Value/price too high (%s/%s)" ∧
    (CLoansConsensus.onLoanTakeLoanMessage highPriceEnv scenarioAfterDeposit
      ⟨77, [], [(2, 4000000000000000000)]⟩).1.ok = false :=
  ⟨by decide, by decide, by decide, by decide, by decide, by decide,
    (take_loan_value_too_high highPriceEnv scenarioAfterDeposit
      ⟨77, [], [(2, 4000000000000000000)]⟩
      (fun _ _ _ h => Except.noConfusion h)).2.2.2.2 (2, 4000000000000000000)
      (List.mem_singleton.mpr rfl)
      ⟨"LOAN", "loan", ("LOAN", "USD"), true, 0⟩ ⟨("LOAN", "USD"), 0, 300000000, COIN⟩
      (by decide) (fun _ => rfl) (Or.inl (by decide))⟩

/-! ## The legacy payback message -/

/-- C37. The legacy payback handler returns what the V2 handler returns on the message it
builds, and that message loses an entry when the legacy amounts hold both the base token and
the token named `DUSD`. In a view where `DUSD` is the token 2, the legacy amounts of 100 units
of the base token and 200 units of the token 2 are forwarded as the single entry
`loans[2] = {2: 200}`: the base amount, filed under the token 2 first, is overwritten by the
amount of the token 2 and appears nowhere in the message, although alone it is forwarded as
`loans[2] = {0: 100}`. The handler succeeds, pays back 200 units of the loan and leaves the
500 units of the base token of the sender as they were. -/
theorem legacy_payback_drops_base_amount :
    (∀ (env : Env) (v : View) (obj : CLoanPaybackLoanMessage),
      CLoansConsensus.onLoanPaybackLoanMessage env v obj =
        CLoansConsensus.onLoanPaybackLoanV2Message env v
          ⟨obj.vaultId, obj.from_, CLoansConsensus.legacyLoans v [] obj.amounts⟩) ∧
    (dusdPaybackView.GetTokenBySymbol "DUSD").map (fun t => t.1) = some 2 ∧
    CLoansConsensus.legacyLoans dusdPaybackView [] [(0, 10000000000), (2, 20000000000)]
      = [(2, [(2, 20000000000)])] ∧
    (∀ idx ∈ CLoansConsensus.legacyLoans dusdPaybackView []
        [(0, 10000000000), (2, 20000000000)], mapFind 0 idx.2 = none) ∧
    CLoansConsensus.legacyLoans dusdPaybackView [] [(0, 10000000000)]
      = [(2, [(0, 10000000000)])] ∧
    (CLoansConsensus.onLoanPaybackLoanMessage scenarioEnv dusdPaybackView
      ⟨77, [1], [(0, 10000000000), (2, 20000000000)]⟩).1.ok = true ∧
    ((CLoansConsensus.onLoanPaybackLoanMessage scenarioEnv dusdPaybackView
      ⟨77, [1], [(0, 10000000000), (2, 20000000000)]⟩).2.GetBalance [1] 0).nValue
        = (dusdPaybackView.GetBalance [1] 0).nValue ∧
    (CLoansConsensus.onLoanPaybackLoanMessage scenarioEnv dusdPaybackView
      ⟨77, [1], [(0, 10000000000), (2, 20000000000)]⟩).2.GetLoanTokens 77
        = some [(2, 30000000000)] ∧
    dusdPaybackView.GetLoanTokens 77 = some [(2, 50000000000)] := by
  refine ⟨fun _ _ _ => rfl, by decide, by decide, by decide, by decide, by decide, by decide,
    by decide, by decide⟩

/-! ## The penalty of a cross-token payback -/

theorem SubBalance_ok_nonneg (v : View) (owner : CScript) (amount : CTokenAmount)
    (hok : (v.SubBalance owner amount).1.ok = true) : 0 ≤ amount.nValue := by
  unfold View.SubBalance at hok
  by_cases h0 : amount.nValue = 0
  · rw [h0]
  · rw [if_neg h0] at hok
    unfold CTokenAmount.Sub at hok
    by_cases hneg : amount.nValue < 0
    · rw [if_pos hneg] at hok
      exact Bool.noConfusion hok
    · exact not_lt.mp hneg

theorem AddBalance_ok_nonneg (v : View) (owner : CScript) (amount : CTokenAmount)
    (hok : (v.AddBalance owner amount).1.ok = true) : 0 ≤ amount.nValue := by
  unfold View.AddBalance at hok
  by_cases h0 : amount.nValue = 0
  · rw [h0]
  · rw [if_neg h0] at hok
    unfold CTokenAmount.Add at hok
    by_cases hneg : amount.nValue < 0
    · rw [if_pos hneg] at hok
      exact Bool.noConfusion hok
    · exact not_lt.mp hneg

/-- A transfer between two scripts, one of which at least is not empty, succeeds for a
non-negative amount only. -/
theorem TransferTokenBalance_ok_nonneg (v : View) (id : DCT_ID) (amount : CAmount)
    (from_ to_ : CScript) (hparty : from_ ≠ [] ∨ to_ ≠ [])
    (hok : (TransferTokenBalance v id amount from_ to_).1.ok = true) : 0 ≤ amount := by
  unfold TransferTokenBalance at hok
  dsimp only at hok
  by_cases hf : from_ ≠ []
  · rw [if_pos hf] at hok
    by_cases h1 : (v.SubBalance from_ ⟨id, amount⟩).1.ok = true
    · exact SubBalance_ok_nonneg v from_ ⟨id, amount⟩ h1
    · have h1f : (v.SubBalance from_ ⟨id, amount⟩).1.ok = false := by
        cases hb : (v.SubBalance from_ ⟨id, amount⟩).1.ok with
        | true => exact absurd hb h1
        | false => rfl
      rw [if_pos (by rw [h1f]; rfl)] at hok
      rw [h1f] at hok
      exact Bool.noConfusion hok
  · rw [if_neg hf] at hok
    have ht : to_ ≠ [] := hparty.resolve_left hf
    rw [if_neg (fun h => Bool.noConfusion h), if_pos ht] at hok
    by_cases h2 : (v.AddBalance to_ ⟨id, amount⟩).1.ok = true
    · exact AddBalance_ok_nonneg v to_ ⟨id, amount⟩ h2
    · have h2f : (v.AddBalance to_ ⟨id, amount⟩).1.ok = false := by
        cases hb : (v.AddBalance to_ ⟨id, amount⟩).1.ok with
        | true => exact absurd hb h2
        | false => rfl
      rw [if_pos (by rw [h2f]; rfl)] at hok
      rw [h2f] at hok
      exact Bool.noConfusion hok

/-- A payback entry in another token than the loan token that succeeds: the conversion has
succeeded, the interest rate of the loan is on record, the attribute set carries the economy
record of the amount owed and of the penalty, and the transfer of the amount charged to the
burn address has succeeded. -/
theorem paybackEntry_cross_ok (env : Env) (obj : CLoanPaybackLoanV2Message)
    (vault : CVaultData) (loanTokenId : DCT_ID) (loanToken : CLoanSetLoanToken)
    (outstanding : CAmount)
    (hprice : ∀ (w : View) (pair : CTokenCurrencyPair) (next live : Bool) (r : Res),
      env.GetValidatedIntervalPrice w pair next live = .error r → r.ok = false)
    (st : CLoansConsensus.PaybackState) (kv : DCT_ID × CAmount)
    (hne : kv.1 ≠ loanTokenId)
    (hok : (CLoansConsensus.paybackEntry env obj vault loanTokenId loanToken outstanding st
      kv).1.ok = true) :
    ∃ (paybackToken : CToken) (c : CLoansConsensus.PaybackConversion) (rate : CInterestRate)
        (w : View),
      CLoansConsensus.convertPayback env obj st loanTokenId loanToken paybackToken kv
        = .ok c ∧
      st.view.GetInterestRate obj.vaultId loanTokenId env.height = some rate ∧
      (CLoansConsensus.paybackEntry env obj vault loanTokenId loanToken outstanding st
          kv).2.attributes =
        st.attributes.map (fun a => CLoansConsensus.recordPayback a loanTokenId kv.1
          ((CLoansConsensus.paybackSplit c.paybackAmount (env.TotalInterest rate env.height)
              outstanding).2 +
            (CLoansConsensus.paybackSplit c.paybackAmount (env.TotalInterest rate env.height)
              outstanding).1)
          (MultiplyAmounts
            (CLoansConsensus.computeSubInToken loanToken c
              ((CLoansConsensus.paybackSplit c.paybackAmount
                  (env.TotalInterest rate env.height) outstanding).2 +
                (CLoansConsensus.paybackSplit c.paybackAmount
                  (env.TotalInterest rate env.height) outstanding).1) kv.2)
            (COIN - c.penaltyPct))) ∧
      (TransferTokenBalance w kv.1
        (CLoansConsensus.computeSubInToken loanToken c
          ((CLoansConsensus.paybackSplit c.paybackAmount (env.TotalInterest rate env.height)
              outstanding).2 +
            (CLoansConsensus.paybackSplit c.paybackAmount (env.TotalInterest rate env.height)
              outstanding).1) kv.2)
        obj.from_ env.burnAddress).1.ok = true := by
  generalize hr : CLoansConsensus.paybackEntry env obj vault loanTokenId loanToken outstanding
    st kv = r at hok ⊢
  unfold CLoansConsensus.paybackEntry at hr
  dsimp only at hr
  cases hpt : st.view.GetToken kv.1 with
  | none =>
    rw [hpt] at hr
    subst hr
    exact Bool.noConfusion hok
  | some paybackToken =>
  rw [hpt] at hr
  dsimp only at hr
  rw [if_pos (Ne.symm hne)] at hr
  cases hconv : CLoansConsensus.convertPayback env obj st loanTokenId loanToken paybackToken kv
    with
  | error e =>
    rw [hconv] at hr
    dsimp only at hr
    subst hr
    dsimp only at hok
    rw [convertPayback_error env obj hprice st loanTokenId loanToken paybackToken kv e hconv]
      at hok
    exact Bool.noConfusion hok
  | ok c =>
  rw [hconv] at hr
  dsimp only at hr
  cases hrate : st.view.GetInterestRate obj.vaultId loanTokenId env.height with
  | none =>
    rw [hrate] at hr
    subst hr
    exact Bool.noConfusion hok
  | some rate =>
  rw [hrate] at hr
  dsimp only at hr
  generalize hsp : CLoansConsensus.paybackSplit c.paybackAmount
    (env.TotalInterest rate env.height) outstanding = sp at hr
  generalize st.view.SubLoanToken obj.vaultId ⟨loanTokenId, sp.2⟩ = r1 at hr
  by_cases h1 : (!r1.1.ok) = true
  · rw [if_pos h1] at hr
    subst hr
    dsimp only at hok
    rw [hok] at h1
    exact Bool.noConfusion h1
  rw [if_neg h1] at hr
  generalize env.EraseInterest r1.2 env.height obj.vaultId vault.schemeId loanTokenId sp.2 sp.1
    = r2 at hr
  obtain ⟨v2, hv2⟩ : ∃ v2 : View, v2 = { r1.2 with interestRates := r2.2 } := ⟨_, rfl⟩
  rw [← hv2] at hr
  clear hv2
  by_cases h2 : (!r2.1.ok) = true
  · rw [if_pos h2] at hr
    subst hr
    dsimp only at hok
    rw [hok] at h2
    exact Bool.noConfusion h2
  rw [if_neg h2] at hr
  generalize (if castInt env.height ≥ env.FortCanningMuseumHeight ∧ sp.2 < outstanding then _
    else Res.Ok) = rateCheck at hr
  by_cases h3 : (!rateCheck.ok) = true
  · rw [if_pos h3] at hr
    subst hr
    dsimp only at hok
    rw [hok] at h3
    exact Bool.noConfusion h3
  rw [if_neg h3, if_neg hne] at hr
  subst hr
  refine ⟨paybackToken, c, rate, env.withOwnerRewards v2 obj.from_, hconv, rfl, ?_, ?_⟩
  · rw [hsp]
  · rw [hsp]
    exact hok

theorem VerifyPct_ok (ParseFixedPoint : String → Nat → Option CAmount) (str : String)
    (val : CAttributeValue) (h : VerifyPct ParseFixedPoint str = .ok val) :
    ∃ a : CAmount, val = .amount a ∧ 0 ≤ a ∧ a ≤ COIN := by
  unfold VerifyPct VerifyFloat at h
  cases hp : ParseFixedPoint str 8 with
  | none =>
    rw [hp] at h
    exact Except.noConfusion h
  | some amount =>
    rw [hp] at h
    dsimp only at h
    by_cases h0 : amount ≥ 0
    · rw [if_neg (not_not.mpr h0)] at h
      dsimp only at h
      by_cases h1 : amount ≤ COIN
      · rw [if_neg (not_not.mpr h1)] at h
        cases h
        exact ⟨amount, rfl, h0, h1⟩
      · rw [if_pos h1] at h
        exact Except.noConfusion h
    · rw [if_pos h0] at h
      exact Except.noConfusion h

/-- The penalty on a non-negative amount charged, at a fee of at most `COIN`, is between zero
and the amount charged. -/
theorem MultiplyAmounts_fee_bounds (subInToken fee : CAmount) (hs : 0 ≤ subInToken)
    (h0 : 0 ≤ fee) (h1 : fee ≤ COIN) :
    0 ≤ MultiplyAmounts subInToken fee ∧ MultiplyAmounts subInToken fee ≤ subInToken := by
  have hcoin := COIN_pos
  constructor
  · exact (le_MultiplyAmounts_iff 0 subInToken fee).mpr (by
      rw [zero_mul]
      exact mul_nonneg hs h0)
  · have h2 := (MultiplyAmounts_floor subInToken fee).1
    have h3 : subInToken * fee ≤ subInToken * COIN := mul_le_mul_of_nonneg_left h1 hs
    exact le_of_mul_le_mul_right (le_trans h2 h3) hcoin

/-- C38. The penalty of a cross-token payback. `VerifyPct` accepts amounts between 0 and
`COIN` only, and the fee taken when none is configured (0, or 1% for the base token) lies in
that range. For every payback entry in another token than the loan token that succeeds (its
sender or the burn address being a non-empty script), the economy record written to the
attribute set carries the penalty `MultiplyAmounts subInToken fee`, where `fee` is the fee
percentage configured for the pair (`COIN - penaltyPct`) and `subInToken` the payback-token
amount whose transfer to the burn address succeeded; `subInToken` is non-negative, and when
the fee lies between 0 and `COIN` the penalty is non-negative and at most `subInToken`; at
the fee 0 the penalty is 0. -/
theorem payback_penalty_bounds (env : Env) (obj : CLoanPaybackLoanV2Message)
    (vault : CVaultData) (loanTokenId : DCT_ID) (loanToken : CLoanSetLoanToken)
    (outstanding : CAmount)
    (hprice : ∀ (w : View) (pair : CTokenCurrencyPair) (next live : Bool) (r : Res),
      env.GetValidatedIntervalPrice w pair next live = .error r → r.ok = false)
    (st : CLoansConsensus.PaybackState) (kv : DCT_ID × CAmount)
    (hne : kv.1 ≠ loanTokenId) (hparty : obj.from_ ≠ [] ∨ env.burnAddress ≠ [])
    (hok : (CLoansConsensus.paybackEntry env obj vault loanTokenId loanToken outstanding st
      kv).1.ok = true) :
    (∀ (ParseFixedPoint : String → Nat → Option CAmount) (str : String) (val : CAttributeValue),
      VerifyPct ParseFixedPoint str = .ok val →
      ∃ a : CAmount, val = .amount a ∧ 0 ≤ a ∧ a ≤ COIN) ∧
    ∃ (attributes : ATTRIBUTES) (fee subAmount subInToken : CAmount) (w : View),
      st.attributes = some attributes ∧
      fee = (if kv.1 ≠ 0 then
          attributes.GetValueAmount
            ⟨.Token, .id loanTokenId, .token .LoanPaybackFeePCT, kv.1⟩ 0
        else
          attributes.GetValueAmount
            ⟨.Token, .id loanTokenId, .token .PaybackDFIFeePCT, 0⟩ (Int.tdiv COIN 100)) ∧
      ((kv.1 ≠ 0 →
          mapFind ⟨.Token, .id loanTokenId, .token .LoanPaybackFeePCT, kv.1⟩ attributes = none) →
        (kv.1 = 0 →
          mapFind ⟨.Token, .id loanTokenId, .token .PaybackDFIFeePCT, 0⟩ attributes = none) →
        0 ≤ fee ∧ fee ≤ COIN) ∧
      (CLoansConsensus.paybackEntry env obj vault loanTokenId loanToken outstanding st
          kv).2.attributes =
        some (CLoansConsensus.recordPayback attributes loanTokenId kv.1 subAmount
          (MultiplyAmounts subInToken fee)) ∧
      (TransferTokenBalance w kv.1 subInToken obj.from_ env.burnAddress).1.ok = true ∧
      0 ≤ subInToken ∧
      (0 ≤ fee → fee ≤ COIN →
        0 ≤ MultiplyAmounts subInToken fee ∧ MultiplyAmounts subInToken fee ≤ subInToken) ∧
      (fee = 0 → MultiplyAmounts subInToken fee = 0) := by
  refine ⟨VerifyPct_ok, ?_⟩
  obtain ⟨paybackToken, c, rate, w, hconv, -, hattr, htransfer⟩ :=
    paybackEntry_cross_ok env obj vault loanTokenId loanToken outstanding hprice st kv hne hok
  obtain ⟨attributes, price, hsome, -, -, hpen, -⟩ :=
    convertPayback_ok env obj st loanTokenId loanToken paybackToken kv c hconv
  have hfee : COIN - c.penaltyPct = (if kv.1 ≠ 0 then
          attributes.GetValueAmount
            ⟨.Token, .id loanTokenId, .token .LoanPaybackFeePCT, kv.1⟩ 0
        else
          attributes.GetValueAmount
            ⟨.Token, .id loanTokenId, .token .PaybackDFIFeePCT, 0⟩ (Int.tdiv COIN 100)) := by
    rw [hpen]
    by_cases hk : kv.1 ≠ 0
    · rw [if_pos hk, if_pos hk]
      exact sub_sub_cancel _ _
    · rw [if_neg hk, if_neg hk]
      exact sub_sub_cancel _ _
  generalize (CLoansConsensus.paybackSplit c.paybackAmount (env.TotalInterest rate env.height)
      outstanding).2 +
    (CLoansConsensus.paybackSplit c.paybackAmount (env.TotalInterest rate env.height)
      outstanding).1 = subAmount at hattr htransfer
  generalize CLoansConsensus.computeSubInToken loanToken c subAmount kv.2 = subInToken
    at hattr htransfer
  have hnn := TransferTokenBalance_ok_nonneg w kv.1 subInToken obj.from_ env.burnAddress hparty
    htransfer
  refine ⟨attributes, COIN - c.penaltyPct, subAmount, subInToken, w, hsome, hfee, ?_, ?_,
    htransfer, hnn,
    fun h0 h1 => MultiplyAmounts_fee_bounds _ _ hnn h0 h1, fun h0 => ?_⟩
  · intro hnone1 hnone2
    rw [hfee]
    by_cases hk : kv.1 ≠ 0
    · rw [if_pos hk]
      unfold ATTRIBUTES.GetValueAmount
      rw [hnone1 hk]
      exact ⟨le_refl _, le_of_lt COIN_pos⟩
    · rw [if_neg hk]
      unfold ATTRIBUTES.GetValueAmount
      rw [hnone2 (not_not.mp hk)]
      exact ⟨by decide, by decide⟩
  · rw [hattr, hsome]
    rfl
  · rw [h0]
    unfold MultiplyAmounts
    rw [mul_zero, Int.zero_ediv]

theorem unevenPriceEnv_prices (w : View) (pair : CTokenCurrencyPair) (next live : Bool)
    (r : Res) (h : unevenPriceEnv.GetValidatedIntervalPrice w pair next live = .error r) :
    r.ok = false := by
  have hdef : unevenPriceEnv.GetValidatedIntervalPrice w pair next live =
      (if pair.1 = "ALT" then .ok 50000000
        else if pair.1 = "LOAN" then .ok 150000000
        else .ok COIN) := rfl
  rw [hdef] at h
  split at h
  · exact Except.noConfusion h
  · split at h
    · exact Except.noConfusion h
    · exact Except.noConfusion h

/-- C38, at a concrete input: with a fee of 5% configured, the payback of the loan of
1.00000001 units of the token 2 with 200 units of the token 3 succeeds, charges 3.15789476
units of the token 3 and records the penalty 0.15789473, which lies between 0 and the amount
charged. -/
theorem payback_penalty_bounds_witness :
    ((CLoansConsensus.paybackEntry unevenPriceEnv ⟨77, [1], [(2, [(3, 20000000000)])]⟩
        ⟨[1], "A", false⟩ 2 ⟨"LOAN", "loan", ("LOAN", "USD"), true, 0⟩ 100000001
        ⟨dustLoanView, some paybackWithFee, false⟩ (3, 20000000000)).2.attributes.map
      (fun a => a.GetValueTokenPayback ⟨.Live, .param .Economy, .economy .PaybackTokens, 0⟩
        ⟨[], []⟩)) = some ⟨[(3, 15789473)], [(2, 100000001)]⟩ ∧
    ((CLoansConsensus.paybackEntry unevenPriceEnv ⟨77, [1], [(2, [(3, 20000000000)])]⟩
        ⟨[1], "A", false⟩ 2 ⟨"LOAN", "loan", ("LOAN", "USD"), true, 0⟩ 100000001
        ⟨dustLoanView, some paybackWithFee, false⟩ (3, 20000000000)).2.view.GetBalance
      [255] 3).nValue = 315789476 ∧
    MultiplyAmounts 315789476 5000000 = 15789473 ∧
    ∃ (fee subInToken : CAmount), 0 ≤ subInToken ∧
      (0 ≤ fee → fee ≤ COIN →
        0 ≤ MultiplyAmounts subInToken fee ∧ MultiplyAmounts subInToken fee ≤ subInToken) := by
  refine ⟨by decide, by decide, by decide, ?_⟩
  obtain ⟨-, -, fee, -, subInToken, -, -, -, -, -, -, hnn, hb, -⟩ :=
    payback_penalty_bounds unevenPriceEnv ⟨77, [1], [(2, [(3, 20000000000)])]⟩
      ⟨[1], "A", false⟩ 2 ⟨"LOAN", "loan", ("LOAN", "USD"), true, 0⟩ 100000001
      unevenPriceEnv_prices
      ⟨dustLoanView, some paybackWithFee, false⟩ (3, 20000000000) (by decide)
      (Or.inl (by decide)) (by decide)
  exact ⟨fee, subInToken, hnn, hb⟩

/-! ## Result propagation -/

/-- The failing `Res` of a checked value that converts to `false`. -/
theorem ResOrErr_ok_false {α : Type} (c : Checked α) (h : c.toBool = false) :
    (ResOrErr c).ok = false := by
  cases c with
  | res r => exact h
  | resVal r val => exact h
  | flag b => rfl
  | optional o => rfl

/-- A `Res` that `StrToRes` builds from a message, with or without a code, is a failure with
that code. -/
theorem StrToRes_ok (args : VerifyArgs) (tmp : Res) (h : StrToRes args = .ok tmp) :
    (args = .none ∧ tmp = Res.Ok) ∨
    (∃ err fargs msg, args = .message err fargs ∧ tfm.format err fargs = .ok msg ∧
      tmp = Res.ErrMsg msg) ∨
    (∃ code err fargs msg, args = .coded code err fargs ∧ tfm.format err fargs = .ok msg ∧
      tmp = ⟨false, msg, code, ""⟩) := by
  cases args with
  | none =>
    cases h
    exact Or.inl ⟨rfl, rfl⟩
  | message err fargs =>
    have h' : (tfm.format err fargs).map Res.ErrMsg = .ok tmp := h
    cases hf : tfm.format err fargs with
    | error e =>
      rw [hf] at h'
      exact Except.noConfusion h'
    | ok msg =>
      rw [hf] at h'
      cases h'
      exact Or.inr (Or.inl ⟨err, fargs, msg, rfl, hf, rfl⟩)
  | coded code err fargs =>
    have h' : (tfm.format err fargs).map (fun msg => (⟨false, msg, code, ""⟩ : Res))
        = .ok tmp := h
    cases hf : tfm.format err fargs with
    | error e =>
      rw [hf] at h'
      exact Except.noConfusion h'
    | ok msg =>
      rw [hf] at h'
      cases h'
      exact Or.inr (Or.inr ⟨code, err, fargs, msg, rfl, hf, rfl⟩)

/-- Result propagation of `verifyRes` / `verifyDecl` where the message is well formed, that
is, where `StrToRes` returns. When the checked value converts to `false`, the enclosing
function returns at once: the result is a failure, the state is the one left by the evaluation
of the checked value, and the rest of the function has no part in the result; the returned
`Res` is the checked value itself when no message argument is supplied and the value is a
`Res`, the failure with the formatted message and the code 0 when a message is supplied, and
with the supplied code when a code and a message are supplied. When the checked value converts
to `true`, the function continues with its rest, which `verifyDecl` hands the declared
value. -/
theorem verify_propagates_when_formatted {α σ : Type} (x : σ → Checked α × σ)
    (args : VerifyArgs) (rest : σ → Outcome σ) (restDecl : Checked α → σ → Outcome σ) (s : σ) :
    ((x s).1.toBool = false → ∀ tmp : Res, StrToRes args = .ok tmp →
      (∃ r : Res, verifyRes x args rest s = .returned r (x s).2 ∧ r.ok = false ∧
        (args = .none → ∀ r₀ : Res, (x s).1 = .res r₀ → r = r₀) ∧
        (∀ err fargs, args = .message err fargs →
          ∃ msg, tfm.format err fargs = .ok msg ∧ r = Res.ErrMsg msg ∧ r.code = 0) ∧
        (∀ code err fargs, args = .coded code err fargs →
          ∃ msg, tfm.format err fargs = .ok msg ∧ r = ⟨false, msg, code, ""⟩)) ∧
      (∀ rest₂ : σ → Outcome σ, verifyRes x args rest₂ s = verifyRes x args rest s) ∧
      verifyDecl x args restDecl s = verifyRes x args rest s) ∧
    ((x s).1.toBool = true →
      verifyRes x args rest s = rest (x s).2 ∧
      verifyDecl x args restDecl s = restDecl (x s).1 (x s).2) := by
  constructor
  · intro hx tmp htmp
    have hres : ∀ rest₂ : σ → Outcome σ, verifyRes x args rest₂ s =
        .returned (if tmp.ok then ResOrErr (x s).1 else tmp) (x s).2 := by
      intro rest₂
      unfold verifyRes
      dsimp only
      rw [if_pos (by simp [hx]), htmp]
    have hdecl : verifyDecl x args restDecl s =
        .returned (if tmp.ok then ResOrErr (x s).1 else tmp) (x s).2 := by
      unfold verifyDecl
      dsimp only
      rw [if_pos (by simp [hx]), htmp]
    refine ⟨⟨_, hres rest, ?_, ?_, ?_, ?_⟩, fun rest₂ => (hres rest₂).trans (hres rest).symm,
      hdecl.trans (hres rest).symm⟩
    · rcases StrToRes_ok args tmp htmp with ⟨-, ht⟩ | ⟨_, _, _, -, -, ht⟩ | ⟨_, _, _, _, -, -, ht⟩
      · rw [ht, if_pos (show Res.Ok.ok = true from rfl)]
        exact ResOrErr_ok_false _ hx
      · rw [ht, if_neg (fun h => Bool.noConfusion h)]
        rfl
      · rw [ht, if_neg (fun h => Bool.noConfusion h)]
    · intro ha r₀ hv
      rw [ha] at htmp
      cases htmp
      rw [if_pos (show Res.Ok.ok = true from rfl), hv]
      rfl
    · intro err fargs ha
      rcases StrToRes_ok args tmp htmp with ⟨h, -⟩ | ⟨e, f, msg, h, hf, ht⟩ | ⟨_, _, _, _, h, -, -⟩
      · rw [ha] at h
        exact VerifyArgs.noConfusion h
      · rw [ha] at h
        cases h
        refine ⟨msg, hf, ?_, ?_⟩
        · rw [ht, if_neg (fun h => Bool.noConfusion h)]
        · rw [ht, if_neg (fun h => Bool.noConfusion h)]
          rfl
      · rw [ha] at h
        exact VerifyArgs.noConfusion h
    · intro code err fargs ha
      rcases StrToRes_ok args tmp htmp with ⟨h, -⟩ | ⟨_, _, _, h, -, -⟩ | ⟨c, e, f, msg, h, hf, ht⟩
      · rw [ha] at h
        exact VerifyArgs.noConfusion h
      · rw [ha] at h
        exact VerifyArgs.noConfusion h
      · rw [ha] at h
        cases h
        refine ⟨msg, hf, ?_⟩
        rw [ht, if_neg (fun h => Bool.noConfusion h)]
  · intro hx
    constructor
    · unfold verifyRes
      dsimp only
      rw [if_neg (by simp [hx])]
    · unfold verifyDecl
      dsimp only
      rw [if_neg (by simp [hx])]

/-- C30. Result propagation of `verifyRes` / `verifyDecl`, at the use where it does not hold.
The check of the debit in deposit-to-vault (`vaults.cpp` 127) supplies the format string
`Insufficient funds: can't subtract balance of %s: %s\n` with a single argument: whatever the
argument, `tfm::format` throws `tinyformat::format_error` on it, so that `StrToRes` throws, and
`verifyRes` on a checked value that converts to `false` ends in the exception, not in a `Res`.
A deposit of 2000 units by an owner who holds 1000 passes every earlier check of the handler,
fails the debit and ends in that exception. With as many arguments as conversion
specifications the same macro returns the failure with the formatted message. -/
theorem failed_debit_check_throws :
    (∀ a : String,
      tfm.format "Insufficient funds: can't subtract balance of %s: %s\n" [a] =
        .error ⟨"tinyformat: Too many conversion specifiers in format string"⟩) ∧
    (∀ a : String,
      StrToRes (.message "Insufficient funds: can't subtract balance of %s: %s\n" [a]) =
        .error ⟨"tinyformat: Too many conversion specifiers in format string"⟩) ∧
    (∀ (a : String) (r : Res) (rest : Nat → Outcome Nat),
      verifyRes (fun n : Nat => ((Checked.res ⟨false, r.msg, r.code, r.dbgMsg⟩ : Checked Nat),
          n + 1))
        (.message "Insufficient funds: can't subtract balance of %s: %s\n" [a]) rest 0 =
        .thrown ⟨"tinyformat: Too many conversion specifiers in format string"⟩ 1) ∧
    (scenarioAfterVault.GetBalance [1] 1).nValue = 100000000000 ∧
    CVaultsConsensus.onDepositToVaultMessage scenarioEnv scenarioAfterVault
        ⟨77, [1], ⟨1, 200000000000⟩⟩ =
      .thrown ⟨"tinyformat: Too many conversion specifiers in format string"⟩
        scenarioAfterVault ∧
    (CVaultsConsensus.onDepositToVaultMessage scenarioEnv scenarioAfterVault
        ⟨77, [1], ⟨1, 100000000000⟩⟩).succeeded = true ∧
    verifyRes (fun n : Nat => ((Checked.optional none : Checked Nat), n + 1))
        (.message "Vault <%s> not found" ["4d"]) (fun n => .returned Res.Ok (n + 10)) 0 =
      .returned (Res.ErrMsg "Vault <4d> not found") 1 := by
  refine ⟨fun _ => rfl, fun _ => rfl, fun _ _ _ => rfl, by decide, by decide, by decide,
    by decide⟩

end Ain
